import Mathlib

/-! Tile-pyramid profile and terrain geometry pool of rocky
(`src/rocky/Profile.cpp`, `src/rocky/vsg/terrain/GeometryPool.cpp`)

A shallow embedding of the `Profile` class (the quad-tree tiling of a bounded
region, its tile counts, tile dimensions and extents, the two equivalence
tests, the descriptor round trip and the level matching) and of the
`GeometryPool` class (the cache key, the index and vertex arrays of a tile
mesh, the pooled lookup and the sweep).

Conventions of the embedding.

* `double` and `float` values are rationals (exact arithmetic); `DBL_MAX` is
  the rational value of the largest finite double.
* `unsigned` values are naturals, and every operation that can wrap is reduced
  modulo `2^32` explicitly.
* A `Profile` shares an immutable payload through a `std::shared_ptr`; the
  embedding keeps the payload together with the address of the allocation, so
  that the pointer comparison of `equivalentTo` can be written down.
* The reference-system class, the units conversion, the fuzzy comparison and
  the string hash are not part of the sources at hand. They are collected in
  the record `Env` (and `MeshEnv` for the pool) and every function takes them
  as a parameter. The methods of `GeoExtent` that the extent functions of
  `Profile` call are collected in `ExtentEnv` in the same way.
* Concurrent calls of `getPooledGeometry` are threads stepping through its
  critical sections under an arbitrary schedule (`GeometryPool.step`,
  `GeometryPool.run`).
* Loops without a bound in the code (`levelOfDetail`, `equivalentLOD`,
  `levelOfDetailForHorizResolution`) take a bound on the number of iterations
  and return `none` when it runs out; their theorems give a bound that
  suffices.
* `Vec3`, `Sphere` and `expandSphereToInclude` are written over any ordered
  field with a square root, so that the bounding sphere can be studied over
  the real numbers.
-/

namespace Rocky

/-! ## Scalars -/

/-- The largest finite `double`, `(2 - 2^-52) * 2^1023`. -/
def DBL_MAX : ℚ := 2 ^ 1024 - 2 ^ 971

/-- The C++ conversion `(int)x` of a `double`: truncation toward zero. (The
conversion is only defined when the truncated value fits an `int`.) -/
def doubleToInt (x : ℚ) : Int :=
  if 0 ≤ x then Int.floor x else Int.ceil x

/-- The conversion of an `int` to `unsigned`: reduction modulo `2^32`. -/
def toUnsigned (i : Int) : Nat :=
  (i % 2 ^ 32).toNat

/-! ## Strings -/

/-- The helper `util::ciEquals`: equality of two strings up to ASCII case. -/
def ciEquals (a b : String) : Bool :=
  a.data.map Char.toLower == b.data.map Char.toLower

/-- Does `pat` match the front of the text? -/
def matchesFront : List Char → List Char → Bool
  | [], _ => true
  | _ :: _, [] => false
  | p :: ps, c :: cs => p == c && matchesFront ps cs

/-- Does `pat` occur somewhere in the text? This is
`text.find(pat) != std::string::npos`. -/
def containsSub (pat : List Char) : List Char → Bool
  | [] => pat.isEmpty
  | c :: cs => matchesFront pat (c :: cs) || containsSub pat cs

/-! ## Reference systems, boxes and extents -/

/-- A spatial reference system, identified by the definition string it was
constructed from (`SRS(name)`); a default-constructed one has the empty
definition. What the definition means is decided by `Env`. -/
structure SRS where
  definition : String
deriving DecidableEq, Repr

instance : Inhabited SRS := ⟨⟨""⟩⟩

namespace SRS

/-- The constant `SRS::WGS84`. -/
def WGS84 : SRS := ⟨"wgs84"⟩

/-- The constant `SRS::SPHERICAL_MERCATOR`. -/
def SPHERICAL_MERCATOR : SRS := ⟨"spherical-mercator"⟩

/-- The constant `SRS::PLATE_CARREE`. -/
def PLATE_CARREE : SRS := ⟨"plate-carree"⟩

end SRS

/-- Modelled from the spec: the declaration of `Box` (Math.h) is not among the
sources. A world-space bounding box; `Profile` only uses its horizontal
footprint, built with `Box(xmin, ymin, xmax, ymax)`. -/
structure Box where
  xmin : ℚ
  ymin : ℚ
  xmax : ℚ
  ymax : ℚ
deriving DecidableEq

namespace Box

/-- The accessor `Box::width()`. -/
def width (b : Box) : ℚ := b.xmax - b.xmin

/-- The accessor `Box::height()`. -/
def height (b : Box) : ℚ := b.ymax - b.ymin

/-- The test `Box::valid()`: the box is not inverted. -/
def valid (b : Box) : Bool :=
  decide (b.xmin ≤ b.xmax) && decide (b.ymin ≤ b.ymax)

end Box

/-- Modelled from the spec: the declaration of `GeoExtent` is not among the
sources. A bounding box tagged with the reference system it is expressed in;
`GeoExtent(srs, xmin, ymin, xmax, ymax)` is the record constructor. -/
structure GeoExtent where
  srs : SRS
  xmin : ℚ
  ymin : ℚ
  xmax : ℚ
  ymax : ℚ
deriving DecidableEq

namespace GeoExtent

/-- The default-constructed extent, also `GeoExtent::INVALID`: no reference
system and a negative size. -/
def INVALID : GeoExtent := ⟨default, 0, 0, -1, -1⟩

/-- The constructor `GeoExtent(srs, box)`. -/
def ofBox (srs : SRS) (b : Box) : GeoExtent :=
  ⟨srs, b.xmin, b.ymin, b.xmax, b.ymax⟩

/-- The accessor `GeoExtent::width()`. -/
def width (e : GeoExtent) : ℚ := e.xmax - e.xmin

/-- The accessor `GeoExtent::height()`. -/
def height (e : GeoExtent) : ℚ := e.ymax - e.ymin

/-- The accessor `GeoExtent::bounds()`. -/
def bounds (e : GeoExtent) : Box := ⟨e.xmin, e.ymin, e.xmax, e.ymax⟩

end GeoExtent

instance : Inhabited GeoExtent := ⟨GeoExtent.INVALID⟩

/-! ## The descriptor -/

/-- The JSON values `to_json` produces and `from_json` tells apart: `null`, a
string, an object with the optional members `extent`, `tx` and `ty`, and any
other value. -/
inductive Json where
  | null
  | str (s : String)
  | obj (extent : Option GeoExtent) (tx ty : Option Nat)
  | other
deriving DecidableEq

/-! ## The collaborators -/

/-- Everything `Profile.cpp` calls that is defined elsewhere. -/
structure Env where
  /-- The test `SRS::valid()`. -/
  srsValid : SRS → Bool
  /-- The test `SRS::isGeodetic()`. -/
  srsIsGeodetic : SRS → Bool
  /-- The natural bounds `SRS::bounds()`. -/
  srsBounds : SRS → Box
  /-- The geodetic system underlying a system, `SRS::geodeticSRS()`. -/
  srsGeodeticSRS : SRS → SRS
  /-- The test `SRS::equivalentTo`. -/
  srsEquivalentTo : SRS → SRS → Bool
  /-- The test `SRS::horizontallyEquivalentTo`. -/
  srsHorizontallyEquivalentTo : SRS → SRS → Bool
  /-- The point transform `from.to(to).transform(p, out)`; `none` when it
  fails. -/
  transformPoint : SRS → SRS → ℚ × ℚ × ℚ → Option (ℚ × ℚ × ℚ)
  /-- The extent transform `GeoExtent::transform(srs)`. -/
  transformExtent : GeoExtent → SRS → GeoExtent
  /-- The conversion `SRS::transformUnits(value, from, to, Angle())`. -/
  transformUnits : ℚ → SRS → SRS → ℚ
  /-- The fuzzy comparison `equiv(a, b)` of Math.h. -/
  equiv : ℚ → ℚ → Bool
  /-- The hash `std::hash<std::string>` of a dumped descriptor. -/
  hashString : Json → Nat
  /-- The value the platform yields for `1u << n` when `n ≥ 32`, which C++
  leaves undefined. -/
  shiftOutOfRange : Nat → Nat
  /-- The address of the payload of the function-local static
  `SPHERICAL_MERCATOR` of `equivalentLOD`. -/
  addrSphericalMercator : Nat
  /-- The address of the payload of the function-local static
  `GLOBAL_GEODETIC` of `equivalentLOD`. -/
  addrGlobalGeodetic : Nat

/-- The expression `1u << lod` on a 32-bit `unsigned`. -/
def shl1 (env : Env) (lod : Nat) : Nat :=
  if lod < 32 then 2 ^ lod else env.shiftOutOfRange lod % 2 ^ 32

/-- The test `GeoExtent::valid()`: a valid reference system and a size that
is not negative. -/
def GeoExtent.valid (env : Env) (e : GeoExtent) : Bool :=
  env.srsValid e.srs && decide (0 ≤ e.width) && decide (0 ≤ e.height)

/-! ## Profile -/

/-- The shared payload `Profile::Data`. -/
structure Data where
  wellKnownName : String
  extent : GeoExtent
  geodeticExtent : GeoExtent
  numTilesBaseX : Nat
  numTilesBaseY : Nat
  hash : Nat
deriving DecidableEq

/-- A value-initialised payload, as made by `std::make_shared<Data>()`. -/
def Data.empty : Data :=
  { wellKnownName := ""
    extent := GeoExtent.INVALID
    geodeticExtent := GeoExtent.INVALID
    numTilesBaseX := 0
    numTilesBaseY := 0
    hash := 0 }

/-- A profile: the shared pointer `_shared`, as the address of the payload
and the payload found there. -/
structure Profile where
  addr : Nat
  shared : Data
deriving DecidableEq

namespace Profile

/-- The test `Profile::valid()`; `_shared` is never null. -/
def valid (env : Env) (p : Profile) : Bool :=
  p.shared.extent.valid env

/-- The accessor `Profile::srs()`. -/
def srs (p : Profile) : SRS := p.shared.extent.srs

/-- The accessor `Profile::extent()`. -/
def extent (p : Profile) : GeoExtent := p.shared.extent

/-- The accessor `Profile::geographicExtent()`. -/
def geographicExtent (p : Profile) : GeoExtent := p.shared.geodeticExtent

/-- The accessor `Profile::wellKnownName()`. -/
def wellKnownName (p : Profile) : String := p.shared.wellKnownName

/-- The method `Profile::numTiles(lod)`. -/
def numTiles (env : Env) (p : Profile) (lod : Nat) : Nat × Nat :=
  let factor := shl1 env lod
  ((p.shared.numTilesBaseX * factor) % 2 ^ 32, (p.shared.numTilesBaseY * factor) % 2 ^ 32)

/-- The method `Profile::tileDimensions(lod)`. -/
def tileDimensions (env : Env) (p : Profile) (lod : Nat) : ℚ × ℚ :=
  let out_width := p.shared.extent.width / (p.shared.numTilesBaseX : ℚ)
  let out_height := p.shared.extent.height / (p.shared.numTilesBaseY : ℚ)
  let factor : ℚ := (shl1 env lod : ℚ)
  (out_width / factor, out_height / factor)

/-- The method `Profile::tileExtent(lod, tileX, tileY)`. -/
def tileExtent (env : Env) (p : Profile) (lod tileX tileY : Nat) : GeoExtent :=
  let wh := tileDimensions env p lod
  let xmin := p.extent.xmin + wh.1 * (tileX : ℚ)
  let ymax := p.extent.ymax - wh.2 * (tileY : ℚ)
  let xmax := xmin + wh.1
  let ymin := ymax - wh.2
  ⟨p.srs, xmin, ymin, xmax, ymax⟩

/-- The free function `to_json(json&, const Profile&)`. -/
def to_json (env : Env) (obj : Profile) : Json :=
  if obj.valid env then
    if obj.wellKnownName ≠ "" then
      Json.str obj.wellKnownName
    else
      let t := obj.numTiles env 0
      Json.obj (some obj.extent) (some t.1) (some t.2)
  else Json.null

/-- The method `Profile::setup(srs, bounds, width0, height0)`, acting on the
payload of `self`. -/
def setup (env : Env) (self : Profile) (srs : SRS) (bounds : Box)
    (width0 height0 : Nat) : Profile :=
  if env.srsValid srs then
    let b := if bounds.valid then bounds else env.srsBounds srs
    let t : Nat × Nat :=
      if width0 = 0 ∨ height0 = 0 then
        if b.valid then
          let ar := b.width / b.height
          if 1 ≤ ar then (toUnsigned (doubleToInt ar), 1)
          else (1, toUnsigned (doubleToInt (1 / ar)))
        else (1, 1)
      else (width0, height0)
    let extent := GeoExtent.ofBox srs b
    let geodeticExtent :=
      if env.srsIsGeodetic srs then extent
      else env.transformExtent extent (env.srsGeodeticSRS srs)
    let s : Profile :=
      { self with
        shared :=
          { self.shared with
            extent := extent
            numTilesBaseX := t.1
            numTilesBaseY := t.2
            geodeticExtent := geodeticExtent } }
    { s with shared := { s.shared with hash := env.hashString (to_json env s) } }
  else self

/-- The default constructor `Profile()`: an invalid profile, allocated at
`addr`. -/
def new (addr : Nat) : Profile := ⟨addr, Data.empty⟩

/-- The constructor `Profile(srs, bounds, x_tiles_at_lod0, y_tiles_at_lod0)`,
its payload allocated at `addr`. -/
def fromSRS (env : Env) (addr : Nat) (srs : SRS) (bounds : Box)
    (x_tiles_at_lod0 y_tiles_at_lod0 : Nat) : Profile :=
  setup env (new addr) srs bounds x_tiles_at_lod0 y_tiles_at_lod0

/-- Store the well-known name in the payload. -/
def setName (self : Profile) (name : String) : Profile :=
  { self with shared := { self.shared with wellKnownName := name } }

/-- The method `Profile::setup(name)`. -/
def setupName (env : Env) (self : Profile) (name : String) : Profile :=
  if ciEquals name "plate-carree" || ciEquals name "plate-carre" ||
      ciEquals name "eqc-wgs84" then
    let ex := (env.transformPoint SRS.WGS84 SRS.PLATE_CARREE (180, 90, 0)).getD (0, 0, 0)
    setup env (setName self name) SRS.PLATE_CARREE ⟨-ex.1, -ex.2.1, ex.1, ex.2.1⟩ 2 1
  else if ciEquals name "global-geodetic" then
    setup env (setName self name) SRS.WGS84 ⟨-180, -90, 180, 90⟩ 2 1
  else if ciEquals name "spherical-mercator" then
    setup env (setName self name) SRS.SPHERICAL_MERCATOR
      ⟨-2003750834278925 / 100000000, -2003750834278925 / 100000000,
        2003750834278925 / 100000000, 2003750834278925 / 100000000⟩ 1 1
  else if ciEquals name "moon" then
    setup env (setName self name) ⟨"moon"⟩ ⟨-180, -90, 180, 90⟩ 2 1
  else if containsSub "+proj=longlat".data name.data then
    setup env self ⟨name⟩ ⟨-180, -90, 180, 90⟩ 2 1
  else self

/-- The constructor `Profile(wellKnownName)`, its payload allocated at
`addr`. -/
def fromName (env : Env) (addr : Nat) (wellKnownName : String) : Profile :=
  setupName env (new addr) wellKnownName

/-- The method `Profile::equivalentTo(rhs)`. -/
def equivalentTo (env : Env) (self rhs : Profile) : Bool :=
  if !self.valid env || !rhs.valid env then false
  else if self.addr = rhs.addr then true
  else if self.shared.wellKnownName ≠ "" ∧
      self.shared.wellKnownName = rhs.shared.wellKnownName then true
  else if self.shared.numTilesBaseY ≠ rhs.shared.numTilesBaseY then false
  else if self.shared.numTilesBaseX ≠ rhs.shared.numTilesBaseX then false
  else if self.shared.extent ≠ rhs.shared.extent then false
  else env.srsEquivalentTo self.shared.extent.srs rhs.shared.extent.srs

/-- The method `Profile::horizontallyEquivalentTo(rhs)`. -/
def horizontallyEquivalentTo (env : Env) (self rhs : Profile) : Bool :=
  if equivalentTo env self rhs then true
  else if !self.valid env || !rhs.valid env then false
  else env.srsHorizontallyEquivalentTo self.shared.extent.srs rhs.shared.extent.srs

/-- The free function `from_json(const json&, Profile&)`; a profile it
constructs has its payload allocated at `addr`. -/
def from_json (env : Env) (addr : Nat) (j : Json) (obj : Profile) : Profile :=
  match j with
  | Json.str s => fromName env addr s
  | Json.obj e tx ty =>
    let extent := e.getD GeoExtent.INVALID
    let tx := tx.getD 0
    let ty := ty.getD 0
    if extent.valid env then fromSRS env addr extent.srs extent.bounds tx ty
    else obj
  | _ => new addr

/-- The search loop shared by `equivalentLOD` and `levelOfDetail`, started
with `currLOD`, `destLOD` and `delta`; `none` when the fuel runs out before
the loop breaks. -/
def lodSearch (env : Env) (p : Profile) (target : ℚ) : Nat → Nat → Nat → ℚ → Option Nat
  | 0, _, _, _ => none
  | fuel + 1, currLOD, destLOD, delta =>
    let prevDelta := delta
    let wh := tileDimensions env p currLOD
    let delta := |wh.2 - target|
    if delta < prevDelta then lodSearch env p target fuel (currLOD + 1) currLOD delta
    else some destLOD

/-- The method `Profile::levelOfDetail(height)`. -/
def levelOfDetail (env : Env) (fuel : Nat) (p : Profile) (height : ℚ) : Option Nat :=
  lodSearch env p height fuel 0 0 DBL_MAX

/-- The method `Profile::equivalentLOD(rhsProfile, rhsLOD)`. -/
def equivalentLOD (env : Env) (fuel : Nat) (self rhsProfile : Profile) (rhsLOD : Nat) :
    Option Nat :=
  if !rhsProfile.valid env then some rhsLOD
  else
    let SPHERICAL_MERCATOR := fromName env env.addrSphericalMercator "spherical-mercator"
    let GLOBAL_GEODETIC := fromName env env.addrGlobalGeodetic "global-geodetic"
    if horizontallyEquivalentTo env self rhsProfile then some rhsLOD
    else if horizontallyEquivalentTo env rhsProfile SPHERICAL_MERCATOR &&
        horizontallyEquivalentTo env self GLOBAL_GEODETIC then some rhsLOD
    else if horizontallyEquivalentTo env rhsProfile GLOBAL_GEODETIC &&
        horizontallyEquivalentTo env self SPHERICAL_MERCATOR then some rhsLOD
    else
      let rhs := tileDimensions env rhsProfile rhsLOD
      if env.equiv rhs.1 0 || env.equiv rhs.2 0 then some rhsLOD
      else
        let rhsTargetHeight := env.transformUnits rhs.2 rhsProfile.srs self.srs
        lodSearch env self rhsTargetHeight fuel 0 0 DBL_MAX

end Profile

/-! ## A reference instance of the collaborators -/

/-- A small instance of `Env` on which the definitions can be run: the four
named systems and every PROJ string are valid, the long/lat ones are geodetic,
two valid systems are equivalent when their definitions agree, and a shift by
`n ≥ 32` uses the low five bits of `n`, as on x86. -/
def refEnv : Env where
  srsValid s :=
    ["wgs84", "spherical-mercator", "plate-carree", "moon"].contains s.definition ||
      containsSub "+proj=".data s.definition.data
  srsIsGeodetic s :=
    ["wgs84", "moon"].contains s.definition ||
      containsSub "+proj=longlat".data s.definition.data
  srsBounds s :=
    if ["wgs84", "moon"].contains s.definition ||
        containsSub "+proj=longlat".data s.definition.data then ⟨-180, -90, 180, 90⟩
    else ⟨0, 0, -1, -1⟩
  srsGeodeticSRS s :=
    if ["wgs84", "moon"].contains s.definition ||
        containsSub "+proj=longlat".data s.definition.data then s
    else SRS.WGS84
  srsEquivalentTo a b :=
    (["wgs84", "spherical-mercator", "plate-carree", "moon"].contains a.definition ||
      containsSub "+proj=".data a.definition.data) && decide (a = b)
  srsHorizontallyEquivalentTo a b :=
    (["wgs84", "spherical-mercator", "plate-carree", "moon"].contains a.definition ||
      containsSub "+proj=".data a.definition.data) && decide (a = b)
  transformPoint a b p := if a = b then some p else none
  transformExtent e s := if e.srs = s then e else GeoExtent.INVALID
  transformUnits x _ _ := x
  equiv a b := decide (|a - b| ≤ 1 / 2 ^ 52)
  hashString _ := 0
  shiftOutOfRange n := 2 ^ (n % 32)
  addrSphericalMercator := 1
  addrGlobalGeodetic := 2

/-! ## Terrain geometry pool (`src/rocky/vsg/terrain/GeometryPool.cpp`)

The pool is embedded as a value that every operation takes and returns. A call
that runs into undefined behaviour (a write outside an array, the use of a
null pointer) yields a `Fault`. Arrays are lists; the 16-bit index array
stores every value modulo `2^16`. -/

/-- The undefined behaviour the embedding makes explicit. -/
inductive Fault where
  | outOfBounds
  | nullDereference
deriving DecidableEq, Repr

/-- A vector of three coordinates (`glm::dvec3`, `vsg::vec3`, `vsg::dvec3`)
over the scalars `K`. -/
structure Vec3 (K : Type) where
  x : K
  y : K
  z : K
deriving DecidableEq

namespace Vec3

variable {K : Type} [Field K]

/-- Componentwise sum. -/
def add (a b : Vec3 K) : Vec3 K := ⟨a.x + b.x, a.y + b.y, a.z + b.z⟩

/-- Componentwise difference. -/
def sub (a b : Vec3 K) : Vec3 K := ⟨a.x - b.x, a.y - b.y, a.z - b.z⟩

/-- Product with a scalar. -/
def scale (a : Vec3 K) (s : K) : Vec3 K := ⟨a.x * s, a.y * s, a.z * s⟩

/-- Dot product. -/
def dot (a b : Vec3 K) : K := a.x * b.x + a.y * b.y + a.z * b.z

/-- The function `length(v)`, given the square root. -/
def length (sqrt : K → K) (a : Vec3 K) : K := sqrt (dot a a)

/-- The function `glm::normalize(v)`, `v * inversesqrt(dot(v, v))`, given the
square root. -/
def normalize (sqrt : K → K) (a : Vec3 K) : Vec3 K := scale a (1 / sqrt (dot a a))

/-- The zero vector, the value of a freshly created array element. -/
def zero : Vec3 K := ⟨0, 0, 0⟩

end Vec3

/-- A bounding sphere `vsg::dsphere`. -/
structure Sphere (K : Type) where
  center : Vec3 K
  radius : K

/-- A default-constructed `vsg::dsphere`: centre at the origin and radius -1,
which marks the sphere as not yet valid. -/
def Sphere.empty : Sphere ℚ := ⟨Vec3.zero, -1⟩

/-- The function `expandSphereToInclude(sphere, p)`. -/
def expandSphereToInclude {K : Type} [LinearOrderedField K] (sqrt : K → K)
    (sphere : Sphere K) (p : Vec3 K) : Sphere K :=
  let dv := Vec3.sub p sphere.center
  let r := Vec3.length sqrt dv
  if sphere.radius < r then
    let dr := 1 / 2 * (r - sphere.radius)
    { center := Vec3.add sphere.center (Vec3.scale dv (dr / r))
      radius := sphere.radius + dr }
  else sphere

/-- What `GeometryPool.cpp` calls beyond the collaborators of `Profile.cpp`. -/
structure MeshEnv extends Env where
  /-- The geocentric system of a geodetic system, `SRS::geocentricSRS()`. -/
  srsGeocentricSRS : SRS → SRS
  /-- The matrix `glm::inverse(worldSRS.topocentricToWorldMatrix(c))` applied
  to a world point, where `c` is the centroid of the tile extent transformed
  to the world system. -/
  world2local : SRS → GeoExtent → Vec3 ℚ → Vec3 ℚ
  /-- The square root behind `length` and `glm::normalize`. -/
  sqrt : ℚ → ℚ
  /-- The marker `VERTEX_VISIBLE` of GeometryPool.h. -/
  VERTEX_VISIBLE : Int
  /-- The marker bit `VERTEX_SKIRT` of GeometryPool.h. -/
  VERTEX_SKIRT : Int

/-- The conversion of an `unsigned` to `int` (two's complement). -/
def toInt32 (n : Nat) : Int :=
  if n % 2 ^ 32 < 2 ^ 31 then ((n % 2 ^ 32 : Nat) : Int) else ((n % 2 ^ 32 : Nat) : Int) - 2 ^ 32

/-- The unsigned difference `a - b` on 32 bits. -/
def usub (a b : Nat) : Nat := (a % 2 ^ 32 + (2 ^ 32 - b % 2 ^ 32)) % 2 ^ 32

/-- The build settings `GeometryPool::Settings`. -/
structure Settings where
  tileSize : Nat
  skirtRatio : ℚ
  morphing : Bool
deriving DecidableEq

/-- Modelled from the spec: the declaration of `TileKey` is not among the
sources. The address (level, column, row, profile) of one tile. -/
structure TileKey where
  level : Nat
  x : Nat
  y : Nat
  profile : Profile
deriving DecidableEq

/-- Modelled from the spec: `TileKey::extent()` is not among the sources. The
extent of the tile, computed on demand from the profile. -/
def TileKey.extent (env : Env) (key : TileKey) : GeoExtent :=
  key.profile.tileExtent env key.level key.x key.y

/-- The cache key `GeometryKey`. -/
structure GeometryKey where
  lod : Nat
  tileY : Nat
  size : Nat
deriving DecidableEq, Repr

/-- A built mesh, `SharedGeometry`: the address of the object, the vertex
arrays, the optional neighbor arrays, the index array (a pointer that may be
null) and the index count of the draw command. -/
structure SharedGeometry where
  id : Nat
  verts : List (Vec3 ℚ)
  normals : List (Vec3 ℚ)
  uvs : List (Vec3 ℚ)
  neighbors : Option (List (Vec3 ℚ))
  neighborNormals : Option (List (Vec3 ℚ))
  indices : Option (List Nat)
  indexCount : Nat
deriving DecidableEq

/-- The pool `GeometryPool`: the world reference system, the two flags, the
shared default index buffer and the map from cache keys to meshes, kept as a
list of entries. -/
structure GeometryPool where
  worldSRS : SRS
  debug : Bool
  enabled : Bool
  defaultIndices : Option (List Nat)
  sharedGeometries : List (GeometryKey × SharedGeometry)

namespace GeometryPool

/-- The constructor `GeometryPool(profile)`; the two flags say whether the
environment variables `ROCKY_DEBUG_REX_GEOMETRY_POOL` and
`ROCKY_NO_GEOMETRY_POOL` are set. -/
def create (menv : MeshEnv) (profile : Profile) (debugVar noPoolVar : Bool) : GeometryPool :=
  { worldSRS :=
      if menv.srsIsGeodetic profile.srs then menv.srsGeocentricSRS profile.srs
      else profile.srs
    debug := debugVar
    enabled := !noPoolVar
    defaultIndices := none
    sharedGeometries := [] }

/-- The method `createKeyForTileKey(key, tileSize, out)`. -/
def createKeyForTileKey (env : Env) (key : TileKey) (tileSize : Nat) : GeometryKey :=
  { lod := key.level
    tileY := if env.srsIsGeodetic key.profile.srs then key.y else 0
    size := tileSize }

/-- The method `getNumSkirtElements(settings)`; the product is formed on 32
bits and returned as an `int`. -/
def getNumSkirtElements (settings : Settings) : Int :=
  if 0 < settings.skirtRatio then toInt32 ((usub settings.tileSize 1 * 4 * 6) % 2 ^ 32)
  else 0

/-- The function `getMorphNeighborIndexOffset(col, row, rowSize)`. -/
def getMorphNeighborIndexOffset (col row rowSize : Nat) : Nat :=
  if col % 2 = 1 ∧ row % 2 = 1 then rowSize + 2
  else if row % 2 = 1 then rowSize + 1
  else if col % 2 = 1 then 2
  else 1

/-- The writes `array->set(p++, v)` for the values `vs` in turn, on a 16-bit
array; a write at or past the end of the array is a fault. -/
def setFrom : List Nat → Nat → List Nat → Except Fault (List Nat × Nat)
  | a, p, [] => Except.ok (a, p)
  | a, p, v :: vs =>
    if p < a.length then setFrom (a.set p (v % 2 ^ 16)) (p + 1) vs
    else Except.error Fault.outOfBounds

/-- The values the surface loops of `createIndices` write, in order: two
triangles per grid cell, row `j` by row, cell `i` by cell. -/
def surfaceIndices (tileSize : Nat) : List Nat :=
  (List.range (tileSize - 1)).flatMap fun j =>
    (List.range (tileSize - 1)).flatMap fun i =>
      let i00 := j * tileSize + i
      let i01 := i00 + tileSize
      let i10 := i00 + 1
      let i11 := i01 + 1
      [i01, i00, i11, i00, i10, i11]

/-- The macro `addSkirtTriangles(P, INDEX0, INDEX1)`: the six values written. -/
def addSkirtTriangles (index0 index1 : Nat) : List Nat :=
  [index0, index0 + 1, index1, index1, index0 + 1, index1 + 1]

/-- The values the skirt block of `createIndices` writes, in order. The loop
`for (i = skirtBegin; i < skirtEnd - 3; i += 2)` makes
`(skirtEnd - 3 - skirtBegin + 1) / 2` rounds, round `k` with
`i = skirtBegin + 2 * k`; the closing call uses the value of `i` after the
loop. -/
def skirtIndices (skirtBegin skirtEnd : Nat) : List Nat :=
  let rounds := (skirtEnd - 3 - skirtBegin + 1) / 2
  ((List.range rounds).flatMap fun k =>
      addSkirtTriangles (skirtBegin + 2 * k) (skirtBegin + 2 * k + 2)) ++
    addSkirtTriangles (skirtBegin + 2 * rounds) skirtBegin

/-- The method `createIndices(settings)`. The values are kept as naturals up
to the write, which reduces them modulo `2^16`; this agrees with the `int`
and `unsigned` intermediate values of the code wherever those do not
overflow an `int`. -/
def createIndices (settings : Settings) : Except Fault (List Nat) :=
  let needsSkirt := decide (0 < settings.skirtRatio)
  let tileSize := max settings.tileSize 2
  let numVertsInSurface := (tileSize * tileSize) % 2 ^ 32
  let numVertsInSkirt := if needsSkirt then ((tileSize - 1) * 2 * 4) % 2 ^ 32 else 0
  let numIndicesInSurface := ((tileSize - 1) * (tileSize - 1) * 6) % 2 ^ 32
  let numIncidesInSkirt := toUnsigned (getNumSkirtElements settings)
  let numIndices := (numIndicesInSurface + numIncidesInSkirt) % 2 ^ 32
  let indices := List.replicate numIndices 0
  let written :=
    surfaceIndices tileSize ++
      (if needsSkirt then skirtIndices numVertsInSurface (numVertsInSurface + numVertsInSkirt)
      else [])
  (setFrom indices 0 written).map Prod.fst

end GeometryPool

namespace GeometryPool

/-- The call `map.emplace(key, value)`: the entry is added unless the key is
already present. -/
def emplace (m : List (GeometryKey × SharedGeometry)) (key : GeometryKey)
    (value : SharedGeometry) : List (GeometryKey × SharedGeometry) :=
  if (m.lookup key).isSome then m else m ++ [(key, value)]

/-- The method `clear()`. -/
def clear (pool : GeometryPool) : GeometryPool :=
  { pool with sharedGeometries := [] }

/-- The method `sweep(context)`: the pool after the sweep and the meshes
handed to `context->dispose`, in order. `referenceCount` gives the reference
count the loop reads for each mesh. -/
def sweep (referenceCount : SharedGeometry → Nat) (pool : GeometryPool) :
    GeometryPool × List SharedGeometry :=
  let r := pool.sharedGeometries.foldl
    (fun (acc : List (GeometryKey × SharedGeometry) × List SharedGeometry) entry =>
      if 1 < referenceCount entry.2 then (emplace acc.1 entry.1 entry.2, acc.2)
      else (acc.1, acc.2 ++ [entry.2]))
    ([], [])
  ({ pool with sharedGeometries := r.1 }, r.2)

end GeometryPool

namespace GeometryPool

/-- The write `array->set(i, v)`; a write at or past the end is a fault. -/
def arraySet {α : Type} (a : List α) (i : Nat) (v : α) : Except Fault (List α) :=
  if i < a.length then Except.ok (a.set i v) else Except.error Fault.outOfBounds

/-- The read `array->at(i)`; a read at or past the end is a fault. -/
def arrayAt (a : List (Vec3 ℚ)) (i : Nat) : Except Fault (Vec3 ℚ) :=
  if i < a.length then Except.ok (a.getD i Vec3.zero) else Except.error Fault.outOfBounds

/-- The helper `Locator`: the extent of the tile and the world reference
system its operation `tile_to_world` leads to. -/
structure Locator where
  tile_extent : GeoExtent
  worldSRS : SRS

/-- The method `Locator::unitToWorld(unit)`. When the transform fails the code
returns `world` as it was constructed, taken here to be the zero vector. -/
def Locator.unitToWorld (env : Env) (locator : Locator) (unit : Vec3 ℚ) : Vec3 ℚ :=
  let tile : Vec3 ℚ :=
    ⟨unit.x * locator.tile_extent.width + locator.tile_extent.xmin,
      unit.y * locator.tile_extent.height + locator.tile_extent.ymin,
      unit.z⟩
  let world :=
    (env.transformPoint locator.tile_extent.srs locator.worldSRS
      (tile.x, tile.y, tile.z)).getD (0, 0, 0)
  ⟨world.1, world.2.1, world.2.2⟩

/-- The arrays `createGeometry` fills, the two neighbor arrays being null
unless morphing is on, and the running bound of the tile. -/
structure Mesh where
  verts : List (Vec3 ℚ)
  normals : List (Vec3 ℚ)
  uvs : List (Vec3 ℚ)
  neighbors : Option (List (Vec3 ℚ))
  neighborNormals : Option (List (Vec3 ℚ))
  tileBound : Sphere ℚ

/-- The body of the vertex loops of `createGeometry` for one `row` and
`col`. -/
def surfaceVertex (menv : MeshEnv) (world2local : Vec3 ℚ → Vec3 ℚ) (locator : Locator)
    (tileSize row col : Nat) (m : Mesh) : Except Fault Mesh := do
  let ny : ℚ := (row : ℚ) / ((tileSize - 1 : Nat) : ℚ)
  let nx : ℚ := (col : ℚ) / ((tileSize - 1 : Nat) : ℚ)
  let i := (row * tileSize + col) % 2 ^ 32
  let unit : Vec3 ℚ := ⟨nx, ny, 0⟩
  let world := locator.unitToWorld menv.toEnv unit
  let loc := world2local world
  let verts ← arraySet m.verts i loc
  let tileBound := expandSphereToInclude menv.sqrt m.tileBound loc
  let marker : ℚ := (menv.VERTEX_VISIBLE : ℚ)
  let uvs ← arraySet m.uvs i ⟨nx, ny, marker⟩
  let world_plus_one := locator.unitToWorld menv.toEnv { unit with z := 1 }
  let normal := Vec3.normalize menv.sqrt (Vec3.sub (world2local world_plus_one) loc)
  let normals ← arraySet m.normals i normal
  let neighbors ←
    match m.neighbors with
    | none => Except.ok none
    | some nb =>
      if verts.length < getMorphNeighborIndexOffset col row tileSize then
        Except.error Fault.outOfBounds
      else do
        let modelNeighborLTP ←
          arrayAt verts (verts.length - getMorphNeighborIndexOffset col row tileSize)
        let nb ← arraySet nb i modelNeighborLTP
        Except.ok (some nb)
  let neighborNormals ←
    match m.neighborNormals with
    | none => Except.ok none
    | some nn =>
      if normals.length < getMorphNeighborIndexOffset col row tileSize then
        Except.error Fault.outOfBounds
      else do
        let modelNeighborNormalLTP ←
          arrayAt normals (normals.length - getMorphNeighborIndexOffset col row tileSize)
        let nn ← arraySet nn i modelNeighborNormalLTP
        Except.ok (some nn)
  Except.ok
    { verts := verts
      normals := normals
      uvs := uvs
      neighbors := neighbors
      neighborNormals := neighborNormals
      tileBound := tileBound }

/-- The marker update `uvs->at(P).z = (float)((int)uvs->at(P).z | VERTEX_SKIRT)`. -/
def markSkirt (menv : MeshEnv) (uvs : List (Vec3 ℚ)) (P : Nat) :
    Except Fault (List (Vec3 ℚ)) := do
  let uv ← arrayAt uvs P
  arraySet uvs P { uv with z := ((Int.lor (doubleToInt uv.z) menv.VERTEX_SKIRT : Int) : ℚ) }

/-- The macro `addSkirtDataForIndex(P, INDEX, HEIGHT)`: the arrays and `P`
after it. -/
def addSkirtDataForIndex (menv : MeshEnv) (HEIGHT : ℚ) (st : Mesh × Nat) (INDEX : Nat) :
    Except Fault (Mesh × Nat) := do
  let m := st.1
  let P := st.2
  let verts ← arraySet m.verts P (← arrayAt m.verts INDEX)
  let normals ← arraySet m.normals P (← arrayAt m.normals INDEX)
  let uvs ← arraySet m.uvs P (← arrayAt m.uvs INDEX)
  let uvs ← markSkirt menv uvs P
  let neighbors ←
    match m.neighbors with
    | none => Except.ok none
    | some nb => do
      let nb ← arraySet nb P (← arrayAt nb INDEX)
      Except.ok (some nb)
  let neighborNormals ←
    match m.neighborNormals with
    | none => Except.ok none
    | some nn => do
      let nn ← arraySet nn P (← arrayAt nn INDEX)
      Except.ok (some nn)
  let P := P + 1
  let verts ← arraySet verts P
    (Vec3.sub (← arrayAt verts INDEX) (Vec3.scale (← arrayAt normals INDEX) HEIGHT))
  let normals ← arraySet normals P (← arrayAt normals INDEX)
  let uvs ← arraySet uvs P (← arrayAt uvs INDEX)
  let uvs ← markSkirt menv uvs P
  let neighbors ←
    match neighbors with
    | none => Except.ok none
    | some nb => do
      let nb ← arraySet nb P
        (Vec3.sub (← arrayAt nb INDEX) (Vec3.scale (← arrayAt normals INDEX) HEIGHT))
      Except.ok (some nb)
  let neighborNormals ←
    match neighborNormals with
    | none => Except.ok none
    | some nn => do
      let nn ← arraySet nn P (← arrayAt nn INDEX)
      Except.ok (some nn)
  Except.ok
    ({ verts := verts
       normals := normals
       uvs := uvs
       neighbors := neighbors
       neighborNormals := neighborNormals
       tileBound := m.tileBound }, P + 1)

/-- The vertices the four skirt loops of `createGeometry` visit, in order:
south, east, north, west. -/
def skirtVisits (tileSize : Nat) : List Nat :=
  (List.range (tileSize - 1)) ++
    (List.range (tileSize - 1)).map (fun r => r * tileSize + (tileSize - 1)) ++
    ((List.range (tileSize - 1)).reverse.map fun c => (tileSize - 1) * tileSize + (c + 1)) ++
    ((List.range (tileSize - 1)).reverse.map fun r => (r + 1) * tileSize)

/-- The method `createGeometry(tileKey, settings, progress)`; the object is
created at the address `addr`. The handle `progress` is not used by the
code. -/
def createGeometry (menv : MeshEnv) (pool : GeometryPool) (tileKey : TileKey)
    (settings : Settings) (addr : Nat) : Except Fault SharedGeometry := do
  let world2local := menv.world2local pool.worldSRS (tileKey.extent menv.toEnv)
  let needsSkirt := decide (0 < settings.skirtRatio)
  let tileSize := settings.tileSize
  let numVertsInSurface := (tileSize * tileSize) % 2 ^ 32
  let numVertsInSkirt := if needsSkirt then (usub tileSize 1 * 2 * 4) % 2 ^ 32 else 0
  let numVerts := (numVertsInSurface + numVertsInSkirt) % 2 ^ 32
  let m0 : Mesh :=
    { verts := List.replicate numVerts Vec3.zero
      normals := List.replicate numVerts Vec3.zero
      uvs := List.replicate numVerts Vec3.zero
      neighbors := if settings.morphing then some (List.replicate numVerts Vec3.zero) else none
      neighborNormals :=
        if settings.morphing then some (List.replicate numVerts Vec3.zero) else none
      tileBound := Sphere.empty }
  let locator : Locator := ⟨tileKey.extent menv.toEnv, pool.worldSRS⟩
  let m1 ← (List.range tileSize).foldlM
    (fun m row => (List.range tileSize).foldlM
      (fun m col => surfaceVertex menv world2local locator tileSize row col m) m) m0
  let m2 ←
    if needsSkirt then do
      let height := m1.tileBound.radius * settings.skirtRatio
      let r ← (skirtVisits tileSize).foldlM (addSkirtDataForIndex menv height)
        (m1, numVertsInSurface)
      Except.ok r.1
    else Except.ok m1
  let indices ←
    if pool.enabled then Except.ok pool.defaultIndices
    else (createIndices settings).map some
  match indices with
  | none => Except.error Fault.nullDereference
  | some idx =>
    Except.ok
      { id := addr
        verts := m2.verts
        normals := m2.normals
        uvs := m2.uvs
        neighbors := m2.neighbors
        neighborNormals := m2.neighborNormals
        indices := some idx
        indexCount := idx.length }

/-- The body of `getPooledGeometry(tileKey, settings, progress)`, with the
geometry builder as a parameter: the pool after the call, and the mesh
returned (`none` for a null pointer) or the fault the call runs into. A mesh
the builder makes is created at the address `addr`. -/
def getPooledGeometryWith (env : Env)
    (build : GeometryPool → TileKey → Settings → Nat → Except Fault (Option SharedGeometry))
    (pool : GeometryPool) (tileKey : TileKey) (settings : Settings) (addr : Nat) :
    GeometryPool × Except Fault (Option SharedGeometry) :=
  let geomKey := createKeyForTileKey env tileKey settings.tileSize
  let defaultIndices : Except Fault (Option (List Nat)) :=
    if pool.defaultIndices.isNone then (createIndices settings).map some
    else Except.ok pool.defaultIndices
  match defaultIndices with
  | Except.error f => (pool, Except.error f)
  | Except.ok di =>
    let pool1 : GeometryPool := { pool with defaultIndices := di }
    let built : Except Fault (GeometryPool × Option SharedGeometry) :=
      if pool1.enabled then
        match pool1.sharedGeometries.lookup geomKey with
        | some g => Except.ok (pool1, some g)
        | none =>
          match build pool1 tileKey settings addr with
          | Except.error f => Except.error f
          | Except.ok (some g) =>
            Except.ok
              ({ pool1 with sharedGeometries := emplace pool1.sharedGeometries geomKey g },
                some g)
          | Except.ok none => Except.ok (pool1, none)
      else
        match build pool1 tileKey settings addr with
        | Except.error f => Except.error f
        | Except.ok out => Except.ok (pool1, out)
    match built with
    | Except.error f => (pool1, Except.error f)
    | Except.ok (pool2, none) => (pool2, Except.error Fault.nullDereference)
    | Except.ok (pool2, some g) =>
      if g.indices.isNone then (pool2, Except.ok none) else (pool2, Except.ok (some g))

/-- The method `getPooledGeometry(tileKey, settings, progress)`. -/
def getPooledGeometry (menv : MeshEnv) (pool : GeometryPool) (tileKey : TileKey)
    (settings : Settings) (addr : Nat) : GeometryPool × Except Fault (Option SharedGeometry) :=
  getPooledGeometryWith menv.toEnv
    (fun pl key s a => (createGeometry menv pl key s a).map some) pool tileKey settings addr

end GeometryPool

/-- A reference instance of `MeshEnv` on `refEnv`: a flat world, in which the
local frame of a tile is the world frame moved to the centre of the tile, the
square root is the rational square root, and the markers are 1 and 8. -/
def refMeshEnv : MeshEnv :=
  { refEnv with
    srsGeocentricSRS := fun _ => ⟨"geocentric"⟩
    world2local := fun _ e p =>
      ⟨p.x - (e.xmin + e.xmax) / 2, p.y - (e.ymin + e.ymax) / 2, p.z⟩
    sqrt := Rat.sqrt
    VERTEX_VISIBLE := 1
    VERTEX_SKIRT := 8 }

/-- The pool serves the key `K` from its cache with the mesh `g`: pooling is
enabled, the shared default index buffer is there, the map holds `g` under
`K`, and `g` carries an index buffer. -/
def GeometryPool.Caches (pool : GeometryPool) (K : GeometryKey) (g : SharedGeometry) : Prop :=
  pool.enabled = true ∧ pool.defaultIndices.isSome = true ∧
    pool.sharedGeometries.lookup K = some g ∧ g.indices.isSome = true

/-- The extent moved by `dx` along x and by `dy` along y. -/
def GeoExtent.translate (e : GeoExtent) (dx dy : ℚ) : GeoExtent :=
  ⟨e.srs, e.xmin + dx, e.ymin + dy, e.xmax + dx, e.ymax + dy⟩

/-- The local position `createGeometry` gives a point of the unit square of a
tile: `world2local * locator.unitToWorld(unit)` for the extent of the tile. -/
def GeometryPool.tileFrame (menv : MeshEnv) (worldSRS : SRS) (extent : GeoExtent)
    (unit : Vec3 ℚ) : Vec3 ℚ :=
  menv.world2local worldSRS extent
    (GeometryPool.Locator.unitToWorld menv.toEnv ⟨extent, worldSRS⟩ unit)

/-- The method `allKeysAtLOD(lod)`: the soft assertion returns the empty
vector for a profile that is not valid; otherwise the keys are pushed column
by column, row by row within a column. -/
def Profile.allKeysAtLOD (env : Env) (p : Profile) (lod : Nat) : List TileKey :=
  if !p.valid env then []
  else
    let t := p.numTiles env lod
    (List.range t.1).flatMap fun c => (List.range t.2).map fun r => ⟨lod, c, r, p⟩

/-- The method `rootKeys()`. -/
def Profile.rootKeys (env : Env) (p : Profile) : List TileKey :=
  p.allKeysAtLOD env 0

/-- One call on a pool: `getPooledGeometry(tileKey, settings, progress)` with
the address a mesh built by the call is created at, `sweep(context)` with the
reference counts its loop reads, or `clear()`. -/
inductive GeometryPool.Call where
  | get (tileKey : TileKey) (settings : Settings) (addr : Nat)
  | sweep (referenceCount : SharedGeometry → Nat)
  | clear

/-- The pool after one call. -/
def GeometryPool.call (menv : MeshEnv) (pool : GeometryPool) : GeometryPool.Call → GeometryPool
  | GeometryPool.Call.get tileKey settings addr =>
    (GeometryPool.getPooledGeometry menv pool tileKey settings addr).1
  | GeometryPool.Call.sweep referenceCount => (GeometryPool.sweep referenceCount pool).1
  | GeometryPool.Call.clear => GeometryPool.clear pool

/-- The pool after a sequence of calls, one after the other. -/
def GeometryPool.calls (menv : MeshEnv) (pool : GeometryPool) (cs : List GeometryPool.Call) :
    GeometryPool :=
  cs.foldl (GeometryPool.call menv) pool

/-- Every index buffer the pool holds is the one `createIndices` returns for
the settings `S`: pooling is on, the default index buffer, if it is there, is
that buffer, and so is the index buffer of every mesh of the map. -/
def GeometryPool.IndicesOf (S : Settings) (pool : GeometryPool) : Prop :=
  pool.enabled = true ∧
    (∀ d, pool.defaultIndices = some d → GeometryPool.createIndices S = Except.ok d) ∧
    ∀ e ∈ pool.sharedGeometries,
      ∃ d, e.2.indices = some d ∧ GeometryPool.createIndices S = Except.ok d

/-- Every array of the mesh has `N` elements. -/
def GeometryPool.Mesh.Sized (N : Nat) (m : GeometryPool.Mesh) : Prop :=
  m.verts.length = N ∧ m.normals.length = N ∧ m.uvs.length = N ∧
    (∀ nb, m.neighbors = some nb → nb.length = N) ∧
    (∀ nn, m.neighborNormals = some nn → nn.length = N)

/-! ## Extents (`Profile::clampAndTransformExtent`,
`Profile::transformAndExtractContiguousExtents`) -/

/-- What the extent methods of `Profile.cpp` call beyond `Env`: the methods
and operators of `GeoExtent` and `SRS` and the helper `clamp`, none of them
among the sources. -/
structure ExtentEnv extends Env where
  /-- The test `GeoExtent::isWholeEarth()`. -/
  isWholeEarth : GeoExtent → Bool
  /-- The method `GeoExtent::intersectionSameSRS(rhs)`. -/
  intersectionSameSRS : GeoExtent → GeoExtent → GeoExtent
  /-- The operator `==` of `GeoExtent`; `!=` is its negation. -/
  extentEq : GeoExtent → GeoExtent → Bool
  /-- The test `GeoExtent::intersects(rhs, checkSRS)`. -/
  intersects : GeoExtent → GeoExtent → Bool → Bool
  /-- The test `GeoExtent::crossesAntimeridian()`. -/
  crossesAntimeridian : GeoExtent → Bool
  /-- The method `GeoExtent::splitAcrossAntimeridian(first, second)`: the two
  parts when it returns true, `none` when it returns false. -/
  splitAcrossAntimeridian : GeoExtent → Option (GeoExtent × GeoExtent)
  /-- The helper `clamp(x, lo, hi)` of Math.h. -/
  clamp : ℚ → ℚ → ℚ → ℚ
  /-- The operator `==` of `SRS`. -/
  srsEq : SRS → SRS → Bool

/-- The method `clampAndTransformExtent(input, out_clamped)`: the extent
returned and the value the call leaves in `*out_clamped`. -/
def Profile.clampAndTransformExtent (env : ExtentEnv) (p : Profile) (input : GeoExtent) :
    GeoExtent × Bool :=
  if !input.valid env.toEnv then (GeoExtent.INVALID, false)
  else if env.isWholeEarth input then
    (p.extent, if !env.isWholeEarth p.extent then true else false)
  else
    let inputInMySRS := env.transformExtent input p.srs
    if inputInMySRS.valid env.toEnv then
      let intersection := env.intersectionSameSRS inputInMySRS p.extent
      (intersection, !env.extentEq intersection p.extent)
    else
      let geo_srs := env.srsGeodeticSRS p.srs
      let gcs_input :=
        if env.srsIsGeodetic input.srs then input else env.transformExtent input geo_srs
      if !gcs_input.valid env.toEnv then (GeoExtent.INVALID, false)
      else if !env.intersects gcs_input p.geographicExtent false then
        (GeoExtent.INVALID, false)
      else
        let clamped_gcs_input : GeoExtent :=
          ⟨gcs_input.srs,
            env.clamp gcs_input.xmin p.geographicExtent.xmin p.geographicExtent.xmax,
            env.clamp gcs_input.ymin p.geographicExtent.ymin p.geographicExtent.ymax,
            env.clamp gcs_input.xmax p.geographicExtent.xmin p.geographicExtent.xmax,
            env.clamp gcs_input.ymax p.geographicExtent.ymin p.geographicExtent.ymax⟩
        let out_clamped := !env.extentEq clamped_gcs_input gcs_input
        let result :=
          if env.srsEq clamped_gcs_input.srs p.srs then clamped_gcs_input
          else env.transformExtent clamped_gcs_input p.srs
        (result, out_clamped)

/-- A reference instance of `ExtentEnv` on `refEnv`: extents are plain boxes,
a geodetic extent crosses the antimeridian when it reaches east of 180
degrees, and the operators compare all fields. -/
def refExtentEnv : ExtentEnv :=
  { refEnv with
    isWholeEarth := fun e =>
      refEnv.srsIsGeodetic e.srs && decide (360 ≤ e.width) && decide (180 ≤ e.height)
    intersectionSameSRS := fun a b =>
      if max a.xmin b.xmin ≤ min a.xmax b.xmax ∧ max a.ymin b.ymin ≤ min a.ymax b.ymax then
        ⟨a.srs, max a.xmin b.xmin, max a.ymin b.ymin, min a.xmax b.xmax, min a.ymax b.ymax⟩
      else GeoExtent.INVALID
    extentEq := fun a b =>
      (!a.valid refEnv && !b.valid refEnv) ||
        (a.valid refEnv && b.valid refEnv && decide (a = b))
    intersects := fun a b _ =>
      decide (max a.xmin b.xmin < min a.xmax b.xmax ∧ max a.ymin b.ymin < min a.ymax b.ymax)
    crossesAntimeridian := fun e => refEnv.srsIsGeodetic e.srs && decide (180 < e.xmax)
    splitAcrossAntimeridian := fun e =>
      if refEnv.srsIsGeodetic e.srs && decide (180 < e.xmax) then
        some (⟨e.srs, e.xmin, e.ymin, 180, e.ymax⟩, ⟨e.srs, -180, e.ymin, e.xmax - 360, e.ymax⟩)
      else none
    clamp := fun x lo hi => if x < lo then lo else if hi < x then hi else x
    srsEq := fun a b => decide (a = b) }

/-! ## Concurrent calls of `getPooledGeometry`

Threads are interleaved at the grain of the critical sections of the code:
each block under `std::scoped_lock lock(_mutex)` is one step, and so are the
acquisition and the release of the per-key gate and the build. -/

/-- Where a thread stands in `getPooledGeometry`: before the first critical
section; before the gate `ScopedGate gatelock(_keygate, geomKey)`; holding the
gate, before the lookup; holding the gate with `out` null, before
`createGeometry`; holding the gate with the mesh built, before the insert;
holding the gate with `out` set, before the gate is released; in the branch
without pooling, before `createGeometry`; before the final soft assertion;
and returned. -/
inductive GeometryPool.Pc where
  | start
  | atGate
  | atFind
  | atBuild
  | atStore (out : SharedGeometry)
  | atRelease (out : SharedGeometry)
  | atBuildNoPool
  | atReturn (out : SharedGeometry)
  | done (result : Except Fault (Option SharedGeometry))

/-- A thread in a call `getPooledGeometry(tileKey, settings, progress)`; a
mesh it builds is created at `addr`. -/
structure GeometryPool.Thread where
  tileKey : TileKey
  settings : Settings
  addr : Nat
  pc : GeometryPool.Pc

/-- Modelled from the spec: `util::Gate` and `util::ScopedGate` are not among
the sources. The gate `_keygate` holds the keys that are locked, each with the
thread that locked it; a thread acquires the gate of a key only while no
thread holds that key. -/
def GeometryPool.gateLock (gate : List (GeometryKey × Nat)) (key : GeometryKey) (thread : Nat) :
    Option (List (GeometryKey × Nat)) :=
  if (gate.lookup key).isSome then none else some ((key, thread) :: gate)

/-- Modelled from the spec: the release of the gate of a key, at the end of
the scope of the `ScopedGate`. -/
def GeometryPool.gateUnlock (gate : List (GeometryKey × Nat)) (key : GeometryKey) :
    List (GeometryKey × Nat) :=
  gate.filter fun e => decide (e.1 ≠ key)

/-- The pool shared by the threads, the gate, the number of `createGeometry`
calls made so far, and the threads. -/
structure GeometryPool.World where
  pool : GeometryPool
  keygate : List (GeometryKey × Nat)
  builds : Nat
  threads : List GeometryPool.Thread

/-- The world with thread `i` moved to `pc`. -/
def GeometryPool.World.goto (w : GeometryPool.World) (i : Nat) (t : GeometryPool.Thread)
    (pc : GeometryPool.Pc) : GeometryPool.World :=
  { w with threads := w.threads.set i { t with pc := pc } }

/-- One step of thread `i`. A thread that waits for the gate, a thread that
has returned, and an index that is no thread leave the world as it is. -/
def GeometryPool.step (menv : MeshEnv) (w : GeometryPool.World) (i : Nat) : GeometryPool.World :=
  match w.threads[i]? with
  | none => w
  | some t =>
    let geomKey := GeometryPool.createKeyForTileKey menv.toEnv t.tileKey t.settings.tileSize
    match t.pc with
    | GeometryPool.Pc.start =>
      let defaultIndices : Except Fault (Option (List Nat)) :=
        if w.pool.defaultIndices.isNone then (GeometryPool.createIndices t.settings).map some
        else Except.ok w.pool.defaultIndices
      match defaultIndices with
      | Except.error f => w.goto i t (GeometryPool.Pc.done (Except.error f))
      | Except.ok di =>
        { w with pool := { w.pool with defaultIndices := di } }.goto i t
          (if w.pool.enabled then GeometryPool.Pc.atGate else GeometryPool.Pc.atBuildNoPool)
    | GeometryPool.Pc.atGate =>
      match GeometryPool.gateLock w.keygate geomKey i with
      | none => w
      | some gate => { w with keygate := gate }.goto i t GeometryPool.Pc.atFind
    | GeometryPool.Pc.atFind =>
      match w.pool.sharedGeometries.lookup geomKey with
      | some g => w.goto i t (GeometryPool.Pc.atRelease g)
      | none => w.goto i t GeometryPool.Pc.atBuild
    | GeometryPool.Pc.atBuild =>
      match GeometryPool.createGeometry menv w.pool t.tileKey t.settings t.addr with
      | Except.error f =>
        { w with builds := w.builds + 1 }.goto i t (GeometryPool.Pc.done (Except.error f))
      | Except.ok g => { w with builds := w.builds + 1 }.goto i t (GeometryPool.Pc.atStore g)
    | GeometryPool.Pc.atStore g =>
      { w with
        pool :=
          { w.pool with
            sharedGeometries := GeometryPool.emplace w.pool.sharedGeometries geomKey g } }.goto
        i t (GeometryPool.Pc.atRelease g)
    | GeometryPool.Pc.atRelease g =>
      { w with keygate := GeometryPool.gateUnlock w.keygate geomKey }.goto i t
        (GeometryPool.Pc.atReturn g)
    | GeometryPool.Pc.atBuildNoPool =>
      match GeometryPool.createGeometry menv w.pool t.tileKey t.settings t.addr with
      | Except.error f =>
        { w with builds := w.builds + 1 }.goto i t (GeometryPool.Pc.done (Except.error f))
      | Except.ok g => { w with builds := w.builds + 1 }.goto i t (GeometryPool.Pc.atReturn g)
    | GeometryPool.Pc.atReturn g =>
      w.goto i t
        (GeometryPool.Pc.done (if g.indices.isNone then Except.ok none else Except.ok (some g)))
    | GeometryPool.Pc.done _ => w

/-- The world after the threads have stepped in the order of the schedule. -/
def GeometryPool.run (menv : MeshEnv) (w : GeometryPool.World) (schedule : List Nat) :
    GeometryPool.World :=
  schedule.foldl (GeometryPool.step menv) w

/-- The threads of the calls `getPooledGeometry(tileKey, settings, progress)`
for the given arguments, all about to start on one pool. -/
def GeometryPool.spawn (pool : GeometryPool) (calls : List (TileKey × Settings × Nat)) :
    GeometryPool.World :=
  { pool := pool
    keygate := []
    builds := 0
    threads := calls.map fun c => ⟨c.1, c.2.1, c.2.2, GeometryPool.Pc.start⟩ }

/-- The loop `while (tileRes > resolution) { level++; tileRes *= 0.5; }` of
`levelOfDetailForHorizResolution`, with a bound on the number of tests;
`level` is an `unsigned int`. -/
def Profile.resolutionSearch (resolution : ℚ) : Nat → ℚ → Nat → Option Nat
  | 0, _, _ => none
  | fuel + 1, tileRes, level =>
    if resolution < tileRes then
      Profile.resolutionSearch resolution fuel (tileRes * (1 / 2)) ((level + 1) % 2 ^ 32)
    else some level

/-- The method `Profile::levelOfDetailForHorizResolution(resolution, tileSize)`. -/
def Profile.levelOfDetailForHorizResolution (fuel : Nat) (p : Profile) (resolution : ℚ)
    (tileSize : Int) : Option Nat :=
  if tileSize ≤ 0 ∨ resolution ≤ 0 then some 23
  else
    let tileRes := (p.shared.extent.width / (p.shared.numTilesBaseX : ℚ)) / (tileSize : ℚ)
    Profile.resolutionSearch resolution fuel tileRes 0

end Rocky

namespace Rocky

open Profile

/-! ## Basic facts -/

theorem shl1_of_lt (env : Env) (lod : Nat) (h : lod < 32) : shl1 env lod = 2 ^ lod := by
  simp [shl1, h]

theorem shl1_lt (env : Env) (lod : Nat) : shl1 env lod < 2 ^ 32 := by
  unfold shl1
  split
  · exact Nat.pow_lt_pow_right (by norm_num) (by assumption)
  · exact Nat.mod_lt _ (by norm_num)

/-! ## Facts about `setup` -/

theorem setup_of_invalid (env : Env) (self : Profile) (srs : SRS) (bounds : Box) (w h : Nat)
    (hv : env.srsValid srs = false) : setup env self srs bounds w h = self := by
  simp [setup, hv]

theorem setup_addr (env : Env) (self : Profile) (srs : SRS) (bounds : Box) (w h : Nat) :
    (setup env self srs bounds w h).addr = self.addr := by
  unfold setup
  split <;> rfl

theorem setup_wellKnownName (env : Env) (self : Profile) (srs : SRS) (bounds : Box)
    (w h : Nat) :
    (setup env self srs bounds w h).shared.wellKnownName = self.shared.wellKnownName := by
  unfold setup
  split <;> rfl

theorem setup_extent (env : Env) (self : Profile) (srs : SRS) (bounds : Box) (w h : Nat)
    (hv : env.srsValid srs = true) :
    (setup env self srs bounds w h).shared.extent =
      GeoExtent.ofBox srs (if bounds.valid then bounds else env.srsBounds srs) := by
  simp [setup, hv]

theorem setup_counts_given (env : Env) (self : Profile) (srs : SRS) (bounds : Box)
    (w h : Nat) (hv : env.srsValid srs = true) (hw : w ≠ 0) (hh : h ≠ 0) :
    (setup env self srs bounds w h).shared.numTilesBaseX = w ∧
      (setup env self srs bounds w h).shared.numTilesBaseY = h := by
  simp [setup, hv, hw, hh]

theorem fromName_global_geodetic (env : Env) (addr : Nat) :
    fromName env addr "global-geodetic" =
      setup env (setName (new addr) "global-geodetic") SRS.WGS84 ⟨-180, -90, 180, 90⟩ 2 1 := by
  have h1 : ciEquals "global-geodetic" "plate-carree" = false := by decide
  have h2 : ciEquals "global-geodetic" "plate-carre" = false := by decide
  have h3 : ciEquals "global-geodetic" "eqc-wgs84" = false := by decide
  have h4 : ciEquals "global-geodetic" "global-geodetic" = true := by decide
  simp [fromName, setupName, h1, h2, h3, h4]

theorem fromName_spherical_mercator (env : Env) (addr : Nat) :
    fromName env addr "spherical-mercator" =
      setup env (setName (new addr) "spherical-mercator") SRS.SPHERICAL_MERCATOR
        ⟨-2003750834278925 / 100000000, -2003750834278925 / 100000000,
          2003750834278925 / 100000000, 2003750834278925 / 100000000⟩ 1 1 := by
  have h1 : ciEquals "spherical-mercator" "plate-carree" = false := by decide
  have h2 : ciEquals "spherical-mercator" "plate-carre" = false := by decide
  have h3 : ciEquals "spherical-mercator" "eqc-wgs84" = false := by decide
  have h4 : ciEquals "spherical-mercator" "global-geodetic" = false := by decide
  have h5 : ciEquals "spherical-mercator" "spherical-mercator" = true := by decide
  simp [fromName, setupName, h1, h2, h3, h4, h5]

theorem refEnv_valid_WGS84 : refEnv.srsValid SRS.WGS84 = true := by decide

theorem refEnv_valid_SPHERICAL_MERCATOR : refEnv.srsValid SRS.SPHERICAL_MERCATOR = true := by
  decide

/-! ## Tile counts (C1) -/

/-- C1, as stated, fails: for the profile "global-geodetic" (base tile counts
(2,1)) at level 31 the 32-bit product `2 * 2^31` wraps to 0, so `numTiles(31)`
is `(0, 2^31)` and not `(2 * 2^31, 1 * 2^31)`. -/
theorem numTiles_wraps_at_level_31 :
    (fromName refEnv 0 "global-geodetic").shared.numTilesBaseX = 2 ∧
      (fromName refEnv 0 "global-geodetic").shared.numTilesBaseY = 1 ∧
      numTiles refEnv (fromName refEnv 0 "global-geodetic") 31 = (0, 2147483648) ∧
      numTiles refEnv (fromName refEnv 0 "global-geodetic") 31 ≠
        ((fromName refEnv 0 "global-geodetic").shared.numTilesBaseX * 2 ^ 31,
          (fromName refEnv 0 "global-geodetic").shared.numTilesBaseY * 2 ^ 31) := by
  have hc := setup_counts_given refEnv (setName (new 0) "global-geodetic") SRS.WGS84
    ⟨-180, -90, 180, 90⟩ 2 1 refEnv_valid_WGS84 (by decide) (by decide)
  rw [fromName_global_geodetic]
  refine ⟨hc.1, hc.2, ?_, ?_⟩ <;> simp [numTiles, shl1, hc.1, hc.2]

/-- C1, amended: for every profile and every level `L < 32` at which the
products `numTilesBaseX * 2^L` and `numTilesBaseY * 2^L` fit 32 bits,
`numTiles(L)` is `(numTilesBaseX * 2^L, numTilesBaseY * 2^L)`; for base tile
counts (2,1), as in "global-geodetic", `numTiles(1) = (4,2)`. -/
theorem numTiles_eq (env : Env) (p : Profile) (L : Nat) (hL : L < 32)
    (hx : p.shared.numTilesBaseX * 2 ^ L < 2 ^ 32)
    (hy : p.shared.numTilesBaseY * 2 ^ L < 2 ^ 32) :
    numTiles env p L = (p.shared.numTilesBaseX * 2 ^ L, p.shared.numTilesBaseY * 2 ^ L) ∧
      (p.shared.numTilesBaseX = 2 → p.shared.numTilesBaseY = 1 → L = 1 →
        numTiles env p L = (4, 2)) := by
  have h : numTiles env p L =
      (p.shared.numTilesBaseX * 2 ^ L, p.shared.numTilesBaseY * 2 ^ L) := by
    simp only [numTiles, shl1_of_lt env L hL, Nat.mod_eq_of_lt hx, Nat.mod_eq_of_lt hy]
  refine ⟨h, ?_⟩
  intro h2 h1 hl
  rw [h, h2, h1, hl]
  rfl

theorem numTiles_eq_witness :
    numTiles refEnv (fromName refEnv 0 "global-geodetic") 1 = (4, 2) := by
  have hc := setup_counts_given refEnv (setName (new 0) "global-geodetic") SRS.WGS84
    ⟨-180, -90, 180, 90⟩ 2 1 refEnv_valid_WGS84 (by decide) (by decide)
  rw [fromName_global_geodetic]
  exact (numTiles_eq refEnv _ 1 (by decide) (by rw [hc.1]; decide) (by rw [hc.2]; decide)).2
    hc.1 hc.2 rfl

theorem global_geodetic_shared (env : Env) (addr : Nat)
    (hv : env.srsValid SRS.WGS84 = true) :
    (fromName env addr "global-geodetic").shared.extent = ⟨SRS.WGS84, -180, -90, 180, 90⟩ ∧
      (fromName env addr "global-geodetic").shared.numTilesBaseX = 2 ∧
      (fromName env addr "global-geodetic").shared.numTilesBaseY = 1 ∧
      (fromName env addr "global-geodetic").shared.wellKnownName = "global-geodetic" := by
  rw [fromName_global_geodetic]
  have hb : Box.valid ⟨-180, -90, 180, 90⟩ = true := by simp [Box.valid]
  have hc := setup_counts_given env (setName (new addr) "global-geodetic") SRS.WGS84
    ⟨-180, -90, 180, 90⟩ 2 1 hv (by decide) (by decide)
  refine ⟨?_, hc.1, hc.2, ?_⟩
  · rw [setup_extent _ _ _ _ _ _ hv, hb]
    rfl
  · rw [setup_wellKnownName]
    rfl

/-! ## Tile dimensions (C2) -/

/-- The factor `1u << lod` is a 32-bit value, so it is never `2^lod` once
`lod ≥ 32`, whatever the platform does with the shift. -/
theorem shl1_ne_pow (env : Env) (lod : Nat) (h : 32 ≤ lod) : shl1 env lod ≠ 2 ^ lod := by
  have h1 := shl1_lt env lod
  have h2 : 2 ^ 32 ≤ 2 ^ lod := Nat.pow_le_pow_right (by norm_num) h
  omega

/-- C2, as stated, fails: for "global-geodetic" (extent 360 by 180, base tile
counts (2,1)) at level 32 the factor `1u << 32` is a 32-bit value (1 with the
shift of the reference platform), so `tileDimensions(32)` is `(180, 180)` and
not `(360 / 2 / 2^32, 180 / 1 / 2^32)`. -/
theorem tileDimensions_fails_at_level_32 :
    tileDimensions refEnv (fromName refEnv 0 "global-geodetic") 32 = (180, 180) ∧
      tileDimensions refEnv (fromName refEnv 0 "global-geodetic") 32 ≠
        ((fromName refEnv 0 "global-geodetic").shared.extent.width /
            ((fromName refEnv 0 "global-geodetic").shared.numTilesBaseX : ℚ) / 2 ^ 32,
          (fromName refEnv 0 "global-geodetic").shared.extent.height /
            ((fromName refEnv 0 "global-geodetic").shared.numTilesBaseY : ℚ) / 2 ^ 32) := by
  obtain ⟨he, hx, hy, -⟩ := global_geodetic_shared refEnv 0 refEnv_valid_WGS84
  have hs : shl1 refEnv 32 = 1 := by simp [shl1, refEnv]
  have h : tileDimensions refEnv (fromName refEnv 0 "global-geodetic") 32 = (180, 180) := by
    simp only [tileDimensions, he, hx, hy, hs, GeoExtent.width, GeoExtent.height]
    norm_num
  refine ⟨h, ?_⟩
  rw [h, he, hx, hy]
  simp only [GeoExtent.width, GeoExtent.height]
  norm_num

/-- C2, amended: for every profile and every level `L < 32`,
`tileDimensions(L)` is `(extent.width / numTilesBaseX / 2^L,
extent.height / numTilesBaseY / 2^L)`, computed directly, without iteration. -/
theorem tileDimensions_eq (env : Env) (p : Profile) (L : Nat) (hL : L < 32) :
    tileDimensions env p L =
      (p.shared.extent.width / (p.shared.numTilesBaseX : ℚ) / 2 ^ L,
        p.shared.extent.height / (p.shared.numTilesBaseY : ℚ) / 2 ^ L) := by
  simp [tileDimensions, shl1_of_lt env L hL]

theorem tileDimensions_eq_witness :
    tileDimensions refEnv (fromName refEnv 0 "global-geodetic") 3 =
      ((fromName refEnv 0 "global-geodetic").shared.extent.width /
          ((fromName refEnv 0 "global-geodetic").shared.numTilesBaseX : ℚ) / 2 ^ 3,
        (fromName refEnv 0 "global-geodetic").shared.extent.height /
          ((fromName refEnv 0 "global-geodetic").shared.numTilesBaseY : ℚ) / 2 ^ 3) :=
  tileDimensions_eq refEnv (fromName refEnv 0 "global-geodetic") 3 (by decide)

/-! ## Tile extents (C3, C4) -/

/-- C3: for every profile, level `L`, column `c` and row `r`, with
`(width, height) = tileDimensions(L)`, `tileExtent(L, c, r)` is the box of the
profile's reference system with `xmin = extent.xmin + c * width`,
`ymax = extent.ymax - r * height`, `xmax = xmin + width` and
`ymin = ymax - height`; so for positive tile sizes a larger column lies
further east and a larger row lies further south. -/
theorem tileExtent_eq (env : Env) (p : Profile) (L c r : Nat) :
    (tileExtent env p L c r).srs = p.srs ∧
      (tileExtent env p L c r).xmin = p.extent.xmin + (c : ℚ) * (tileDimensions env p L).1 ∧
      (tileExtent env p L c r).ymax = p.extent.ymax - (r : ℚ) * (tileDimensions env p L).2 ∧
      (tileExtent env p L c r).xmax =
        (tileExtent env p L c r).xmin + (tileDimensions env p L).1 ∧
      (tileExtent env p L c r).ymin =
        (tileExtent env p L c r).ymax - (tileDimensions env p L).2 ∧
      (∀ c2 : Nat, 0 < (tileDimensions env p L).1 → c < c2 →
        (tileExtent env p L c r).xmin < (tileExtent env p L c2 r).xmin) ∧
      (∀ r2 : Nat, 0 < (tileDimensions env p L).2 → r < r2 →
        (tileExtent env p L c r2).ymax < (tileExtent env p L c r).ymax) := by
  refine ⟨rfl, ?_, ?_, rfl, rfl, ?_, ?_⟩
  · simp only [tileExtent]
    ring
  · simp only [tileExtent]
    ring
  · intro c2 hw hc
    simp only [tileExtent]
    have : (c : ℚ) < (c2 : ℚ) := by exact_mod_cast hc
    nlinarith
  · intro r2 hh hr
    simp only [tileExtent]
    have : (r : ℚ) < (r2 : ℚ) := by exact_mod_cast hr
    nlinarith

theorem tileExtent_eq_witness :
    (tileExtent refEnv (fromName refEnv 0 "global-geodetic") 0 0 0).xmin <
        (tileExtent refEnv (fromName refEnv 0 "global-geodetic") 0 1 0).xmin ∧
      (tileExtent refEnv (fromName refEnv 0 "global-geodetic") 0 0 1).ymax <
        (tileExtent refEnv (fromName refEnv 0 "global-geodetic") 0 0 0).ymax := by
  obtain ⟨he, hx, hy, -⟩ := global_geodetic_shared refEnv 0 refEnv_valid_WGS84
  have hd : tileDimensions refEnv (fromName refEnv 0 "global-geodetic") 0 = (180, 180) := by
    simp only [tileDimensions, shl1]
    simp only [he, hx, hy, GeoExtent.width, GeoExtent.height]
    norm_num
  have h := tileExtent_eq refEnv (fromName refEnv 0 "global-geodetic") 0 0 0
  exact ⟨h.2.2.2.2.2.1 1 (by rw [hd]; norm_num) (by decide),
    h.2.2.2.2.2.2 1 (by rw [hd]; norm_num) (by decide)⟩

/-- C4, as stated, fails: level 0 of "global-geodetic" has 2 by 1 tiles, each
180 wide and 180 high, so `tileExtent(0,0,0)` is [-180,-90,0,90] and not
[-180,0,0,90], and `tileExtent(0,1,0)` is [0,-90,180,90] and not
[0,0,180,90]. -/
theorem tileExtent_global_geodetic_ymin :
    tileExtent refEnv (fromName refEnv 0 "global-geodetic") 0 0 0 =
        ⟨SRS.WGS84, -180, -90, 0, 90⟩ ∧
      tileExtent refEnv (fromName refEnv 0 "global-geodetic") 0 0 0 ≠
        ⟨SRS.WGS84, -180, 0, 0, 90⟩ ∧
      tileExtent refEnv (fromName refEnv 0 "global-geodetic") 0 1 0 ≠
        ⟨SRS.WGS84, 0, 0, 180, 90⟩ := by
  obtain ⟨he, hx, hy, -⟩ := global_geodetic_shared refEnv 0 refEnv_valid_WGS84
  have hs : shl1 refEnv 0 = 1 := by simp [shl1]
  refine ⟨?_, ?_, ?_⟩
  · simp only [tileExtent, tileDimensions, Profile.extent, Profile.srs, he, hx, hy, hs,
      GeoExtent.width, GeoExtent.height]
    norm_num
  · simp only [tileExtent, tileDimensions, Profile.extent, Profile.srs, he, hx, hy, hs,
      GeoExtent.width, GeoExtent.height]
    norm_num
  · simp only [tileExtent, tileDimensions, Profile.extent, Profile.srs, he, hx, hy, hs,
      GeoExtent.width, GeoExtent.height]
    norm_num

/-- C4, amended: for the well-known profile "global-geodetic" (extent
[-180,-90,180,90] in WGS84, base tile counts (2,1)), `tileExtent(0,0,0)` is
[-180,-90,0,90] and `tileExtent(0,1,0)` is [0,-90,180,90], as
[xmin,ymin,xmax,ymax]. -/
theorem tileExtent_global_geodetic (env : Env) (addr : Nat)
    (hv : env.srsValid SRS.WGS84 = true) :
    (fromName env addr "global-geodetic").extent = ⟨SRS.WGS84, -180, -90, 180, 90⟩ ∧
      numTiles env (fromName env addr "global-geodetic") 0 = (2, 1) ∧
      tileExtent env (fromName env addr "global-geodetic") 0 0 0 =
        ⟨SRS.WGS84, -180, -90, 0, 90⟩ ∧
      tileExtent env (fromName env addr "global-geodetic") 0 1 0 =
        ⟨SRS.WGS84, 0, -90, 180, 90⟩ := by
  obtain ⟨he, hx, hy, -⟩ := global_geodetic_shared env addr hv
  have hs : shl1 env 0 = 1 := by simp [shl1]
  refine ⟨he, ?_, ?_, ?_⟩
  · simp [numTiles, hx, hy, hs]
  · simp only [tileExtent, tileDimensions, Profile.extent, Profile.srs, he, hx, hy, hs,
      GeoExtent.width, GeoExtent.height]
    norm_num
  · simp only [tileExtent, tileDimensions, Profile.extent, Profile.srs, he, hx, hy, hs,
      GeoExtent.width, GeoExtent.height]
    norm_num

theorem tileExtent_global_geodetic_witness :
    tileExtent refEnv (fromName refEnv 0 "global-geodetic") 0 0 0 =
        ⟨SRS.WGS84, -180, -90, 0, 90⟩ ∧
      tileExtent refEnv (fromName refEnv 0 "global-geodetic") 0 1 0 =
        ⟨SRS.WGS84, 0, -90, 180, 90⟩ :=
  (tileExtent_global_geodetic refEnv 0 refEnv_valid_WGS84).2.2

/-! ## Derived base tile counts (C5) -/

theorem toUnsigned_doubleToInt (x : ℚ) (h0 : 0 ≤ x) (h1 : x < 2 ^ 32) :
    toUnsigned (doubleToInt x) = ⌊x⌋₊ := by
  have hf0 : 0 ≤ ⌊x⌋ := Int.floor_nonneg.mpr h0
  have hf1 : ⌊x⌋ < 2 ^ 32 := by
    rw [Int.floor_lt]
    exact_mod_cast h1
  simp only [toUnsigned, doubleToInt, h0, if_true]
  rw [Int.emod_eq_of_lt hf0 hf1, Int.floor_toNat]

theorem setup_counts_derived (env : Env) (self : Profile) (srs : SRS) (bounds : Box)
    (w h : Nat) (hv : env.srsValid srs = true) (hz : w = 0 ∨ h = 0) :
    ((setup env self srs bounds w h).shared.numTilesBaseX,
        (setup env self srs bounds w h).shared.numTilesBaseY) =
      if (if bounds.valid then bounds else env.srsBounds srs).valid then
        if 1 ≤ (if bounds.valid then bounds else env.srsBounds srs).width /
            (if bounds.valid then bounds else env.srsBounds srs).height then
          (toUnsigned (doubleToInt
            ((if bounds.valid then bounds else env.srsBounds srs).width /
              (if bounds.valid then bounds else env.srsBounds srs).height)), 1)
        else
          (1, toUnsigned (doubleToInt
            (1 / ((if bounds.valid then bounds else env.srsBounds srs).width /
              (if bounds.valid then bounds else env.srsBounds srs).height))))
      else (1, 1) := by
  simp only [setup, hv, if_true, hz]

/-- C5, as stated, fails: the aspect ratio is truncated, not rounded. For
bounds 7 wide and 4 high (aspect ratio 1.75) with both base tile counts
omitted, the derived counts are (1,1), while round(1.75) = 2. -/
theorem derived_counts_truncate :
    (fromSRS refEnv 0 SRS.WGS84 ⟨0, 0, 7, 4⟩ 0 0).shared.numTilesBaseX = 1 ∧
      (fromSRS refEnv 0 SRS.WGS84 ⟨0, 0, 7, 4⟩ 0 0).shared.numTilesBaseY = 1 ∧
      round (Box.width ⟨0, 0, 7, 4⟩ / Box.height ⟨0, 0, 7, 4⟩) = 2 ∧
      ((fromSRS refEnv 0 SRS.WGS84 ⟨0, 0, 7, 4⟩ 0 0).shared.numTilesBaseX : ℤ) ≠
        round (Box.width ⟨0, 0, 7, 4⟩ / Box.height ⟨0, 0, 7, 4⟩) := by
  have hb : Box.valid ⟨0, 0, 7, 4⟩ = true := by simp [Box.valid]
  have hc := setup_counts_derived refEnv (new 0) SRS.WGS84 ⟨0, 0, 7, 4⟩ 0 0
    refEnv_valid_WGS84 (Or.inl rfl)
  have har : Box.width ⟨0, 0, 7, 4⟩ / Box.height ⟨0, 0, 7, 4⟩ = (7 / 4 : ℚ) := by
    simp [Box.width, Box.height]
  have hfl : ⌊(7 / 4 : ℚ)⌋₊ = 1 := by
    rw [Nat.floor_eq_iff (by norm_num)]
    norm_num
  have hr : round (7 / 4 : ℚ) = 2 := by norm_num [round_eq]
  simp only [hb, if_true, har] at hc
  rw [if_pos (by norm_num : (1 : ℚ) ≤ 7 / 4),
    toUnsigned_doubleToInt _ (by norm_num) (by norm_num), hfl] at hc
  have hx : (fromSRS refEnv 0 SRS.WGS84 ⟨0, 0, 7, 4⟩ 0 0).shared.numTilesBaseX = 1 :=
    congrArg Prod.fst hc
  have hy : (fromSRS refEnv 0 SRS.WGS84 ⟨0, 0, 7, 4⟩ 0 0).shared.numTilesBaseY = 1 :=
    congrArg Prod.snd hc
  refine ⟨hx, hy, ?_, ?_⟩
  · rw [har, hr]
  · rw [har, hr, hx]
    decide

/-- C5, amended: when a profile is constructed from a valid reference system
with a base tile count omitted (zero), let `b` be the bounds in effect (the
given bounds, or the natural bounds of the reference system when the given
ones are invalid) and `ar = b.width / b.height`. If `b` is valid with positive
width and height and the quotient fits an `int`, the derived base tile counts
are `(trunc(ar), 1)` when `ar >= 1` and `(1, trunc(1/ar))` when `ar < 1`,
where `trunc` drops the fraction; if `b` is invalid they are `(1,1)`. -/
theorem derived_counts (env : Env) (addr : Nat) (srs : SRS) (bounds b : Box) (w h : Nat)
    (hv : env.srsValid srs = true) (hz : w = 0 ∨ h = 0)
    (hb : b = if bounds.valid then bounds else env.srsBounds srs) :
    (b.valid = true → 0 < b.width → 0 < b.height → 1 ≤ b.width / b.height →
        b.width / b.height < 2 ^ 31 →
        (fromSRS env addr srs bounds w h).shared.numTilesBaseX = ⌊b.width / b.height⌋₊ ∧
          (fromSRS env addr srs bounds w h).shared.numTilesBaseY = 1) ∧
      (b.valid = true → 0 < b.width → 0 < b.height → b.width / b.height < 1 →
        1 / (b.width / b.height) < 2 ^ 31 →
        (fromSRS env addr srs bounds w h).shared.numTilesBaseX = 1 ∧
          (fromSRS env addr srs bounds w h).shared.numTilesBaseY =
            ⌊1 / (b.width / b.height)⌋₊) ∧
      (b.valid = false →
        (fromSRS env addr srs bounds w h).shared.numTilesBaseX = 1 ∧
          (fromSRS env addr srs bounds w h).shared.numTilesBaseY = 1) := by
  have hc := setup_counts_derived env (new addr) srs bounds w h hv hz
  rw [← hb] at hc
  refine ⟨?_, ?_, ?_⟩
  · intro hbv _ _ h1 h31
    rw [hbv, if_pos rfl, if_pos h1,
      toUnsigned_doubleToInt _ (le_trans zero_le_one h1) (lt_trans h31 (by norm_num))] at hc
    exact ⟨congrArg Prod.fst hc, congrArg Prod.snd hc⟩
  · intro hbv hw hh h1 h31
    have hpos : 0 ≤ 1 / (b.width / b.height) := by positivity
    rw [hbv, if_pos rfl, if_neg (not_le.mpr h1),
      toUnsigned_doubleToInt _ hpos (lt_trans h31 (by norm_num))] at hc
    exact ⟨congrArg Prod.fst hc, congrArg Prod.snd hc⟩
  · intro hbv
    rw [hbv] at hc
    exact ⟨congrArg Prod.fst hc, congrArg Prod.snd hc⟩

theorem derived_counts_witness :
    (fromSRS refEnv 0 SRS.WGS84 ⟨0, 0, 10, 4⟩ 0 0).shared.numTilesBaseX =
        ⌊Box.width ⟨0, 0, 10, 4⟩ / Box.height ⟨0, 0, 10, 4⟩⌋₊ ∧
      (fromSRS refEnv 0 SRS.WGS84 ⟨0, 0, 10, 4⟩ 0 0).shared.numTilesBaseY = 1 :=
  (derived_counts refEnv 0 SRS.WGS84 ⟨0, 0, 10, 4⟩ ⟨0, 0, 10, 4⟩ 0 0 refEnv_valid_WGS84
    (Or.inl rfl) (by simp [Box.valid])).1 (by simp [Box.valid])
    (by norm_num [Box.width]) (by norm_num [Box.height])
    (by norm_num [Box.width, Box.height]) (by norm_num [Box.width, Box.height])

/-! ## Invalid profiles (C6) -/

theorem new_not_valid (env : Env) (addr : Nat) : valid env (new addr) = false := by
  simp [valid, new, Data.empty, GeoExtent.valid, GeoExtent.INVALID, GeoExtent.width]

/-- C6, as stated, fails: a name that is not a well-known name but holds
"+proj=longlat" is passed to the reference-system constructor, and the
resulting profile is valid when that reference system is. -/
theorem fromName_longlat_valid :
    ciEquals "+proj=longlat +R=1737400" "plate-carree" = false ∧
      ciEquals "+proj=longlat +R=1737400" "plate-carre" = false ∧
      ciEquals "+proj=longlat +R=1737400" "eqc-wgs84" = false ∧
      ciEquals "+proj=longlat +R=1737400" "global-geodetic" = false ∧
      ciEquals "+proj=longlat +R=1737400" "spherical-mercator" = false ∧
      ciEquals "+proj=longlat +R=1737400" "moon" = false ∧
      valid refEnv (fromName refEnv 0 "+proj=longlat +R=1737400") = true := by
  have h1 : ciEquals "+proj=longlat +R=1737400" "plate-carree" = false := by decide
  have h2 : ciEquals "+proj=longlat +R=1737400" "plate-carre" = false := by decide
  have h3 : ciEquals "+proj=longlat +R=1737400" "eqc-wgs84" = false := by decide
  have h4 : ciEquals "+proj=longlat +R=1737400" "global-geodetic" = false := by decide
  have h5 : ciEquals "+proj=longlat +R=1737400" "spherical-mercator" = false := by decide
  have h6 : ciEquals "+proj=longlat +R=1737400" "moon" = false := by decide
  have h7 : containsSub "+proj=longlat".data "+proj=longlat +R=1737400".data = true := by
    decide
  have hv : refEnv.srsValid ⟨"+proj=longlat +R=1737400"⟩ = true := by decide
  refine ⟨h1, h2, h3, h4, h5, h6, ?_⟩
  have he := setup_extent refEnv (new 0) ⟨"+proj=longlat +R=1737400"⟩ ⟨-180, -90, 180, 90⟩
    2 1 hv
  simp only [fromName, setupName, h1, h2, h3, h4, h5, h6, h7, Bool.or_self, if_true,
    Bool.false_eq_true, if_false, valid, he, GeoExtent.valid]
  simp [GeoExtent.ofBox, Box.valid, GeoExtent.width, GeoExtent.height, hv]

/-- C6, amended: constructing a Profile from an invalid reference system
(whatever the bounds and base tile counts) yields a Profile for which
`valid()` is false; the same holds for a Profile constructed from a name that
is none of the recognised well-known names (compared without regard to case)
and does not contain "+proj=longlat". -/
theorem invalid_construction (env : Env) (addr : Nat) :
    (∀ (srs : SRS) (bounds : Box) (w h : Nat), env.srsValid srs = false →
        valid env (fromSRS env addr srs bounds w h) = false) ∧
      (∀ name : String, ciEquals name "plate-carree" = false →
        ciEquals name "plate-carre" = false → ciEquals name "eqc-wgs84" = false →
        ciEquals name "global-geodetic" = false →
        ciEquals name "spherical-mercator" = false → ciEquals name "moon" = false →
        containsSub "+proj=longlat".data name.data = false →
        valid env (fromName env addr name) = false) := by
  constructor
  · intro srs bounds w h hv
    rw [fromSRS, setup_of_invalid _ _ _ _ _ _ hv]
    exact new_not_valid env addr
  · intro name h1 h2 h3 h4 h5 h6 h7
    simp only [fromName, setupName, h1, h2, h3, h4, h5, h6, h7, Bool.or_self,
      Bool.false_eq_true, if_false]
    exact new_not_valid env addr

theorem invalid_construction_witness :
    valid refEnv (fromSRS refEnv 0 ⟨""⟩ ⟨-180, -90, 180, 90⟩ 2 1) = false ∧
      valid refEnv (fromName refEnv 0 "no-such-profile") = false :=
  ⟨(invalid_construction refEnv 0).1 ⟨""⟩ ⟨-180, -90, 180, 90⟩ 2 1 (by decide),
    (invalid_construction refEnv 0).2 "no-such-profile" (by decide) (by decide) (by decide)
      (by decide) (by decide) (by decide) (by decide)⟩

/-! ## Equivalence (C7, C8) -/

theorem global_geodetic_valid (env : Env) (addr : Nat) (hv : env.srsValid SRS.WGS84 = true) :
    valid env (fromName env addr "global-geodetic") = true := by
  obtain ⟨he, -, -, -⟩ := global_geodetic_shared env addr hv
  simp only [valid, he, GeoExtent.valid, hv, GeoExtent.width, GeoExtent.height]
  norm_num

theorem refEnv_srsEquivalentTo_refl (s : SRS) (h : refEnv.srsValid s = true) :
    refEnv.srsEquivalentTo s s = true := by
  simp only [refEnv] at h ⊢
  rw [h]
  simp

/-- C7: `equivalentTo` is false whenever either profile is invalid (so an
invalid profile is not equivalent even to itself); and for two valid profiles
`p` and `q`, `p.equivalentTo(q)` holds exactly when they share the same
non-empty well-known name, or they have identical base tile counts, identical
extents and equivalent reference systems. Two handles with the same payload
address hold the same payload, and a valid reference system is equivalent to
itself. -/
theorem equivalentTo_iff (env : Env) (p q : Profile)
    (hheap : p.addr = q.addr → p.shared = q.shared)
    (hrefl : ∀ s : SRS, env.srsValid s = true → env.srsEquivalentTo s s = true) :
    ((valid env p = false ∨ valid env q = false) → equivalentTo env p q = false) ∧
      (valid env p = false → equivalentTo env p p = false) ∧
      (valid env p = true → valid env q = true →
        (equivalentTo env p q = true ↔
          (p.wellKnownName ≠ "" ∧ p.wellKnownName = q.wellKnownName) ∨
            (p.shared.numTilesBaseX = q.shared.numTilesBaseX ∧
              p.shared.numTilesBaseY = q.shared.numTilesBaseY ∧
              p.extent = q.extent ∧
              env.srsEquivalentTo p.srs q.srs = true))) := by
  refine ⟨?_, ?_, ?_⟩
  · rintro (h | h) <;> simp [equivalentTo, h]
  · intro h
    simp [equivalentTo, h]
  · intro hp hq
    have hsrs : env.srsValid p.shared.extent.srs = true := by
      simp only [valid, GeoExtent.valid, Bool.and_eq_true] at hp
      exact hp.1.1
    simp only [equivalentTo, hp, hq, Bool.not_true, Bool.or_self, Bool.false_eq_true,
      if_false, Profile.wellKnownName, Profile.extent, Profile.srs]
    by_cases ha : p.addr = q.addr
    · have hs := hheap ha
      simp only [ha, if_true, true_iff]
      right
      rw [← hs]
      exact ⟨rfl, rfl, rfl, hrefl _ hsrs⟩
    · simp only [ha, if_false]
      by_cases hn : p.shared.wellKnownName ≠ "" ∧
          p.shared.wellKnownName = q.shared.wellKnownName
      · rw [if_pos hn]
        exact iff_of_true rfl (Or.inl hn)
      · rw [if_neg hn]
        by_cases hy : p.shared.numTilesBaseY = q.shared.numTilesBaseY
        · rw [if_neg (not_not.mpr hy)]
          by_cases hx : p.shared.numTilesBaseX = q.shared.numTilesBaseX
          · rw [if_neg (not_not.mpr hx)]
            by_cases he : p.shared.extent = q.shared.extent
            · rw [if_neg (not_not.mpr he)]
              constructor
              · intro h
                exact Or.inr ⟨hx, hy, he, h⟩
              · rintro (h | h)
                · exact absurd h hn
                · exact h.2.2.2
            · rw [if_pos he]
              constructor
              · intro h
                exact absurd h (by decide)
              · rintro (h | h)
                · exact absurd h hn
                · exact absurd h.2.2.1 he
          · rw [if_pos hx]
            constructor
            · intro h
              exact absurd h (by decide)
            · rintro (h | h)
              · exact absurd h hn
              · exact absurd h.1 hx
        · rw [if_pos hy]
          constructor
          · intro h
            exact absurd h (by decide)
          · rintro (h | h)
            · exact absurd h hn
            · exact absurd h.2.1 hy

theorem equivalentTo_iff_witness :
    equivalentTo refEnv (fromName refEnv 0 "global-geodetic")
      (fromName refEnv 5 "global-geodetic") = true :=
  ((equivalentTo_iff refEnv (fromName refEnv 0 "global-geodetic")
      (fromName refEnv 5 "global-geodetic")
      (fun h => absurd h (by
        rw [fromName_global_geodetic, fromName_global_geodetic, setup_addr, setup_addr]
        decide))
      refEnv_srsEquivalentTo_refl).2.2
    (global_geodetic_valid refEnv 0 refEnv_valid_WGS84)
    (global_geodetic_valid refEnv 5 refEnv_valid_WGS84)).mpr
    (Or.inl (by
      have h0 := (global_geodetic_shared refEnv 0 refEnv_valid_WGS84).2.2.2
      have h5 := (global_geodetic_shared refEnv 5 refEnv_valid_WGS84).2.2.2
      simp only [Profile.wellKnownName, h0, h5]
      decide))

/-- C8: horizontal equivalence relaxes equivalence. For all profiles `p` and
`q`, `p.equivalentTo(q)` implies `p.horizontallyEquivalentTo(q)`; and for
valid `p` and `q` that are not equivalent, `p.horizontallyEquivalentTo(q)`
holds exactly when their reference systems are horizontally equivalent,
whatever the tile counts and extents. -/
theorem horizontallyEquivalentTo_relaxes (env : Env) (p q : Profile) :
    (equivalentTo env p q = true → horizontallyEquivalentTo env p q = true) ∧
      (valid env p = true → valid env q = true → equivalentTo env p q = false →
        (horizontallyEquivalentTo env p q = true ↔
          env.srsHorizontallyEquivalentTo p.srs q.srs = true)) := by
  constructor
  · intro h
    simp [horizontallyEquivalentTo, h]
  · intro hp hq hne
    simp [horizontallyEquivalentTo, hne, hp, hq, Profile.srs]

theorem horizontallyEquivalentTo_relaxes_witness :
    horizontallyEquivalentTo refEnv (fromName refEnv 0 "global-geodetic")
      (fromSRS refEnv 3 SRS.WGS84 ⟨-180, -90, 180, 90⟩ 4 2) = true := by
  have hq := setup_counts_given refEnv (new 3) SRS.WGS84 ⟨-180, -90, 180, 90⟩ 4 2
    refEnv_valid_WGS84 (by decide) (by decide)
  have hqe := setup_extent refEnv (new 3) SRS.WGS84 ⟨-180, -90, 180, 90⟩ 4 2
    refEnv_valid_WGS84
  have hqn := setup_wellKnownName refEnv (new 3) SRS.WGS84 ⟨-180, -90, 180, 90⟩ 4 2
  have hqa := setup_addr refEnv (new 3) SRS.WGS84 ⟨-180, -90, 180, 90⟩ 4 2
  have hb : Box.valid ⟨-180, -90, 180, 90⟩ = true := by simp [Box.valid]
  rw [hb] at hqe
  obtain ⟨he, hx, hy, hn⟩ := global_geodetic_shared refEnv 0 refEnv_valid_WGS84
  have hpv := global_geodetic_valid refEnv 0 refEnv_valid_WGS84
  have hqv : valid refEnv (fromSRS refEnv 3 SRS.WGS84 ⟨-180, -90, 180, 90⟩ 4 2) = true := by
    simp only [valid, fromSRS, hqe, GeoExtent.valid, GeoExtent.ofBox, refEnv_valid_WGS84,
      GeoExtent.width, GeoExtent.height]
    norm_num
  have hne : equivalentTo refEnv (fromName refEnv 0 "global-geodetic")
      (fromSRS refEnv 3 SRS.WGS84 ⟨-180, -90, 180, 90⟩ 4 2) = false := by
    have ha : (fromName refEnv 0 "global-geodetic").addr ≠
        (fromSRS refEnv 3 SRS.WGS84 ⟨-180, -90, 180, 90⟩ 4 2).addr := by
      rw [fromName_global_geodetic, fromSRS, setup_addr, setup_addr]
      decide
    have hnn : ¬ ((fromName refEnv 0 "global-geodetic").shared.wellKnownName ≠ "" ∧
        (fromName refEnv 0 "global-geodetic").shared.wellKnownName =
          (fromSRS refEnv 3 SRS.WGS84 ⟨-180, -90, 180, 90⟩ 4 2).shared.wellKnownName) := by
      rw [hn, fromSRS, hqn]
      decide
    have hyy : (fromName refEnv 0 "global-geodetic").shared.numTilesBaseY ≠
        (fromSRS refEnv 3 SRS.WGS84 ⟨-180, -90, 180, 90⟩ 4 2).shared.numTilesBaseY := by
      rw [hy, fromSRS, hq.2]
      decide
    simp only [equivalentTo, hpv, hqv, Bool.not_true, Bool.or_self, Bool.false_eq_true,
      if_false, if_neg ha, if_neg hnn, if_pos hyy]
  exact ((horizontallyEquivalentTo_relaxes refEnv _ _).2 hpv hqv hne).mpr (by
    simp only [Profile.srs, he, fromSRS, hqe, GeoExtent.ofBox]
    decide)

/-! ## The descriptor round trip (C9) -/

theorem valid_iff_box (env : Env) (srs : SRS) (b : Box) :
    GeoExtent.valid env (GeoExtent.ofBox srs b) = (env.srsValid srs && b.valid) := by
  simp only [GeoExtent.valid, GeoExtent.ofBox, GeoExtent.width, GeoExtent.height, Box.valid,
    sub_nonneg, Bool.and_assoc]

theorem toUnsigned_lt (i : Int) : toUnsigned i < 2 ^ 32 := by
  unfold toUnsigned
  have h1 : 0 ≤ i % 2 ^ 32 := Int.emod_nonneg _ (by norm_num)
  have h2 : i % 2 ^ 32 < 2 ^ 32 := Int.emod_lt_of_pos _ (by norm_num)
  omega

theorem setup_counts_lt (env : Env) (self : Profile) (srs : SRS) (bounds : Box) (w h : Nat)
    (hv : env.srsValid srs = true) (hw : w < 2 ^ 32) (hh : h < 2 ^ 32) :
    (setup env self srs bounds w h).shared.numTilesBaseX < 2 ^ 32 ∧
      (setup env self srs bounds w h).shared.numTilesBaseY < 2 ^ 32 := by
  by_cases hz : w = 0 ∨ h = 0
  · have hc := setup_counts_derived env self srs bounds w h hv hz
    generalize (if bounds.valid then bounds else env.srsBounds srs) = b at hc
    have hx := congrArg Prod.fst hc
    have hy := congrArg Prod.snd hc
    simp only at hx hy
    rw [hx, hy]
    by_cases hbv : b.valid = true
    · rw [if_pos hbv]
      by_cases har : 1 ≤ b.width / b.height
      · rw [if_pos har]
        exact ⟨toUnsigned_lt _, by norm_num⟩
      · rw [if_neg har]
        exact ⟨by norm_num, toUnsigned_lt _⟩
    · rw [if_neg hbv]
      exact ⟨by norm_num, by norm_num⟩
  · push_neg at hz
    have hc := setup_counts_given env self srs bounds w h hv hz.1 hz.2
    rw [hc.1, hc.2]
    exact ⟨hw, hh⟩

/-- Feeding the counts `setup` stored back into `setup`, with the same
reference system and the bounds in effect, stores the same counts. -/
theorem setup_counts_again (env : Env) (self self2 : Profile) (srs : SRS) (bounds b : Box)
    (w h : Nat) (hv : env.srsValid srs = true)
    (hb : b = if bounds.valid then bounds else env.srsBounds srs) (hbv : b.valid = true) :
    (setup env self2 srs b (setup env self srs bounds w h).shared.numTilesBaseX
        (setup env self srs bounds w h).shared.numTilesBaseY).shared.numTilesBaseX =
      (setup env self srs bounds w h).shared.numTilesBaseX ∧
    (setup env self2 srs b (setup env self srs bounds w h).shared.numTilesBaseX
        (setup env self srs bounds w h).shared.numTilesBaseY).shared.numTilesBaseY =
      (setup env self srs bounds w h).shared.numTilesBaseY := by
  have hbb : (if b.valid then b else env.srsBounds srs) = b := by simp [hbv]
  by_cases hz : w = 0 ∨ h = 0
  · have hc := setup_counts_derived env self srs bounds w h hv hz
    rw [← hb] at hc
    by_cases hz2 : (setup env self srs bounds w h).shared.numTilesBaseX = 0 ∨
        (setup env self srs bounds w h).shared.numTilesBaseY = 0
    · have hc2 := setup_counts_derived env self2 srs b _ _ hv hz2
      rw [hbb, ← hc] at hc2
      exact ⟨congrArg Prod.fst hc2, congrArg Prod.snd hc2⟩
    · push_neg at hz2
      exact setup_counts_given env self2 srs b _ _ hv hz2.1 hz2.2
  · push_neg at hz
    have hc := setup_counts_given env self srs bounds w h hv hz.1 hz.2
    rw [hc.1, hc.2]
    exact setup_counts_given env self2 srs b w h hv hz.1 hz.2

theorem equivalentTo_of_name (env : Env) (p q : Profile) (hp : valid env p = true)
    (hq : valid env q = true) (hn : p.shared.wellKnownName ≠ "")
    (he : p.shared.wellKnownName = q.shared.wellKnownName) : equivalentTo env p q = true := by
  simp only [equivalentTo, hp, hq, Bool.not_true, Bool.or_self, Bool.false_eq_true, if_false]
  split
  · rfl
  · rw [if_pos ⟨hn, he⟩]

theorem equivalentTo_of_fields (env : Env) (p q : Profile) (hp : valid env p = true)
    (hq : valid env q = true) (hx : p.shared.numTilesBaseX = q.shared.numTilesBaseX)
    (hy : p.shared.numTilesBaseY = q.shared.numTilesBaseY)
    (he : p.shared.extent = q.shared.extent)
    (hs : env.srsEquivalentTo p.shared.extent.srs q.shared.extent.srs = true) :
    equivalentTo env p q = true := by
  simp only [equivalentTo, hp, hq, Bool.not_true, Bool.or_self, Bool.false_eq_true, if_false]
  split
  · rfl
  · split
    · rfl
    · rw [if_neg (not_not.mpr hy), if_neg (not_not.mpr hx), if_neg (not_not.mpr he), hs]

/-- The round trip for a profile that `setup` filled in and that carries no
well-known name. -/
theorem round_trip_setup (env : Env)
    (hrefl : ∀ s : SRS, env.srsValid s = true → env.srsEquivalentTo s s = true)
    (self : Profile) (srs : SRS) (bounds : Box) (w h : Nat) (hw : w < 2 ^ 32)
    (hh : h < 2 ^ 32) (hv : env.srsValid srs = true)
    (hname : self.shared.wellKnownName = "")
    (hp : valid env (setup env self srs bounds w h) = true) (addr : Nat) (obj : Profile) :
    equivalentTo env (setup env self srs bounds w h)
      (from_json env addr (to_json env (setup env self srs bounds w h)) obj) = true := by
  have he := setup_extent env self srs bounds w h hv
  have hn := setup_wellKnownName env self srs bounds w h
  have hlt := setup_counts_lt env self srs bounds w h hv hw hh
  have hpe : GeoExtent.valid env (setup env self srs bounds w h).shared.extent = true := hp
  have hbv : (if bounds.valid then bounds else env.srsBounds srs).valid = true := by
    rw [he, valid_iff_box, hv] at hpe
    simpa using hpe
  have hs0 : shl1 env 0 = 1 := by simp [shl1]
  have hj : to_json env (setup env self srs bounds w h) =
      Json.obj (some (setup env self srs bounds w h).shared.extent)
        (some (setup env self srs bounds w h).shared.numTilesBaseX)
        (some (setup env self srs bounds w h).shared.numTilesBaseY) := by
    simp only [to_json, hp, if_true, Profile.wellKnownName, hn, hname, ne_eq,
      not_true_eq_false, if_false, numTiles, hs0, mul_one, Nat.mod_eq_of_lt hlt.1,
      Nat.mod_eq_of_lt hlt.2, Profile.extent]
  have hq : from_json env addr (to_json env (setup env self srs bounds w h)) obj =
      setup env (new addr) srs (if bounds.valid then bounds else env.srsBounds srs)
        (setup env self srs bounds w h).shared.numTilesBaseX
        (setup env self srs bounds w h).shared.numTilesBaseY := by
    rw [hj]
    simp only [from_json, Option.getD_some, hpe, if_true, fromSRS]
    rw [he]
    rfl
  rw [hq]
  have hqe := setup_extent env (new addr) srs
    (if bounds.valid then bounds else env.srsBounds srs)
    (setup env self srs bounds w h).shared.numTilesBaseX
    (setup env self srs bounds w h).shared.numTilesBaseY hv
  rw [hbv, if_pos rfl] at hqe
  have hcount := setup_counts_again env self (new addr) srs bounds _ w h hv rfl hbv
  have hqv : valid env (setup env (new addr) srs
      (if bounds.valid then bounds else env.srsBounds srs)
      (setup env self srs bounds w h).shared.numTilesBaseX
      (setup env self srs bounds w h).shared.numTilesBaseY) = true := by
    simp only [valid, hqe, ← he]
    exact hpe
  refine equivalentTo_of_fields env _ _ hp hqv hcount.1.symm hcount.2.symm ?_ ?_
  · rw [hqe, he]
  · rw [hqe, he]
    exact hrefl srs hv

theorem setName_not_valid (env : Env) (addr : Nat) (name : String) :
    valid env (setName (new addr) name) = false := by
  simp [valid, setName, new, Data.empty, GeoExtent.valid, GeoExtent.INVALID, GeoExtent.width]

/-- The round trip for a profile made from a well-known name. -/
theorem round_trip_named (env : Env) (a addr : Nat) (name : String) (S : SRS) (B : Box)
    (w h : Nat) (obj : Profile) (hname : name ≠ "")
    (hbranch : ∀ x : Nat, fromName env x name = setup env (setName (new x) name) S B w h)
    (hp : valid env (fromName env a name) = true) :
    equivalentTo env (fromName env a name)
      (from_json env addr (to_json env (fromName env a name)) obj) = true := by
  have hv : env.srsValid S = true := by
    by_contra hc
    rw [Bool.not_eq_true] at hc
    rw [hbranch a, setup_of_invalid _ _ _ _ _ _ hc, setName_not_valid] at hp
    exact absurd hp (by decide)
  have hn : (fromName env a name).shared.wellKnownName = name := by
    rw [hbranch a, setup_wellKnownName]
    rfl
  have hn2 : (fromName env addr name).shared.wellKnownName = name := by
    rw [hbranch addr, setup_wellKnownName]
    rfl
  have hj : to_json env (fromName env a name) = Json.str name := by
    simp only [to_json, hp, if_true, Profile.wellKnownName, hn, ne_eq, hname,
      not_false_eq_true]
  have hq : valid env (fromName env addr name) = true := by
    have h1 : (fromName env addr name).shared.extent = (fromName env a name).shared.extent := by
      rw [hbranch addr, hbranch a, setup_extent _ _ _ _ _ _ hv, setup_extent _ _ _ _ _ _ hv]
    simp only [valid, h1]
    exact hp
  rw [hj]
  simp only [from_json]
  exact equivalentTo_of_name env _ _ hp hq (by rw [hn]; exact hname) (by rw [hn, hn2])

/-- C9: descriptor round trip. For every valid profile `p` made by one of the
constructors, `from_json` applied to the descriptor `to_json(p)` (the
well-known name when `p` has one, otherwise an object holding extent, tx and
ty) yields a profile `q` with `p.equivalentTo(q)`; the reference-system
equivalence is taken to hold between a valid system and itself. -/
theorem descriptor_round_trip (env : Env)
    (hrefl : ∀ s : SRS, env.srsValid s = true → env.srsEquivalentTo s s = true)
    (addr : Nat) (obj : Profile) :
    (∀ (a : Nat) (name : String), valid env (fromName env a name) = true →
        equivalentTo env (fromName env a name)
          (from_json env addr (to_json env (fromName env a name)) obj) = true) ∧
      (∀ (a : Nat) (srs : SRS) (bounds : Box) (w h : Nat), w < 2 ^ 32 → h < 2 ^ 32 →
        valid env (fromSRS env a srs bounds w h) = true →
        equivalentTo env (fromSRS env a srs bounds w h)
          (from_json env addr (to_json env (fromSRS env a srs bounds w h)) obj) = true) := by
  have hsetup : ∀ (a : Nat) (srs : SRS) (bounds : Box) (w h : Nat), w < 2 ^ 32 →
      h < 2 ^ 32 → valid env (setup env (new a) srs bounds w h) = true →
      equivalentTo env (setup env (new a) srs bounds w h)
        (from_json env addr (to_json env (setup env (new a) srs bounds w h)) obj) = true := by
    intro a srs bounds w h hw hh hp
    have hv : env.srsValid srs = true := by
      by_contra hc
      rw [Bool.not_eq_true] at hc
      rw [setup_of_invalid _ _ _ _ _ _ hc, new_not_valid] at hp
      exact absurd hp (by decide)
    exact round_trip_setup env hrefl (new a) srs bounds w h hw hh hv rfl hp addr obj
  constructor
  · intro a name hp
    by_cases c1 : (ciEquals name "plate-carree" || ciEquals name "plate-carre" ||
        ciEquals name "eqc-wgs84") = true
    · refine round_trip_named env a addr name SRS.PLATE_CARREE
        ⟨-((env.transformPoint SRS.WGS84 SRS.PLATE_CARREE (180, 90, 0)).getD (0, 0, 0)).1,
          -((env.transformPoint SRS.WGS84 SRS.PLATE_CARREE (180, 90, 0)).getD (0, 0, 0)).2.1,
          ((env.transformPoint SRS.WGS84 SRS.PLATE_CARREE (180, 90, 0)).getD (0, 0, 0)).1,
          ((env.transformPoint SRS.WGS84 SRS.PLATE_CARREE (180, 90, 0)).getD (0, 0, 0)).2.1⟩
        2 1 obj ?_ (fun x => by simp only [fromName, setupName, c1, if_true]) hp
      intro h0
      rw [h0] at c1
      exact absurd c1 (by decide)
    · by_cases c2 : ciEquals name "global-geodetic" = true
      · refine round_trip_named env a addr name SRS.WGS84 ⟨-180, -90, 180, 90⟩ 2 1 obj ?_
          (fun x => by simp only [fromName, setupName, c1, c2, if_true, if_false, Bool.false_eq_true]) hp
        intro h0
        rw [h0] at c2
        exact absurd c2 (by decide)
      · by_cases c3 : ciEquals name "spherical-mercator" = true
        · refine round_trip_named env a addr name SRS.SPHERICAL_MERCATOR
            ⟨-2003750834278925 / 100000000, -2003750834278925 / 100000000,
              2003750834278925 / 100000000, 2003750834278925 / 100000000⟩ 1 1 obj ?_
            (fun x => by simp only [fromName, setupName, c1, c2, c3, if_true, if_false, Bool.false_eq_true]) hp
          intro h0
          rw [h0] at c3
          exact absurd c3 (by decide)
        · by_cases c4 : ciEquals name "moon" = true
          · refine round_trip_named env a addr name ⟨"moon"⟩ ⟨-180, -90, 180, 90⟩ 2 1 obj ?_
              (fun x => by
                simp only [fromName, setupName, c1, c2, c3, c4, if_true, if_false, Bool.false_eq_true]) hp
            intro h0
            rw [h0] at c4
            exact absurd c4 (by decide)
          · by_cases c5 : containsSub "+proj=longlat".data name.data = true
            · have hb : fromName env a name =
                  setup env (new a) ⟨name⟩ ⟨-180, -90, 180, 90⟩ 2 1 := by
                simp only [fromName, setupName, c1, c2, c3, c4, c5, if_true, if_false, Bool.false_eq_true]
              rw [hb] at hp ⊢
              exact hsetup a _ _ 2 1 (by norm_num) (by norm_num) hp
            · have hb : fromName env a name = new a := by
                simp only [fromName, setupName, c1, c2, c3, c4, c5, if_false, Bool.false_eq_true]
              rw [hb, new_not_valid] at hp
              exact absurd hp (by decide)
  · intro a srs bounds w h hw hh hp
    exact hsetup a srs bounds w h hw hh hp

theorem descriptor_round_trip_witness :
    equivalentTo refEnv (fromName refEnv 0 "global-geodetic")
        (from_json refEnv 7 (to_json refEnv (fromName refEnv 0 "global-geodetic")) (new 9)) =
          true ∧
      equivalentTo refEnv (fromSRS refEnv 0 SRS.WGS84 ⟨0, 0, 10, 4⟩ 0 0)
        (from_json refEnv 7 (to_json refEnv (fromSRS refEnv 0 SRS.WGS84 ⟨0, 0, 10, 4⟩ 0 0))
          (new 9)) = true :=
  ⟨(descriptor_round_trip refEnv refEnv_srsEquivalentTo_refl 7 (new 9)).1 0 "global-geodetic"
      (global_geodetic_valid refEnv 0 refEnv_valid_WGS84),
    (descriptor_round_trip refEnv refEnv_srsEquivalentTo_refl 7 (new 9)).2 0 SRS.WGS84
      ⟨0, 0, 10, 4⟩ 0 0 (by norm_num) (by norm_num) (by
        have he := setup_extent refEnv (new 0) SRS.WGS84 ⟨0, 0, 10, 4⟩ 0 0 refEnv_valid_WGS84
        simp only [valid, fromSRS, he, valid_iff_box, refEnv_valid_WGS84]
        simp [Box.valid])⟩

/-! ## Level matching across the geodetic / Mercator pair (C10) -/

theorem global_geodetic_name (env : Env) (addr : Nat) :
    (fromName env addr "global-geodetic").shared.wellKnownName = "global-geodetic" := by
  rw [fromName_global_geodetic, setup_wellKnownName]
  rfl

theorem spherical_mercator_name (env : Env) (addr : Nat) :
    (fromName env addr "spherical-mercator").shared.wellKnownName = "spherical-mercator" := by
  rw [fromName_spherical_mercator, setup_wellKnownName]
  rfl

theorem spherical_mercator_valid (env : Env) (addr : Nat)
    (hv : env.srsValid SRS.SPHERICAL_MERCATOR = true) :
    valid env (fromName env addr "spherical-mercator") = true := by
  have hb : Box.valid ⟨-2003750834278925 / 100000000, -2003750834278925 / 100000000,
      2003750834278925 / 100000000, 2003750834278925 / 100000000⟩ = true := by
    simp only [Box.valid, Bool.and_eq_true, decide_eq_true_eq]
    norm_num
  rw [fromName_spherical_mercator]
  simp only [valid, setup_extent _ _ _ _ _ _ hv, valid_iff_box, hv, hb, if_true,
    Bool.and_self]

theorem horizontallyEquivalentTo_of_name (env : Env) (p q : Profile)
    (hp : valid env p = true) (hq : valid env q = true) (hn : p.shared.wellKnownName ≠ "")
    (he : p.shared.wellKnownName = q.shared.wellKnownName) :
    horizontallyEquivalentTo env p q = true := by
  simp [horizontallyEquivalentTo, equivalentTo_of_name env p q hp hq hn he]

/-- C10: across the global-geodetic / spherical-mercator pair `equivalentLOD`
is a 1:1 level match. For every level `L` (so for every `L` in [0,20]),
`Profile("global-geodetic").equivalentLOD(Profile("spherical-mercator"), L)`
is `L` and `Profile("spherical-mercator").equivalentLOD(
Profile("global-geodetic"), L)` is `L`; the result does not depend on the fuel
of the search loop and is already there with no fuel at all, so the loop is
not entered. The two reference systems are taken to be valid. -/
theorem equivalentLOD_geodetic_mercator (env : Env)
    (hg : env.srsValid SRS.WGS84 = true) (hm : env.srsValid SRS.SPHERICAL_MERCATOR = true)
    (a b fuel L : Nat) :
    equivalentLOD env fuel (fromName env a "global-geodetic")
        (fromName env b "spherical-mercator") L = some L ∧
      equivalentLOD env fuel (fromName env b "spherical-mercator")
        (fromName env a "global-geodetic") L = some L ∧
      equivalentLOD env 0 (fromName env a "global-geodetic")
        (fromName env b "spherical-mercator") L = some L ∧
      equivalentLOD env 0 (fromName env b "spherical-mercator")
        (fromName env a "global-geodetic") L = some L := by
  have hgg : ∀ x y : Nat, horizontallyEquivalentTo env (fromName env x "global-geodetic")
      (fromName env y "global-geodetic") = true := fun x y =>
    horizontallyEquivalentTo_of_name env _ _ (global_geodetic_valid env x hg)
      (global_geodetic_valid env y hg) (by rw [global_geodetic_name]; decide)
      (by rw [global_geodetic_name, global_geodetic_name])
  have hsm : ∀ x y : Nat, horizontallyEquivalentTo env (fromName env x "spherical-mercator")
      (fromName env y "spherical-mercator") = true := fun x y =>
    horizontallyEquivalentTo_of_name env _ _ (spherical_mercator_valid env x hm)
      (spherical_mercator_valid env y hm) (by rw [spherical_mercator_name]; decide)
      (by rw [spherical_mercator_name, spherical_mercator_name])
  have key1 : ∀ f : Nat, equivalentLOD env f (fromName env a "global-geodetic")
      (fromName env b "spherical-mercator") L = some L := by
    intro f
    simp only [equivalentLOD, spherical_mercator_valid env b hm, Bool.not_true,
      Bool.false_eq_true, if_false, hgg, hsm, Bool.and_self, if_true]
    split <;> rfl
  have key2 : ∀ f : Nat, equivalentLOD env f (fromName env b "spherical-mercator")
      (fromName env a "global-geodetic") L = some L := by
    intro f
    simp only [equivalentLOD, global_geodetic_valid env a hg, Bool.not_true,
      Bool.false_eq_true, if_false, hgg, hsm, Bool.and_self, if_true]
    split
    · rfl
    · split <;> rfl
  exact ⟨key1 fuel, key2 fuel, key1 0, key2 0⟩

theorem equivalentLOD_geodetic_mercator_witness :
    equivalentLOD refEnv 0 (fromName refEnv 3 "global-geodetic")
        (fromName refEnv 4 "spherical-mercator") 20 = some 20 ∧
      equivalentLOD refEnv 0 (fromName refEnv 4 "spherical-mercator")
        (fromName refEnv 3 "global-geodetic") 20 = some 20 :=
  (equivalentLOD_geodetic_mercator refEnv refEnv_valid_WGS84 refEnv_valid_SPHERICAL_MERCATOR
    3 4 0 20).2.2

/-! ## Short circuits of the level matching (C11) -/

theorem equivalentTo_symm (env : Env)
    (hs : ∀ a b : SRS, env.srsEquivalentTo a b = env.srsEquivalentTo b a) (p q : Profile)
    (h : equivalentTo env q p = true) : equivalentTo env p q = true := by
  unfold equivalentTo at h ⊢
  by_cases hv : (!valid env q || !valid env p) = true
  · rw [if_pos hv] at h
    exact absurd h (by decide)
  · rw [if_neg hv] at h
    have hv2 : ¬ (!valid env p || !valid env q) = true := by
      rw [Bool.or_comm]
      exact hv
    rw [if_neg hv2]
    by_cases ha : q.addr = p.addr
    · rw [if_pos ha.symm]
    · rw [if_neg ha] at h
      rw [if_neg (fun h2 => ha h2.symm)]
      by_cases hn : q.shared.wellKnownName ≠ "" ∧
          q.shared.wellKnownName = p.shared.wellKnownName
      · rw [if_pos ⟨by rw [← hn.2]; exact hn.1, hn.2.symm⟩]
      · rw [if_neg hn] at h
        rw [if_neg (fun h2 => hn ⟨by rw [← h2.2]; exact h2.1, h2.2.symm⟩)]
        by_cases hy : q.shared.numTilesBaseY ≠ p.shared.numTilesBaseY
        · rw [if_pos hy] at h
          exact absurd h (by decide)
        · rw [if_neg hy] at h
          rw [if_neg (fun h2 => hy (Ne.symm h2))]
          by_cases hx : q.shared.numTilesBaseX ≠ p.shared.numTilesBaseX
          · rw [if_pos hx] at h
            exact absurd h (by decide)
          · rw [if_neg hx] at h
            rw [if_neg (fun h2 => hx (Ne.symm h2))]
            by_cases he : q.shared.extent ≠ p.shared.extent
            · rw [if_pos he] at h
              exact absurd h (by decide)
            · rw [if_neg he] at h
              rw [if_neg (fun h2 => he (Ne.symm h2)), hs]
              exact h

theorem horizontallyEquivalentTo_symm (env : Env)
    (hs : ∀ a b : SRS, env.srsEquivalentTo a b = env.srsEquivalentTo b a)
    (hh : ∀ a b : SRS,
      env.srsHorizontallyEquivalentTo a b = env.srsHorizontallyEquivalentTo b a)
    (p q : Profile) (h : horizontallyEquivalentTo env q p = true) :
    horizontallyEquivalentTo env p q = true := by
  unfold horizontallyEquivalentTo at h ⊢
  by_cases he : equivalentTo env q p = true
  · rw [if_pos (equivalentTo_symm env hs p q he)]
  · rw [if_neg he] at h
    by_cases he2 : equivalentTo env p q = true
    · rw [if_pos he2]
    · rw [if_neg he2]
      by_cases hv : (!valid env q || !valid env p) = true
      · rw [if_pos hv] at h
        exact absurd h (by decide)
      · rw [if_neg hv] at h
        have hv2 : ¬ (!valid env p || !valid env q) = true := by
          rw [Bool.or_comm]
          exact hv
        rw [if_neg hv2, hh]
        exact h

theorem horizontallyEquivalentTo_self (env : Env) (p : Profile) (hp : valid env p = true) :
    horizontallyEquivalentTo env p p = true := by
  simp [horizontallyEquivalentTo, equivalentTo, hp]

theorem equivalentLOD_of_horizontallyEquivalentTo (env : Env) (fuel : Nat) (p q : Profile)
    (L : Nat) (h : horizontallyEquivalentTo env p q = true) :
    equivalentLOD env fuel p q L = some L := by
  unfold equivalentLOD
  split
  · rfl
  · simp only [h, if_true]

/-- C11: for every profile `p`, every valid profile `q` that is identical to
`p` or that `p` is horizontally equivalent to, and every level `L`,
`p.equivalentLOD(q, L)` returns `L` unchanged, whatever the fuel of the search
loop (so without entering it); when `q` is invalid it also returns `L`. The
test the code makes is `p.horizontallyEquivalentTo(q)`; with symmetric
reference-system tests the same follows from `q.horizontallyEquivalentTo(p)`. -/
theorem equivalentLOD_short_circuit (env : Env) (fuel : Nat) (p q : Profile) (L : Nat) :
    (valid env q = false → equivalentLOD env fuel p q L = some L) ∧
      (valid env q = true → p = q → equivalentLOD env fuel p q L = some L) ∧
      (valid env q = true → horizontallyEquivalentTo env p q = true →
        equivalentLOD env fuel p q L = some L) ∧
      ((∀ a b : SRS, env.srsEquivalentTo a b = env.srsEquivalentTo b a) →
        (∀ a b : SRS,
          env.srsHorizontallyEquivalentTo a b = env.srsHorizontallyEquivalentTo b a) →
        valid env q = true → horizontallyEquivalentTo env q p = true →
        equivalentLOD env fuel p q L = some L) := by
  refine ⟨?_, ?_, ?_, ?_⟩
  · intro hq
    simp [equivalentLOD, hq]
  · intro hq hpq
    subst hpq
    exact equivalentLOD_of_horizontallyEquivalentTo env fuel p p L
      (horizontallyEquivalentTo_self env p hq)
  · intro _ h
    exact equivalentLOD_of_horizontallyEquivalentTo env fuel p q L h
  · intro hs hh _ h
    exact equivalentLOD_of_horizontallyEquivalentTo env fuel p q L
      (horizontallyEquivalentTo_symm env hs hh p q h)

theorem equivalentLOD_short_circuit_witness :
    equivalentLOD refEnv 0 (fromName refEnv 0 "global-geodetic") (new 1) 7 = some 7 ∧
      equivalentLOD refEnv 0 (fromName refEnv 0 "global-geodetic")
        (fromName refEnv 0 "global-geodetic") 7 = some 7 ∧
      equivalentLOD refEnv 0 (fromName refEnv 0 "global-geodetic")
        (fromName refEnv 5 "global-geodetic") 7 = some 7 :=
  ⟨(equivalentLOD_short_circuit refEnv 0 (fromName refEnv 0 "global-geodetic") (new 1) 7).1
      (new_not_valid refEnv 1),
    (equivalentLOD_short_circuit refEnv 0 (fromName refEnv 0 "global-geodetic")
      (fromName refEnv 0 "global-geodetic") 7).2.1
      (global_geodetic_valid refEnv 0 refEnv_valid_WGS84) rfl,
    (equivalentLOD_short_circuit refEnv 0 (fromName refEnv 0 "global-geodetic")
      (fromName refEnv 5 "global-geodetic") 7).2.2.1
      (global_geodetic_valid refEnv 5 refEnv_valid_WGS84)
      (horizontallyEquivalentTo_of_name refEnv _ _
        (global_geodetic_valid refEnv 0 refEnv_valid_WGS84)
        (global_geodetic_valid refEnv 5 refEnv_valid_WGS84)
        (by rw [global_geodetic_name]; decide)
        (by rw [global_geodetic_name, global_geodetic_name]))⟩

/-! ## The greedy level search (C12) -/

/-- From a state whose next difference improves on `delta`, the loop runs on
through `n` improving steps and breaks at the first step that does not
improve, returning the level before it. -/
theorem lodSearch_run (env : Env) (p : Profile) (h : ℚ) :
    ∀ (n fuel curr dest : Nat) (delta : ℚ),
      (∀ k : Nat, k < n →
        |(tileDimensions env p (curr + k + 1)).2 - h| <
          |(tileDimensions env p (curr + k)).2 - h|) →
      |(tileDimensions env p curr).2 - h| < delta →
      ¬ (|(tileDimensions env p (curr + n + 1)).2 - h| <
          |(tileDimensions env p (curr + n)).2 - h|) →
      n + 2 ≤ fuel → lodSearch env p h fuel curr dest delta = some (curr + n) := by
  intro n
  induction n with
  | zero =>
    intro fuel curr dest delta _ h0 hstop hfuel
    obtain ⟨f, rfl⟩ : ∃ f, fuel = f + 2 := ⟨fuel - 2, by omega⟩
    simp only [Nat.add_zero] at hstop
    simp only [lodSearch, h0, if_true]
    rw [if_neg hstop]
    rfl
  | succ n ih =>
    intro fuel curr dest delta himp h0 hstop hfuel
    obtain ⟨f, rfl⟩ : ∃ f, fuel = f + 1 := ⟨fuel - 1, by omega⟩
    simp only [lodSearch, h0, if_true]
    have hstep := ih f (curr + 1) curr |(tileDimensions env p curr).2 - h|
      (fun k hk => by
        have := himp (k + 1) (by omega)
        rw [show curr + 1 + k + 1 = curr + (k + 1) + 1 by ring,
          show curr + 1 + k = curr + (k + 1) by ring]
        exact this)
      (himp 0 (by omega))
      (by
        rw [show curr + 1 + n + 1 = curr + (n + 1) + 1 by ring,
          show curr + 1 + n = curr + (n + 1) by ring]
        exact hstop)
      (by omega)
    rw [hstep]
    congr 1
    ring

/-- Whatever the loop returns from a state whose next difference improves on
`delta` is a level all of whose earlier steps improved and whose next step
does not. -/
theorem lodSearch_sound (env : Env) (p : Profile) (h : ℚ) :
    ∀ (fuel curr dest : Nat) (delta : ℚ) (r : Nat),
      lodSearch env p h fuel curr dest delta = some r →
      |(tileDimensions env p curr).2 - h| < delta →
      curr ≤ r ∧
        (∀ k : Nat, curr ≤ k → k < r →
          |(tileDimensions env p (k + 1)).2 - h| < |(tileDimensions env p k).2 - h|) ∧
        ¬ (|(tileDimensions env p (r + 1)).2 - h| < |(tileDimensions env p r).2 - h|) := by
  intro fuel
  induction fuel with
  | zero =>
    intro curr dest delta r hr _
    simp [lodSearch] at hr
  | succ f ih =>
    intro curr dest delta r hr h0
    simp only [lodSearch, h0, if_true] at hr
    by_cases h1 : |(tileDimensions env p (curr + 1)).2 - h| <
        |(tileDimensions env p curr).2 - h|
    · obtain ⟨hle, himp, hstop⟩ := ih (curr + 1) curr _ r hr h1
      refine ⟨by omega, ?_, hstop⟩
      intro k hk1 hk2
      by_cases hk : k = curr
      · rw [hk]
        exact h1
      · exact himp k (by omega) hk2
    · cases f with
      | zero => simp [lodSearch] at hr
      | succ f2 =>
        simp only [lodSearch, h1, if_false, Option.some.injEq] at hr
        subst hr
        exact ⟨le_refl _, fun k hk1 hk2 => absurd hk2 (by omega), h1⟩

theorem DBL_MAX_pos : 0 < DBL_MAX := by
  norm_num [DBL_MAX]

/-- C12, as stated, fails: the first comparison is against the sentinel
`DBL_MAX`, not against a tile height. For a profile whose level-0 tile is
`DBL_MAX` high and the target height 0 the first difference `DBL_MAX` is not
below the sentinel, so `levelOfDetail(0)` returns level 0 although the step to
level 1 improves the difference (from `DBL_MAX` to `DBL_MAX / 2`). -/
theorem levelOfDetail_sentinel :
    levelOfDetail refEnv 5 (fromSRS refEnv 0 SRS.WGS84 ⟨0, 0, 1, DBL_MAX⟩ 1 1) 0 = some 0 ∧
      |(tileDimensions refEnv (fromSRS refEnv 0 SRS.WGS84 ⟨0, 0, 1, DBL_MAX⟩ 1 1) 1).2 - 0| <
        |(tileDimensions refEnv (fromSRS refEnv 0 SRS.WGS84 ⟨0, 0, 1, DBL_MAX⟩ 1 1) 0).2 - 0| := by
  have hb : Box.valid ⟨0, 0, 1, DBL_MAX⟩ = true := by
    simp only [Box.valid, Bool.and_eq_true, decide_eq_true_eq]
    exact ⟨by norm_num, le_of_lt DBL_MAX_pos⟩
  have hc := setup_counts_given refEnv (new 0) SRS.WGS84 ⟨0, 0, 1, DBL_MAX⟩ 1 1
    refEnv_valid_WGS84 (by decide) (by decide)
  have he := setup_extent refEnv (new 0) SRS.WGS84 ⟨0, 0, 1, DBL_MAX⟩ 1 1 refEnv_valid_WGS84
  rw [hb, if_pos rfl] at he
  have h0 : (tileDimensions refEnv (fromSRS refEnv 0 SRS.WGS84 ⟨0, 0, 1, DBL_MAX⟩ 1 1) 0).2 =
      DBL_MAX := by
    simp [tileDimensions, fromSRS, he, hc.2, shl1, GeoExtent.ofBox, GeoExtent.height]
  have h1 : (tileDimensions refEnv (fromSRS refEnv 0 SRS.WGS84 ⟨0, 0, 1, DBL_MAX⟩ 1 1) 1).2 =
      DBL_MAX / 2 := by
    simp [tileDimensions, fromSRS, he, hc.2, shl1, GeoExtent.ofBox, GeoExtent.height]
  have hpos := DBL_MAX_pos
  constructor
  · simp only [levelOfDetail, lodSearch, h0, sub_zero, abs_of_pos hpos, lt_irrefl, if_false]
  · rw [h0, h1, sub_zero, sub_zero, abs_of_pos hpos, abs_of_pos (by linarith)]
    linarith

/-- C12, amended: greedy level search. For every profile and target tile
height `h` whose level-0 difference `|tileHeight(0) - h|` is below `DBL_MAX`,
`levelOfDetail(h)` starts at level 0 and returns the first level `L` such that
`|tileHeight(L+1) - h|` is not strictly smaller than `|tileHeight(L) - h|`:
once `L` is that level, every fuel of at least `L + 2` iterations gives `L`,
and whatever level is returned is that level. The same holds for the search
loop of `equivalentLOD`, which `equivalentLOD` reaches with the converted
target height when no short circuit applies. -/
theorem levelOfDetail_greedy (env : Env) (p : Profile) (h : ℚ)
    (h0 : |(tileDimensions env p 0).2 - h| < DBL_MAX) :
    (∀ L fuel : Nat,
        (∀ k : Nat, k < L →
          |(tileDimensions env p (k + 1)).2 - h| < |(tileDimensions env p k).2 - h|) →
        ¬ (|(tileDimensions env p (L + 1)).2 - h| < |(tileDimensions env p L).2 - h|) →
        L + 2 ≤ fuel →
        levelOfDetail env fuel p h = some L ∧
          lodSearch env p h fuel 0 0 DBL_MAX = some L) ∧
      (∀ L fuel : Nat, levelOfDetail env fuel p h = some L →
        (∀ k : Nat, k < L →
          |(tileDimensions env p (k + 1)).2 - h| < |(tileDimensions env p k).2 - h|) ∧
        ¬ (|(tileDimensions env p (L + 1)).2 - h| < |(tileDimensions env p L).2 - h|)) ∧
      (∀ (q : Profile) (qL fuel : Nat), valid env q = true →
        horizontallyEquivalentTo env p q = false →
        horizontallyEquivalentTo env p
          (fromName env env.addrGlobalGeodetic "global-geodetic") = false →
        horizontallyEquivalentTo env p
          (fromName env env.addrSphericalMercator "spherical-mercator") = false →
        env.equiv (tileDimensions env q qL).1 0 = false →
        env.equiv (tileDimensions env q qL).2 0 = false →
        h = env.transformUnits (tileDimensions env q qL).2 q.srs p.srs →
        equivalentLOD env fuel p q qL = lodSearch env p h fuel 0 0 DBL_MAX) := by
  refine ⟨?_, ?_, ?_⟩
  · intro L fuel himp hstop hfuel
    have hrun := lodSearch_run env p h L fuel 0 0 DBL_MAX
      (fun k hk => by simpa using himp k hk) h0 (by simpa using hstop) hfuel
    rw [Nat.zero_add] at hrun
    exact ⟨hrun, hrun⟩
  · intro L fuel hr
    obtain ⟨-, himp, hstop⟩ := lodSearch_sound env p h fuel 0 0 DBL_MAX L hr h0
    exact ⟨fun k hk => himp k (Nat.zero_le _) hk, hstop⟩
  · intro q qL fuel hq h1 h2 h3 h4 h5 hh
    simp only [equivalentLOD, hq, Bool.not_true, Bool.false_eq_true, if_false, h1, h2, h3,
      Bool.and_false, h4, h5, Bool.or_self, ← hh]

theorem levelOfDetail_greedy_witness :
    levelOfDetail refEnv 3 (fromName refEnv 0 "global-geodetic") 100 = some 1 := by
  obtain ⟨he, hx, hy, -⟩ := global_geodetic_shared refEnv 0 refEnv_valid_WGS84
  have hd : ∀ k : Nat, k < 32 →
      (tileDimensions refEnv (fromName refEnv 0 "global-geodetic") k).2 = 180 / 2 ^ k := by
    intro k hk
    rw [tileDimensions, shl1_of_lt _ _ hk, he, hy]
    simp only [GeoExtent.height]
    norm_num
  have hbig : (1000 : ℚ) < DBL_MAX := by norm_num [DBL_MAX]
  refine ((levelOfDetail_greedy refEnv (fromName refEnv 0 "global-geodetic") 100 ?_).1 1 3
    ?_ ?_ (by norm_num)).1
  · rw [hd 0 (by norm_num)]
    norm_num [abs_of_pos]
    linarith
  · intro k hk
    obtain rfl : k = 0 := by omega
    rw [hd 0 (by norm_num), hd 1 (by norm_num)]
    norm_num [abs_of_pos, abs_of_neg]
  · rw [hd 1 (by norm_num), hd 2 (by norm_num)]
    norm_num [abs_of_pos, abs_of_neg]

open GeometryPool

/-! ## The cache key (C14) -/

/-- C14: the cache key of a tile is (lod = tile level, tileY = tile row if
the profile of the tile is geodetic and 0 otherwise, size = requested tile
size). It does not depend on the column: two tile keys with the same level and
row under a geodetic profile map to the same key whatever their columns, and
under projected profiles two tiles of the same level map to the same key
whatever their rows and columns. -/
theorem createKeyForTileKey_eq (env : Env) (key : TileKey) (tileSize : Nat) :
    createKeyForTileKey env key tileSize =
        ⟨key.level, if env.srsIsGeodetic key.profile.srs then key.y else 0, tileSize⟩ ∧
      (∀ x2 : Nat, createKeyForTileKey env { key with x := x2 } tileSize =
        createKeyForTileKey env key tileSize) ∧
      (∀ key2 : TileKey, env.srsIsGeodetic key.profile.srs = true →
        env.srsIsGeodetic key2.profile.srs = true → key2.level = key.level →
        key2.y = key.y →
        createKeyForTileKey env key2 tileSize = createKeyForTileKey env key tileSize) ∧
      (∀ key2 : TileKey, env.srsIsGeodetic key.profile.srs = false →
        env.srsIsGeodetic key2.profile.srs = false → key2.level = key.level →
        createKeyForTileKey env key2 tileSize = createKeyForTileKey env key tileSize) := by
  refine ⟨rfl, fun x2 => rfl, ?_, ?_⟩
  · intro key2 h1 h2 hl hy
    simp [createKeyForTileKey, h1, h2, hl, hy]
  · intro key2 h1 h2 hl
    simp [createKeyForTileKey, h1, h2, hl]

theorem createKeyForTileKey_eq_witness :
    createKeyForTileKey refEnv ⟨3, 5, 2, fromName refEnv 0 "global-geodetic"⟩ 17 =
        createKeyForTileKey refEnv ⟨3, 1, 2, fromName refEnv 0 "global-geodetic"⟩ 17 ∧
      createKeyForTileKey refEnv ⟨3, 5, 4, fromName refEnv 0 "spherical-mercator"⟩ 17 =
        createKeyForTileKey refEnv ⟨3, 1, 2, fromName refEnv 0 "spherical-mercator"⟩ 17 := by
  have hg : refEnv.srsIsGeodetic (fromName refEnv 0 "global-geodetic").srs = true := by
    rw [Profile.srs, (global_geodetic_shared refEnv 0 refEnv_valid_WGS84).1]
    decide
  have hm : refEnv.srsIsGeodetic (fromName refEnv 0 "spherical-mercator").srs = false := by
    rw [Profile.srs, fromName_spherical_mercator,
      setup_extent _ _ _ _ _ _ refEnv_valid_SPHERICAL_MERCATOR]
    decide
  exact ⟨(createKeyForTileKey_eq refEnv ⟨3, 1, 2, fromName refEnv 0 "global-geodetic"⟩ 17).2.2.1
      ⟨3, 5, 2, fromName refEnv 0 "global-geodetic"⟩ hg hg rfl rfl,
    (createKeyForTileKey_eq refEnv ⟨3, 1, 2, fromName refEnv 0 "spherical-mercator"⟩ 17).2.2.2
      ⟨3, 5, 4, fromName refEnv 0 "spherical-mercator"⟩ hm hm rfl⟩

/-! ## The surface indices (C13) -/

theorem setFrom_ok : ∀ (vs a : List Nat) (p : Nat), p + vs.length ≤ a.length →
    setFrom a p vs =
      Except.ok (a.take p ++ vs.map (fun v => v % 2 ^ 16) ++ a.drop (p + vs.length),
        p + vs.length) := by
  intro vs
  induction vs with
  | nil =>
    intro a p _
    simp [setFrom]
  | cons v vs ih =>
    intro a p h
    have hp : p < a.length := by
      simp only [List.length_cons] at h
      omega
    simp only [setFrom, hp, if_true]
    rw [ih (a.set p (v % 2 ^ 16)) (p + 1) (by
      simp only [List.length_cons] at h
      rw [List.length_set]
      omega)]
    have h1 : (a.set p (v % 2 ^ 16)).take (p + 1) = a.take p ++ [v % 2 ^ 16] := by
      rw [List.set_eq_take_append_cons_drop, if_pos hp, List.take_append_eq_append_take]
      simp [List.length_take, Nat.min_eq_left (le_of_lt hp)]
    have h2 : (a.set p (v % 2 ^ 16)).drop (p + 1 + vs.length) =
        a.drop (p + (vs.length + 1)) := by
      rw [List.drop_set_of_lt _ _ (by omega)]
      congr 1
      omega
    simp only [List.length_cons, List.map_cons, h1, h2, List.append_assoc,
      List.singleton_append]
    congr 2
    omega

theorem setFrom_error : ∀ (vs a : List Nat) (p : Nat), p ≤ a.length →
    a.length < p + vs.length → setFrom a p vs = Except.error Fault.outOfBounds := by
  intro vs
  induction vs with
  | nil =>
    intro a p h1 h2
    simp only [List.length_nil, Nat.add_zero] at h2
    omega
  | cons v vs ih =>
    intro a p h1 h2
    simp only [setFrom]
    split
    · exact ih _ _ (by rw [List.length_set]; omega) (by
        simp only [List.length_cons] at h2
        rw [List.length_set]
        omega)
    · rfl

theorem surfaceIndices_length (n : Nat) :
    (surfaceIndices n).length = (n - 1) * (n - 1) * 6 := by
  simp only [surfaceIndices, List.length_flatMap, List.length_cons, List.length_nil,
    Function.comp_def]
  simp [mul_comm, mul_assoc]

theorem surfaceIndices_lt (n : Nat) (x : Nat) (hx : x ∈ surfaceIndices n) : x < n * n := by
  simp only [surfaceIndices, List.mem_flatMap, List.mem_range, List.mem_cons,
    List.mem_singleton, List.not_mem_nil, or_false] at hx
  obtain ⟨j, hj, i, hi, hx⟩ := hx
  have h1 : j * n + n ≤ (n - 1) * n := by
    have : j + 1 ≤ n - 1 := by omega
    calc j * n + n = (j + 1) * n := by ring
      _ ≤ (n - 1) * n := Nat.mul_le_mul_right n this
  have h2 : (n - 1) * n + n = n * n := by
    have hn : 1 ≤ n := by omega
    calc (n - 1) * n + n = (n - 1 + 1) * n := by ring
      _ = n * n := by rw [Nat.sub_add_cancel hn]
  rcases hx with h | h | h | h | h | h <;> omega
theorem createIndices_no_skirt_eq (s : Settings) (hs : s.skirtRatio ≤ 0) :
    createIndices s =
      (setFrom
        (List.replicate (((max s.tileSize 2 - 1) * (max s.tileSize 2 - 1) * 6) % 2 ^ 32) 0) 0
        (surfaceIndices (max s.tileSize 2))).map Prod.fst := by
  have h0 : ¬ 0 < s.skirtRatio := not_lt.mpr hs
  simp [createIndices, getNumSkirtElements, h0, toUnsigned]

/-- C13, as stated, fails: the index count is formed on 32 bits. For tile
size 26756 with no skirt the count `26755 * 26755 * 6 = 4294980150` wraps to
12854, the array is created with 12854 slots and the surface loops write past
its end, so `createIndices` does not return `(n-1)*(n-1)*6` indices. -/
theorem createIndices_count_wraps :
    (26756 - 1) * (26756 - 1) * 6 = 4294980150 ∧
      ((26756 - 1) * (26756 - 1) * 6) % 2 ^ 32 = 12854 ∧
      createIndices ⟨26756, 0, false⟩ = Except.error Fault.outOfBounds := by
  refine ⟨by norm_num, by norm_num, ?_⟩
  rw [createIndices_no_skirt_eq _ (le_refl _)]
  have hm : max 26756 2 = 26756 := by norm_num
  simp only [hm]
  rw [setFrom_error _ _ _ (Nat.zero_le _) (by
    rw [List.length_replicate, surfaceIndices_length]
    norm_num)]
  rfl

/-- C13, amended: for every tile size `n >= 2` whose index count
`(n-1)*(n-1)*6` fits 32 bits (`n <= 26755`), with no skirt, `createIndices`
returns exactly `(n-1)*(n-1)*6` indices, each in the range `[0, n*n)`; for
`n = 3` that is exactly 24 indices, each in `[0,9)`. -/
theorem createIndices_no_skirt (s : Settings) (hs : s.skirtRatio ≤ 0) (hn : 2 ≤ s.tileSize)
    (hfit : (s.tileSize - 1) * (s.tileSize - 1) * 6 < 2 ^ 32) :
    ∃ a : List Nat, createIndices s = Except.ok a ∧
      a = (surfaceIndices s.tileSize).map (fun v => v % 2 ^ 16) ∧
      a.length = (s.tileSize - 1) * (s.tileSize - 1) * 6 ∧
      (∀ x ∈ a, x < s.tileSize * s.tileSize) ∧
      (s.tileSize = 3 → a.length = 24 ∧ ∀ x ∈ a, x < 9) := by
  have hm : max s.tileSize 2 = s.tileSize := max_eq_left hn
  have hlen : ((surfaceIndices s.tileSize).map (fun v => v % 2 ^ 16)).length =
      (s.tileSize - 1) * (s.tileSize - 1) * 6 := by
    rw [List.length_map, surfaceIndices_length]
  have hlt : ∀ x ∈ (surfaceIndices s.tileSize).map (fun v => v % 2 ^ 16),
      x < s.tileSize * s.tileSize := by
    intro x hx
    rw [List.mem_map] at hx
    obtain ⟨v, hv, rfl⟩ := hx
    exact lt_of_le_of_lt (Nat.mod_le _ _) (surfaceIndices_lt _ _ hv)
  refine ⟨(surfaceIndices s.tileSize).map (fun v => v % 2 ^ 16), ?_, rfl, hlen, hlt, ?_⟩
  · rw [createIndices_no_skirt_eq s hs, hm, Nat.mod_eq_of_lt hfit,
      setFrom_ok _ _ _ (by
        rw [List.length_replicate, surfaceIndices_length]
        omega)]
    simp [surfaceIndices_length, Except.map]
  · intro h3
    rw [h3] at hlen hlt ⊢
    exact ⟨hlen, hlt⟩

theorem createIndices_no_skirt_witness :
    ∃ a : List Nat, createIndices ⟨3, 0, false⟩ = Except.ok a ∧ a.length = 24 ∧
      ∀ x ∈ a, x < 9 := by
  obtain ⟨a, h1, -, -, -, h5⟩ :=
    createIndices_no_skirt ⟨3, 0, false⟩ (le_refl _) (by norm_num) (by norm_num)
  exact ⟨a, h1, h5 rfl⟩

theorem createIndices_three : createIndices ⟨3, 0, false⟩ =
    Except.ok [3, 0, 4, 0, 1, 4, 4, 1, 5, 1, 2, 5, 6, 3, 7, 3, 4, 7, 7, 4, 8, 4, 5, 8] := by
  rw [createIndices_no_skirt_eq _ (le_refl _)]
  rfl

/-! ## Sweep (C17, C18) -/

theorem emplace_of_not_mem (m : List (GeometryKey × SharedGeometry)) (key : GeometryKey)
    (value : SharedGeometry) (h : key ∉ m.map Prod.fst) :
    emplace m key value = m ++ [(key, value)] := by
  have hl : m.lookup key = none := by
    rw [List.lookup_eq_none_iff]
    intro e he
    rw [bne_iff_ne]
    intro hk
    apply h
    rw [List.mem_map]
    exact ⟨e, he, hk.symm⟩
  simp [emplace, hl]

theorem lookup_of_mem_nodup :
    ∀ (l : List (GeometryKey × SharedGeometry)) (e : GeometryKey × SharedGeometry),
      (l.map Prod.fst).Nodup → e ∈ l → l.lookup e.1 = some e.2 := by
  intro l
  induction l with
  | nil =>
    intro e _ he
    simp at he
  | cons a l ih =>
    intro e hnd he
    simp only [List.map_cons, List.nodup_cons] at hnd
    rw [List.mem_cons] at he
    rcases he with rfl | he
    · exact List.lookup_cons_self
    · have hne : e.1 ≠ a.1 := by
        intro h
        apply hnd.1
        rw [← h, List.mem_map]
        exact ⟨e, he, rfl⟩
      rw [List.lookup_cons]
      have hb : (e.1 == a.1) = false := by simpa using hne
      rw [hb]
      exact ih e hnd.2 he

/-- The loop of `sweep`, started with the entries `kept` and the disposal
list `gone`, on entries whose keys are distinct and not yet among `kept`. -/
theorem sweep_loop (rc : SharedGeometry → Nat) :
    ∀ (l kept : List (GeometryKey × SharedGeometry)) (gone : List SharedGeometry),
      (l.map Prod.fst).Nodup → (∀ k ∈ l.map Prod.fst, k ∉ kept.map Prod.fst) →
      l.foldl
          (fun (acc : List (GeometryKey × SharedGeometry) × List SharedGeometry) entry =>
            if 1 < rc entry.2 then (emplace acc.1 entry.1 entry.2, acc.2)
            else (acc.1, acc.2 ++ [entry.2]))
          (kept, gone) =
        (kept ++ l.filter (fun e => decide (1 < rc e.2)),
          gone ++ (l.filter (fun e => !decide (1 < rc e.2))).map Prod.snd) := by
  intro l
  induction l with
  | nil =>
    intro kept gone _ _
    simp
  | cons e l ih =>
    intro kept gone hnd hdis
    simp only [List.map_cons, List.nodup_cons] at hnd
    simp only [List.foldl_cons]
    by_cases hrc : 1 < rc e.2
    · rw [if_pos hrc, emplace_of_not_mem _ _ _ (hdis e.1 (by simp))]
      rw [ih _ _ hnd.2 (by
        intro k hk
        simp only [List.map_append, List.map_cons, List.map_nil, List.mem_append,
          List.mem_singleton, not_or]
        refine ⟨hdis k (by simp [hk]), ?_⟩
        intro hke
        rw [hke] at hk
        exact hnd.1 hk)]
      simp [hrc]
    · rw [if_neg hrc]
      rw [ih _ _ hnd.2 (fun k hk => hdis k (by simp [hk]))]
      simp [hrc]

theorem sweep_eq (rc : SharedGeometry → Nat) (pool : GeometryPool)
    (hnd : (pool.sharedGeometries.map Prod.fst).Nodup) :
    (sweep rc pool).1.sharedGeometries =
        pool.sharedGeometries.filter (fun e => decide (1 < rc e.2)) ∧
      (sweep rc pool).2 =
        (pool.sharedGeometries.filter (fun e => !decide (1 < rc e.2))).map Prod.snd := by
  have h := sweep_loop rc pool.sharedGeometries [] [] hnd (by simp)
  simp only [List.nil_append] at h
  simp only [sweep, h, and_self]

theorem sweep_keys_nodup (rc : SharedGeometry → Nat) (pool : GeometryPool)
    (hnd : (pool.sharedGeometries.map Prod.fst).Nodup) :
    ((sweep rc pool).1.sharedGeometries.map Prod.fst).Nodup := by
  rw [(sweep_eq rc pool hnd).1]
  exact List.Nodup.sublist (List.Sublist.map _ (List.filter_sublist _)) hnd

/-- C17: sweep keeps exactly the referenced entries. After `sweep()` the map
holds precisely the entries of the map before the sweep whose mesh had a
reference count greater than 1, each under the same key and with the same
mesh, in the same order; every entry whose reference count was 1 is gone. The
keys of a map are distinct. -/
theorem sweep_keeps_referenced (rc : SharedGeometry → Nat) (pool : GeometryPool)
    (hnd : (pool.sharedGeometries.map Prod.fst).Nodup) :
    (sweep rc pool).1.sharedGeometries =
        pool.sharedGeometries.filter (fun e => decide (1 < rc e.2)) ∧
      (∀ e : GeometryKey × SharedGeometry,
        e ∈ (sweep rc pool).1.sharedGeometries ↔ e ∈ pool.sharedGeometries ∧ 1 < rc e.2) ∧
      (∀ e ∈ pool.sharedGeometries, rc e.2 = 1 → e ∉ (sweep rc pool).1.sharedGeometries) ∧
      (∀ e ∈ pool.sharedGeometries, rc e.2 = 1 →
        (sweep rc pool).1.sharedGeometries.lookup e.1 = none) ∧
      (∀ e ∈ pool.sharedGeometries, 1 < rc e.2 →
        (sweep rc pool).1.sharedGeometries.lookup e.1 = some e.2) := by
  have h := (sweep_eq rc pool hnd).1
  have hmem : ∀ e : GeometryKey × SharedGeometry,
      e ∈ (sweep rc pool).1.sharedGeometries ↔ e ∈ pool.sharedGeometries ∧ 1 < rc e.2 := by
    intro e
    rw [h, List.mem_filter]
    simp
  have hkey : ∀ e1 ∈ pool.sharedGeometries, ∀ e2 ∈ pool.sharedGeometries,
      e1.1 = e2.1 → e1 = e2 := by
    intro e1 h1 e2 h2 hk
    exact List.inj_on_of_nodup_map hnd h1 h2 hk
  refine ⟨h, hmem, ?_, ?_, ?_⟩
  · intro e _ h1 hin
    have := ((hmem e).mp hin).2
    omega
  · intro e he h1
    rw [List.lookup_eq_none_iff]
    intro e2 he2
    rw [bne_iff_ne]
    intro hk
    have h2 := (hmem e2).mp he2
    have : e2 = e := hkey e2 h2.1 e he hk.symm
    rw [this] at h2
    omega
  · intro e he h1
    have hin : e ∈ (sweep rc pool).1.sharedGeometries := (hmem e).mpr ⟨he, h1⟩
    exact lookup_of_mem_nodup _ e (sweep_keys_nodup rc pool hnd) hin

theorem sweep_keeps_referenced_witness :
    (sweep (fun g => if g.id = 1 then 2 else 1)
        ⟨SRS.WGS84, false, true, none,
          [(⟨0, 0, 3⟩, ⟨1, [], [], [], none, none, some [], 0⟩),
            (⟨1, 0, 3⟩, ⟨2, [], [], [], none, none, some [], 0⟩)]⟩).1.sharedGeometries =
      [(⟨0, 0, 3⟩, ⟨1, [], [], [], none, none, some [], 0⟩)] := by
  rw [(sweep_keeps_referenced (fun g => if g.id = 1 then 2 else 1)
    ⟨SRS.WGS84, false, true, none,
      [(⟨0, 0, 3⟩, ⟨1, [], [], [], none, none, some [], 0⟩),
        (⟨1, 0, 3⟩, ⟨2, [], [], [], none, none, some [], 0⟩)]⟩ (by decide)).1]
  rfl

/-- C18: during `sweep()` `dispose` is called exactly once for each entry that
is removed (reference count not greater than 1), in the order of the map, and
never for an entry that is kept; a second `sweep()` with the same reference
counts removes nothing and disposes nothing. The keys of a map are
distinct. -/
theorem sweep_disposes (rc : SharedGeometry → Nat) (pool : GeometryPool)
    (hnd : (pool.sharedGeometries.map Prod.fst).Nodup) :
    (sweep rc pool).2 =
        (pool.sharedGeometries.filter (fun e => !decide (1 < rc e.2))).map Prod.snd ∧
      (sweep rc pool).2.length + (sweep rc pool).1.sharedGeometries.length =
        pool.sharedGeometries.length ∧
      (∀ g ∈ (sweep rc pool).2, rc g ≤ 1) ∧
      (∀ e ∈ (sweep rc pool).1.sharedGeometries, e.2 ∉ (sweep rc pool).2) ∧
      (sweep rc (sweep rc pool).1).1.sharedGeometries = (sweep rc pool).1.sharedGeometries ∧
      (sweep rc (sweep rc pool).1).2 = [] := by
  obtain ⟨h1, h2⟩ := sweep_eq rc pool hnd
  obtain ⟨h3, h4⟩ := sweep_eq rc (sweep rc pool).1 (sweep_keys_nodup rc pool hnd)
  have hgone : ∀ g ∈ (sweep rc pool).2, rc g ≤ 1 := by
    intro g hg
    rw [h2, List.mem_map] at hg
    obtain ⟨e, he, rfl⟩ := hg
    rw [List.mem_filter] at he
    have := he.2
    simp only [Bool.not_eq_true', decide_eq_false_iff_not, not_lt] at this
    exact this
  refine ⟨h2, ?_, hgone, ?_, ?_, ?_⟩
  · rw [h1, h2, List.length_map]
    have := List.length_eq_length_filter_add (l := pool.sharedGeometries)
      (fun e => decide (1 < rc e.2))
    omega
  · intro e he hin
    rw [h1, List.mem_filter] at he
    have h5 := hgone _ hin
    have h6 := he.2
    simp only [decide_eq_true_eq] at h6
    omega
  · rw [h3, h1, List.filter_filter]
    simp
  · rw [h4, h1, List.filter_filter]
    simp

theorem sweep_disposes_witness :
    (sweep (fun g => if g.id = 1 then 2 else 1)
        ⟨SRS.WGS84, false, true, none,
          [(⟨0, 0, 3⟩, ⟨1, [], [], [], none, none, some [], 0⟩),
            (⟨1, 0, 3⟩, ⟨2, [], [], [], none, none, some [], 0⟩)]⟩).2 =
      [⟨2, [], [], [], none, none, some [], 0⟩] := by
  rw [(sweep_disposes (fun g => if g.id = 1 then 2 else 1)
    ⟨SRS.WGS84, false, true, none,
      [(⟨0, 0, 3⟩, ⟨1, [], [], [], none, none, some [], 0⟩),
        (⟨1, 0, 3⟩, ⟨2, [], [], [], none, none, some [], 0⟩)]⟩ (by decide)).1]
  rfl

/-! ## Pooled geometry: cache hits (C15) -/

theorem lookup_emplace_of_none (m : List (GeometryKey × SharedGeometry)) (K : GeometryKey)
    (g : SharedGeometry) (h : m.lookup K = none) : (emplace m K g).lookup K = some g := by
  simp [emplace, h, List.lookup_append, List.lookup_cons]

theorem lookup_emplace_of_some (m : List (GeometryKey × SharedGeometry)) (K k : GeometryKey)
    (g v : SharedGeometry) (h : m.lookup K = some g) : (emplace m k v).lookup K = some g := by
  unfold emplace
  split
  · exact h
  · simp [List.lookup_append, h]

theorem isNone_eq_false_of_isSome {α : Type} (o : Option α) (h : o.isSome = true) :
    o.isNone = false := by
  cases o with
  | none => simp at h
  | some _ => rfl

theorem isSome_of_isNone_ne {α : Type} (o : Option α) (h : ¬ o.isNone = true) :
    o.isSome = true := by
  cases o with
  | none => exact absurd rfl h
  | some _ => rfl

/-- A call that serves `K` from the cache returns the cached mesh and leaves
the pool as it is, whatever the builder. -/
theorem getPooledGeometryWith_hit (env : Env)
    (build : GeometryPool → TileKey → Settings → Nat → Except Fault (Option SharedGeometry))
    (pool : GeometryPool) (key : TileKey) (s : Settings) (addr : Nat) (K : GeometryKey)
    (g : SharedGeometry) (hc : pool.Caches K g)
    (hk : createKeyForTileKey env key s.tileSize = K) :
    getPooledGeometryWith env build pool key s addr = (pool, Except.ok (some g)) := by
  obtain ⟨ws, dbg, en, di, m⟩ := pool
  obtain ⟨he, hd, hl, hi⟩ := hc
  simp only at he hd hl
  subst he
  simp only [getPooledGeometryWith, isNone_eq_false_of_isSome _ hd, Bool.false_eq_true,
    if_false, if_true, hk, hl, isNone_eq_false_of_isSome _ hi]

/-- Every call that completes keeps what the pool serves from its cache. -/
theorem getPooledGeometryWith_preserves (env : Env)
    (build : GeometryPool → TileKey → Settings → Nat → Except Fault (Option SharedGeometry))
    (pool pool1 : GeometryPool) (key : TileKey) (s : Settings) (addr : Nat)
    (r : Option SharedGeometry) (K : GeometryKey) (g : SharedGeometry)
    (hc : pool.Caches K g)
    (hr : getPooledGeometryWith env build pool key s addr = (pool1, Except.ok r)) :
    pool1.Caches K g := by
  obtain ⟨ws, dbg, en, di, m⟩ := pool
  obtain ⟨he, hd, hl, hi⟩ := hc
  simp only at he hd hl
  subst he
  simp only [getPooledGeometryWith, isNone_eq_false_of_isSome _ hd, Bool.false_eq_true,
    if_false, if_true] at hr
  cases hlk : m.lookup (createKeyForTileKey env key s.tileSize) with
  | some g2 =>
    simp only [hlk] at hr
    split at hr
    · simp only [Prod.mk.injEq] at hr
      rw [← hr.1]
      exact ⟨rfl, hd, hl, hi⟩
    · simp only [Prod.mk.injEq] at hr
      rw [← hr.1]
      exact ⟨rfl, hd, hl, hi⟩
  | none =>
    simp only [hlk] at hr
    cases hb : build ⟨ws, dbg, true, di, m⟩ key s addr with
    | error f =>
      simp only [hb, Prod.mk.injEq] at hr
      exact absurd hr.2 (by simp)
    | ok out =>
      cases out with
      | none =>
        simp only [hb, Prod.mk.injEq] at hr
        exact absurd hr.2 (by simp)
      | some g2 =>
        simp only [hb] at hr
        split at hr
        · simp only [Prod.mk.injEq] at hr
          rw [← hr.1]
          exact ⟨rfl, hd, lookup_emplace_of_some _ _ _ _ _ hl, hi⟩
        · simp only [Prod.mk.injEq] at hr
          rw [← hr.1]
          exact ⟨rfl, hd, lookup_emplace_of_some _ _ _ _ _ hl, hi⟩

/-- A call with pooling enabled that returns a mesh leaves the pool serving
the key of the call with that mesh. -/
theorem getPooledGeometryWith_establishes (env : Env)
    (build : GeometryPool → TileKey → Settings → Nat → Except Fault (Option SharedGeometry))
    (pool pool1 : GeometryPool) (key : TileKey) (s : Settings) (addr : Nat)
    (g : SharedGeometry) (he : pool.enabled = true)
    (hr : getPooledGeometryWith env build pool key s addr = (pool1, Except.ok (some g))) :
    pool1.Caches (createKeyForTileKey env key s.tileSize) g := by
  obtain ⟨ws, dbg, en, di0, m⟩ := pool
  simp only at he
  subst he
  unfold getPooledGeometryWith at hr
  simp only at hr
  split at hr
  · simp only [Prod.mk.injEq] at hr
    exact absurd hr.2 (by simp)
  · rename_i di hdi
    have hdi2 : di.isSome = true := by
      by_cases hn : di0.isNone = true
      · rw [if_pos hn] at hdi
        cases hci : createIndices s with
        | error f => rw [hci] at hdi; simp [Except.map] at hdi
        | ok a =>
          rw [hci] at hdi
          simp only [Except.map, Except.ok.injEq] at hdi
          rw [← hdi]
          rfl
      · rw [if_neg hn] at hdi
        simp only [Except.ok.injEq] at hdi
        rw [← hdi]
        exact isSome_of_isNone_ne _ hn
    simp only [if_true] at hr
    cases hlk : m.lookup (createKeyForTileKey env key s.tileSize) with
    | some g2 =>
      simp only [hlk] at hr
      split at hr
      · simp only [Prod.mk.injEq] at hr
        exact absurd hr.2 (by simp)
      · rename_i hi
        simp only [Prod.mk.injEq, Except.ok.injEq, Option.some.injEq] at hr
        rw [← hr.1, ← hr.2]
        exact ⟨rfl, hdi2, hlk, isSome_of_isNone_ne _ hi⟩
    | none =>
      simp only [hlk] at hr
      cases hb : build ⟨ws, dbg, true, di, m⟩ key s addr with
      | error f =>
        simp only [hb, Prod.mk.injEq] at hr
        exact absurd hr.2 (by simp)
      | ok out =>
        cases out with
        | none =>
          simp only [hb, Prod.mk.injEq] at hr
          exact absurd hr.2 (by simp)
        | some g2 =>
          simp only [hb] at hr
          split at hr
          · simp only [Prod.mk.injEq] at hr
            exact absurd hr.2 (by simp)
          · rename_i hi
            simp only [Prod.mk.injEq, Except.ok.injEq, Option.some.injEq] at hr
            rw [← hr.1, ← hr.2]
            exact ⟨rfl, hdi2, lookup_emplace_of_none _ _ _ hlk, isSome_of_isNone_ne _ hi⟩

theorem sweep_preserves_caches (rc : SharedGeometry → Nat) (pool : GeometryPool)
    (K : GeometryKey) (g : SharedGeometry)
    (hnd : (pool.sharedGeometries.map Prod.fst).Nodup) (hc : pool.Caches K g)
    (hrc : 1 < rc g) : (sweep rc pool).1.Caches K g := by
  obtain ⟨he, hd, hl, hi⟩ := hc
  refine ⟨he, hd, ?_, hi⟩
  have hmem : (K, g) ∈ pool.sharedGeometries := by
    rw [List.lookup_eq_some_iff] at hl
    obtain ⟨l1, l2, h, -⟩ := hl
    rw [h]
    simp
  have hin : (K, g) ∈ (sweep rc pool).1.sharedGeometries := by
    rw [(sweep_eq rc pool hnd).1, List.mem_filter]
    exact ⟨hmem, by simpa using hrc⟩
  exact lookup_of_mem_nodup _ (K, g) (sweep_keys_nodup rc pool hnd) hin

/-- With no skirt, no morphing and tile size 2 the build succeeds whenever the
index buffer is there. -/
theorem createGeometry_two (menv : MeshEnv) (pool : GeometryPool) (key : TileKey)
    (addr : Nat) (idx : List Nat) (he : pool.enabled = true)
    (hd : pool.defaultIndices = some idx) :
    ∃ g : SharedGeometry, createGeometry menv pool key ⟨2, 0, false⟩ addr = Except.ok g ∧
      g.id = addr ∧ g.indices = some idx ∧ g.neighbors = none := by
  simp [createGeometry, List.range_succ, surfaceVertex, arraySet, bind, Except.bind,
    pure, Except.pure, List.replicate, he, hd]

theorem createIndices_two (m : Bool) :
    createIndices ⟨2, 0, m⟩ = Except.ok [2, 0, 3, 0, 1, 3] := by
  rw [createIndices_no_skirt_eq _ (le_refl _)]
  rfl

/-- C15: with pooling enabled, once `getPooledGeometry` has returned a mesh
`g` for a tile key whose cache key is `K`, the pool serves `K` from its cache
with `g`; this is kept by every later call that completes, for any tile key
and settings, and by every sweep that finds `g` referenced from outside; and
while it holds, every call for a tile key with cache key `K` returns `g`
itself and leaves the whole pool, the map included, unchanged, whatever the
builder would do, so without a build. -/
theorem pooled_geometry_reused (env : Env) (K : GeometryKey) (g : SharedGeometry) :
    (∀ (build : GeometryPool → TileKey → Settings → Nat →
          Except Fault (Option SharedGeometry))
        (pool pool1 : GeometryPool) (key : TileKey) (s : Settings) (addr : Nat),
        pool.enabled = true → createKeyForTileKey env key s.tileSize = K →
        getPooledGeometryWith env build pool key s addr = (pool1, Except.ok (some g)) →
        pool1.Caches K g) ∧
      (∀ (build : GeometryPool → TileKey → Settings → Nat →
          Except Fault (Option SharedGeometry))
        (pool pool1 : GeometryPool) (key : TileKey) (s : Settings) (addr : Nat)
        (r : Option SharedGeometry), pool.Caches K g →
        getPooledGeometryWith env build pool key s addr = (pool1, Except.ok r) →
        pool1.Caches K g) ∧
      (∀ (rc : SharedGeometry → Nat) (pool : GeometryPool),
        (pool.sharedGeometries.map Prod.fst).Nodup → pool.Caches K g → 1 < rc g →
        (sweep rc pool).1.Caches K g) ∧
      (∀ (build : GeometryPool → TileKey → Settings → Nat →
          Except Fault (Option SharedGeometry))
        (pool : GeometryPool) (key : TileKey) (s : Settings) (addr : Nat),
        pool.Caches K g → createKeyForTileKey env key s.tileSize = K →
        getPooledGeometryWith env build pool key s addr = (pool, Except.ok (some g))) := by
  refine ⟨?_, ?_, ?_, ?_⟩
  · intro build pool pool1 key s addr he hk hr
    rw [← hk]
    exact getPooledGeometryWith_establishes env build pool pool1 key s addr g he hr
  · intro build pool pool1 key s addr r hc hr
    exact getPooledGeometryWith_preserves env build pool pool1 key s addr r K g hc hr
  · intro rc pool hnd hc hrc
    exact sweep_preserves_caches rc pool K g hnd hc hrc
  · intro build pool key s addr hc hk
    exact getPooledGeometryWith_hit env build pool key s addr K g hc hk

theorem pooled_geometry_reused_witness :
    ∃ (pool1 : GeometryPool) (g : SharedGeometry),
      getPooledGeometry refMeshEnv
          (GeometryPool.create refMeshEnv (fromName refEnv 0 "global-geodetic") false false)
          ⟨1, 0, 0, fromName refEnv 0 "global-geodetic"⟩ ⟨2, 0, false⟩ 100 =
        (pool1, Except.ok (some g)) ∧
      getPooledGeometry refMeshEnv pool1
          ⟨1, 3, 0, fromName refEnv 0 "global-geodetic"⟩ ⟨2, 0, false⟩ 200 =
        (pool1, Except.ok (some g)) := by
  obtain ⟨g, hg, -, hi, -⟩ := createGeometry_two refMeshEnv
    { GeometryPool.create refMeshEnv (fromName refEnv 0 "global-geodetic") false false with
      defaultIndices := some [2, 0, 3, 0, 1, 3] }
    ⟨1, 0, 0, fromName refEnv 0 "global-geodetic"⟩ 100 [2, 0, 3, 0, 1, 3] rfl rfl
  have hfirst : getPooledGeometry refMeshEnv
      (GeometryPool.create refMeshEnv (fromName refEnv 0 "global-geodetic") false false)
      ⟨1, 0, 0, fromName refEnv 0 "global-geodetic"⟩ ⟨2, 0, false⟩ 100 =
      ({ GeometryPool.create refMeshEnv (fromName refEnv 0 "global-geodetic") false false with
          defaultIndices := some [2, 0, 3, 0, 1, 3]
          sharedGeometries := [(createKeyForTileKey refEnv
            ⟨1, 0, 0, fromName refEnv 0 "global-geodetic"⟩ 2, g)] },
        Except.ok (some g)) := by
    simp only [getPooledGeometry, getPooledGeometryWith, GeometryPool.create,
      Option.isNone_none, if_true, createIndices_two, Except.map, Bool.not_false,
      List.lookup_nil] at hg ⊢
    simp only [hg, hi, Option.isNone_some, Bool.false_eq_true, if_false, emplace,
      List.lookup_nil, Option.isSome_none, List.nil_append]
    rfl
  refine ⟨_, g, hfirst, ?_⟩
  have hc := (pooled_geometry_reused refEnv
    (createKeyForTileKey refEnv ⟨1, 0, 0, fromName refEnv 0 "global-geodetic"⟩ 2) g).1
    _ _ _ _ _ _ rfl rfl hfirst
  exact (pooled_geometry_reused refEnv
    (createKeyForTileKey refEnv ⟨1, 0, 0, fromName refEnv 0 "global-geodetic"⟩ 2) g).2.2.2
    _ _ ⟨1, 3, 0, fromName refEnv 0 "global-geodetic"⟩ ⟨2, 0, false⟩ 200 hc rfl

/-! ## Pooled geometry: pooling disabled (C19) -/

theorem createGeometry_ok (menv : MeshEnv) (pool : GeometryPool) (key : TileKey)
    (s : Settings) (addr : Nat) (g : SharedGeometry)
    (h : createGeometry menv pool key s addr = Except.ok g) :
    g.id = addr ∧ g.indices.isSome = true := by
  unfold createGeometry at h
  simp only [bind, Except.bind] at h
  repeat (any_goals (split at h))
  all_goals first
    | (cases h; done)
    | (cases h; exact ⟨rfl, rfl⟩)

/-- With no skirt, no morphing and tile size 2 the build also succeeds with
pooling disabled, on an index buffer of its own. -/
theorem createGeometry_two_disabled (menv : MeshEnv) (pool : GeometryPool) (key : TileKey)
    (addr : Nat) (he : pool.enabled = false) :
    ∃ g : SharedGeometry, createGeometry menv pool key ⟨2, 0, false⟩ addr = Except.ok g := by
  simp [createGeometry, List.range_succ, surfaceVertex, arraySet, bind, Except.bind,
    pure, Except.pure, List.replicate, he, createIndices_two, Except.map]

/-- C19: with pooling disabled a `getPooledGeometry` call never touches the
key-to-mesh map: the map is unchanged by the call, whatever the call does.
Once the shared default index buffer is there (it was there, or
`createIndices` builds it), the pool after the call is the pool with that
buffer and the call returns just what `createGeometry` yields, a mesh created
at the fresh address of this call; that mesh is not stored in the pool. -/
theorem getPooledGeometry_disabled (menv : MeshEnv) (pool : GeometryPool) (key : TileKey)
    (s : Settings) (addr : Nat) (he : pool.enabled = false) :
    (getPooledGeometry menv pool key s addr).1.sharedGeometries = pool.sharedGeometries ∧
      (∀ di : Option (List Nat),
        (if pool.defaultIndices.isNone then (createIndices s).map some
          else Except.ok pool.defaultIndices) = Except.ok di →
        (getPooledGeometry menv pool key s addr).1 = { pool with defaultIndices := di } ∧
          (getPooledGeometry menv pool key s addr).2 =
            (createGeometry menv { pool with defaultIndices := di } key s addr).map some) ∧
      (∀ g : SharedGeometry,
        (getPooledGeometry menv pool key s addr).2 = Except.ok (some g) →
        g.id = addr ∧
          ((∀ e ∈ pool.sharedGeometries, e.2.id ≠ addr) →
            ∀ e ∈ (getPooledGeometry menv pool key s addr).1.sharedGeometries, e.2 ≠ g)) := by
  obtain ⟨ws, dbg, en, di0, m⟩ := pool
  simp only at he
  subst he
  have key2 : ∀ di : Option (List Nat),
      (if di0.isNone then (createIndices s).map some else Except.ok di0) = Except.ok di →
      getPooledGeometry menv ⟨ws, dbg, false, di0, m⟩ key s addr =
        (⟨ws, dbg, false, di, m⟩,
          (createGeometry menv ⟨ws, dbg, false, di, m⟩ key s addr).map some) := by
    intro di hdi
    simp only [getPooledGeometry, getPooledGeometryWith, hdi, Bool.false_eq_true, if_false]
    cases hb : createGeometry menv ⟨ws, dbg, false, di, m⟩ key s addr with
    | error f => simp [Except.map]
    | ok g =>
      have hi := (createGeometry_ok menv _ key s addr g hb).2
      simp [Except.map, isNone_eq_false_of_isSome _ hi]
  have hmap : (getPooledGeometry menv ⟨ws, dbg, false, di0, m⟩ key s addr).1.sharedGeometries =
      m := by
    cases hdi : (if di0.isNone then (createIndices s).map some else Except.ok di0) with
    | error f => simp only [getPooledGeometry, getPooledGeometryWith, hdi]
    | ok di => rw [key2 di hdi]
  refine ⟨hmap, ?_, ?_⟩
  · intro di hdi
    rw [key2 di hdi]
    exact ⟨rfl, rfl⟩
  · intro g hg
    have hid : g.id = addr := by
      cases hdi : (if di0.isNone then (createIndices s).map some else Except.ok di0) with
      | error f =>
        simp only [getPooledGeometry, getPooledGeometryWith, hdi] at hg
        exact absurd hg (by simp)
      | ok di =>
        rw [key2 di hdi] at hg
        cases hb : createGeometry menv ⟨ws, dbg, false, di, m⟩ key s addr with
        | error f =>
          rw [hb] at hg
          simp [Except.map] at hg
        | ok g2 =>
          rw [hb] at hg
          simp only [Except.map, Except.ok.injEq, Option.some.injEq] at hg
          rw [← hg]
          exact (createGeometry_ok menv _ key s addr g2 hb).1
    refine ⟨hid, ?_⟩
    intro hfresh e he
    rw [hmap] at he
    intro heq
    apply hfresh e he
    rw [heq, hid]

theorem getPooledGeometry_disabled_witness :
    ∃ g : SharedGeometry,
      getPooledGeometry refMeshEnv
          (GeometryPool.create refMeshEnv (fromName refEnv 0 "spherical-mercator") false true)
          ⟨1, 0, 0, fromName refEnv 0 "spherical-mercator"⟩ ⟨2, 0, false⟩ 100 =
        ({ GeometryPool.create refMeshEnv (fromName refEnv 0 "spherical-mercator") false true
            with defaultIndices := some [2, 0, 3, 0, 1, 3] },
          Except.ok (some g)) := by
  obtain ⟨g, hg⟩ := createGeometry_two_disabled refMeshEnv
    { GeometryPool.create refMeshEnv (fromName refEnv 0 "spherical-mercator") false true with
      defaultIndices := some [2, 0, 3, 0, 1, 3] }
    ⟨1, 0, 0, fromName refEnv 0 "spherical-mercator"⟩ 100 rfl
  have h := (getPooledGeometry_disabled refMeshEnv
    (GeometryPool.create refMeshEnv (fromName refEnv 0 "spherical-mercator") false true)
    ⟨1, 0, 0, fromName refEnv 0 "spherical-mercator"⟩ ⟨2, 0, false⟩ 100 rfl).2.1
    (some [2, 0, 3, 0, 1, 3]) (by
      simp only [GeometryPool.create, Option.isNone_none, if_true, createIndices_two,
        Except.map])
  refine ⟨g, ?_⟩
  rw [Prod.ext_iff]
  refine ⟨h.1, ?_⟩
  rw [h.2, hg]
  rfl

/-! ## The cache key and the mesh (C16) -/

theorem spherical_mercator_shared (env : Env) (addr : Nat)
    (hv : env.srsValid SRS.SPHERICAL_MERCATOR = true) :
    (fromName env addr "spherical-mercator").shared.extent =
        ⟨SRS.SPHERICAL_MERCATOR, -2003750834278925 / 100000000, -2003750834278925 / 100000000,
          2003750834278925 / 100000000, 2003750834278925 / 100000000⟩ ∧
      (fromName env addr "spherical-mercator").shared.numTilesBaseX = 1 ∧
      (fromName env addr "spherical-mercator").shared.numTilesBaseY = 1 := by
  have hb : Box.valid ⟨-2003750834278925 / 100000000, -2003750834278925 / 100000000,
      2003750834278925 / 100000000, 2003750834278925 / 100000000⟩ = true := by
    simp only [Box.valid, Bool.and_eq_true, decide_eq_true_eq]
    norm_num
  rw [fromName_spherical_mercator]
  have hc := setup_counts_given env (setName (new addr) "spherical-mercator")
    SRS.SPHERICAL_MERCATOR ⟨-2003750834278925 / 100000000, -2003750834278925 / 100000000,
      2003750834278925 / 100000000, 2003750834278925 / 100000000⟩ 1 1 hv (by decide)
    (by decide)
  refine ⟨?_, hc.1, hc.2⟩
  rw [setup_extent _ _ _ _ _ _ hv, hb]
  rfl

theorem createGeometry_two_morphing (menv : MeshEnv) (pool : GeometryPool) (key : TileKey)
    (addr : Nat) (idx : List Nat) (he : pool.enabled = true)
    (hd : pool.defaultIndices = some idx) :
    ∃ g : SharedGeometry, createGeometry menv pool key ⟨2, 0, true⟩ addr = Except.ok g ∧
      g.neighbors.isSome = true := by
  simp [createGeometry, List.range_succ, surfaceVertex, arraySet, arrayAt, bind, Except.bind,
    pure, Except.pure, List.replicate, he, hd, getMorphNeighborIndexOffset]

theorem createGeometry_two_verts (menv : MeshEnv) (pool : GeometryPool) (key : TileKey)
    (addr : Nat) (idx : List Nat) (he : pool.enabled = true)
    (hd : pool.defaultIndices = some idx) :
    ∃ g : SharedGeometry, createGeometry menv pool key ⟨2, 0, false⟩ addr = Except.ok g ∧
      g.verts =
        [tileFrame menv pool.worldSRS (key.extent menv.toEnv) ⟨0, 0, 0⟩,
          tileFrame menv pool.worldSRS (key.extent menv.toEnv) ⟨1, 0, 0⟩,
          tileFrame menv pool.worldSRS (key.extent menv.toEnv) ⟨0, 1, 0⟩,
          tileFrame menv pool.worldSRS (key.extent menv.toEnv) ⟨1, 1, 0⟩] := by
  simp [createGeometry, List.range_succ, surfaceVertex, arraySet, bind, Except.bind,
    pure, Except.pure, List.replicate, he, hd, tileFrame]

theorem surfaceVertex_congr (menv : MeshEnv) (w1 w2 : Vec3 ℚ → Vec3 ℚ) (l1 l2 : Locator)
    (h : ∀ u : Vec3 ℚ,
      w1 (Locator.unitToWorld menv.toEnv l1 u) = w2 (Locator.unitToWorld menv.toEnv l2 u))
    (n row col : Nat) (m : Mesh) :
    surfaceVertex menv w1 l1 n row col m = surfaceVertex menv w2 l2 n row col m := by
  unfold surfaceVertex
  simp only [h]

/-- Two tiles with the same local frame get the same mesh. -/
theorem createGeometry_congr (menv : MeshEnv) (pool : GeometryPool) (k1 k2 : TileKey)
    (s : Settings) (addr : Nat)
    (h : ∀ u : Vec3 ℚ,
      tileFrame menv pool.worldSRS (k1.extent menv.toEnv) u =
        tileFrame menv pool.worldSRS (k2.extent menv.toEnv) u) :
    createGeometry menv pool k1 s addr = createGeometry menv pool k2 s addr := by
  have hsv : ∀ (n row col : Nat) (m : Mesh),
      surfaceVertex menv (menv.world2local pool.worldSRS (k1.extent menv.toEnv))
          ⟨k1.extent menv.toEnv, pool.worldSRS⟩ n row col m =
        surfaceVertex menv (menv.world2local pool.worldSRS (k2.extent menv.toEnv))
          ⟨k2.extent menv.toEnv, pool.worldSRS⟩ n row col m :=
    fun n row col m => surfaceVertex_congr menv _ _ _ _ h n row col m
  unfold createGeometry
  simp only [hsv]

theorem tileExtent_translate (env : Env) (p : Profile) (L c1 r1 c2 r2 : Nat) :
    tileExtent env p L c2 r2 =
      (tileExtent env p L c1 r1).translate
        ((tileDimensions env p L).1 * ((c2 : ℚ) - (c1 : ℚ)))
        ((tileDimensions env p L).2 * ((r1 : ℚ) - (r2 : ℚ))) := by
  simp only [tileExtent, GeoExtent.translate, GeoExtent.mk.injEq, true_and]
  refine ⟨?_, ?_, ?_, ?_⟩ <;> ring

/-- C16, as stated, fails: the cache key leaves out the morphing flag (and
the skirt ratio) and the profile. Two requests for one tile with tile size 2
that differ only in the morphing flag have the same cache key, yet the mesh of
the second carries neighbor arrays and the mesh of the first does not; and two
level-0 tiles of projected profiles with different bounds have the same cache
key but different vertices. -/
theorem same_key_different_mesh :
    createKeyForTileKey refEnv ⟨1, 0, 0, fromName refEnv 0 "spherical-mercator"⟩
        (Settings.mk 2 0 false).tileSize =
      createKeyForTileKey refEnv ⟨1, 0, 0, fromName refEnv 0 "spherical-mercator"⟩
        (Settings.mk 2 0 true).tileSize ∧
    createGeometry refMeshEnv
        ⟨SRS.SPHERICAL_MERCATOR, false, true, some [2, 0, 3, 0, 1, 3], []⟩
        ⟨1, 0, 0, fromName refEnv 0 "spherical-mercator"⟩ ⟨2, 0, false⟩ 100 ≠
      createGeometry refMeshEnv
        ⟨SRS.SPHERICAL_MERCATOR, false, true, some [2, 0, 3, 0, 1, 3], []⟩
        ⟨1, 0, 0, fromName refEnv 0 "spherical-mercator"⟩ ⟨2, 0, true⟩ 100 ∧
    createKeyForTileKey refEnv
        ⟨0, 0, 0, fromSRS refEnv 0 SRS.SPHERICAL_MERCATOR ⟨0, 0, 4, 4⟩ 1 1⟩ 2 =
      createKeyForTileKey refEnv
        ⟨0, 0, 0, fromSRS refEnv 0 SRS.SPHERICAL_MERCATOR ⟨0, 0, 8, 8⟩ 1 1⟩ 2 ∧
    createGeometry refMeshEnv
        ⟨SRS.SPHERICAL_MERCATOR, false, true, some [2, 0, 3, 0, 1, 3], []⟩
        ⟨0, 0, 0, fromSRS refEnv 0 SRS.SPHERICAL_MERCATOR ⟨0, 0, 4, 4⟩ 1 1⟩ ⟨2, 0, false⟩ 100 ≠
      createGeometry refMeshEnv
        ⟨SRS.SPHERICAL_MERCATOR, false, true, some [2, 0, 3, 0, 1, 3], []⟩
        ⟨0, 0, 0, fromSRS refEnv 0 SRS.SPHERICAL_MERCATOR ⟨0, 0, 8, 8⟩ 1 1⟩ ⟨2, 0, false⟩
        100 := by
  have hsrs : ∀ b : Box, b.valid = true →
      (fromSRS refEnv 0 SRS.SPHERICAL_MERCATOR b 1 1).shared.extent =
        GeoExtent.ofBox SRS.SPHERICAL_MERCATOR b := by
    intro b hb
    rw [fromSRS, setup_extent _ _ _ _ _ _ refEnv_valid_SPHERICAL_MERCATOR, hb, if_pos rfl]
  have hgeo : ∀ b : Box, b.valid = true →
      refEnv.srsIsGeodetic (fromSRS refEnv 0 SRS.SPHERICAL_MERCATOR b 1 1).srs = false := by
    intro b hb
    rw [Profile.srs, hsrs b hb]
    show refEnv.srsIsGeodetic SRS.SPHERICAL_MERCATOR = false
    decide
  have hb4 : Box.valid ⟨0, 0, 4, 4⟩ = true := by simp [Box.valid]
  have hb8 : Box.valid ⟨0, 0, 8, 8⟩ = true := by simp [Box.valid]
  refine ⟨rfl, ?_, ?_, ?_⟩
  · obtain ⟨g1, h1, -, -, hn1⟩ := createGeometry_two refMeshEnv
      ⟨SRS.SPHERICAL_MERCATOR, false, true, some [2, 0, 3, 0, 1, 3], []⟩
      ⟨1, 0, 0, fromName refEnv 0 "spherical-mercator"⟩ 100 [2, 0, 3, 0, 1, 3] rfl rfl
    obtain ⟨g2, h2, hn2⟩ := createGeometry_two_morphing refMeshEnv
      ⟨SRS.SPHERICAL_MERCATOR, false, true, some [2, 0, 3, 0, 1, 3], []⟩
      ⟨1, 0, 0, fromName refEnv 0 "spherical-mercator"⟩ 100 [2, 0, 3, 0, 1, 3] rfl rfl
    rw [h1, h2]
    intro h
    simp only [Except.ok.injEq] at h
    rw [← h, hn1] at hn2
    exact absurd hn2 (by decide)
  · simp [createKeyForTileKey, hgeo _ hb4, hgeo _ hb8]
  · obtain ⟨g1, h1, hv1⟩ := createGeometry_two_verts refMeshEnv
      ⟨SRS.SPHERICAL_MERCATOR, false, true, some [2, 0, 3, 0, 1, 3], []⟩
      ⟨0, 0, 0, fromSRS refEnv 0 SRS.SPHERICAL_MERCATOR ⟨0, 0, 4, 4⟩ 1 1⟩ 100
      [2, 0, 3, 0, 1, 3] rfl rfl
    obtain ⟨g2, h2, hv2⟩ := createGeometry_two_verts refMeshEnv
      ⟨SRS.SPHERICAL_MERCATOR, false, true, some [2, 0, 3, 0, 1, 3], []⟩
      ⟨0, 0, 0, fromSRS refEnv 0 SRS.SPHERICAL_MERCATOR ⟨0, 0, 8, 8⟩ 1 1⟩ 100
      [2, 0, 3, 0, 1, 3] rfl rfl
    rw [h1, h2]
    intro h
    simp only [Except.ok.injEq] at h
    rw [h, hv2] at hv1
    have hx := congrArg (fun l : List (Vec3 ℚ) => (l.headD Vec3.zero).x) hv1
    have hc4 : (fromSRS refEnv 0 SRS.SPHERICAL_MERCATOR ⟨0, 0, 4, 4⟩ 1 1).shared.numTilesBaseX
          = 1 ∧
        (fromSRS refEnv 0 SRS.SPHERICAL_MERCATOR ⟨0, 0, 4, 4⟩ 1 1).shared.numTilesBaseY = 1 :=
      setup_counts_given refEnv (new 0) SRS.SPHERICAL_MERCATOR ⟨0, 0, 4, 4⟩ 1 1
        refEnv_valid_SPHERICAL_MERCATOR (by decide) (by decide)
    have hc8 : (fromSRS refEnv 0 SRS.SPHERICAL_MERCATOR ⟨0, 0, 8, 8⟩ 1 1).shared.numTilesBaseX
          = 1 ∧
        (fromSRS refEnv 0 SRS.SPHERICAL_MERCATOR ⟨0, 0, 8, 8⟩ 1 1).shared.numTilesBaseY = 1 :=
      setup_counts_given refEnv (new 0) SRS.SPHERICAL_MERCATOR ⟨0, 0, 8, 8⟩ 1 1
        refEnv_valid_SPHERICAL_MERCATOR (by decide) (by decide)
    have hE4 : TileKey.extent refMeshEnv.toEnv
        ⟨0, 0, 0, fromSRS refEnv 0 SRS.SPHERICAL_MERCATOR ⟨0, 0, 4, 4⟩ 1 1⟩ =
        ⟨SRS.SPHERICAL_MERCATOR, 0, 0, 4, 4⟩ := by
      simp only [TileKey.extent, tileExtent, tileDimensions, Profile.extent, Profile.srs,
        hsrs _ hb4, hc4.1, hc4.2, GeoExtent.ofBox, GeoExtent.width, GeoExtent.height, shl1]
      norm_num
    have hE8 : TileKey.extent refMeshEnv.toEnv
        ⟨0, 0, 0, fromSRS refEnv 0 SRS.SPHERICAL_MERCATOR ⟨0, 0, 8, 8⟩ 1 1⟩ =
        ⟨SRS.SPHERICAL_MERCATOR, 0, 0, 8, 8⟩ := by
      simp only [TileKey.extent, tileExtent, tileDimensions, Profile.extent, Profile.srs,
        hsrs _ hb8, hc8.1, hc8.2, GeoExtent.ofBox, GeoExtent.width, GeoExtent.height, shl1]
      norm_num
    simp only [hE4, hE8, List.headD_cons, tileFrame, Locator.unitToWorld, GeoExtent.width,
      GeoExtent.height] at hx
    simp [refMeshEnv, refEnv] at hx
    norm_num at hx

/-- C16, amended: within one pool, any two requests for tiles of one profile
that produce the same cache key and agree on the skirt ratio and the morphing
flag get identical meshes: `createGeometry` yields the same vertex, normal,
uv, neighbor and index arrays for both. The local frame of a tile is taken not
to change when the tile extent is moved along its row, nor, for a projected
profile, when it is moved along its column. -/
theorem createGeometry_same_key (menv : MeshEnv) (pool : GeometryPool) (p : Profile)
    (hframe : ∀ (e : GeoExtent) (dx dy : ℚ) (u : Vec3 ℚ), e.srs = p.srs →
      (menv.srsIsGeodetic p.srs = true → dy = 0) →
      tileFrame menv pool.worldSRS (e.translate dx dy) u = tileFrame menv pool.worldSRS e u)
    (k1 k2 : TileKey) (s1 s2 : Settings) (addr : Nat) (hp1 : k1.profile = p)
    (hp2 : k2.profile = p)
    (hk : createKeyForTileKey menv.toEnv k1 s1.tileSize =
      createKeyForTileKey menv.toEnv k2 s2.tileSize)
    (hs : s1.skirtRatio = s2.skirtRatio) (hm : s1.morphing = s2.morphing) :
    createGeometry menv pool k1 s1 addr = createGeometry menv pool k2 s2 addr := by
  obtain ⟨L1, c1, r1, q1⟩ := k1
  obtain ⟨L2, c2, r2, q2⟩ := k2
  obtain ⟨n1, sk1, m1⟩ := s1
  obtain ⟨n2, sk2, m2⟩ := s2
  simp only at hp1 hp2 hs hm
  subst hp1 hp2 hs hm
  simp only [createKeyForTileKey, GeometryKey.mk.injEq] at hk
  obtain ⟨hL, hy, hn⟩ := hk
  subst hL hn
  apply createGeometry_congr
  intro u
  simp only [TileKey.extent]
  have h2 : tileFrame menv pool.worldSRS (tileExtent menv.toEnv q2 L1 c2 r2) u =
      tileFrame menv pool.worldSRS (tileExtent menv.toEnv q2 L1 c1 r1) u := by
    rw [tileExtent_translate menv.toEnv q2 L1 c1 r1 c2 r2]
    refine hframe _ _ _ u rfl ?_
    intro hg
    rw [hg] at hy
    simp only [if_true] at hy
    rw [hy]
    simp
  exact h2.symm

theorem createGeometry_same_key_witness :
    createGeometry refMeshEnv
        ⟨SRS.SPHERICAL_MERCATOR, false, true, some [2, 0, 3, 0, 1, 3], []⟩
        ⟨1, 0, 0, fromName refEnv 0 "spherical-mercator"⟩ ⟨2, 0, false⟩ 100 =
      createGeometry refMeshEnv
        ⟨SRS.SPHERICAL_MERCATOR, false, true, some [2, 0, 3, 0, 1, 3], []⟩
        ⟨1, 1, 1, fromName refEnv 0 "spherical-mercator"⟩ ⟨2, 0, false⟩ 100 := by
  have hsrs : (fromName refEnv 0 "spherical-mercator").srs = SRS.SPHERICAL_MERCATOR := by
    rw [Profile.srs, (spherical_mercator_shared refEnv 0 refEnv_valid_SPHERICAL_MERCATOR).1]
  have hgeo : refEnv.srsIsGeodetic (fromName refEnv 0 "spherical-mercator").srs = false := by
    rw [hsrs]
    decide
  refine createGeometry_same_key refMeshEnv _ (fromName refEnv 0 "spherical-mercator") ?_
    _ _ _ _ 100 rfl rfl ?_ rfl rfl
  · intro e dx dy u he _
    rw [hsrs] at he
    simp only [tileFrame, Locator.unitToWorld, GeoExtent.translate, GeoExtent.width,
      GeoExtent.height, he]
    simp only [refMeshEnv, refEnv, if_true, Option.getD_some, Vec3.mk.injEq]
    refine ⟨?_, ?_, trivial⟩ <;> ring
  · have hte : refMeshEnv.toEnv = refEnv := rfl
    simp [createKeyForTileKey, hte, hgeo]

/-! ## Tile keys of a level (C25) -/

/-- A valid profile has keys: the two root tiles of the global geodetic
profile, in the order of the loops. -/
theorem rootKeys_global_geodetic :
    rootKeys refEnv (fromName refEnv 0 "global-geodetic") =
      [⟨0, 0, 0, fromName refEnv 0 "global-geodetic"⟩,
        ⟨0, 1, 0, fromName refEnv 0 "global-geodetic"⟩] := by
  have hv := global_geodetic_valid refEnv 0 refEnv_valid_WGS84
  have hs := global_geodetic_shared refEnv 0 refEnv_valid_WGS84
  simp only [rootKeys, allKeysAtLOD, hv, numTiles, hs.2.1, hs.2.2, shl1]
  rfl

/-- C25: querying tiles on an invalid profile yields the empty result: for
every profile that is not valid and every level, `allKeysAtLOD(level)` and
`rootKeys()` return the empty list. -/
theorem invalid_profile_no_keys (env : Env) (p : Profile) (lod : Nat)
    (h : p.valid env = false) :
    allKeysAtLOD env p lod = [] ∧ rootKeys env p = [] := by
  simp [rootKeys, allKeysAtLOD, h]

theorem invalid_profile_no_keys_witness :
    Profile.valid refEnv (Profile.new 0) = false ∧
      allKeysAtLOD refEnv (Profile.new 0) 5 = [] ∧ rootKeys refEnv (Profile.new 0) = [] :=
  ⟨new_not_valid refEnv 0, invalid_profile_no_keys refEnv (Profile.new 0) 5 (new_not_valid refEnv 0)⟩

/-! ## The shared default index buffer (C26, C27) -/

/-- The pool after the second half of a `getPooledGeometry` call, once the
default index buffer is in place: unchanged, or pooling is on, the key was
absent and the mesh just built was added under the key of the call. -/
theorem getPooledGeometryWith_of_some (env : Env)
    (build : GeometryPool → TileKey → Settings → Nat → Except Fault (Option SharedGeometry))
    (pool : GeometryPool) (key : TileKey) (s : Settings) (addr : Nat) (d : List Nat)
    (hd : pool.defaultIndices = some d) :
    (getPooledGeometryWith env build pool key s addr).1 = pool ∨
      ∃ g, pool.enabled = true ∧
        pool.sharedGeometries.lookup (createKeyForTileKey env key s.tileSize) = none ∧
        build pool key s addr = Except.ok (some g) ∧
        (getPooledGeometryWith env build pool key s addr).1 =
          { pool with
            sharedGeometries :=
              emplace pool.sharedGeometries (createKeyForTileKey env key s.tileSize) g } := by
  obtain ⟨ws, dbg, en, di, m⟩ := pool
  simp only at hd
  subst hd
  simp only [getPooledGeometryWith, Option.isNone_some, Bool.false_eq_true, if_false]
  cases en with
  | false =>
    left
    cases hb : build ⟨ws, dbg, false, some d, m⟩ key s addr with
    | error f => simp [hb]
    | ok out =>
      cases out with
      | none => simp [hb]
      | some g =>
        simp only [hb, Bool.false_eq_true, if_false]
        split <;> rfl
  | true =>
    cases hlk : m.lookup (createKeyForTileKey env key s.tileSize) with
    | some g =>
      left
      simp only [if_true]
      split <;> rfl
    | none =>
      cases hb : build ⟨ws, dbg, true, some d, m⟩ key s addr with
      | error f => left; simp [hb]
      | ok out =>
        cases out with
        | none => left; simp [hb]
        | some g =>
          right
          refine ⟨g, rfl, rfl, rfl, ?_⟩
          simp only [if_true]
          split <;> rfl

/-- The first half of a `getPooledGeometry` call: with the default index
buffer null, the call stops with the pool unchanged when `createIndices`
fails, and otherwise goes on as a call on the pool with the new buffer. -/
theorem getPooledGeometryWith_of_none (env : Env)
    (build : GeometryPool → TileKey → Settings → Nat → Except Fault (Option SharedGeometry))
    (pool : GeometryPool) (key : TileKey) (s : Settings) (addr : Nat)
    (hd : pool.defaultIndices = none) :
    (∀ f, createIndices s = Except.error f →
      getPooledGeometryWith env build pool key s addr = (pool, Except.error f)) ∧
    (∀ d, createIndices s = Except.ok d →
      getPooledGeometryWith env build pool key s addr =
        getPooledGeometryWith env build { pool with defaultIndices := some d } key s addr) := by
  obtain ⟨ws, dbg, en, di, m⟩ := pool
  simp only at hd
  subst hd
  constructor
  · intro f hf
    simp [getPooledGeometryWith, hf, Except.map]
  · intro d hd
    simp [getPooledGeometryWith, hd, Except.map]

theorem sweep_defaultIndices (rc : SharedGeometry → Nat) (pool : GeometryPool) :
    (sweep rc pool).1.defaultIndices = pool.defaultIndices := rfl

theorem call_defaultIndices_of_some (menv : MeshEnv) (pool : GeometryPool) (c : Call)
    (d : List Nat) (hd : pool.defaultIndices = some d) :
    (call menv pool c).defaultIndices = some d := by
  cases c with
  | get key s addr =>
    simp only [call, getPooledGeometry]
    rcases getPooledGeometryWith_of_some menv.toEnv _ pool key s addr d hd with h | ⟨g, -, -, -, h⟩
    · rw [h]; exact hd
    · rw [h]; exact hd
  | sweep rc => exact hd
  | clear => exact hd

theorem calls_defaultIndices_of_some (menv : MeshEnv) (cs : List Call) :
    ∀ (pool : GeometryPool) (d : List Nat), pool.defaultIndices = some d →
      (calls menv pool cs).defaultIndices = some d := by
  induction cs with
  | nil => intro pool d hd; exact hd
  | cons c cs ih =>
    intro pool d hd
    exact ih _ d (call_defaultIndices_of_some menv pool c d hd)

/-- C27: the shared default index buffer is constructed exactly once. A
`getPooledGeometry` call on a pool whose buffer is still null builds it: the
buffer is then what `createIndices` returns for the settings of that call
(and still null if `createIndices` fails); `sweep` and `clear` do not build
it. Once the buffer is there, no sequence of later `getPooledGeometry`,
`sweep` and `clear` calls replaces or resets it. -/
theorem defaultIndices_built_once (menv : MeshEnv) (pool : GeometryPool) :
    (pool.defaultIndices = none →
      (∀ (key : TileKey) (s : Settings) (addr : Nat),
        (call menv pool (Call.get key s addr)).defaultIndices = (createIndices s).toOption) ∧
      (∀ rc, (call menv pool (Call.sweep rc)).defaultIndices = none) ∧
      (call menv pool Call.clear).defaultIndices = none) ∧
    (∀ d, pool.defaultIndices = some d →
      ∀ cs : List Call, (calls menv pool cs).defaultIndices = some d) := by
  refine ⟨fun hn => ⟨?_, fun rc => hn, hn⟩, fun d hd cs =>
    calls_defaultIndices_of_some menv cs pool d hd⟩
  intro key s addr
  have h := getPooledGeometryWith_of_none menv.toEnv
    (fun pl key s a => (createGeometry menv pl key s a).map some) pool key s addr hn
  simp only [call, getPooledGeometry]
  cases hci : createIndices s with
  | error f =>
    rw [h.1 f hci]
    simpa [Except.toOption] using hn
  | ok d =>
    rw [h.2 d hci]
    rcases getPooledGeometryWith_of_some menv.toEnv
      (fun pl key s a => (createGeometry menv pl key s a).map some)
      { pool with defaultIndices := some d } key s addr d rfl with h2 | ⟨g, -, -, -, h2⟩
    · rw [h2]; rfl
    · rw [h2]; rfl

theorem defaultIndices_built_once_witness :
    (call refMeshEnv (create refMeshEnv (fromName refEnv 0 "global-geodetic") false false)
        (Call.get ⟨0, 0, 0, fromName refEnv 0 "global-geodetic"⟩ ⟨2, 0, false⟩ 100)).defaultIndices
      = some [2, 0, 3, 0, 1, 3] ∧
    (calls refMeshEnv
        (call refMeshEnv (create refMeshEnv (fromName refEnv 0 "global-geodetic") false false)
          (Call.get ⟨0, 0, 0, fromName refEnv 0 "global-geodetic"⟩ ⟨2, 0, false⟩ 100))
        [Call.get ⟨1, 0, 0, fromName refEnv 0 "global-geodetic"⟩ ⟨3, 0, false⟩ 101,
          Call.sweep (fun _ => 1), Call.clear,
          Call.get ⟨1, 0, 0, fromName refEnv 0 "global-geodetic"⟩ ⟨3, 0, false⟩ 102]).defaultIndices
      = some [2, 0, 3, 0, 1, 3] := by
  have h1 : (call refMeshEnv
      (create refMeshEnv (fromName refEnv 0 "global-geodetic") false false)
      (Call.get ⟨0, 0, 0, fromName refEnv 0 "global-geodetic"⟩ ⟨2, 0, false⟩ 100)).defaultIndices
      = some [2, 0, 3, 0, 1, 3] := by
    rw [((defaultIndices_built_once refMeshEnv
      (create refMeshEnv (fromName refEnv 0 "global-geodetic") false false)).1 rfl).1,
      createIndices_two]
    rfl
  exact ⟨h1, (defaultIndices_built_once refMeshEnv _).2 _ h1 _⟩

theorem getPooledGeometryWith_defaultIndices_of_some (env : Env)
    (build : GeometryPool → TileKey → Settings → Nat → Except Fault (Option SharedGeometry))
    (pool : GeometryPool) (key : TileKey) (s : Settings) (addr : Nat) (d : List Nat)
    (hd : pool.defaultIndices = some d) :
    (getPooledGeometryWith env build pool key s addr).1.defaultIndices = some d := by
  rcases getPooledGeometryWith_of_some env build pool key s addr d hd with h | ⟨g, -, -, -, h⟩
  · rw [h]; exact hd
  · rw [h]; exact hd

theorem getPooledGeometryWith_pool_flags (env : Env)
    (build : GeometryPool → TileKey → Settings → Nat → Except Fault (Option SharedGeometry))
    (pool : GeometryPool) (key : TileKey) (s : Settings) (addr : Nat) :
    (getPooledGeometryWith env build pool key s addr).1.worldSRS = pool.worldSRS ∧
      (getPooledGeometryWith env build pool key s addr).1.debug = pool.debug ∧
      (getPooledGeometryWith env build pool key s addr).1.enabled = pool.enabled := by
  have hsome : ∀ (p : GeometryPool) (d : List Nat), p.defaultIndices = some d →
      (getPooledGeometryWith env build p key s addr).1.worldSRS = p.worldSRS ∧
      (getPooledGeometryWith env build p key s addr).1.debug = p.debug ∧
      (getPooledGeometryWith env build p key s addr).1.enabled = p.enabled := by
    intro p d hd
    rcases getPooledGeometryWith_of_some env build p key s addr d hd with h | ⟨g, -, -, -, h⟩
    · rw [h]; exact ⟨rfl, rfl, rfl⟩
    · rw [h]; exact ⟨rfl, rfl, rfl⟩
  cases hdi : pool.defaultIndices with
  | some d => exact hsome pool d hdi
  | none =>
    have h0 := getPooledGeometryWith_of_none env build pool key s addr hdi
    cases hci : createIndices s with
    | error f => rw [h0.1 f hci]; exact ⟨rfl, rfl, rfl⟩
    | ok d =>
      rw [h0.2 d hci]
      exact hsome _ d rfl

theorem createGeometry_three (menv : MeshEnv) (pool : GeometryPool) (key : TileKey)
    (addr : Nat) (idx : List Nat) (he : pool.enabled = true)
    (hd : pool.defaultIndices = some idx) :
    ∃ g : SharedGeometry, createGeometry menv pool key ⟨3, 0, false⟩ addr = Except.ok g ∧
      g.id = addr ∧ g.indices = some idx := by
  simp [createGeometry, List.range_succ, surfaceVertex, arraySet, bind, Except.bind,
    pure, Except.pure, List.replicate, he, hd]

theorem createGeometry_indices_enabled (menv : MeshEnv) (pool : GeometryPool) (key : TileKey)
    (s : Settings) (addr : Nat) (g : SharedGeometry) (he : pool.enabled = true)
    (h : createGeometry menv pool key s addr = Except.ok g) :
    g.indices = pool.defaultIndices := by
  unfold createGeometry at h
  simp only [bind, Except.bind, he, if_true] at h
  repeat (any_goals (split at h))
  all_goals first
    | (cases h; done)
    | (rename_i hh; cases h; exact hh.symm)

theorem emplace_mem (m : List (GeometryKey × SharedGeometry)) (K : GeometryKey)
    (g : SharedGeometry) (e : GeometryKey × SharedGeometry) (h : e ∈ emplace m K g) :
    e ∈ m ∨ e = (K, g) := by
  unfold emplace at h
  split at h
  · exact Or.inl h
  · simpa using h

theorem sweep_mem (rc : SharedGeometry → Nat) (pool : GeometryPool)
    (e : GeometryKey × SharedGeometry) (h : e ∈ (sweep rc pool).1.sharedGeometries) :
    e ∈ pool.sharedGeometries := by
  have key : ∀ (l : List (GeometryKey × SharedGeometry))
      (acc : List (GeometryKey × SharedGeometry) × List SharedGeometry),
      e ∈ (l.foldl
        (fun (acc : List (GeometryKey × SharedGeometry) × List SharedGeometry) entry =>
          if 1 < rc entry.2 then (emplace acc.1 entry.1 entry.2, acc.2)
          else (acc.1, acc.2 ++ [entry.2])) acc).1 → e ∈ acc.1 ∨ e ∈ l := by
    intro l
    induction l with
    | nil => intro acc h; exact Or.inl h
    | cons x xs ih =>
      intro acc h
      simp only [List.foldl_cons] at h
      rcases ih _ h with h1 | h1
      · split at h1
        · rcases emplace_mem _ _ _ _ h1 with h2 | h2
          · exact Or.inl h2
          · right
            rw [h2]
            exact List.mem_cons_self _ _
        · exact Or.inl h1
      · exact Or.inr (List.mem_cons_of_mem _ h1)
  rcases key pool.sharedGeometries ([], []) h with h1 | h1
  · simp at h1
  · exact h1

theorem lookup_mem (m : List (GeometryKey × SharedGeometry)) (K : GeometryKey)
    (g : SharedGeometry) (h : m.lookup K = some g) : (K, g) ∈ m := by
  rw [List.lookup_eq_some_iff] at h
  obtain ⟨l1, l2, h, -⟩ := h
  rw [h]
  simp

theorem getPooledGeometry_indicesOf_of_some (menv : MeshEnv) (S : Settings)
    (pool : GeometryPool) (key : TileKey) (addr : Nat) (d : List Nat)
    (h : pool.IndicesOf S) (hd : pool.defaultIndices = some d) :
    (getPooledGeometry menv pool key S addr).1.IndicesOf S := by
  unfold getPooledGeometry
  rcases getPooledGeometryWith_of_some menv.toEnv
    (fun pl key s a => (createGeometry menv pl key s a).map some) pool key S addr d hd with
    h1 | ⟨g, he, -, hb, h1⟩
  · rw [h1]; exact h
  · rw [h1]
    refine ⟨h.1, h.2.1, ?_⟩
    intro e he2
    rcases emplace_mem _ _ _ _ he2 with h2 | h2
    · exact h.2.2 e h2
    · have hg : createGeometry menv pool key S addr = Except.ok g := by
        cases hc : createGeometry menv pool key S addr with
        | error f => rw [hc] at hb; simp [Except.map] at hb
        | ok g2 =>
          rw [hc] at hb
          simp only [Except.map, Except.ok.injEq, Option.some.injEq] at hb
          rw [hb]
      have hi := createGeometry_indices_enabled menv pool key S addr g he hg
      rw [h2]
      exact ⟨d, by rw [hi, hd], h.2.1 d hd⟩

theorem getPooledGeometry_indicesOf (menv : MeshEnv) (S : Settings)
    (pool : GeometryPool) (key : TileKey) (addr : Nat) (h : pool.IndicesOf S) :
    (getPooledGeometry menv pool key S addr).1.IndicesOf S := by
  cases hdi : pool.defaultIndices with
  | some d => exact getPooledGeometry_indicesOf_of_some menv S pool key addr d h hdi
  | none =>
    have h0 := getPooledGeometryWith_of_none menv.toEnv
      (fun pl key s a => (createGeometry menv pl key s a).map some) pool key S addr hdi
    cases hci : createIndices S with
    | error f =>
      unfold getPooledGeometry
      rw [h0.1 f hci]
      exact h
    | ok d =>
      have h2 : (getPooledGeometry menv { pool with defaultIndices := some d } key S
          addr).1.IndicesOf S :=
        getPooledGeometry_indicesOf_of_some menv S _ key addr d
          ⟨h.1, fun d2 hd2 => by
            simp only [Option.some.injEq] at hd2
            rw [← hd2]
            exact hci, h.2.2⟩ rfl
      unfold getPooledGeometry at h2 ⊢
      rw [h0.2 d hci]
      exact h2

theorem calls_indicesOf (menv : MeshEnv) (S : Settings) (cs : List Call) :
    ∀ pool : GeometryPool, pool.IndicesOf S →
      (∀ c ∈ cs, ∀ key s addr, c = Call.get key s addr → s = S) →
      (calls menv pool cs).IndicesOf S := by
  induction cs with
  | nil => intro pool h _; exact h
  | cons c cs ih =>
    intro pool h hcs
    refine ih _ ?_ (fun c2 hc2 => hcs c2 (List.mem_cons_of_mem _ hc2))
    cases c with
    | get key s addr =>
      have hs : s = S := hcs _ (List.mem_cons_self _ _) key s addr rfl
      subst hs
      exact getPooledGeometry_indicesOf menv s pool key addr h
    | sweep rc => exact ⟨h.1, h.2.1, fun e he => h.2.2 e (sweep_mem rc pool e he)⟩
    | clear => exact ⟨h.1, h.2.1, fun e he => by simp [call, clear] at he⟩

/-- A call with pooling on that misses the cache and builds a mesh with an
index buffer stores the mesh under the key of the call and returns it. -/
theorem getPooledGeometryWith_miss (env : Env)
    (build : GeometryPool → TileKey → Settings → Nat → Except Fault (Option SharedGeometry))
    (pool : GeometryPool) (key : TileKey) (s : Settings) (addr : Nat) (d : List Nat)
    (g : SharedGeometry) (he : pool.enabled = true) (hd : pool.defaultIndices = some d)
    (hl : pool.sharedGeometries.lookup (createKeyForTileKey env key s.tileSize) = none)
    (hb : build pool key s addr = Except.ok (some g)) (hi : g.indices.isSome = true) :
    getPooledGeometryWith env build pool key s addr =
      ({ pool with
          sharedGeometries :=
            emplace pool.sharedGeometries (createKeyForTileKey env key s.tileSize) g },
        Except.ok (some g)) := by
  obtain ⟨ws, dbg, en, di, m⟩ := pool
  simp only at he hd hl
  subst he
  subst hd
  simp only [getPooledGeometryWith, Option.isNone_some, Bool.false_eq_true, if_false, if_true,
    hl, hb, isNone_eq_false_of_isSome _ hi]

/-- C26, as stated, fails: the default index buffer is built from the
settings of the first call and handed to every mesh built later. After a
first call with tile size 2, a call for another tile with tile size 3 returns
a mesh whose index buffer is the six indices of the 2 x 2 grid, not the 24
indices `createIndices` gives for tile size 3. -/
theorem indices_of_first_settings :
    ∃ (pool1 : GeometryPool) (g : SharedGeometry),
      getPooledGeometry refMeshEnv
          (call refMeshEnv
            (create refMeshEnv (fromName refEnv 0 "global-geodetic") false false)
            (Call.get ⟨0, 0, 0, fromName refEnv 0 "global-geodetic"⟩ ⟨2, 0, false⟩ 100))
          ⟨1, 0, 0, fromName refEnv 0 "global-geodetic"⟩ ⟨3, 0, false⟩ 101 =
        (pool1, Except.ok (some g)) ∧
      g.indices = some [2, 0, 3, 0, 1, 3] ∧
      createIndices ⟨3, 0, false⟩ =
        Except.ok [3, 0, 4, 0, 1, 4, 4, 1, 5, 1, 2, 5, 6, 3, 7, 3, 4, 7, 7, 4, 8, 4, 5, 8] := by
  have hP : ∀ P : GeometryPool, P.enabled = true → P.defaultIndices = some [2, 0, 3, 0, 1, 3] →
      P.sharedGeometries.lookup (createKeyForTileKey refMeshEnv.toEnv
        ⟨1, 0, 0, fromName refEnv 0 "global-geodetic"⟩ (Settings.mk 3 0 false).tileSize) = none →
      ∃ (pool1 : GeometryPool) (g : SharedGeometry),
        getPooledGeometry refMeshEnv P ⟨1, 0, 0, fromName refEnv 0 "global-geodetic"⟩
          ⟨3, 0, false⟩ 101 = (pool1, Except.ok (some g)) ∧
        g.indices = some [2, 0, 3, 0, 1, 3] := by
    intro P he hd hl
    obtain ⟨g, hg, -, hi⟩ := createGeometry_three refMeshEnv P
      ⟨1, 0, 0, fromName refEnv 0 "global-geodetic"⟩ 101 _ he hd
    refine ⟨_, g, getPooledGeometryWith_miss refMeshEnv.toEnv _ P _ _ 101 _ g he hd hl ?_ ?_, hi⟩
    · show Except.map some (createGeometry refMeshEnv _ _ _ 101) = _
      rw [hg]
      rfl
    · rw [hi]; rfl
  have h0 := getPooledGeometryWith_of_none refMeshEnv.toEnv
    (fun pl key s a => (createGeometry refMeshEnv pl key s a).map some)
    (create refMeshEnv (fromName refEnv 0 "global-geodetic") false false)
    ⟨0, 0, 0, fromName refEnv 0 "global-geodetic"⟩ ⟨2, 0, false⟩ 100 rfl
  have h1 := h0.2 _ (createIndices_two false)
  obtain ⟨pool1, g, h2, h3⟩ := hP
    (call refMeshEnv (create refMeshEnv (fromName refEnv 0 "global-geodetic") false false)
      (Call.get ⟨0, 0, 0, fromName refEnv 0 "global-geodetic"⟩ ⟨2, 0, false⟩ 100))
    (by
      simp only [call, getPooledGeometry]
      exact (getPooledGeometryWith_pool_flags _ _ _ _ _ _).2.2)
    (by
      simp only [call, getPooledGeometry]
      rw [h1]
      exact getPooledGeometryWith_defaultIndices_of_some _ _ _ _ _ _ _ rfl)
    (by
      simp only [call, getPooledGeometry]
      rw [h1]
      rcases getPooledGeometryWith_of_some refMeshEnv.toEnv
        (fun pl key s a => (createGeometry refMeshEnv pl key s a).map some)
        { create refMeshEnv (fromName refEnv 0 "global-geodetic") false false with
          defaultIndices := some [2, 0, 3, 0, 1, 3] }
        ⟨0, 0, 0, fromName refEnv 0 "global-geodetic"⟩ ⟨2, 0, false⟩ 100 _ rfl with
        h | ⟨g0, -, -, -, h⟩
      · rw [h]; rfl
      · rw [h]
        simp [emplace, create, List.lookup, createKeyForTileKey]
        rfl)
  exact ⟨pool1, g, h2, h3, createIndices_three⟩

/-- On a pool whose index buffers are those of tile size 2 without skirt, a
call with these settings returns a mesh. -/
theorem getPooledGeometry_two_returns (menv : MeshEnv) (P : GeometryPool) (key : TileKey)
    (addr : Nat) (h : P.IndicesOf ⟨2, 0, false⟩) :
    ∃ (pool1 : GeometryPool) (g : SharedGeometry),
      getPooledGeometry menv P key ⟨2, 0, false⟩ addr = (pool1, Except.ok (some g)) := by
  have hsome : ∀ (Q : GeometryPool) (d : List Nat), Q.IndicesOf ⟨2, 0, false⟩ →
      Q.defaultIndices = some d →
      ∃ (pool1 : GeometryPool) (g : SharedGeometry),
        getPooledGeometry menv Q key ⟨2, 0, false⟩ addr = (pool1, Except.ok (some g)) := by
    intro Q d hQ hd
    cases hl : Q.sharedGeometries.lookup
        (createKeyForTileKey menv.toEnv key (Settings.mk 2 0 false).tileSize) with
    | some g =>
      obtain ⟨d2, hd2, -⟩ := hQ.2.2 _ (lookup_mem _ _ _ hl)
      refine ⟨Q, g, getPooledGeometryWith_hit menv.toEnv _ Q key _ addr _ g
        ⟨hQ.1, by rw [hd]; rfl, hl, by rw [hd2]; rfl⟩ rfl⟩
    | none =>
      obtain ⟨g, hg, -, hi, -⟩ := createGeometry_two menv Q key addr d hQ.1 hd
      refine ⟨_, g, getPooledGeometryWith_miss menv.toEnv _ Q key _ addr d g hQ.1 hd hl ?_ ?_⟩
      · show Except.map some (createGeometry menv _ _ _ addr) = _
        rw [hg]
        rfl
      · rw [hi]; rfl
  cases hdi : P.defaultIndices with
  | some d => exact hsome P d h hdi
  | none =>
    have h0 := (getPooledGeometryWith_of_none menv.toEnv
      (fun pl key s a => (createGeometry menv pl key s a).map some) P key ⟨2, 0, false⟩ addr
      hdi).2 _ (createIndices_two false)
    obtain ⟨pool1, g, hr⟩ := hsome { P with defaultIndices := some [2, 0, 3, 0, 1, 3] } _
      ⟨h.1, fun d2 hd2 => by
        simp only [Option.some.injEq] at hd2
        rw [← hd2]
        exact createIndices_two false, h.2.2⟩ rfl
    refine ⟨pool1, g, ?_⟩
    unfold getPooledGeometry at hr ⊢
    rw [h0]
    exact hr

theorem create_indicesOf (menv : MeshEnv) (S : Settings) (profile : Profile)
    (debugVar : Bool) : (create menv profile debugVar false).IndicesOf S :=
  ⟨rfl, fun d hd => by simp [create] at hd, fun e he => by simp [create] at he⟩

/-- C26, amended: on a pool with pooling enabled, for every sequence of
`getPooledGeometry` calls that all use the same settings `S` (with any
`sweep` and `clear` calls in between), the index buffer of the geometry a
further call with settings `S` returns equals `createIndices(S)`. -/
theorem shared_indices_same_settings (menv : MeshEnv) (S : Settings) (profile : Profile)
    (debugVar : Bool) (cs : List Call)
    (hcs : ∀ c ∈ cs, ∀ key s addr, c = Call.get key s addr → s = S)
    (key : TileKey) (addr : Nat) (pool1 : GeometryPool) (g : SharedGeometry)
    (hr : getPooledGeometry menv (calls menv (create menv profile debugVar false) cs) key S
      addr = (pool1, Except.ok (some g))) :
    ∃ idx, createIndices S = Except.ok idx ∧ g.indices = some idx := by
  have h1 := calls_indicesOf menv S cs _ (create_indicesOf menv S profile debugVar) hcs
  have h2 := getPooledGeometry_indicesOf menv S _ key addr h1
  rw [hr] at h2
  have hc := getPooledGeometryWith_establishes menv.toEnv _ _ _ key S addr g h1.1 hr
  obtain ⟨d, hd1, hd2⟩ := h2.2.2 _ (lookup_mem _ _ _ hc.2.2.1)
  exact ⟨d, hd2, hd1⟩

theorem shared_indices_same_settings_witness :
    ∃ (pool1 : GeometryPool) (g : SharedGeometry),
      getPooledGeometry refMeshEnv
          (calls refMeshEnv
            (create refMeshEnv (fromName refEnv 0 "global-geodetic") false false)
            [Call.get ⟨0, 0, 0, fromName refEnv 0 "global-geodetic"⟩ ⟨2, 0, false⟩ 100,
              Call.sweep (fun _ => 2),
              Call.get ⟨1, 0, 0, fromName refEnv 0 "global-geodetic"⟩ ⟨2, 0, false⟩ 101])
          ⟨1, 1, 0, fromName refEnv 0 "global-geodetic"⟩ ⟨2, 0, false⟩ 102 =
        (pool1, Except.ok (some g)) ∧
      ∃ idx, createIndices ⟨2, 0, false⟩ = Except.ok idx ∧ g.indices = some idx := by
  have hcs : ∀ c ∈ [Call.get ⟨0, 0, 0, fromName refEnv 0 "global-geodetic"⟩ ⟨2, 0, false⟩ 100,
      Call.sweep (fun _ => 2),
      Call.get ⟨1, 0, 0, fromName refEnv 0 "global-geodetic"⟩ ⟨2, 0, false⟩ 101],
      ∀ key s addr, c = Call.get key s addr → s = ⟨2, 0, false⟩ := by
    intro c hc key s addr he
    simp only [List.mem_cons, List.mem_singleton, List.not_mem_nil, or_false] at hc
    rcases hc with rfl | rfl | rfl <;> cases he <;> rfl
  obtain ⟨pool1, g, hr⟩ := getPooledGeometry_two_returns refMeshEnv _
    ⟨1, 1, 0, fromName refEnv 0 "global-geodetic"⟩ 102
    (calls_indicesOf refMeshEnv ⟨2, 0, false⟩ _ _
      (create_indicesOf refMeshEnv _ (fromName refEnv 0 "global-geodetic") false) hcs)
  exact ⟨pool1, g, hr, shared_indices_same_settings refMeshEnv ⟨2, 0, false⟩
    (fromName refEnv 0 "global-geodetic") false _ hcs _ 102 pool1 g hr⟩

/-! ## The index buffer, cell by cell (C28, C29) -/

/-- In a concatenation of chunks of one length `c`, chunk `a` is found at
position `a * c`. -/
theorem flatMap_range_chunk {α : Type} (c : Nat) : ∀ (m : Nat) (f : Nat → List α) (a : Nat),
    (∀ k, (f k).length = c) → a < m →
    (((List.range m).flatMap f).drop (a * c)).take c = f a := by
  intro m
  induction m with
  | zero => intro f a _ ha; omega
  | succ m ih =>
    intro f a hf ha
    rw [List.range_succ_eq_map, List.flatMap_cons, List.flatMap_map]
    cases a with
    | zero =>
      rw [Nat.zero_mul, List.drop_zero, List.take_append_of_le_length (le_of_eq (hf 0).symm),
        List.take_of_length_le (le_of_eq (hf 0))]
    | succ a =>
      have h1 : (a + 1) * c = (f 0).length + a * c := by rw [hf 0]; ring
      rw [h1, List.drop_append]
      exact ih (fun k => f (k + 1)) a (fun k => hf (k + 1)) (by omega)

theorem flatMap_range_length {α : Type} (c : Nat) (m : Nat) (f : Nat → List α)
    (hf : ∀ k, (f k).length = c) : ((List.range m).flatMap f).length = m * c := by
  simp [List.length_flatMap, hf, Function.comp_def]

theorem skirtIndices_length (b e : Nat) :
    (skirtIndices b e).length = ((e - 3 - b + 1) / 2 + 1) * 6 := by
  unfold skirtIndices
  simp only [List.length_append]
  rw [flatMap_range_length 6 _ (fun k => addSkirtTriangles (b + 2 * k) (b + 2 * k + 2))
    (fun k => rfl)]
  simp only [addSkirtTriangles, List.length_cons, List.length_nil]
  ring

theorem usub_one (n : Nat) (h1 : 1 ≤ n) (h2 : n < 2 ^ 32) : usub n 1 = n - 1 := by
  unfold usub
  have e1 : (1 : Nat) % 2 ^ 32 = 1 := by norm_num
  have e2 : n + (2 ^ 32 - 1) = (n - 1) + 2 ^ 32 := by omega
  rw [Nat.mod_eq_of_lt h2, e1, e2, Nat.add_mod_right, Nat.mod_eq_of_lt (by omega)]

theorem toUnsigned_toInt32 (n : Nat) (h : n < 2 ^ 31) : toUnsigned (toInt32 n) = n := by
  have h1 : n % 2 ^ 32 = n := Nat.mod_eq_of_lt (by omega)
  unfold toInt32
  rw [h1, if_pos h]
  unfold toUnsigned
  have h2 : ((n : Int)) % 2 ^ 32 = (n : Int) := Int.emod_eq_of_lt (by omega) (by omega)
  rw [h2]
  exact Int.toNat_natCast n

theorem getNumSkirtElements_of_skirt (s : Settings) (hs : 0 < s.skirtRatio)
    (hn : 1 ≤ s.tileSize) (hb : s.tileSize ≤ 2 ^ 14) :
    toUnsigned (getNumSkirtElements s) = (s.tileSize - 1) * 4 * 6 := by
  unfold getNumSkirtElements
  rw [if_pos hs, usub_one _ hn (by omega), Nat.mod_eq_of_lt (by omega),
    toUnsigned_toInt32 _ (by omega)]

/-- The index buffer in closed form: for a tile size from 2 to 16384 the
allocated count is the number of values written, and the buffer holds the
values written, each reduced modulo `2^16`. -/
theorem createIndices_eq (s : Settings) (hn : 2 ≤ s.tileSize) (hb : s.tileSize ≤ 2 ^ 14) :
    createIndices s = Except.ok
      ((surfaceIndices s.tileSize ++
        (if 0 < s.skirtRatio then
          skirtIndices (s.tileSize * s.tileSize)
            (s.tileSize * s.tileSize + (s.tileSize - 1) * 2 * 4)
        else [])).map (fun v => v % 2 ^ 16)) := by
  have hm : max s.tileSize 2 = s.tileSize := max_eq_left hn
  have hsq : s.tileSize * s.tileSize ≤ 2 ^ 14 * 2 ^ 14 := Nat.mul_le_mul hb hb
  have hsq1 : (s.tileSize - 1) * (s.tileSize - 1) ≤ 2 ^ 14 * 2 ^ 14 :=
    Nat.mul_le_mul (by omega) (by omega)
  have e1 : (s.tileSize * s.tileSize) % 2 ^ 32 = s.tileSize * s.tileSize :=
    Nat.mod_eq_of_lt (by omega)
  have e2 : ((s.tileSize - 1) * 2 * 4) % 2 ^ 32 = (s.tileSize - 1) * 2 * 4 :=
    Nat.mod_eq_of_lt (by omega)
  have e3 : ((s.tileSize - 1) * (s.tileSize - 1) * 6) % 2 ^ 32 =
      (s.tileSize - 1) * (s.tileSize - 1) * 6 := Nat.mod_eq_of_lt (by omega)
  by_cases hs : 0 < s.skirtRatio
  · have hlen : (skirtIndices (s.tileSize * s.tileSize)
        (s.tileSize * s.tileSize + (s.tileSize - 1) * 2 * 4)).length =
        (s.tileSize - 1) * 4 * 6 := by
      rw [skirtIndices_length]
      omega
    have e4 : ((s.tileSize - 1) * (s.tileSize - 1) * 6 + (s.tileSize - 1) * 4 * 6) % 2 ^ 32 =
        (s.tileSize - 1) * (s.tileSize - 1) * 6 + (s.tileSize - 1) * 4 * 6 :=
      Nat.mod_eq_of_lt (by omega)
    simp only [createIndices, hm, e1, e2, e3, hs, decide_True, if_true,
      getNumSkirtElements_of_skirt s hs (by omega) hb, e4]
    rw [setFrom_ok _ _ _ (by
      rw [List.length_replicate, List.length_append, surfaceIndices_length, hlen]
      omega)]
    simp [surfaceIndices_length, hlen, Except.map]
  · have e5 : toUnsigned (getNumSkirtElements s) = 0 := by
      unfold getNumSkirtElements
      rw [if_neg hs]
      rfl
    simp only [createIndices, hm, e3, hs, decide_False, if_false, e5, Nat.add_zero,
      List.append_nil, Bool.false_eq_true]
    rw [setFrom_ok _ _ _ (by
      rw [List.length_replicate, surfaceIndices_length]
      omega)]
    simp [surfaceIndices_length, Except.map]

/-- The six values the surface loops write for the cell `(i, j)`. -/
theorem surfaceIndices_cell (n i j : Nat) (hi : i < n - 1) (hj : j < n - 1) :
    ((surfaceIndices n).drop (6 * (j * (n - 1) + i))).take 6 =
      [j * n + i + n, j * n + i, j * n + i + n + 1, j * n + i, j * n + i + 1,
        j * n + i + n + 1] := by
  have hrow : ∀ k : Nat, ((List.range (n - 1)).flatMap fun i =>
      [k * n + i + n, k * n + i, k * n + i + n + 1, k * n + i, k * n + i + 1,
        k * n + i + n + 1]).length = (n - 1) * 6 := fun k =>
    flatMap_range_length 6 _ _ (fun _ => rfl)
  have h1 := flatMap_range_chunk ((n - 1) * 6) (n - 1)
    (fun k => (List.range (n - 1)).flatMap fun i =>
      [k * n + i + n, k * n + i, k * n + i + n + 1, k * n + i, k * n + i + 1,
        k * n + i + n + 1]) j hrow hj
  have h2 := flatMap_range_chunk 6 (n - 1)
    (fun i => [j * n + i + n, j * n + i, j * n + i + n + 1, j * n + i, j * n + i + 1,
        j * n + i + n + 1]) i (fun _ => rfl) hi
  have hs : surfaceIndices n = (List.range (n - 1)).flatMap fun k =>
      (List.range (n - 1)).flatMap fun i =>
        [k * n + i + n, k * n + i, k * n + i + n + 1, k * n + i, k * n + i + 1,
          k * n + i + n + 1] := rfl
  have hp : 6 * (j * (n - 1) + i) = j * ((n - 1) * 6) + i * 6 := by ring
  have h3 := h2
  simp only at h1 h3
  rw [← h1, List.drop_take, List.take_take] at h3
  have h4 : min 6 ((n - 1) * 6 - i * 6) = 6 := by omega
  rw [h4] at h3
  rw [hs, hp, ← List.drop_drop]
  exact h3

/-- The six entries of the index buffer for the cell `(i, j)`: the values the
loops write, reduced modulo `2^16`. -/
theorem createIndices_cell (s : Settings) (hn : 2 ≤ s.tileSize) (hb : s.tileSize ≤ 2 ^ 14)
    (i j : Nat) (hi : i < s.tileSize - 1) (hj : j < s.tileSize - 1) :
    ∃ idx, createIndices s = Except.ok idx ∧
      (idx.drop (6 * (j * (s.tileSize - 1) + i))).take 6 =
        [j * s.tileSize + i + s.tileSize, j * s.tileSize + i,
          j * s.tileSize + i + s.tileSize + 1, j * s.tileSize + i, j * s.tileSize + i + 1,
          j * s.tileSize + i + s.tileSize + 1].map (fun v => v % 2 ^ 16) := by
  refine ⟨_, createIndices_eq s hn hb, ?_⟩
  have hle : 6 * (j * (s.tileSize - 1) + i) + 6 ≤ (surfaceIndices s.tileSize).length := by
    rw [surfaceIndices_length]
    have h1 : j * (s.tileSize - 1) + i + 1 ≤ (s.tileSize - 1) * (s.tileSize - 1) := by
      have : (j + 1) * (s.tileSize - 1) ≤ (s.tileSize - 1) * (s.tileSize - 1) :=
        Nat.mul_le_mul_right _ (by omega)
      have h3 : (j + 1) * (s.tileSize - 1) = j * (s.tileSize - 1) + (s.tileSize - 1) := by ring
      omega
    omega
  rw [← List.map_drop, ← List.map_take, List.drop_append_of_le_length (by omega),
    List.take_append_of_le_length (by rw [List.length_drop]; omega),
    surfaceIndices_cell _ _ _ hi hj]

/-- C28, as stated, fails: the index buffer holds 16-bit values. For tile
size 257 the cell `(0, 255)` has `i00 = 255 * 257 = 65535`, `i10 = 65536`,
`i01 = 65792` and `i11 = 65793`, and the six entries at positions
`6 * (255 * 256 + 0) ..` are `(256, 65535, 257, 65535, 0, 257)`, not
`(i01, i00, i11, i00, i10, i11)`. -/
theorem createIndices_cell_wraps :
    ∃ idx, createIndices ⟨257, 0, false⟩ = Except.ok idx ∧
      (idx.drop (6 * (255 * (257 - 1) + 0))).take 6 = [256, 65535, 257, 65535, 0, 257] ∧
      255 * 257 + 0 + 257 = 65792 := by
  obtain ⟨idx, h1, h2⟩ := createIndices_cell ⟨257, 0, false⟩ (by norm_num) (by norm_num) 0 255
    (by norm_num) (by norm_num)
  exact ⟨idx, h1, h2, rfl⟩

/-- C28, amended: for every tile size `n` with `2 <= n <= 256` (so that
every vertex index fits the 16-bit index type) and every cell `(i, j)` with
`0 <= i, j < n - 1`, with `i00 = j*n+i`, `i10 = i00+1`, `i01 = i00+n`,
`i11 = i01+1`, the six indices at positions `6*(j*(n-1)+i) .. +5` are
`(i01, i00, i11, i00, i10, i11)`; the four corners are pairwise distinct, so
both triangles have three distinct vertices, both use the diagonal
`i00`-`i11`, and together they cover the four corners of the cell. -/
theorem createIndices_cells (s : Settings) (hn : 2 ≤ s.tileSize) (h16 : s.tileSize ≤ 256) :
    ∃ idx, createIndices s = Except.ok idx ∧
      ∀ i j : Nat, i < s.tileSize - 1 → j < s.tileSize - 1 →
        (idx.drop (6 * (j * (s.tileSize - 1) + i))).take 6 =
            [j * s.tileSize + i + s.tileSize, j * s.tileSize + i,
              j * s.tileSize + i + s.tileSize + 1, j * s.tileSize + i,
              j * s.tileSize + i + 1, j * s.tileSize + i + s.tileSize + 1] ∧
          j * s.tileSize + i ≠ j * s.tileSize + i + 1 ∧
          j * s.tileSize + i ≠ j * s.tileSize + i + s.tileSize ∧
          j * s.tileSize + i ≠ j * s.tileSize + i + s.tileSize + 1 ∧
          j * s.tileSize + i + 1 ≠ j * s.tileSize + i + s.tileSize ∧
          j * s.tileSize + i + 1 ≠ j * s.tileSize + i + s.tileSize + 1 ∧
          j * s.tileSize + i + s.tileSize ≠ j * s.tileSize + i + s.tileSize + 1 := by
  have hb : s.tileSize ≤ 2 ^ 14 := by omega
  refine ⟨_, createIndices_eq s hn hb, ?_⟩
  intro i j hi hj
  obtain ⟨idx, h1, h2⟩ := createIndices_cell s hn hb i j hi hj
  rw [createIndices_eq s hn hb] at h1
  simp only [Except.ok.injEq] at h1
  rw [h1]
  refine ⟨?_, by omega, by omega, by omega, by omega, by omega, by omega⟩
  rw [h2]
  have hj1 : j * s.tileSize + s.tileSize ≤ (s.tileSize - 1) * s.tileSize := by
    have : (j + 1) * s.tileSize ≤ (s.tileSize - 1) * s.tileSize :=
      Nat.mul_le_mul_right _ (by omega)
    have h3 : (j + 1) * s.tileSize = j * s.tileSize + s.tileSize := by ring
    omega
  have hsq : (s.tileSize - 1) * s.tileSize ≤ 255 * 256 := Nat.mul_le_mul (by omega) h16
  simp only [List.map_cons, List.map_nil]
  rw [Nat.mod_eq_of_lt (by omega : j * s.tileSize + i + s.tileSize < 2 ^ 16),
    Nat.mod_eq_of_lt (by omega : j * s.tileSize + i < 2 ^ 16),
    Nat.mod_eq_of_lt (by omega : j * s.tileSize + i + s.tileSize + 1 < 2 ^ 16),
    Nat.mod_eq_of_lt (by omega : j * s.tileSize + i + 1 < 2 ^ 16)]

theorem createIndices_cells_witness :
    ∃ idx, createIndices ⟨3, 0, false⟩ = Except.ok idx ∧
      (idx.drop (6 * (1 * (3 - 1) + 0))).take 6 = [6, 3, 7, 3, 4, 7] := by
  obtain ⟨idx, h1, h2⟩ := createIndices_cells ⟨3, 0, false⟩ (by norm_num) (by norm_num)
  exact ⟨idx, h1, (h2 0 1 (by norm_num) (by norm_num)).1⟩

/-- The six values of round `k` of the skirt loop. -/
theorem skirtIndices_quad (b e k : Nat) (hk : k < (e - 3 - b + 1) / 2) :
    ((skirtIndices b e).drop (6 * k)).take 6 =
      [b + 2 * k, b + 2 * k + 1, b + 2 * k + 2, b + 2 * k + 2, b + 2 * k + 1,
        b + 2 * k + 3] := by
  have h1 := flatMap_range_chunk 6 ((e - 3 - b + 1) / 2)
    (fun k => addSkirtTriangles (b + 2 * k) (b + 2 * k + 2)) k (fun _ => rfl) hk
  have hl := flatMap_range_length 6 ((e - 3 - b + 1) / 2)
    (fun k => addSkirtTriangles (b + 2 * k) (b + 2 * k + 2)) (fun _ => rfl)
  unfold skirtIndices
  simp only
  rw [List.drop_append_of_le_length (by rw [hl]; omega),
    List.take_append_of_le_length (by rw [List.length_drop, hl]; omega)]
  have hp : 6 * k = k * 6 := by ring
  rw [hp, h1]
  rfl

/-- The six values of the closing call after the skirt loop. -/
theorem skirtIndices_last (b e : Nat) :
    (skirtIndices b e).drop (6 * ((e - 3 - b + 1) / 2)) =
      [b + 2 * ((e - 3 - b + 1) / 2), b + 2 * ((e - 3 - b + 1) / 2) + 1, b, b,
        b + 2 * ((e - 3 - b + 1) / 2) + 1, b + 1] := by
  have hl := flatMap_range_length 6 ((e - 3 - b + 1) / 2)
    (fun k => addSkirtTriangles (b + 2 * k) (b + 2 * k + 2)) (fun _ => rfl)
  unfold skirtIndices
  simp only
  rw [List.drop_append_of_le_length (by rw [hl]; omega), List.drop_of_length_le (by rw [hl]; omega)]
  rfl

theorem skirtIndices_mem (b m x : Nat) (hm : 1 ≤ m) (hx : x ∈ skirtIndices b (b + 8 * m)) :
    b ≤ x ∧ x < b + 8 * m := by
  have hr : (b + 8 * m - 3 - b + 1) / 2 = 4 * m - 1 := by omega
  unfold skirtIndices at hx
  simp only [hr, List.mem_append, List.mem_flatMap, List.mem_range, addSkirtTriangles,
    List.mem_cons, List.mem_singleton, List.not_mem_nil, or_false] at hx
  rcases hx with ⟨k, hk, h⟩ | h
  · rcases h with h | h | h | h | h | h <;> omega
  · rcases h with h | h | h | h | h | h <;> omega

/-- The skirt part of the index buffer: it follows the surface part and holds
the values of the skirt block, reduced modulo `2^16`. -/
theorem createIndices_skirt_part (s : Settings) (hs : 0 < s.skirtRatio) (hn : 2 ≤ s.tileSize)
    (hb : s.tileSize ≤ 2 ^ 14) :
    ∃ idx, createIndices s = Except.ok idx ∧
      idx.length = (s.tileSize - 1) * (s.tileSize - 1) * 6 + (s.tileSize - 1) * 4 * 6 ∧
      idx.drop ((s.tileSize - 1) * (s.tileSize - 1) * 6) =
        (skirtIndices (s.tileSize * s.tileSize)
          (s.tileSize * s.tileSize + 8 * (s.tileSize - 1))).map (fun v => v % 2 ^ 16) := by
  have he : (s.tileSize - 1) * 2 * 4 = 8 * (s.tileSize - 1) := by ring
  have h := createIndices_eq s hn hb
  rw [if_pos hs, he] at h
  refine ⟨_, h, ?_, ?_⟩
  · rw [List.length_map, List.length_append, surfaceIndices_length, skirtIndices_length]
    omega
  · rw [← List.map_drop, ← surfaceIndices_length, List.drop_left]

/-! ## The vertex arrays (C29, C30) -/

theorem getMorphNeighborIndexOffset_bounds (col row n : Nat) :
    1 ≤ getMorphNeighborIndexOffset col row n ∧ getMorphNeighborIndexOffset col row n ≤ n + 2 := by
  unfold getMorphNeighborIndexOffset
  split
  · omega
  · split
    · omega
    · split <;> omega

/-- One step of the vertex loops succeeds on arrays of `N` elements when the
vertex index is below `N`, and leaves arrays of `N` elements. -/
theorem surfaceVertex_ok (menv : MeshEnv) (w : Vec3 ℚ → Vec3 ℚ) (l : Locator)
    (n row col N : Nat) (m : Mesh) (hm : m.Sized N) (hi : (row * n + col) % 2 ^ 32 < N)
    (hN : n + 2 ≤ N) :
    ∃ m2, surfaceVertex menv w l n row col m = Except.ok m2 ∧ m2.Sized N ∧
      (m2.neighbors.isSome = m.neighbors.isSome) ∧
      (m2.neighborNormals.isSome = m.neighborNormals.isSome) := by
  obtain ⟨v, nm, uv, nb, nn, tb⟩ := m
  obtain ⟨h1, h2, h3, h4, h5⟩ := hm
  simp only at h1 h2 h3 h4 h5
  have ho := getMorphNeighborIndexOffset_bounds col row n
  have hi : (row * n + col) % 4294967296 < N := by
    have e : (2 : Nat) ^ 32 = 4294967296 := by norm_num
    rw [e] at hi
    exact hi
  have hlt : ¬ N < getMorphNeighborIndexOffset col row n := by omega
  have hlt2 : N - getMorphNeighborIndexOffset col row n < N := by omega
  cases nb with
  | none =>
    cases nn with
    | none =>
      simp [surfaceVertex, arraySet, arrayAt, bind, Except.bind, h1, h2, h3, hi, Mesh.Sized]
    | some nn =>
      have h5 := h5 nn rfl
      simp [surfaceVertex, arraySet, arrayAt, bind, Except.bind, h1, h2, h3, h5, hi, Mesh.Sized,
        hlt, hlt2]
  | some nb =>
    have h4 := h4 nb rfl
    cases nn with
    | none =>
      simp [surfaceVertex, arraySet, arrayAt, bind, Except.bind, h1, h2, h3, h4, hi, Mesh.Sized,
        hlt, hlt2]
    | some nn =>
      have h5 := h5 nn rfl
      simp [surfaceVertex, arraySet, arrayAt, bind, Except.bind, h1, h2, h3, h4, h5, hi,
        Mesh.Sized, hlt, hlt2]

/-- A loop whose steps succeed on the states of an invariant succeeds, and
the invariant holds at its end. -/
theorem foldlM_ok {σ α : Type} (P : σ → Prop) (f : σ → α → Except Fault σ) :
    ∀ (l : List α) (s : σ), P s →
      (∀ a ∈ l, ∀ s, P s → ∃ s2, f s a = Except.ok s2 ∧ P s2) →
      ∃ s2, l.foldlM f s = Except.ok s2 ∧ P s2 := by
  intro l
  induction l with
  | nil => intro s hs _; exact ⟨s, rfl, hs⟩
  | cons a l ih =>
    intro s hs hf
    obtain ⟨s1, h1, hp1⟩ := hf a (List.mem_cons_self _ _) s hs
    obtain ⟨s2, h2, hp2⟩ := ih s1 hp1 (fun b hb => hf b (List.mem_cons_of_mem _ hb))
    refine ⟨s2, ?_, hp2⟩
    rw [List.foldlM_cons, h1]
    exact h2

/-- One step of the skirt loops succeeds on arrays of `N` elements when the
copied vertex and the two slots written are below `N`. -/
theorem addSkirtDataForIndex_ok (menv : MeshEnv) (H : ℚ) (N P INDEX : Nat) (m : Mesh)
    (hm : m.Sized N) (hI : INDEX < N) (hP : P + 1 < N) :
    ∃ m2, addSkirtDataForIndex menv H (m, P) INDEX = Except.ok (m2, P + 2) ∧ m2.Sized N ∧
      (m2.neighbors.isSome = m.neighbors.isSome) ∧
      (m2.neighborNormals.isSome = m.neighborNormals.isSome) := by
  obtain ⟨v, nm, uv, nb, nn, tb⟩ := m
  obtain ⟨h1, h2, h3, h4, h5⟩ := hm
  simp only at h1 h2 h3 h4 h5
  have hP0 : P < N := by omega
  cases nb with
  | none =>
    cases nn with
    | none =>
      simp [addSkirtDataForIndex, markSkirt, arraySet, arrayAt, bind, Except.bind, h1, h2, h3,
        hI, hP, hP0, Mesh.Sized]
    | some nn =>
      have h5 := h5 nn rfl
      simp [addSkirtDataForIndex, markSkirt, arraySet, arrayAt, bind, Except.bind, h1, h2, h3,
        h5, hI, hP, hP0, Mesh.Sized]
  | some nb =>
    have h4 := h4 nb rfl
    cases nn with
    | none =>
      simp [addSkirtDataForIndex, markSkirt, arraySet, arrayAt, bind, Except.bind, h1, h2, h3,
        h4, hI, hP, hP0, Mesh.Sized]
    | some nn =>
      have h5 := h5 nn rfl
      simp [addSkirtDataForIndex, markSkirt, arraySet, arrayAt, bind, Except.bind, h1, h2, h3,
        h4, h5, hI, hP, hP0, Mesh.Sized]

/-- The skirt loops succeed when the vertices they copy and the slots they
write are below `N`; they write two slots per vertex visited. -/
theorem skirt_loop_ok (menv : MeshEnv) (H : ℚ) (N : Nat) (b1 b2 : Bool) :
    ∀ (l : List Nat) (m : Mesh) (P : Nat), m.Sized N → m.neighbors.isSome = b1 →
      m.neighborNormals.isSome = b2 → (∀ x ∈ l, x < N) → P + 2 * l.length ≤ N →
      ∃ m2, l.foldlM (addSkirtDataForIndex menv H) (m, P) = Except.ok (m2, P + 2 * l.length) ∧
        m2.Sized N ∧ m2.neighbors.isSome = b1 ∧ m2.neighborNormals.isSome = b2 := by
  intro l
  induction l with
  | nil => intro m P hm hb1 hb2 _ _; exact ⟨m, rfl, hm, hb1, hb2⟩
  | cons a l ih =>
    intro m P hm hb1 hb2 hl hP
    simp only [List.length_cons] at hP
    obtain ⟨m1, h1, hs1, hn1, hn2⟩ := addSkirtDataForIndex_ok menv H N P a m hm
      (hl a (List.mem_cons_self _ _)) (by omega)
    obtain ⟨m2, h2, hs2, hm1, hm2⟩ := ih m1 (P + 2) hs1 (by rw [hn1, hb1]) (by rw [hn2, hb2])
      (fun x hx => hl x (List.mem_cons_of_mem _ hx)) (by omega)
    refine ⟨m2, ?_, hs2, hm1, hm2⟩
    rw [List.foldlM_cons, h1]
    simp only [List.length_cons]
    have e : P + 2 * (l.length + 1) = P + 2 + 2 * l.length := by ring
    rw [e]
    exact h2

theorem skirtVisits_length (n : Nat) : (skirtVisits n).length = 4 * (n - 1) := by
  simp [skirtVisits]
  omega

theorem skirtVisits_lt (n x : Nat) (hx : x ∈ skirtVisits n) : x < n * n := by
  have hn : ∀ r, r < n - 1 → (r + 1) * n ≤ (n - 1) * n := fun r hr =>
    Nat.mul_le_mul_right n (by omega)
  have h2 : (n - 1) * n + n = n * n := by
    rcases Nat.eq_zero_or_pos n with h | h
    · subst h; rfl
    · calc (n - 1) * n + n = (n - 1 + 1) * n := by ring
        _ = n * n := by rw [Nat.sub_add_cancel h]
  simp only [skirtVisits, List.mem_append, List.mem_range, List.mem_map, List.mem_reverse] at hx
  rcases hx with ((h | ⟨r, hr, rfl⟩) | ⟨c, hc, rfl⟩) | ⟨r, hr, rfl⟩
  · have := hn 0 (by omega)
    omega
  · have := hn r hr
    have e : (r + 1) * n = r * n + n := by ring
    omega
  · omega
  · have := hn r hr
    omega

/-- The vertex loops succeed on arrays of `N >= n * n` elements. -/
theorem surface_loops_ok (menv : MeshEnv) (w : Vec3 ℚ → Vec3 ℚ) (l : Locator)
    (n N : Nat) (m0 : Mesh) (hm : m0.Sized N) (hsq : n * n ≤ N) (hN : n + 2 ≤ N) :
    ∃ m1, (List.range n).foldlM
        (fun m row => (List.range n).foldlM
          (fun m col => surfaceVertex menv w l n row col m) m) m0 = Except.ok m1 ∧
      m1.Sized N ∧ m1.neighbors.isSome = m0.neighbors.isSome ∧
      m1.neighborNormals.isSome = m0.neighborNormals.isSome := by
  have hidx : ∀ row col, row < n → col < n → (row * n + col) % 2 ^ 32 < N := by
    intro row col hr hc
    have h1 : (row + 1) * n ≤ n * n := Nat.mul_le_mul_right n (by omega)
    have h2 : (row + 1) * n = row * n + n := by ring
    exact lt_of_le_of_lt (Nat.mod_le _ _) (by omega)
  obtain ⟨m1, h1, h2, h3, h4⟩ := foldlM_ok
    (fun m : Mesh => m.Sized N ∧ m.neighbors.isSome = m0.neighbors.isSome ∧
      m.neighborNormals.isSome = m0.neighborNormals.isSome)
    (fun m row => (List.range n).foldlM
      (fun m col => surfaceVertex menv w l n row col m) m)
    (List.range n) m0 ⟨hm, rfl, rfl⟩ (by
      intro row hrow m hP
      refine foldlM_ok
        (fun m : Mesh => m.Sized N ∧ m.neighbors.isSome = m0.neighbors.isSome ∧
          m.neighborNormals.isSome = m0.neighborNormals.isSome)
        (fun m col => surfaceVertex menv w l n row col m) (List.range n) m hP ?_
      intro col hcol m hP
      obtain ⟨m2, h1, h2, h3, h4⟩ := surfaceVertex_ok menv w l n row col N m hP.1
        (hidx row col (List.mem_range.mp hrow) (List.mem_range.mp hcol)) hN
      exact ⟨m2, h1, h2, by rw [h3, hP.2.1], by rw [h4, hP.2.2]⟩)
  exact ⟨m1, h1, h2, h3, h4⟩

/-- The build succeeds for every tile size from 2 to 16384 once the index
buffer is there: with pooling on, the default index buffer of the pool. The
vertex array of the mesh has `n * n` elements, and `8 * (n - 1)` more with a
skirt; the neighbor arrays are there exactly with morphing. -/
theorem createGeometry_returns (menv : MeshEnv) (pool : GeometryPool) (key : TileKey)
    (s : Settings) (addr : Nat) (hn : 2 ≤ s.tileSize) (hb : s.tileSize ≤ 2 ^ 14)
    (hd : pool.enabled = true → pool.defaultIndices.isSome = true) :
    ∃ g, createGeometry menv pool key s addr = Except.ok g ∧
      g.verts.length =
        s.tileSize * s.tileSize + (if 0 < s.skirtRatio then 8 * (s.tileSize - 1) else 0) ∧
      g.neighbors.isSome = s.morphing ∧ g.neighborNormals.isSome = s.morphing := by
  have hsq : s.tileSize * s.tileSize ≤ 2 ^ 14 * 2 ^ 14 := Nat.mul_le_mul hb hb
  have hsq2 : 2 * s.tileSize ≤ s.tileSize * s.tileSize := Nat.mul_le_mul_right _ hn
  have e1 : (s.tileSize * s.tileSize) % 2 ^ 32 = s.tileSize * s.tileSize :=
    Nat.mod_eq_of_lt (by omega)
  have e2 : (usub s.tileSize 1 * 2 * 4) % 2 ^ 32 = 8 * (s.tileSize - 1) := by
    rw [usub_one _ (by omega) (by omega), Nat.mod_eq_of_lt (by omega)]
    ring
  have hidx : ∃ idx, (pool.enabled = true ∧ pool.defaultIndices = some idx) ∨
      (pool.enabled = false ∧ createIndices s = Except.ok idx) := by
    cases he : pool.enabled with
    | true =>
      have := hd he
      cases hdi : pool.defaultIndices with
      | none => rw [hdi] at this; simp at this
      | some d => exact ⟨d, Or.inl ⟨rfl, rfl⟩⟩
    | false => exact ⟨_, Or.inr ⟨rfl, createIndices_eq s hn hb⟩⟩
  obtain ⟨idx, hidx⟩ := hidx
  have hmorph : ∀ N : Nat, (if s.morphing then some (List.replicate N (Vec3.zero : Vec3 ℚ))
      else none).isSome = s.morphing := by
    intro N
    cases s.morphing <;> rfl
  have hsized : ∀ N : Nat, Mesh.Sized N
      { verts := List.replicate N Vec3.zero
        normals := List.replicate N Vec3.zero
        uvs := List.replicate N Vec3.zero
        neighbors := if s.morphing then some (List.replicate N Vec3.zero) else none
        neighborNormals := if s.morphing then some (List.replicate N Vec3.zero) else none
        tileBound := Sphere.empty } := by
    intro N
    refine ⟨List.length_replicate _ _, List.length_replicate _ _, List.length_replicate _ _,
      ?_, ?_⟩
    · intro nb h
      cases hm : s.morphing with
      | true => simp [hm] at h; rw [← h]; exact List.length_replicate _ _
      | false => simp [hm] at h
    · intro nb h
      cases hm : s.morphing with
      | true => simp [hm] at h; rw [← h]; exact List.length_replicate _ _
      | false => simp [hm] at h
  by_cases hs : 0 < s.skirtRatio
  · have eN : (s.tileSize * s.tileSize + 8 * (s.tileSize - 1)) % 2 ^ 32 =
        s.tileSize * s.tileSize + 8 * (s.tileSize - 1) := Nat.mod_eq_of_lt (by omega)
    obtain ⟨m1, h1, h2, h3, h4⟩ := surface_loops_ok menv
      (menv.world2local pool.worldSRS (key.extent menv.toEnv))
      ⟨key.extent menv.toEnv, pool.worldSRS⟩ s.tileSize
      (s.tileSize * s.tileSize + 8 * (s.tileSize - 1)) _
      (hsized (s.tileSize * s.tileSize + 8 * (s.tileSize - 1))) (by omega) (by omega)
    obtain ⟨m2, h5, h6, h7, h8⟩ := skirt_loop_ok menv (m1.tileBound.radius * s.skirtRatio)
      (s.tileSize * s.tileSize + 8 * (s.tileSize - 1)) s.morphing s.morphing
      (skirtVisits s.tileSize) m1 (s.tileSize * s.tileSize) h2
      (by rw [h3]; exact hmorph _) (by rw [h4]; exact hmorph _)
      (fun x hx => lt_of_lt_of_le (skirtVisits_lt _ x hx) (by omega))
      (by rw [skirtVisits_length]; omega)
    refine ⟨⟨addr, m2.verts, m2.normals, m2.uvs, m2.neighbors, m2.neighborNormals, some idx,
      idx.length⟩, ?_, ?_, h7, h8⟩
    · unfold createGeometry
      simp only [bind, Except.bind, hs, decide_True, if_true, e1, e2, eN, h1, h5]
      rcases hidx with ⟨he, hdi⟩ | ⟨he, hci⟩
      · simp only [he, hdi, if_true]
      · simp only [he, hci, Bool.false_eq_true, if_false, Except.map]
    · rw [if_pos hs]
      exact h6.1
  · have eN : (s.tileSize * s.tileSize + 0) % 2 ^ 32 = s.tileSize * s.tileSize := by
      rw [Nat.add_zero]
      exact e1
    obtain ⟨m1, h1, h2, h3, h4⟩ := surface_loops_ok menv
      (menv.world2local pool.worldSRS (key.extent menv.toEnv))
      ⟨key.extent menv.toEnv, pool.worldSRS⟩ s.tileSize (s.tileSize * s.tileSize) _
      (hsized (s.tileSize * s.tileSize)) (le_refl _) (by omega)
    refine ⟨⟨addr, m1.verts, m1.normals, m1.uvs, m1.neighbors, m1.neighborNormals, some idx,
      idx.length⟩, ?_, ?_, by rw [h3]; exact hmorph _, by rw [h4]; exact hmorph _⟩
    · unfold createGeometry
      simp only [bind, Except.bind, hs, decide_False, Bool.false_eq_true, if_false, e1, eN, h1]
      rcases hidx with ⟨he, hdi⟩ | ⟨he, hci⟩
      · simp only [he, hdi, if_true]
      · simp only [he, hci, Bool.false_eq_true, if_false, Except.map]
    · rw [if_neg hs, Nat.add_zero]
      exact h2.1

/-- C29, as stated, fails: the index buffer holds 16-bit values. For tile
size 257 with a skirt the first skirt quad, at positions `256 * 256 * 6 ..`,
is `(513, 514, 515, 515, 514, 516)`: these values are not in
`[257 * 257, 257 * 257 + 8 * 256)`, whose lower end is 66049. -/
theorem createIndices_skirt_wraps :
    ∃ idx, createIndices ⟨257, 1, false⟩ = Except.ok idx ∧
      idx.length = (257 - 1) * (257 - 1) * 6 + (257 - 1) * 4 * 6 ∧
      (idx.drop ((257 - 1) * (257 - 1) * 6)).take 6 = [513, 514, 515, 515, 514, 516] ∧
      257 * 257 = 66049 := by
  obtain ⟨idx, h1, h2, h3⟩ := createIndices_skirt_part ⟨257, 1, false⟩ (by norm_num)
    (by norm_num) (by norm_num)
  refine ⟨idx, h1, h2, ?_, rfl⟩
  rw [h3, ← List.map_take]
  have hq := skirtIndices_quad (257 * 257) (257 * 257 + 8 * (257 - 1)) 0 (by norm_num)
  rw [Nat.mul_zero, List.drop_zero] at hq
  rw [hq]
  rfl

/-- C29, amended: with a skirt configured (`skirtRatio > 0`) and a tile size
`n >= 2` whose skirt vertex indices fit the 16-bit index type
(`n*n + 8*(n-1) <= 65536`, that is `n <= 252`), `createIndices` appends after
the `(n-1)*(n-1)*6` surface indices exactly `(n-1)*4*6` skirt indices, each
referring to a skirt vertex in `[n*n, n*n + 8*(n-1))`, and `n*n + 8*(n-1)` is
the length of the vertex array `createGeometry` returns; the skirt indices
form `4*(n-1)` quads over consecutive skirt vertex pairs, quad `k` joining
the pair at `n*n + 2*k` to the next pair, and the last quad joining the final
pair back to the first pair at `n*n`. -/
theorem createIndices_skirt (s : Settings) (hs : 0 < s.skirtRatio) (hn : 2 ≤ s.tileSize)
    (h16 : s.tileSize * s.tileSize + 8 * (s.tileSize - 1) ≤ 2 ^ 16) :
    ∃ idx, createIndices s = Except.ok idx ∧
      idx.length = (s.tileSize - 1) * (s.tileSize - 1) * 6 + (s.tileSize - 1) * 4 * 6 ∧
      (∀ x ∈ idx.drop ((s.tileSize - 1) * (s.tileSize - 1) * 6),
        s.tileSize * s.tileSize ≤ x ∧ x < s.tileSize * s.tileSize + 8 * (s.tileSize - 1)) ∧
      (∀ (menv : MeshEnv) (pool : GeometryPool) (key : TileKey) (addr : Nat),
        (pool.enabled = true → pool.defaultIndices.isSome = true) →
        ∃ g, createGeometry menv pool key s addr = Except.ok g ∧
          g.verts.length = s.tileSize * s.tileSize + 8 * (s.tileSize - 1)) ∧
      (∀ k, k + 1 < 4 * (s.tileSize - 1) →
        (idx.drop ((s.tileSize - 1) * (s.tileSize - 1) * 6 + 6 * k)).take 6 =
          [s.tileSize * s.tileSize + 2 * k, s.tileSize * s.tileSize + 2 * k + 1,
            s.tileSize * s.tileSize + 2 * k + 2, s.tileSize * s.tileSize + 2 * k + 2,
            s.tileSize * s.tileSize + 2 * k + 1, s.tileSize * s.tileSize + 2 * k + 3]) ∧
      idx.drop ((s.tileSize - 1) * (s.tileSize - 1) * 6 + 6 * (4 * (s.tileSize - 1) - 1)) =
        [s.tileSize * s.tileSize + 8 * (s.tileSize - 1) - 2,
          s.tileSize * s.tileSize + 8 * (s.tileSize - 1) - 1,
          s.tileSize * s.tileSize, s.tileSize * s.tileSize,
          s.tileSize * s.tileSize + 8 * (s.tileSize - 1) - 1,
          s.tileSize * s.tileSize + 1] := by
  have hsq : s.tileSize * 2 ≤ s.tileSize * s.tileSize := Nat.mul_le_mul_left _ hn
  have hb : s.tileSize ≤ 2 ^ 14 := by omega
  obtain ⟨idx, h1, h2, h3⟩ := createIndices_skirt_part s hs hn hb
  have hr : (s.tileSize * s.tileSize + 8 * (s.tileSize - 1) - 3 - s.tileSize * s.tileSize + 1) / 2
      = 4 * (s.tileSize - 1) - 1 := by omega
  have hid : (skirtIndices (s.tileSize * s.tileSize)
      (s.tileSize * s.tileSize + 8 * (s.tileSize - 1))).map (fun v => v % 2 ^ 16) =
      skirtIndices (s.tileSize * s.tileSize)
        (s.tileSize * s.tileSize + 8 * (s.tileSize - 1)) := by
    conv_rhs => rw [← List.map_id (skirtIndices (s.tileSize * s.tileSize)
      (s.tileSize * s.tileSize + 8 * (s.tileSize - 1)))]
    apply List.map_congr_left
    intro x hx
    have := skirtIndices_mem _ _ x (by omega) hx
    exact Nat.mod_eq_of_lt (by omega)
  rw [hid] at h3
  refine ⟨idx, h1, h2, ?_, ?_, ?_, ?_⟩
  · intro x hx
    rw [h3] at hx
    exact skirtIndices_mem _ _ x (by omega) hx
  · intro menv pool key addr hd
    obtain ⟨g, hg, hl, -⟩ := createGeometry_returns menv pool key s addr hn hb hd
    rw [if_pos hs] at hl
    exact ⟨g, hg, hl⟩
  · intro k hk
    rw [← List.drop_drop, h3]
    exact skirtIndices_quad _ _ k (by rw [hr]; omega)
  · rw [← List.drop_drop, h3]
    have hl := skirtIndices_last (s.tileSize * s.tileSize)
      (s.tileSize * s.tileSize + 8 * (s.tileSize - 1))
    rw [hr] at hl
    rw [hl]
    have e1 : s.tileSize * s.tileSize + 2 * (4 * (s.tileSize - 1) - 1) =
        s.tileSize * s.tileSize + 8 * (s.tileSize - 1) - 2 := by omega
    have e2 : s.tileSize * s.tileSize + 8 * (s.tileSize - 1) - 2 + 1 =
        s.tileSize * s.tileSize + 8 * (s.tileSize - 1) - 1 := by omega
    rw [e1, e2]

theorem createIndices_skirt_witness :
    ∃ idx, createIndices ⟨2, 1, false⟩ = Except.ok idx ∧ idx.length = 30 ∧
      (∃ g, createGeometry refMeshEnv ⟨SRS.WGS84, false, true, some idx, []⟩
          ⟨0, 0, 0, fromName refEnv 0 "global-geodetic"⟩ ⟨2, 1, false⟩ 100 = Except.ok g ∧
        g.verts.length = 12) ∧
      (idx.drop 6).take 6 = [4, 5, 6, 6, 5, 7] ∧ idx.drop 24 = [10, 11, 4, 4, 11, 5] := by
  obtain ⟨idx, h1, h2, -, h4, h5, h6⟩ := createIndices_skirt ⟨2, 1, false⟩ (by norm_num)
    (by norm_num) (by norm_num)
  exact ⟨idx, h1, h2, h4 refMeshEnv _ _ 100 (fun _ => rfl), h5 0 (by norm_num), h6⟩

/-! ## Morph neighbors (C30) -/

/-- The vertices and the neighbors of the 2 x 2 mesh with morphing: the
neighbor of a vertex is read from the slot `size - offset` of the vertex
array, counted from the end of the whole array. -/
theorem createGeometry_two_neighbors (menv : MeshEnv) (pool : GeometryPool) (key : TileKey)
    (addr : Nat) (idx : List Nat) (he : pool.enabled = true)
    (hd : pool.defaultIndices = some idx) :
    ∃ g : SharedGeometry, createGeometry menv pool key ⟨2, 0, true⟩ addr = Except.ok g ∧
      g.verts =
        [tileFrame menv pool.worldSRS (key.extent menv.toEnv) ⟨0, 0, 0⟩,
          tileFrame menv pool.worldSRS (key.extent menv.toEnv) ⟨1, 0, 0⟩,
          tileFrame menv pool.worldSRS (key.extent menv.toEnv) ⟨0, 1, 0⟩,
          tileFrame menv pool.worldSRS (key.extent menv.toEnv) ⟨1, 1, 0⟩] ∧
      g.neighbors =
        some [Vec3.zero, Vec3.zero,
          tileFrame menv pool.worldSRS (key.extent menv.toEnv) ⟨1, 0, 0⟩,
          tileFrame menv pool.worldSRS (key.extent menv.toEnv) ⟨0, 0, 0⟩] := by
  simp [createGeometry, List.range_succ, surfaceVertex, arraySet, arrayAt, bind, Except.bind,
    pure, Except.pure, List.replicate, he, hd, tileFrame, getMorphNeighborIndexOffset]

/-- C30, evaluated: for the level-0 tile of a projected profile with bounds
`[0, 4] x [0, 4]`, tile size 2, morphing on and no skirt, the four vertices
are `(-2,-2,0)`, `(2,-2,0)`, `(-2,2,0)`, `(2,2,0)`, and the neighbors recorded
are `(0,0,0)`, `(0,0,0)`, `(2,-2,0)`, `(-2,-2,0)`: the vertex at `(0, 0)` is
not its own neighbor, and the neighbor of the vertex at `(0, 1)` is the vertex
at `(1, 0)`, not the one at `(0, 0)`. -/
theorem morph_neighbor_reads_tail :
    ∃ g : SharedGeometry,
      createGeometry refMeshEnv
          ⟨SRS.SPHERICAL_MERCATOR, false, true, some [2, 0, 3, 0, 1, 3], []⟩
          ⟨0, 0, 0, fromSRS refEnv 0 SRS.SPHERICAL_MERCATOR ⟨0, 0, 4, 4⟩ 1 1⟩ ⟨2, 0, true⟩ 100 =
        Except.ok g ∧
      g.verts = [⟨-2, -2, 0⟩, ⟨2, -2, 0⟩, ⟨-2, 2, 0⟩, ⟨2, 2, 0⟩] ∧
      g.neighbors = some [⟨0, 0, 0⟩, ⟨0, 0, 0⟩, ⟨2, -2, 0⟩, ⟨-2, -2, 0⟩] := by
  have hb4 : Box.valid ⟨0, 0, 4, 4⟩ = true := by simp [Box.valid]
  have hsrs : (fromSRS refEnv 0 SRS.SPHERICAL_MERCATOR ⟨0, 0, 4, 4⟩ 1 1).shared.extent =
      GeoExtent.ofBox SRS.SPHERICAL_MERCATOR ⟨0, 0, 4, 4⟩ := by
    rw [fromSRS, setup_extent _ _ _ _ _ _ refEnv_valid_SPHERICAL_MERCATOR, hb4, if_pos rfl]
  have hc4 : (fromSRS refEnv 0 SRS.SPHERICAL_MERCATOR ⟨0, 0, 4, 4⟩ 1 1).shared.numTilesBaseX
        = 1 ∧
      (fromSRS refEnv 0 SRS.SPHERICAL_MERCATOR ⟨0, 0, 4, 4⟩ 1 1).shared.numTilesBaseY = 1 :=
    setup_counts_given refEnv (new 0) SRS.SPHERICAL_MERCATOR ⟨0, 0, 4, 4⟩ 1 1
      refEnv_valid_SPHERICAL_MERCATOR (by decide) (by decide)
  have hE4 : TileKey.extent refMeshEnv.toEnv
      ⟨0, 0, 0, fromSRS refEnv 0 SRS.SPHERICAL_MERCATOR ⟨0, 0, 4, 4⟩ 1 1⟩ =
      ⟨SRS.SPHERICAL_MERCATOR, 0, 0, 4, 4⟩ := by
    simp only [TileKey.extent, tileExtent, tileDimensions, Profile.extent, Profile.srs,
      hsrs, hc4.1, hc4.2, GeoExtent.ofBox, GeoExtent.width, GeoExtent.height, shl1]
    norm_num
  have hF : ∀ x y : ℚ, tileFrame refMeshEnv SRS.SPHERICAL_MERCATOR
      ⟨SRS.SPHERICAL_MERCATOR, 0, 0, 4, 4⟩ ⟨x, y, 0⟩ = ⟨x * 4 - 2, y * 4 - 2, 0⟩ := by
    intro x y
    simp [tileFrame, Locator.unitToWorld, GeoExtent.width, GeoExtent.height, refMeshEnv, refEnv]
    norm_num
  obtain ⟨g, h1, h2, h3⟩ := createGeometry_two_neighbors refMeshEnv
    ⟨SRS.SPHERICAL_MERCATOR, false, true, some [2, 0, 3, 0, 1, 3], []⟩
    ⟨0, 0, 0, fromSRS refEnv 0 SRS.SPHERICAL_MERCATOR ⟨0, 0, 4, 4⟩ 1 1⟩ 100
    [2, 0, 3, 0, 1, 3] rfl rfl
  refine ⟨g, h1, ?_, ?_⟩
  · rw [h2]
    simp only [hE4, hF]
    norm_num
  · rw [h3]
    simp only [hE4, hF, Vec3.zero]
    norm_num

/-- Counted from the number of vertices written so far (`row * n + col + 1`
at the vertex `(col, row)`), the offset leads to the vertex at
`(col - col mod 2, row - row mod 2)`. -/
theorem getMorphNeighborIndexOffset_of_count (col row n : Nat) :
    row * n + col + 1 - getMorphNeighborIndexOffset col row n =
      (row - row % 2) * n + (col - col % 2) := by
  unfold getMorphNeighborIndexOffset
  rcases Nat.mod_two_eq_zero_or_one col with h1 | h1 <;>
    rcases Nat.mod_two_eq_zero_or_one row with h2 | h2
  · simp [h1, h2]
  · have hr : 1 ≤ row := by omega
    have e : row * n = (row - 1) * n + n := by
      conv_lhs => rw [← Nat.sub_add_cancel hr]
      ring
    simp [h1, h2]
    omega
  · simp [h1, h2]
    omega
  · have hr : 1 ≤ row := by omega
    have e : row * n = (row - 1) * n + n := by
      conv_lhs => rw [← Nat.sub_add_cancel hr]
      ring
    simp [h1, h2]
    omega

/-! ## Clamping an extent to a profile (C22, C23) -/

/-- On the direct path (the input transforms into the reference system of
the profile) the call returns the intersection with the extent of the profile,
and the flag says whether that intersection differs from the extent of the
profile. -/
theorem clampAndTransformExtent_direct (env : ExtentEnv) (p : Profile) (input : GeoExtent)
    (hv : input.valid env.toEnv = true) (hw : env.isWholeEarth input = false)
    (ht : (env.transformExtent input p.srs).valid env.toEnv = true) :
    p.clampAndTransformExtent env input =
      (env.intersectionSameSRS (env.transformExtent input p.srs) p.extent,
        !env.extentEq (env.intersectionSameSRS (env.transformExtent input p.srs) p.extent)
          p.extent) := by
  simp [clampAndTransformExtent, hv, hw, ht]

/-- C22, evaluated: for the global geodetic profile and the input extent
`[0, 10] x [0, 10]` in WGS84, which is valid, not the whole earth, and
transforms to itself, the call returns the input unchanged, so no clamping
took place, and yet leaves `true` in the flag. -/
theorem clamped_flag_without_clamping :
    GeoExtent.valid refExtentEnv.toEnv ⟨SRS.WGS84, 0, 0, 10, 10⟩ = true ∧
      refExtentEnv.isWholeEarth ⟨SRS.WGS84, 0, 0, 10, 10⟩ = false ∧
      refExtentEnv.transformExtent ⟨SRS.WGS84, 0, 0, 10, 10⟩
          (fromName refExtentEnv.toEnv 0 "global-geodetic").srs = ⟨SRS.WGS84, 0, 0, 10, 10⟩ ∧
      clampAndTransformExtent refExtentEnv (fromName refExtentEnv.toEnv 0 "global-geodetic")
          ⟨SRS.WGS84, 0, 0, 10, 10⟩ = (⟨SRS.WGS84, 0, 0, 10, 10⟩, true) := by
  have hs := global_geodetic_shared refEnv 0 refEnv_valid_WGS84
  have hsrs : (fromName refExtentEnv.toEnv 0 "global-geodetic").srs = SRS.WGS84 := by
    show (fromName refEnv 0 "global-geodetic").shared.extent.srs = SRS.WGS84
    rw [hs.1]
  have hv : GeoExtent.valid refExtentEnv.toEnv ⟨SRS.WGS84, 0, 0, 10, 10⟩ = true := by
    show GeoExtent.valid refEnv ⟨SRS.WGS84, 0, 0, 10, 10⟩ = true
    simp only [GeoExtent.valid, refEnv_valid_WGS84, GeoExtent.width, GeoExtent.height]
    norm_num
  have hw : refExtentEnv.isWholeEarth ⟨SRS.WGS84, 0, 0, 10, 10⟩ = false := by
    simp only [refExtentEnv, GeoExtent.width, GeoExtent.height]
    norm_num
  have ht : refExtentEnv.transformExtent ⟨SRS.WGS84, 0, 0, 10, 10⟩
      (fromName refExtentEnv.toEnv 0 "global-geodetic").srs = ⟨SRS.WGS84, 0, 0, 10, 10⟩ := by
    rw [hsrs]
    rfl
  refine ⟨hv, hw, ht, ?_⟩
  rw [clampAndTransformExtent_direct _ _ _ hv hw (by rw [ht]; exact hv), ht]
  have he : (fromName refExtentEnv.toEnv 0 "global-geodetic").extent =
      ⟨SRS.WGS84, -180, -90, 180, 90⟩ := hs.1
  rw [he]
  have hi : refExtentEnv.intersectionSameSRS ⟨SRS.WGS84, 0, 0, 10, 10⟩
      ⟨SRS.WGS84, -180, -90, 180, 90⟩ = ⟨SRS.WGS84, 0, 0, 10, 10⟩ := by
    simp only [refExtentEnv]
    norm_num
  rw [hi]
  have hne : refExtentEnv.extentEq ⟨SRS.WGS84, 0, 0, 10, 10⟩ ⟨SRS.WGS84, -180, -90, 180, 90⟩
      = false := by
    have hv2 : GeoExtent.valid refEnv ⟨SRS.WGS84, 0, 0, 10, 10⟩ = true := hv
    simp only [refExtentEnv, GeoExtent.mk.injEq, hv2]
    norm_num
  rw [hne]
  rfl

theorem refExtentEnv_clamp_bounds (x lo hi : ℚ) (h : lo ≤ hi) :
    lo ≤ refExtentEnv.clamp x lo hi ∧ refExtentEnv.clamp x lo hi ≤ hi := by
  show lo ≤ (if x < lo then lo else if hi < x then hi else x) ∧
    (if x < lo then lo else if hi < x then hi else x) ≤ hi
  split
  · exact ⟨le_refl _, h⟩
  · split
    · exact ⟨h, le_refl _⟩
    · constructor <;> linarith

theorem refExtentEnv_clamp_mono (x y lo hi : ℚ) (hlo : lo ≤ hi) (h : x ≤ y) :
    refExtentEnv.clamp x lo hi ≤ refExtentEnv.clamp y lo hi := by
  show (if x < lo then lo else if hi < x then hi else x) ≤
    (if y < lo then lo else if hi < y then hi else y)
  split_ifs <;> linarith

theorem refExtentEnv_extentEq (a b : GeoExtent)
    (ha : GeoExtent.valid refExtentEnv.toEnv a = true)
    (hb : GeoExtent.valid refExtentEnv.toEnv b = true) :
    refExtentEnv.extentEq a b = true ↔ a = b := by
  have ha2 : GeoExtent.valid refEnv a = true := ha
  have hb2 : GeoExtent.valid refEnv b = true := hb
  simp [refExtentEnv, ha2, hb2]

theorem moon_shared :
    (fromName refEnv 0 "moon").shared.extent = ⟨⟨"moon"⟩, -180, -90, 180, 90⟩ ∧
      (fromName refEnv 0 "moon").shared.geodeticExtent = ⟨⟨"moon"⟩, -180, -90, 180, 90⟩ := by
  have hn : fromName refEnv 0 "moon" =
      setup refEnv (setName (new 0) "moon") ⟨"moon"⟩ ⟨-180, -90, 180, 90⟩ 2 1 := by
    unfold fromName setupName
    rw [if_neg (by decide), if_neg (by decide), if_neg (by decide), if_pos (by decide)]
  have hv : refEnv.srsValid ⟨"moon"⟩ = true := by decide
  have hg : refEnv.srsIsGeodetic ⟨"moon"⟩ = true := by decide
  have hb : Box.valid ⟨-180, -90, 180, 90⟩ = true := by simp [Box.valid]
  rw [hn]
  simp [setup, hv, hg, hb, GeoExtent.ofBox]

/-- C23: `clampAndTransformExtent` fails by value. An invalid input yields
the invalid extent with the flag false. On the geodetic fallback path (the
input is valid, not the whole earth, and its direct transform is invalid),
with `gcs` the input itself when it is geodetic and else its transform to the
geodetic system of the profile: if `gcs` is invalid, or does not intersect the
geodetic extent of the profile, the call yields the invalid extent with the
flag false; otherwise, with `c` the extent of the four clamped coordinates,
every coordinate of `c` lies within the geodetic extent of the profile, the
call returns `c` (transformed back if its system is not that of the profile),
and the flag is true exactly when clamping changed a coordinate. `clamp` is
taken to return a value between its bounds and to be monotone, `==` on valid
extents to compare all fields, and the geodetic extent of the profile not to
be inverted. -/
theorem clampAndTransformExtent_by_value (env : ExtentEnv) (p : Profile) (input : GeoExtent)
    (hclamp : ∀ x lo hi, lo ≤ hi → lo ≤ env.clamp x lo hi ∧ env.clamp x lo hi ≤ hi)
    (hmono : ∀ x y lo hi, lo ≤ hi → x ≤ y → env.clamp x lo hi ≤ env.clamp y lo hi)
    (heq : ∀ a b, GeoExtent.valid env.toEnv a = true → GeoExtent.valid env.toEnv b = true →
      (env.extentEq a b = true ↔ a = b))
    (hgx : p.geographicExtent.xmin ≤ p.geographicExtent.xmax)
    (hgy : p.geographicExtent.ymin ≤ p.geographicExtent.ymax) :
    (input.valid env.toEnv = false →
      p.clampAndTransformExtent env input = (GeoExtent.INVALID, false)) ∧
    (input.valid env.toEnv = true → env.isWholeEarth input = false →
      (env.transformExtent input p.srs).valid env.toEnv = false →
      ∀ gcs : GeoExtent,
        gcs = (if env.srsIsGeodetic input.srs then input
          else env.transformExtent input (env.srsGeodeticSRS p.srs)) →
        ((gcs.valid env.toEnv = false ∨ env.intersects gcs p.geographicExtent false = false) →
          p.clampAndTransformExtent env input = (GeoExtent.INVALID, false)) ∧
        (gcs.valid env.toEnv = true → env.intersects gcs p.geographicExtent false = true →
          ∀ c : GeoExtent,
            c = ⟨gcs.srs,
              env.clamp gcs.xmin p.geographicExtent.xmin p.geographicExtent.xmax,
              env.clamp gcs.ymin p.geographicExtent.ymin p.geographicExtent.ymax,
              env.clamp gcs.xmax p.geographicExtent.xmin p.geographicExtent.xmax,
              env.clamp gcs.ymax p.geographicExtent.ymin p.geographicExtent.ymax⟩ →
            (p.geographicExtent.xmin ≤ c.xmin ∧ c.xmin ≤ p.geographicExtent.xmax) ∧
            (p.geographicExtent.xmin ≤ c.xmax ∧ c.xmax ≤ p.geographicExtent.xmax) ∧
            (p.geographicExtent.ymin ≤ c.ymin ∧ c.ymin ≤ p.geographicExtent.ymax) ∧
            (p.geographicExtent.ymin ≤ c.ymax ∧ c.ymax ≤ p.geographicExtent.ymax) ∧
            (p.clampAndTransformExtent env input).1 =
              (if env.srsEq c.srs p.srs then c else env.transformExtent c p.srs) ∧
            ((p.clampAndTransformExtent env input).2 = true ↔
              (c.xmin ≠ gcs.xmin ∨ c.ymin ≠ gcs.ymin ∨ c.xmax ≠ gcs.xmax ∨
                c.ymax ≠ gcs.ymax)))) := by
  refine ⟨fun hv => by simp [clampAndTransformExtent, hv], ?_⟩
  intro hv hw ht gcs hgcs
  constructor
  · intro h
    rcases h with h | h
    · simp [clampAndTransformExtent, hv, hw, ht, ← hgcs, h]
    · by_cases hg : gcs.valid env.toEnv = true
      · simp [clampAndTransformExtent, hv, hw, ht, ← hgcs, h, hg]
      · simp [clampAndTransformExtent, hv, hw, ht, ← hgcs, hg]
  · intro hg hi c hc
    have hres : p.clampAndTransformExtent env input =
        (if env.srsEq c.srs p.srs then c else env.transformExtent c p.srs,
          !env.extentEq c gcs) := by
      have hsrs : c.srs = gcs.srs := by rw [hc]
      simp [clampAndTransformExtent, hv, hw, ht, ← hgcs, hg, hi, ← hc]
      rw [hsrs]
    have hgv := hg
    simp only [GeoExtent.valid, Bool.and_eq_true, decide_eq_true_eq, GeoExtent.width,
      GeoExtent.height] at hgv
    have hcv : c.valid env.toEnv = true := by
      rw [hc]
      simp only [GeoExtent.valid, Bool.and_eq_true, decide_eq_true_eq, GeoExtent.width,
        GeoExtent.height]
      refine ⟨⟨hgv.1.1, ?_⟩, ?_⟩
      · have := hmono gcs.xmin gcs.xmax p.geographicExtent.xmin p.geographicExtent.xmax hgx
          (by linarith [hgv.1.2])
        linarith
      · have := hmono gcs.ymin gcs.ymax p.geographicExtent.ymin p.geographicExtent.ymax hgy
          (by linarith [hgv.2])
        linarith
    refine ⟨?_, ?_, ?_, ?_, ?_, ?_⟩
    · rw [hc]; exact hclamp _ _ _ hgx
    · rw [hc]; exact hclamp _ _ _ hgx
    · rw [hc]; exact hclamp _ _ _ hgy
    · rw [hc]; exact hclamp _ _ _ hgy
    · rw [hres]
    · rw [hres]
      simp only [Bool.not_eq_true']
      have h1 : env.extentEq c gcs = false ↔ ¬ c = gcs := by
        rw [← heq c gcs hcv hg]
        simp
      rw [h1]
      constructor
      · intro hne
        by_contra hall
        simp only [not_or, not_not] at hall
        apply hne
        have hsrs : c.srs = gcs.srs := by rw [hc]
        obtain ⟨a1, a2, a3, a4, a5⟩ := c
        obtain ⟨b1, b2, b3, b4, b5⟩ := gcs
        simp only at hall hsrs
        simp only [GeoExtent.mk.injEq]
        exact ⟨hsrs, hall.1, hall.2.1, hall.2.2.1, hall.2.2.2⟩
      · intro hd hcg
        rw [hcg] at hd
        simp at hd

theorem clampAndTransformExtent_by_value_witness :
    (clampAndTransformExtent refExtentEnv (fromName refExtentEnv.toEnv 0 "moon")
        ⟨SRS.WGS84, 170, 80, 190, 95⟩).2 = true ∧
      clampAndTransformExtent refExtentEnv (fromName refExtentEnv.toEnv 0 "moon")
        ⟨SRS.WGS84, 200, 80, 210, 95⟩ = (GeoExtent.INVALID, false) ∧
      clampAndTransformExtent refExtentEnv (fromName refExtentEnv.toEnv 0 "moon")
        ⟨SRS.WGS84, 10, 0, 0, 0⟩ = (GeoExtent.INVALID, false) := by
  have hm := moon_shared
  have hge : (fromName refExtentEnv.toEnv 0 "moon").geographicExtent =
      ⟨⟨"moon"⟩, -180, -90, 180, 90⟩ := hm.2
  have hsrs : (fromName refExtentEnv.toEnv 0 "moon").srs = ⟨"moon"⟩ := by
    show (fromName refEnv 0 "moon").shared.extent.srs = _
    rw [hm.1]
  have hgx : (fromName refExtentEnv.toEnv 0 "moon").geographicExtent.xmin ≤
      (fromName refExtentEnv.toEnv 0 "moon").geographicExtent.xmax := by
    rw [hge]; norm_num
  have hgy : (fromName refExtentEnv.toEnv 0 "moon").geographicExtent.ymin ≤
      (fromName refExtentEnv.toEnv 0 "moon").geographicExtent.ymax := by
    rw [hge]; norm_num
  have hvalid : ∀ x0 y0 x1 y1 : ℚ, x0 ≤ x1 → y0 ≤ y1 →
      GeoExtent.valid refExtentEnv.toEnv ⟨SRS.WGS84, x0, y0, x1, y1⟩ = true := by
    intro x0 y0 x1 y1 hx hy
    show GeoExtent.valid refEnv ⟨SRS.WGS84, x0, y0, x1, y1⟩ = true
    simp only [GeoExtent.valid, refEnv_valid_WGS84, GeoExtent.width, GeoExtent.height,
      Bool.true_and, Bool.and_eq_true, decide_eq_true_eq]
    constructor <;> linarith
  have hnotwhole : ∀ x0 y0 x1 y1 : ℚ, x1 - x0 < 360 →
      refExtentEnv.isWholeEarth ⟨SRS.WGS84, x0, y0, x1, y1⟩ = false := by
    intro x0 y0 x1 y1 hx
    simp only [refExtentEnv, GeoExtent.width, GeoExtent.height, Bool.and_eq_false_iff,
      decide_eq_false_iff_not, not_le]
    exact Or.inl (Or.inr hx)
  have htrans : ∀ e : GeoExtent, e.srs = SRS.WGS84 →
      GeoExtent.valid refExtentEnv.toEnv
        (refExtentEnv.transformExtent e (fromName refExtentEnv.toEnv 0 "moon").srs) = false := by
    intro e he
    rw [hsrs]
    have : refExtentEnv.transformExtent e ⟨"moon"⟩ = GeoExtent.INVALID := by
      show (if e.srs = (⟨"moon"⟩ : SRS) then e else GeoExtent.INVALID) = GeoExtent.INVALID
      rw [he, if_neg (by decide)]
    rw [this]
    show GeoExtent.valid refEnv GeoExtent.INVALID = false
    simp [GeoExtent.valid, GeoExtent.INVALID, GeoExtent.width]
  refine ⟨?_, ?_, ?_⟩
  · have h := ((clampAndTransformExtent_by_value refExtentEnv
      (fromName refExtentEnv.toEnv 0 "moon") ⟨SRS.WGS84, 170, 80, 190, 95⟩
      refExtentEnv_clamp_bounds refExtentEnv_clamp_mono refExtentEnv_extentEq hgx hgy).2
      (hvalid _ _ _ _ (by norm_num) (by norm_num)) (hnotwhole _ _ _ _ (by norm_num))
      (htrans _ rfl) ⟨SRS.WGS84, 170, 80, 190, 95⟩ (by
        show _ = if refEnv.srsIsGeodetic SRS.WGS84 = true then _ else _
        rw [if_pos (by decide)])).2
      (hvalid _ _ _ _ (by norm_num) (by norm_num))
      (by
        rw [hge]
        simp only [refExtentEnv]
        norm_num) _ rfl
    rw [h.2.2.2.2.2]
    right; right; left
    rw [hge]
    simp only [refExtentEnv]
    norm_num
  · exact ((clampAndTransformExtent_by_value refExtentEnv
      (fromName refExtentEnv.toEnv 0 "moon") ⟨SRS.WGS84, 200, 80, 210, 95⟩
      refExtentEnv_clamp_bounds refExtentEnv_clamp_mono refExtentEnv_extentEq hgx hgy).2
      (hvalid _ _ _ _ (by norm_num) (by norm_num)) (hnotwhole _ _ _ _ (by norm_num))
      (htrans _ rfl) ⟨SRS.WGS84, 200, 80, 210, 95⟩ (by
        show _ = if refEnv.srsIsGeodetic SRS.WGS84 = true then _ else _
        rw [if_pos (by decide)])).1
      (Or.inr (by
        rw [hge]
        simp only [refExtentEnv]
        norm_num))
  · exact (clampAndTransformExtent_by_value refExtentEnv
      (fromName refExtentEnv.toEnv 0 "moon") ⟨SRS.WGS84, 10, 0, 0, 0⟩
      refExtentEnv_clamp_bounds refExtentEnv_clamp_mono refExtentEnv_extentEq hgx hgy).1
      (by
        show GeoExtent.valid refEnv ⟨SRS.WGS84, 10, 0, 0, 0⟩ = false
        simp only [GeoExtent.valid, GeoExtent.width, GeoExtent.height]
        norm_num)

/-! ## Contiguous extents (C24) -/

/-- A thread that runs alone does what the sequential `getPooledGeometry`
does: it returns the same result and leaves the same pool; and it holds no
gate at the end unless it ran into a fault. -/
theorem run_alone (menv : MeshEnv) (pool : GeometryPool) (key : TileKey) (s : Settings)
    (addr : Nat) :
    (run menv (spawn pool [(key, s, addr)]) [0, 0, 0, 0, 0, 0, 0]).pool =
        (getPooledGeometry menv pool key s addr).1 ∧
      (run menv (spawn pool [(key, s, addr)]) [0, 0, 0, 0, 0, 0, 0]).threads =
        [⟨key, s, addr, Pc.done (getPooledGeometry menv pool key s addr).2⟩] ∧
      ((run menv (spawn pool [(key, s, addr)]) [0, 0, 0, 0, 0, 0, 0]).keygate = [] ∨
        ∃ f, (getPooledGeometry menv pool key s addr).2 = Except.error f) := by
  obtain ⟨ws, dbg, en, di, m⟩ := pool
  have hdi : ∀ d : List Nat, (di = none ∧ createIndices s = Except.ok d) ∨ di = some d →
      (run menv (spawn ⟨ws, dbg, en, di, m⟩ [(key, s, addr)]) [0, 0, 0, 0, 0, 0, 0]).pool =
          (getPooledGeometry menv ⟨ws, dbg, en, di, m⟩ key s addr).1 ∧
        (run menv (spawn ⟨ws, dbg, en, di, m⟩ [(key, s, addr)]) [0, 0, 0, 0, 0, 0, 0]).threads =
          [⟨key, s, addr, Pc.done (getPooledGeometry menv ⟨ws, dbg, en, di, m⟩ key s addr).2⟩] ∧
        ((run menv (spawn ⟨ws, dbg, en, di, m⟩ [(key, s, addr)]) [0, 0, 0, 0, 0, 0, 0]).keygate =
            [] ∨
          ∃ f, (getPooledGeometry menv ⟨ws, dbg, en, di, m⟩ key s addr).2 = Except.error f) := by
    intro d hd
    cases en with
    | false =>
      cases hb : createGeometry menv ⟨ws, dbg, false, some d, m⟩ key s addr with
      | error f =>
        rcases hd with ⟨h1, h2⟩ | h1 <;> subst h1 <;>
        simp [run, spawn, step, World.goto, getPooledGeometry, getPooledGeometryWith, hb,
          Except.map, *]
      | ok g =>
        cases hgi : g.indices.isNone <;> rcases hd with ⟨h1, h2⟩ | h1 <;> subst h1 <;>
        simp [run, spawn, step, World.goto, getPooledGeometry, getPooledGeometryWith, hb,
          Except.map, *]
    | true =>
      cases hl : m.lookup (createKeyForTileKey menv.toEnv key s.tileSize) with
      | some g =>
        cases hgi : g.indices.isNone <;> rcases hd with ⟨h1, h2⟩ | h1 <;> subst h1 <;>
        simp [run, spawn, step, World.goto, getPooledGeometry, getPooledGeometryWith,
          gateLock, gateUnlock, Except.map, *]
      | none =>
        cases hb : createGeometry menv ⟨ws, dbg, true, some d, m⟩ key s addr with
        | error f =>
          rcases hd with ⟨h1, h2⟩ | h1 <;> subst h1 <;>
          simp [run, spawn, step, World.goto, getPooledGeometry, getPooledGeometryWith, hb,
            gateLock, gateUnlock, Except.map, *]
        | ok g =>
          cases hgi : g.indices.isNone <;> rcases hd with ⟨h1, h2⟩ | h1 <;> subst h1 <;>
          simp [run, spawn, step, World.goto, getPooledGeometry, getPooledGeometryWith, hb,
            gateLock, gateUnlock, Except.map, *]
  cases hdd : di with
  | some d =>
    rw [← hdd]
    exact hdi d (Or.inr hdd)
  | none =>
    cases hci : createIndices s with
    | ok d =>
      rw [← hdd]
      exact hdi d (Or.inl ⟨hdd, hci⟩)
    | error f =>
      simp [run, spawn, step, World.goto, getPooledGeometry, getPooledGeometryWith,
        Except.map, hci]

/-- Element `a * c + k` of a concatenation of chunks of length `c` is element
`k` of chunk `a`. -/
theorem flatMap_range_getElem {α : Type} (c : Nat) (m : Nat) (f : Nat → List α) (a k : Nat)
    (hf : ∀ k, (f k).length = c) (ha : a < m) (hk : k < c) :
    ((List.range m).flatMap f)[a * c + k]? = (f a)[k]? := by
  have h := flatMap_range_chunk c m f a hf ha
  rw [← h, List.getElem?_take_of_lt hk, List.getElem?_drop]

/-- C38: for a valid profile and a level `lod` with `(tx, ty) = numTiles(lod)`,
`allKeysAtLOD(lod)` returns exactly `tx * ty` keys, each at level `lod`, bound
to this profile and with column below `tx` and row below `ty`; the key of
column `c` and row `r` stands at position `c * ty + r` (column-major order: all
rows of column 0, then column 1, ...), no key occurs twice, and `rootKeys()` is
`allKeysAtLOD(0)`. -/
theorem allKeysAtLOD_spec (env : Env) (p : Profile) (lod : Nat) (hv : p.valid env = true) :
    (allKeysAtLOD env p lod).length = (numTiles env p lod).1 * (numTiles env p lod).2 ∧
    (∀ k ∈ allKeysAtLOD env p lod, k.level = lod ∧ k.profile = p ∧
      k.x < (numTiles env p lod).1 ∧ k.y < (numTiles env p lod).2) ∧
    (∀ c r : Nat, c < (numTiles env p lod).1 → r < (numTiles env p lod).2 →
      (allKeysAtLOD env p lod)[c * (numTiles env p lod).2 + r]? = some ⟨lod, c, r, p⟩) ∧
    (allKeysAtLOD env p lod).Nodup ∧
    rootKeys env p = allKeysAtLOD env p 0 := by
  have hlen : ∀ c : Nat, ((List.range (numTiles env p lod).2).map
      fun r => (⟨lod, c, r, p⟩ : TileKey)).length = (numTiles env p lod).2 := by
    intro c
    simp
  have hdef : allKeysAtLOD env p lod = (List.range (numTiles env p lod).1).flatMap
      fun c => (List.range (numTiles env p lod).2).map fun r => (⟨lod, c, r, p⟩ : TileKey) := by
    simp [allKeysAtLOD, hv]
  refine ⟨?_, ?_, ?_, ?_, rfl⟩
  · rw [hdef, flatMap_range_length _ _ _ hlen]
  · intro k hk
    rw [hdef] at hk
    simp only [List.mem_flatMap, List.mem_map, List.mem_range] at hk
    obtain ⟨c, hc, r, hr, rfl⟩ := hk
    exact ⟨rfl, rfl, hc, hr⟩
  · intro c r hc hr
    rw [hdef, flatMap_range_getElem _ _ _ c r hlen hc hr]
    simp [hr]
  · rw [hdef, List.nodup_flatMap]
    refine ⟨?_, ?_⟩
    · intro c _
      refine List.Nodup.map ?_ (List.nodup_range _)
      intro a b hab
      injection hab
    · refine List.Pairwise.imp_of_mem ?_ (List.nodup_range _)
      intro a b _ _ hab
      intro k hka hkb
      simp only [List.mem_map, List.mem_range] at hka hkb
      obtain ⟨r1, -, rfl⟩ := hka
      obtain ⟨r2, -, h2⟩ := hkb
      injection h2 with _ hx _ _
      exact hab hx.symm

theorem allKeysAtLOD_spec_witness :
    (allKeysAtLOD refEnv (fromName refEnv 0 "global-geodetic") 1).length = 4 * 2 ∧
      (allKeysAtLOD refEnv (fromName refEnv 0 "global-geodetic") 1)[3 * 2 + 1]? =
        some ⟨1, 3, 1, fromName refEnv 0 "global-geodetic"⟩ := by
  have hv := global_geodetic_valid refEnv 0 refEnv_valid_WGS84
  obtain ⟨-, hx, hy, -⟩ := global_geodetic_shared refEnv 0 refEnv_valid_WGS84
  have hn : numTiles refEnv (fromName refEnv 0 "global-geodetic") 1 = (4, 2) := by
    simp only [numTiles, hx, hy, shl1_of_lt refEnv 1 (by norm_num)]
    norm_num
  have h := allKeysAtLOD_spec refEnv (fromName refEnv 0 "global-geodetic") 1 hv
  rw [hn] at h
  exact ⟨h.1, h.2.2.1 3 1 (by norm_num) (by norm_num)⟩

/-! ## The level of a horizontal resolution (C40) -/

/-- The loop halves `n` times and then exits, when the first `n` tests pass
and the next fails. -/
theorem resolutionSearch_run (r : ℚ) : ∀ (n fuel : Nat) (t : ℚ) (level : Nat),
    (∀ k : Nat, k < n → r < t / 2 ^ k) → ¬ (r < t / 2 ^ n) → n + 1 ≤ fuel →
    level + n < 2 ^ 32 → resolutionSearch r fuel t level = some (level + n) := by
  intro n
  induction n with
  | zero =>
    intro fuel t level _ hstop hfuel _
    obtain ⟨f, rfl⟩ : ∃ f, fuel = f + 1 := ⟨fuel - 1, by omega⟩
    simp only [pow_zero, div_one] at hstop
    simp only [resolutionSearch, hstop, if_false, Nat.add_zero]
  | succ n ih =>
    intro fuel t level hpass hstop hfuel hfit
    obtain ⟨f, rfl⟩ : ∃ f, fuel = f + 1 := ⟨fuel - 1, by omega⟩
    have h0 : r < t := by simpa using hpass 0 (by omega)
    have hm : (level + 1) % 2 ^ 32 = level + 1 := Nat.mod_eq_of_lt (by omega)
    simp only [resolutionSearch, h0, if_true, hm]
    have e : ∀ k : Nat, t * (1 / 2) / 2 ^ k = t / 2 ^ (k + 1) := by
      intro k
      rw [pow_succ, mul_one_div, div_div, mul_comm]
    rw [ih f (t * (1 / 2)) (level + 1) (fun k hk => by rw [e]; exact hpass (k + 1) (by omega))
      (by rw [e]; exact hstop) (by omega) (by omega)]
    congr 1
    ring

/-- Some halving brings a value below a positive bound. -/
theorem exists_halving_le (t r : ℚ) (hr : 0 < r) : ∃ n : Nat, ¬ (r < t / 2 ^ n) := by
  obtain ⟨n, hn⟩ := pow_unbounded_of_one_lt (t / r) (by norm_num : (1 : ℚ) < 2)
  refine ⟨n, ?_⟩
  rw [not_lt, div_le_iff₀ (by positivity)]
  rw [div_lt_iff₀ hr] at hn
  linarith


/-- The level returned for a positive resolution: the least number of
halvings that brings the level-0 resolution down to the request. -/
theorem resolutionSearch_least (r t : ℚ) (hr : 0 < r) (N : Nat) (hN : N < 2 ^ 32)
    (ht : t / 2 ^ N ≤ r) :
    ∃ L : Nat, L ≤ N ∧ t / 2 ^ L ≤ r ∧ (∀ k : Nat, k < L → r < t / 2 ^ k) ∧
      ∀ fuel : Nat, L + 1 ≤ fuel → resolutionSearch r fuel t 0 = some L := by
  classical
  have hex : ∃ n : Nat, ¬ (r < t / 2 ^ n) := exists_halving_le t r hr
  have hb : Nat.find hex ≤ N := Nat.find_min' hex (not_lt.mpr ht)
  refine ⟨Nat.find hex, hb, not_lt.mp (Nat.find_spec hex), ?_, ?_⟩
  · intro k hk
    exact not_not.mp (Nat.find_min hex hk)
  · intro fuel hfuel
    have h := resolutionSearch_run r (Nat.find hex) fuel t 0
      (fun k hk => not_not.mp (Nat.find_min hex hk)) (Nat.find_spec hex) hfuel (by omega)
    simpa using h

/-- A level returned by the loop is the number of halvings made, and that
number is the least one that ends the loop. -/
theorem resolutionSearch_sound (r : ℚ) : ∀ (fuel : Nat) (t : ℚ) (level x : Nat),
    resolutionSearch r fuel t level = some x →
    ∃ n : Nat, n < fuel ∧ (∀ k : Nat, k < n → r < t / 2 ^ k) ∧ ¬ (r < t / 2 ^ n) ∧
      (level + n < 2 ^ 32 → x = level + n) := by
  intro fuel
  induction fuel with
  | zero =>
    intro t level x h
    simp [resolutionSearch] at h
  | succ f ih =>
    intro t level x h
    by_cases h0 : r < t
    · simp only [resolutionSearch, h0, if_true] at h
      obtain ⟨n, hn, hpass, hstop, hx⟩ := ih _ _ _ h
      have e : ∀ k : Nat, t * (1 / 2) / 2 ^ k = t / 2 ^ (k + 1) := by
        intro k
        rw [pow_succ, mul_one_div, div_div, mul_comm]
      refine ⟨n + 1, by omega, ?_, by rw [← e]; exact hstop, ?_⟩
      · intro k hk
        cases k with
        | zero => simpa using h0
        | succ k => rw [← e]; exact hpass k (by omega)
      · intro hfit
        have hm : (level + 1) % 2 ^ 32 = level + 1 := Nat.mod_eq_of_lt (by omega)
        rw [hm] at hx
        rw [hx (by omega)]
        ring
    · simp only [resolutionSearch, h0, if_false, Option.some.injEq] at h
      exact ⟨0, by omega, fun k hk => by omega, by simpa using h0, fun _ => by omega⟩

/-- C40: `levelOfDetailForHorizResolution(resolution, tileSize)` returns 23
when `tileSize <= 0` or `resolution <= 0`. Otherwise, with a positive base tile
width and `t = extent.width / numTilesBaseX / tileSize`, it returns the smallest
level `L` with `t / 2^L <= resolution` (for every bound of at least `L + 1`
loop tests), and it is monotone: of two positive resolutions the finer one
never yields the lower level. The level counter is an `unsigned int`; the
premise that some `N < 2^32` has `t / 2^N <= resolution`, true of every pair of
positive finite doubles with `N = 2098`, says that it does not wrap. -/
theorem levelOfDetailForHorizResolution_spec (p : Profile) :
    (∀ (fuel : Nat) (resolution : ℚ) (tileSize : Int), tileSize ≤ 0 ∨ resolution ≤ 0 →
      levelOfDetailForHorizResolution fuel p resolution tileSize = some 23) ∧
    (∀ (resolution : ℚ) (tileSize : Int) (N : Nat), 0 < tileSize → 0 < resolution →
      0 < p.shared.extent.width / (p.shared.numTilesBaseX : ℚ) → N < 2 ^ 32 →
      p.shared.extent.width / (p.shared.numTilesBaseX : ℚ) / (tileSize : ℚ) / 2 ^ N
        ≤ resolution →
      ∃ L : Nat,
        (∀ fuel : Nat, L + 1 ≤ fuel →
          levelOfDetailForHorizResolution fuel p resolution tileSize = some L) ∧
        p.shared.extent.width / (p.shared.numTilesBaseX : ℚ) / (tileSize : ℚ) / 2 ^ L
          ≤ resolution ∧
        ∀ k : Nat, k < L →
          resolution <
            p.shared.extent.width / (p.shared.numTilesBaseX : ℚ) / (tileSize : ℚ) / 2 ^ k) ∧
    (∀ (r1 r2 : ℚ) (tileSize : Int) (N fuel1 fuel2 L1 L2 : Nat), 0 < tileSize → 0 < r1 →
      r1 ≤ r2 → 0 < p.shared.extent.width / (p.shared.numTilesBaseX : ℚ) → N < 2 ^ 32 →
      p.shared.extent.width / (p.shared.numTilesBaseX : ℚ) / (tileSize : ℚ) / 2 ^ N ≤ r1 →
      levelOfDetailForHorizResolution fuel1 p r1 tileSize = some L1 →
      levelOfDetailForHorizResolution fuel2 p r2 tileSize = some L2 → L2 ≤ L1) := by
  refine ⟨?_, ?_, ?_⟩
  · intro fuel resolution tileSize h
    simp [levelOfDetailForHorizResolution, h]
  · intro resolution tileSize N hts hr _ hN hfit
    obtain ⟨L, -, hle, hmin, hrun⟩ := resolutionSearch_least resolution _ hr N hN hfit
    refine ⟨L, ?_, hle, hmin⟩
    intro fuel hfuel
    have hg : ¬ (tileSize ≤ 0 ∨ resolution ≤ 0) := by
      rintro (h | h)
      · omega
      · linarith
    simp only [levelOfDetailForHorizResolution, hg, if_false]
    exact hrun fuel hfuel
  · intro r1 r2 tileSize N fuel1 fuel2 L1 L2 hts hr1 hr12 _ hN hfit h1 h2
    have hg1 : ¬ (tileSize ≤ 0 ∨ r1 ≤ 0) := by
      rintro (h | h)
      · omega
      · linarith
    have hg2 : ¬ (tileSize ≤ 0 ∨ r2 ≤ 0) := by
      rintro (h | h)
      · omega
      · linarith
    simp only [levelOfDetailForHorizResolution, hg1, if_false] at h1
    simp only [levelOfDetailForHorizResolution, hg2, if_false] at h2
    obtain ⟨n1, -, hp1, hs1, hx1⟩ := resolutionSearch_sound r1 _ _ _ _ h1
    obtain ⟨n2, -, hp2, hs2, hx2⟩ := resolutionSearch_sound r2 _ _ _ _ h2
    have hb1 : n1 ≤ N := by
      by_contra hc
      exact absurd (hp1 N (by omega)) (not_lt.mpr hfit)
    have h21 : n2 ≤ n1 := by
      by_contra hc
      have := hp2 n1 (by omega)
      exact hs1 (lt_of_le_of_lt hr12 this)
    rw [hx1 (by omega), hx2 (by omega)]
    omega

theorem levelOfDetailForHorizResolution_spec_witness :
    levelOfDetailForHorizResolution 1 (fromName refEnv 0 "global-geodetic") 0 256 = some 23 ∧
      ∃ L : Nat,
        (∀ fuel : Nat, L + 1 ≤ fuel →
          levelOfDetailForHorizResolution fuel (fromName refEnv 0 "global-geodetic") (1 / 4) 2
            = some L) ∧
        (360 : ℚ) / ((2 : Nat) : ℚ) / ((2 : Int) : ℚ) / 2 ^ L ≤ 1 / 4 ∧
        ∀ k : Nat, k < L → (1 / 4 : ℚ) < 360 / ((2 : Nat) : ℚ) / ((2 : Int) : ℚ) / 2 ^ k := by
  obtain ⟨he, hx, -, -⟩ := global_geodetic_shared refEnv 0 refEnv_valid_WGS84
  have h := levelOfDetailForHorizResolution_spec (fromName refEnv 0 "global-geodetic")
  refine ⟨h.1 1 0 256 (Or.inr (le_refl 0)), ?_⟩
  have h2 := h.2.1 (1 / 4) 2 9 (by norm_num) (by norm_num)
  rw [he, hx] at h2
  have hw : GeoExtent.width (⟨SRS.WGS84, -180, -90, 180, 90⟩ : GeoExtent) = 360 := by
    norm_num [GeoExtent.width]
  rw [hw] at h2
  exact h2 (by norm_num) (by norm_num) (by norm_num)

/-! ## Tiles of a level cover the extent (C37) -/

/-- C37, as stated, fails at level 31: the factor `1u << 32` of level 32 is not
`2^32` (no 32-bit value is), so `tileDimensions(32)` is not half of
`tileDimensions(31)`. For "global-geodetic" in the reference environment the
level-32 tile is 180 by 180 units again, while the level-31 tile is
`180 / 2^31` wide. -/
theorem tileDimensions_not_halved_at_level_31 :
    tileDimensions refEnv (fromName refEnv 0 "global-geodetic") 31 =
        (180 / 2 ^ 31, 180 / 2 ^ 31) ∧
      tileDimensions refEnv (fromName refEnv 0 "global-geodetic") 32 = (180, 180) ∧
      tileDimensions refEnv (fromName refEnv 0 "global-geodetic") (31 + 1) ≠
        ((tileDimensions refEnv (fromName refEnv 0 "global-geodetic") 31).1 / 2,
          (tileDimensions refEnv (fromName refEnv 0 "global-geodetic") 31).2 / 2) := by
  obtain ⟨he, hx, hy, -⟩ := global_geodetic_shared refEnv 0 refEnv_valid_WGS84
  have hs : shl1 refEnv 32 = 1 := by simp [shl1, refEnv]
  have hs1 : shl1 refEnv 31 = 2 ^ 31 := shl1_of_lt refEnv 31 (by norm_num)
  have h32 : tileDimensions refEnv (fromName refEnv 0 "global-geodetic") 32 = (180, 180) := by
    simp only [tileDimensions, he, hx, hy, hs, GeoExtent.width, GeoExtent.height]
    norm_num
  have h31 : tileDimensions refEnv (fromName refEnv 0 "global-geodetic") 31 =
      (180 / 2 ^ 31, 180 / 2 ^ 31) := by
    simp only [tileDimensions, he, hx, hy, hs1, GeoExtent.width, GeoExtent.height]
    norm_num
  refine ⟨h31, h32, ?_⟩
  rw [h31, show 31 + 1 = 32 from rfl, h32]
  intro h
  have h1 := congrArg Prod.fst h
  norm_num at h1

/-- C37, amended: at every level the tiles abut (`tileExtent(L, c+1, r).xmin`
is `tileExtent(L, c, r).xmax`, `tileExtent(L, c, r+1).ymax` is
`tileExtent(L, c, r).ymin`) and tile (0, 0) starts at `extent.xmin`,
`extent.ymax`. For a profile with nonzero base tile counts and a level
`L < 32` whose tile counts `(tx, ty) = numTiles(L)` fit 32 bits, tile
`(tx-1, ty-1)` ends at `extent.xmax`, `extent.ymin`. For `L + 1 < 32`,
`tileDimensions(L+1)` is exactly half of `tileDimensions(L)` in both axes. -/
theorem tiles_cover_extent (env : Env) (p : Profile) (L : Nat) :
    (∀ c r : Nat,
      (tileExtent env p L (c + 1) r).xmin = (tileExtent env p L c r).xmax ∧
        (tileExtent env p L c (r + 1)).ymax = (tileExtent env p L c r).ymin) ∧
    ((tileExtent env p L 0 0).xmin = p.extent.xmin ∧
      (tileExtent env p L 0 0).ymax = p.extent.ymax) ∧
    (L < 32 → p.shared.numTilesBaseX ≠ 0 → p.shared.numTilesBaseY ≠ 0 →
      p.shared.numTilesBaseX * 2 ^ L < 2 ^ 32 → p.shared.numTilesBaseY * 2 ^ L < 2 ^ 32 →
      (tileExtent env p L ((numTiles env p L).1 - 1) ((numTiles env p L).2 - 1)).xmax =
          p.extent.xmax ∧
        (tileExtent env p L ((numTiles env p L).1 - 1) ((numTiles env p L).2 - 1)).ymin =
          p.extent.ymin) ∧
    (L + 1 < 32 → tileDimensions env p (L + 1) =
      ((tileDimensions env p L).1 / 2, (tileDimensions env p L).2 / 2)) := by
  refine ⟨?_, ?_, ?_, ?_⟩
  · intro c r
    constructor
    · simp only [tileExtent]
      push_cast
      ring
    · simp only [tileExtent]
      push_cast
      ring
  · constructor
    · simp [tileExtent]
    · simp [tileExtent]
  · intro hL hbx hby hx hy
    have hpos : 0 < 2 ^ L := Nat.pos_pow_of_pos L (by norm_num)
    have htx : 1 ≤ p.shared.numTilesBaseX * 2 ^ L :=
      Nat.mul_pos (Nat.pos_of_ne_zero hbx) hpos
    have hty : 1 ≤ p.shared.numTilesBaseY * 2 ^ L :=
      Nat.mul_pos (Nat.pos_of_ne_zero hby) hpos
    have hbxq : (p.shared.numTilesBaseX : ℚ) ≠ 0 := by exact_mod_cast hbx
    have hbyq : (p.shared.numTilesBaseY : ℚ) ≠ 0 := by exact_mod_cast hby
    have h2 : (2 : ℚ) ^ L ≠ 0 := by positivity
    simp only [tileExtent, tileDimensions, numTiles, shl1_of_lt env L hL, Nat.mod_eq_of_lt hx,
      Nat.mod_eq_of_lt hy, extent, GeoExtent.width, GeoExtent.height]
    rw [Nat.cast_sub htx, Nat.cast_sub hty]
    push_cast
    constructor
    · field_simp
      ring
    · field_simp
      ring
  · intro hL
    simp only [tileDimensions, shl1_of_lt env (L + 1) hL, shl1_of_lt env L (by omega)]
    push_cast
    rw [pow_succ]
    simp only [Prod.mk.injEq]
    constructor
    · rw [div_div, div_div, div_div]
    · rw [div_div, div_div, div_div]

theorem tiles_cover_extent_witness :
    ((tileExtent refEnv (fromName refEnv 0 "global-geodetic") 1 (4 - 1) (2 - 1)).xmax = 180 ∧
        (tileExtent refEnv (fromName refEnv 0 "global-geodetic") 1 (4 - 1) (2 - 1)).ymin = -90) ∧
      tileDimensions refEnv (fromName refEnv 0 "global-geodetic") (1 + 1) =
        ((tileDimensions refEnv (fromName refEnv 0 "global-geodetic") 1).1 / 2,
          (tileDimensions refEnv (fromName refEnv 0 "global-geodetic") 1).2 / 2) := by
  obtain ⟨he, hx, hy, -⟩ := global_geodetic_shared refEnv 0 refEnv_valid_WGS84
  have hn : numTiles refEnv (fromName refEnv 0 "global-geodetic") 1 = (4, 2) := by
    simp only [numTiles, hx, hy, shl1_of_lt refEnv 1 (by norm_num)]
    norm_num
  have h := tiles_cover_extent refEnv (fromName refEnv 0 "global-geodetic") 1
  have h3 := h.2.2.1 (by norm_num) (by rw [hx]; norm_num) (by rw [hy]; norm_num)
    (by rw [hx]; norm_num) (by rw [hy]; norm_num)
  rw [hn] at h3
  simp only [extent, he] at h3
  exact ⟨h3, h.2.2.2 (by norm_num)⟩

/-! ## The level search finds the closest level (C34, C35, C36) -/

/-- Below level 32 the tile height is the level-0 tile height halved once per
level. -/
theorem tileHeight_of_lt (env : Env) (p : Profile) (k : Nat) (hk : k < 32) :
    (tileDimensions env p k).2 = (tileDimensions env p 0).2 / 2 ^ k := by
  simp [tileDimensions, shl1_of_lt env k hk, shl1_of_lt env 0 (by norm_num)]

/-- Once a halving step does not bring the height closer to the target, no
later level is closer than the level before that step. -/
theorem halving_later (H h : ℚ) (hH : 0 < H) (k : Nat)
    (hstop : ¬ (|H / 2 ^ (k + 1) - h| < |H / 2 ^ k - h|)) :
    ∀ j : Nat, k < j → |H / 2 ^ k - h| ≤ |H / 2 ^ j - h| := by
  have hx : 0 < H / 2 ^ (k + 1) := by positivity
  have e : H / 2 ^ k = 2 * (H / 2 ^ (k + 1)) := by
    rw [pow_succ]
    field_simp
    ring
  rw [e] at hstop ⊢
  have hlt : H / 2 ^ (k + 1) < h := by
    by_contra hc
    apply hstop
    rcases abs_cases (H / 2 ^ (k + 1) - h) with ⟨h1, h2⟩ | ⟨h1, h2⟩ <;>
      rcases abs_cases (2 * (H / 2 ^ (k + 1)) - h) with ⟨h3, h4⟩ | ⟨h3, h4⟩ <;> linarith
  intro j hj
  have hle : H / 2 ^ j ≤ H / 2 ^ (k + 1) :=
    div_le_div_of_nonneg_left (le_of_lt hH) (by positivity)
      (pow_le_pow_right₀ (by norm_num) (by omega))
  have hs := not_lt.mp hstop
  rcases abs_cases (H / 2 ^ (k + 1) - h) with ⟨h1, h2⟩ | ⟨h1, h2⟩ <;>
    rcases abs_cases (2 * (H / 2 ^ (k + 1)) - h) with ⟨h3, h4⟩ | ⟨h3, h4⟩ <;>
    rcases abs_cases (H / 2 ^ j - h) with ⟨h5, h6⟩ | ⟨h5, h6⟩ <;> linarith

/-- Along a strictly improving run the last value is below every earlier
one. -/
theorem improving_chain (d : Nat → ℚ) : ∀ r : Nat, (∀ i : Nat, i < r → d (i + 1) < d i) →
    ∀ j : Nat, j < r → d r < d j := by
  intro r
  induction r with
  | zero => intro _ j hj; omega
  | succ r ih =>
    intro himp j hj
    have h1 := himp r (by omega)
    by_cases e : j = r
    · rw [e]
      exact h1
    · exact lt_trans h1 (ih (fun i hi => himp i (by omega)) j (by omega))

/-- For a target of at least `3 * H / 2^32` the step from level 30 to level 31
does not come closer. -/
theorem halving_stops_by_30 (H h : ℚ) (hH : 0 < H) (hfine : 3 * H / 2 ^ 32 ≤ h) :
    ¬ (|H / 2 ^ (30 + 1) - h| < |H / 2 ^ 30 - h|) := by
  have hx : 0 < H / 2 ^ 31 := by positivity
  have e : H / 2 ^ 30 = 2 * (H / 2 ^ 31) := by
    norm_num
    ring
  have e2 : 3 * H / 2 ^ 32 = 3 / 2 * (H / 2 ^ 31) := by
    norm_num
    ring
  rw [e2] at hfine
  rw [e, show 30 + 1 = 31 from rfl]
  intro hc
  rcases abs_cases (H / 2 ^ 31 - h) with ⟨h1, h2⟩ | ⟨h1, h2⟩ <;>
    rcases abs_cases (2 * (H / 2 ^ 31) - h) with ⟨h3, h4⟩ | ⟨h3, h4⟩ <;> linarith

/-- The first difference is below the sentinel when the level-0 height and the
target are positive and at most `DBL_MAX`. -/
theorem first_delta_lt (H h : ℚ) (hH : 0 < H) (hHmax : H ≤ DBL_MAX) (hh : 0 < h)
    (hhmax : h ≤ DBL_MAX) : |H - h| < DBL_MAX := by
  rcases abs_cases (H - h) with ⟨h1, h2⟩ | ⟨h1, h2⟩ <;> linarith

/-- The closest level of the halving pyramid, for targets whose closest level
is at most 30: the search returns it, no level is closer, and every coarser
level is strictly farther. -/
theorem lodSearch_closest (env : Env) (p : Profile) (h : ℚ)
    (hH : 0 < (tileDimensions env p 0).2) (hHmax : (tileDimensions env p 0).2 ≤ DBL_MAX)
    (hh : 0 < h) (hhmax : h ≤ DBL_MAX) (hfine : 3 * (tileDimensions env p 0).2 / 2 ^ 32 ≤ h) :
    ∃ r : Nat, r ≤ 30 ∧
      (∀ fuel : Nat, r + 2 ≤ fuel → lodSearch env p h fuel 0 0 DBL_MAX = some r) ∧
      (∀ L : Nat, |(tileDimensions env p 0).2 / 2 ^ r - h| ≤
        |(tileDimensions env p 0).2 / 2 ^ L - h|) ∧
      (∀ L : Nat, L < r → |(tileDimensions env p 0).2 / 2 ^ r - h| <
        |(tileDimensions env p 0).2 / 2 ^ L - h|) := by
  classical
  have hex : ∃ k : Nat, ¬ (|(tileDimensions env p 0).2 / 2 ^ (k + 1) - h| <
      |(tileDimensions env p 0).2 / 2 ^ k - h|) :=
    ⟨30, halving_stops_by_30 _ h hH hfine⟩
  have hr30 : Nat.find hex ≤ 30 := Nat.find_min' hex (halving_stops_by_30 _ h hH hfine)
  have hstop := Nat.find_spec hex
  have himp : ∀ i : Nat, i < Nat.find hex →
      |(tileDimensions env p 0).2 / 2 ^ (i + 1) - h| <
        |(tileDimensions env p 0).2 / 2 ^ i - h| :=
    fun i hi => not_not.mp (Nat.find_min hex hi)
  have hchain := improving_chain (fun k => |(tileDimensions env p 0).2 / 2 ^ k - h|)
    (Nat.find hex) himp
  refine ⟨Nat.find hex, hr30, ?_, ?_, ?_⟩
  · intro fuel hfuel
    have hrun := lodSearch_run env p h (Nat.find hex) fuel 0 0 DBL_MAX
      (fun k hk => by
        rw [Nat.zero_add, tileHeight_of_lt env p (k + 1) (by omega),
          tileHeight_of_lt env p k (by omega)]
        exact himp k hk)
      (by
        have := first_delta_lt _ h hH hHmax hh hhmax
        exact this)
      (by
        rw [Nat.zero_add, tileHeight_of_lt env p (Nat.find hex + 1) (by omega),
          tileHeight_of_lt env p (Nat.find hex) (by omega)]
        exact hstop)
      hfuel
    rw [Nat.zero_add] at hrun
    exact hrun
  · intro L
    rcases Nat.lt_trichotomy L (Nat.find hex) with hlt | heq | hgt
    · exact le_of_lt (hchain L hlt)
    · rw [heq]
    · exact halving_later _ h hH (Nat.find hex) hstop L hgt
  · intro L hL
    exact hchain L hL

/-- Some step of the search does not improve: a strictly improving run has
pairwise different tile heights, hence pairwise different 32-bit factors. -/
theorem lodSearch_stops (env : Env) (p : Profile) (h : ℚ) :
    ∃ n : Nat, ¬ (|(tileDimensions env p (n + 1)).2 - h| < |(tileDimensions env p n).2 - h|) := by
  by_contra hc
  push_neg at hc
  have hanti : StrictAnti (fun k => |(tileDimensions env p k).2 - h|) :=
    strictAnti_nat_of_succ_lt hc
  have hinj : Function.Injective
      (fun k : Nat => (⟨shl1 env k, shl1_lt env k⟩ : Fin (2 ^ 32))) := by
    intro a b hab
    have hs : shl1 env a = shl1 env b := congrArg Fin.val hab
    apply hanti.injective
    simp only [tileDimensions, hs]
  exact not_injective_infinite_finite _ hinj

/-- The search loop exits: some level is returned for every large enough
bound on the number of iterations. -/
theorem lodSearch_terminates (env : Env) (p : Profile) (h : ℚ) :
    ∃ L : Nat, ∀ fuel : Nat, L + 2 ≤ fuel → lodSearch env p h fuel 0 0 DBL_MAX = some L := by
  classical
  by_cases h0 : |(tileDimensions env p 0).2 - h| < DBL_MAX
  · have hex := lodSearch_stops env p h
    refine ⟨Nat.find hex, ?_⟩
    intro fuel hfuel
    have hrun := lodSearch_run env p h (Nat.find hex) fuel 0 0 DBL_MAX
      (fun k hk => by
        rw [Nat.zero_add]
        exact not_not.mp (Nat.find_min hex hk))
      h0
      (by
        rw [Nat.zero_add]
        exact Nat.find_spec hex)
      hfuel
    rw [Nat.zero_add] at hrun
    exact hrun
  · refine ⟨0, ?_⟩
    intro fuel hfuel
    obtain ⟨f, rfl⟩ : ∃ f, fuel = f + 1 := ⟨fuel - 1, by omega⟩
    simp only [lodSearch, h0, if_false]

/-- When no short circuit applies, `equivalentLOD` is the search loop run on
the converted target height. -/
theorem equivalentLOD_eq_lodSearch (env : Env) (p q : Profile) (qL fuel : Nat)
    (hq : valid env q = true) (h1 : horizontallyEquivalentTo env p q = false)
    (h2 : horizontallyEquivalentTo env p
      (fromName env env.addrGlobalGeodetic "global-geodetic") = false)
    (h3 : horizontallyEquivalentTo env p
      (fromName env env.addrSphericalMercator "spherical-mercator") = false)
    (h4 : env.equiv (tileDimensions env q qL).1 0 = false)
    (h5 : env.equiv (tileDimensions env q qL).2 0 = false) :
    equivalentLOD env fuel p q qL =
      lodSearch env p (env.transformUnits (tileDimensions env q qL).2 q.srs p.srs)
        fuel 0 0 DBL_MAX := by
  simp only [equivalentLOD, hq, Bool.not_true, Bool.false_eq_true, if_false, h1, h2, h3,
    Bool.and_false, h4, h5, Bool.or_self]

/-- The call `equivalentLOD` returns for every large enough bound on the
number of iterations. -/
theorem equivalentLOD_terminates (env : Env) (p q : Profile) (qL : Nat) :
    ∃ N : Nat, ∀ fuel : Nat, N ≤ fuel → ∃ L : Nat, equivalentLOD env fuel p q qL = some L := by
  obtain ⟨L, hL⟩ := lodSearch_terminates env p
    (env.transformUnits (tileDimensions env q qL).2 q.srs p.srs)
  refine ⟨L + 2, ?_⟩
  intro fuel hfuel
  unfold equivalentLOD
  split
  · exact ⟨_, rfl⟩
  · simp only []
    split
    · exact ⟨_, rfl⟩
    · split
      · exact ⟨_, rfl⟩
      · split
        · exact ⟨_, rfl⟩
        · split
          · exact ⟨_, rfl⟩
          · exact ⟨L, hL fuel hfuel⟩

/-- The tile heights of "global-geodetic" below level 32. -/
theorem global_geodetic_tileHeight (k : Nat) (hk : k < 32) :
    (tileDimensions refEnv (fromName refEnv 0 "global-geodetic") k).2 = 180 / 2 ^ k := by
  obtain ⟨he, -, hy, -⟩ := global_geodetic_shared refEnv 0 refEnv_valid_WGS84
  rw [tileDimensions, shl1_of_lt _ _ hk, he, hy]
  simp only [GeoExtent.height]
  norm_num

/-- The tile height of "global-geodetic" at level 32 in the reference
environment. -/
theorem global_geodetic_tileHeight_32 :
    (tileDimensions refEnv (fromName refEnv 0 "global-geodetic") 32).2 = 180 := by
  obtain ⟨he, -, hy, -⟩ := global_geodetic_shared refEnv 0 refEnv_valid_WGS84
  have hs : shl1 refEnv 32 = 1 := by simp [shl1, refEnv]
  simp only [tileDimensions, he, hy, hs, GeoExtent.height]
  norm_num

/-- C34, as stated, fails for small targets: the search cannot pass level 31,
because the factor `1u << 32` of level 32 is not `2^32`. For "global-geodetic"
(level-0 tile height 180) and the target `180 / 2^40` in the reference
environment the search returns level 31, while level 40 of the pyramid has
exactly the target height. -/
theorem levelOfDetail_not_closest :
    (tileDimensions refEnv (fromName refEnv 0 "global-geodetic") 0).2 = 180 ∧
      levelOfDetail refEnv 40 (fromName refEnv 0 "global-geodetic") (180 / 2 ^ 40) = some 31 ∧
      |(180 : ℚ) / 2 ^ 40 - 180 / 2 ^ 40| <
        |(tileDimensions refEnv (fromName refEnv 0 "global-geodetic") 31).2 - 180 / 2 ^ 40| := by
  have hd := global_geodetic_tileHeight
  have h32 := global_geodetic_tileHeight_32
  refine ⟨by rw [hd 0 (by norm_num)]; norm_num, ?_, ?_⟩
  · have hrun := lodSearch_run refEnv (fromName refEnv 0 "global-geodetic") (180 / 2 ^ 40)
      31 40 0 0 DBL_MAX
      (fun k hk => by
        rw [Nat.zero_add, hd (k + 1) (by omega), hd k (by omega)]
        have h1 : (180 : ℚ) / 2 ^ 40 ≤ 180 / 2 ^ (k + 1) :=
          div_le_div_of_nonneg_left (by norm_num) (by positivity)
            (pow_le_pow_right₀ (by norm_num) (by omega))
        have h2 : (180 : ℚ) / 2 ^ (k + 1) < 180 / 2 ^ k :=
          div_lt_div_of_pos_left (by norm_num) (by positivity)
            (pow_lt_pow_right₀ (by norm_num) (by omega))
        rw [abs_of_nonneg (by linarith), abs_of_nonneg (by linarith)]
        linarith)
      (by
        rw [hd 0 (by norm_num)]
        have hbig : (1000 : ℚ) < DBL_MAX := by norm_num [DBL_MAX]
        rw [abs_of_nonneg (by norm_num)]
        norm_num
        linarith)
      (by
        rw [show 0 + 31 + 1 = 32 from rfl, show 0 + 31 = 31 from rfl, h32, hd 31 (by norm_num)]
        norm_num [abs_of_nonneg])
      (by norm_num)
    exact hrun
  · rw [hd 31 (by norm_num)]
    norm_num [abs_of_nonneg]

/-- C34, amended: for a profile whose level-0 tile height `H` is positive and a
target height `h > 0` (both at most `DBL_MAX`) with `h >= 3 * H / 2^32`, the
level `r` returned by `levelOfDetail(h)` is at most 30 and minimises
`|H / 2^L - h|` over all levels `L >= 0`, every coarser level being strictly
farther (the coarser level wins a tie); below level 32 the tile height of the
code is `H / 2^L`. The same level is returned by the search loop of
`equivalentLOD`, reached with the converted target height `h` when no short
circuit applies. -/
theorem levelOfDetail_closest (env : Env) (p : Profile) (h : ℚ)
    (hH : 0 < (tileDimensions env p 0).2) (hHmax : (tileDimensions env p 0).2 ≤ DBL_MAX)
    (hh : 0 < h) (hhmax : h ≤ DBL_MAX) (hfine : 3 * (tileDimensions env p 0).2 / 2 ^ 32 ≤ h) :
    ∃ r : Nat, r ≤ 30 ∧
      (∀ fuel : Nat, r + 2 ≤ fuel → levelOfDetail env fuel p h = some r) ∧
      (∀ L : Nat, |(tileDimensions env p r).2 - h| ≤ |(tileDimensions env p 0).2 / 2 ^ L - h|) ∧
      (∀ L : Nat, L < r →
        |(tileDimensions env p r).2 - h| < |(tileDimensions env p 0).2 / 2 ^ L - h|) ∧
      (∀ L : Nat, L < 32 → (tileDimensions env p L).2 = (tileDimensions env p 0).2 / 2 ^ L) ∧
      (∀ (q : Profile) (qL fuel : Nat), valid env q = true →
        horizontallyEquivalentTo env p q = false →
        horizontallyEquivalentTo env p
          (fromName env env.addrGlobalGeodetic "global-geodetic") = false →
        horizontallyEquivalentTo env p
          (fromName env env.addrSphericalMercator "spherical-mercator") = false →
        env.equiv (tileDimensions env q qL).1 0 = false →
        env.equiv (tileDimensions env q qL).2 0 = false →
        env.transformUnits (tileDimensions env q qL).2 q.srs p.srs = h →
        r + 2 ≤ fuel → equivalentLOD env fuel p q qL = some r) := by
  obtain ⟨r, hr, hrun, hmin, hstrict⟩ := lodSearch_closest env p h hH hHmax hh hhmax hfine
  refine ⟨r, hr, hrun, ?_, ?_, fun L hL => tileHeight_of_lt env p L hL, ?_⟩
  · intro L
    rw [tileHeight_of_lt env p r (by omega)]
    exact hmin L
  · intro L hL
    rw [tileHeight_of_lt env p r (by omega)]
    exact hstrict L hL
  · intro q qL fuel hq h1 h2 h3 h4 h5 ht hfuel
    rw [equivalentLOD_eq_lodSearch env p q qL fuel hq h1 h2 h3 h4 h5, ht]
    exact hrun fuel hfuel

theorem levelOfDetail_closest_witness :
    ∃ r : Nat, r ≤ 30 ∧
      levelOfDetail refEnv (r + 2) (fromName refEnv 0 "global-geodetic") 100 = some r ∧
      ∀ L : Nat,
        |(tileDimensions refEnv (fromName refEnv 0 "global-geodetic") r).2 - 100| ≤
          |(tileDimensions refEnv (fromName refEnv 0 "global-geodetic") 0).2 / 2 ^ L - 100| := by
  have h0 := global_geodetic_tileHeight 0 (by norm_num)
  have hbig : (1000 : ℚ) < DBL_MAX := by norm_num [DBL_MAX]
  obtain ⟨r, hr, hrun, hmin, -⟩ :=
    levelOfDetail_closest refEnv (fromName refEnv 0 "global-geodetic") 100
      (by rw [h0]; norm_num) (by rw [h0]; norm_num; linarith) (by norm_num) (by linarith)
      (by rw [h0]; norm_num)
  exact ⟨r, hr, hrun (r + 2) (le_refl _), hmin⟩

/-- C35, as stated, fails at level 32: in the reference environment the
level-32 tile of "global-geodetic" is 180 units high, the height of the
level-0 tile, and `levelOfDetail(180)` is 0, not 32. -/
theorem levelOfDetail_of_level_32 :
    (tileDimensions refEnv (fromName refEnv 0 "global-geodetic") 32).2 = 180 ∧
      levelOfDetail refEnv 40 (fromName refEnv 0 "global-geodetic")
        (tileDimensions refEnv (fromName refEnv 0 "global-geodetic") 32).2 = some 0 ∧
      levelOfDetail refEnv 40 (fromName refEnv 0 "global-geodetic")
        (tileDimensions refEnv (fromName refEnv 0 "global-geodetic") 32).2 ≠ some 32 := by
  have hd := global_geodetic_tileHeight
  have h32 := global_geodetic_tileHeight_32
  have hrun : levelOfDetail refEnv 40 (fromName refEnv 0 "global-geodetic")
      (tileDimensions refEnv (fromName refEnv 0 "global-geodetic") 32).2 = some 0 := by
    rw [h32]
    exact lodSearch_run refEnv (fromName refEnv 0 "global-geodetic") 180 0 40 0 0 DBL_MAX
      (fun k hk => absurd hk (by omega))
      (by
        rw [hd 0 (by norm_num)]
        norm_num
        exact DBL_MAX_pos)
      (by
        rw [show 0 + 0 + 1 = 1 from rfl, show 0 + 0 = 0 from rfl, hd 1 (by norm_num),
          hd 0 (by norm_num)]
        norm_num)
      (by norm_num)
  refine ⟨h32, hrun, ?_⟩
  rw [hrun]
  simp

/-- C35, amended: for every profile whose level-0 tile height is positive
(and at most `DBL_MAX`) and every level `L < 32`,
`levelOfDetail(tileDimensions(L).height)` is `L`, for every bound of at least
`L + 2` loop iterations. -/
theorem levelOfDetail_inverts_tileDimensions (env : Env) (p : Profile) (L : Nat) (hL : L < 32)
    (hH : 0 < (tileDimensions env p 0).2) (hHmax : (tileDimensions env p 0).2 ≤ DBL_MAX)
    (fuel : Nat) (hfuel : L + 2 ≤ fuel) :
    levelOfDetail env fuel p (tileDimensions env p L).2 = some L := by
  have hLpos : 0 < (tileDimensions env p 0).2 / 2 ^ L := by positivity
  have hLle : (tileDimensions env p 0).2 / 2 ^ L ≤ (tileDimensions env p 0).2 :=
    div_le_self (le_of_lt hH) (one_le_pow₀ (by norm_num))
  have hrun := lodSearch_run env p (tileDimensions env p L).2 L fuel 0 0 DBL_MAX
    (fun k hk => by
      rw [Nat.zero_add, tileHeight_of_lt env p (k + 1) (by omega),
        tileHeight_of_lt env p k (by omega), tileHeight_of_lt env p L hL]
      have h1 : (tileDimensions env p 0).2 / 2 ^ L ≤ (tileDimensions env p 0).2 / 2 ^ (k + 1) :=
        div_le_div_of_nonneg_left (le_of_lt hH) (by positivity)
          (pow_le_pow_right₀ (by norm_num) (by omega))
      have h2 : (tileDimensions env p 0).2 / 2 ^ (k + 1) < (tileDimensions env p 0).2 / 2 ^ k :=
        div_lt_div_of_pos_left hH (by positivity)
          (pow_lt_pow_right₀ (by norm_num) (by omega))
      rw [abs_of_nonneg (by linarith), abs_of_nonneg (by linarith)]
      linarith)
    (by
      rw [tileHeight_of_lt env p L hL]
      rw [abs_of_nonneg (by linarith)]
      linarith)
    (by
      rw [Nat.zero_add, sub_self, abs_zero]
      exact not_lt.mpr (abs_nonneg _))
    hfuel
  rw [Nat.zero_add] at hrun
  exact hrun

theorem levelOfDetail_inverts_tileDimensions_witness :
    levelOfDetail refEnv 5 (fromName refEnv 0 "global-geodetic")
      (tileDimensions refEnv (fromName refEnv 0 "global-geodetic") 3).2 = some 3 := by
  have h0 := global_geodetic_tileHeight 0 (by norm_num)
  have hbig : (1000 : ℚ) < DBL_MAX := by norm_num [DBL_MAX]
  exact levelOfDetail_inverts_tileDimensions refEnv (fromName refEnv 0 "global-geodetic") 3
    (by norm_num) (by rw [h0]; norm_num) (by rw [h0]; norm_num; linarith) 5 (by norm_num)

/-- C36: the level search terminates. For every profile and target height
the loop of `levelOfDetail` exits: some level `L` is returned for every bound
of at least `L + 2` loop iterations, and likewise `equivalentLOD` returns for
every large enough bound, whatever an out-of-range shift yields. While the
tile height at level `L` is `height0 / 2^L` (a positive level-0 height and a
positive target of at least `3 * height0 / 2^32`, both at most `DBL_MAX`), the
loop exits at a level of at most 30. -/
theorem level_search_terminates (env : Env) (p : Profile) :
    (∀ h : ℚ, ∃ L : Nat, ∀ fuel : Nat, L + 2 ≤ fuel → levelOfDetail env fuel p h = some L) ∧
    (∀ (q : Profile) (qL : Nat), ∃ N : Nat, ∀ fuel : Nat, N ≤ fuel →
      ∃ L : Nat, equivalentLOD env fuel p q qL = some L) ∧
    (∀ h : ℚ, 0 < (tileDimensions env p 0).2 → (tileDimensions env p 0).2 ≤ DBL_MAX →
      0 < h → h ≤ DBL_MAX → 3 * (tileDimensions env p 0).2 / 2 ^ 32 ≤ h →
      ∃ L : Nat, L ≤ 30 ∧ ∀ fuel : Nat, L + 2 ≤ fuel → levelOfDetail env fuel p h = some L) := by
  refine ⟨?_, ?_, ?_⟩
  · intro h
    exact lodSearch_terminates env p h
  · intro q qL
    exact equivalentLOD_terminates env p q qL
  · intro h hH hHmax hh hhmax hfine
    obtain ⟨r, hr, hrun, -, -⟩ := lodSearch_closest env p h hH hHmax hh hhmax hfine
    exact ⟨r, hr, hrun⟩

theorem level_search_terminates_witness :
    (∃ L : Nat, levelOfDetail refEnv (L + 2) (fromName refEnv 0 "global-geodetic")
        (180 / 2 ^ 40) = some L) ∧
      ∃ L : Nat, L ≤ 30 ∧
        levelOfDetail refEnv (L + 2) (fromName refEnv 0 "global-geodetic") 50 = some L := by
  have h0 := global_geodetic_tileHeight 0 (by norm_num)
  have hbig : (1000 : ℚ) < DBL_MAX := by norm_num [DBL_MAX]
  have h := level_search_terminates refEnv (fromName refEnv 0 "global-geodetic")
  obtain ⟨L, hL⟩ := h.1 (180 / 2 ^ 40)
  obtain ⟨L2, hL2, hrun⟩ := h.2.2 50 (by rw [h0]; norm_num) (by rw [h0]; norm_num; linarith)
    (by norm_num) (by linarith) (by rw [h0]; norm_num)
  exact ⟨⟨L, hL (L + 2) (le_refl _)⟩, L2, hL2, hrun (L2 + 2) (le_refl _)⟩

/-! ## The index buffer for tile sizes below 2 (C39) -/

/-- C39 at tile size 1 with a skirt: `createIndices` clamps the tile size to 2
and writes the 6 surface indices and the 24 skirt indices of a 2-by-2 tile, but
`getNumSkirtElements` uses the unclamped tile size and counts `(1-1)*4*6 = 0`
skirt indices, so the buffer has 6 slots and the seventh write is past its
end. With tile size 0 the count is `(0-1)*4*6` on 32 bits, the buffer has
`2^32 - 18` slots and only 30 are written. With tile size 2 the same settings
allocate and write 30 indices. -/
theorem createIndices_overruns_at_tile_size_one :
    getNumSkirtElements ⟨1, 1, false⟩ = 0 ∧
      (surfaceIndices (max 1 2)).length = 6 ∧
      (skirtIndices 4 12).length = 24 ∧
      createIndices ⟨1, 1, false⟩ = Except.error Fault.outOfBounds ∧
      getNumSkirtElements ⟨0, 1, false⟩ = -24 ∧
      (∃ a : List Nat, createIndices ⟨0, 1, false⟩ = Except.ok a ∧ a.length = 4294967278) ∧
      getNumSkirtElements ⟨2, 1, false⟩ = 24 ∧
      (∃ a : List Nat, createIndices ⟨2, 1, false⟩ = Except.ok a ∧ a.length = 30) := by
  have hg : getNumSkirtElements ⟨1, 1, false⟩ = 0 := by
    simp [getNumSkirtElements, usub, toInt32]
  have hg2 : getNumSkirtElements ⟨2, 1, false⟩ = 24 := by
    simp [getNumSkirtElements, usub, toInt32]
  have hg0 : getNumSkirtElements ⟨0, 1, false⟩ = -24 := by
    simp [getNumSkirtElements, usub, toInt32]
  refine ⟨hg, rfl, rfl, ?_, hg0, ?_, hg2, ?_⟩
  · have hs : (0 : ℚ) < 1 := by norm_num
    simp only [createIndices, hg, hs, decide_True, if_true]
    rw [setFrom_error _ _ _ (Nat.zero_le _) (by
      rw [List.length_replicate]
      decide)]
    rfl
  · have hs : (0 : ℚ) < 1 := by norm_num
    have hu : toUnsigned (-24) = 4294967272 := by
      simp [toUnsigned]
    have hm : max 0 2 = 2 := rfl
    have hlen : (surfaceIndices 2 ++ skirtIndices 4 12).length = 30 := rfl
    simp only [createIndices, hg0, hs, decide_True, if_true, hu, hm]
    rw [show (2 * 2) % 2 ^ 32 = 4 from rfl, show ((2 - 1) * 2 * 4) % 2 ^ 32 = 8 from rfl,
      show 4 + 8 = 12 from rfl,
      show (((2 - 1) * (2 - 1) * 6) % 2 ^ 32 + 4294967272) % 2 ^ 32 = 4294967278 from by
        norm_num]
    rw [setFrom_ok _ _ _ (by rw [List.length_replicate, hlen]; norm_num)]
    refine ⟨_, rfl, ?_⟩
    simp only [List.length_append, List.length_take, List.length_map, List.length_drop,
      List.length_replicate, hlen]
    norm_num
  · rw [createIndices_eq ⟨2, 1, false⟩ (le_refl _) (by norm_num)]
    refine ⟨_, rfl, ?_⟩
    have hs : (0 : ℚ) < 1 := by norm_num
    simp only [hs, if_true, List.length_map, List.length_append, surfaceIndices_length,
      skirtIndices_length]

/-! ## The running bounding sphere (C33) -/

/-- What one step of the vertex loops does to the running bound of the tile:
it expands it by the local position of the vertex. -/
theorem surfaceVertex_tileBound (menv : MeshEnv) (w : Vec3 ℚ → Vec3 ℚ) (l : Locator)
    (n row col : Nat) (m m2 : Mesh) (h : surfaceVertex menv w l n row col m = Except.ok m2) :
    m2.tileBound = expandSphereToInclude menv.sqrt m.tileBound
      (w (l.unitToWorld menv.toEnv
        ⟨(col : ℚ) / ((n - 1 : Nat) : ℚ), (row : ℚ) / ((n - 1 : Nat) : ℚ), 0⟩)) := by
  unfold surfaceVertex at h
  simp only [bind, Except.bind] at h
  repeat (any_goals (split at h))
  all_goals first
    | (cases h; done)
    | (cases h; rfl)

/-- A loop that succeeds acts on a component of its state as the plain fold of
its action on that component. -/
theorem foldlM_foldl {σ α β : Type} (f : σ → α → Except Fault σ) (proj : σ → β)
    (g : β → α → β) (hstep : ∀ s a s2, f s a = Except.ok s2 → proj s2 = g (proj s) a) :
    ∀ (l : List α) (s s2 : σ), l.foldlM f s = Except.ok s2 → proj s2 = l.foldl g (proj s) := by
  intro l
  induction l with
  | nil =>
    intro s s2 h
    cases h
    rfl
  | cons a l ih =>
    intro s s2 h
    rw [List.foldlM_cons] at h
    cases h1 : f s a with
    | error e =>
      rw [h1] at h
      cases h
    | ok s1 =>
      rw [h1] at h
      rw [List.foldl_cons, ← hstep s a s1 h1]
      exact ih s1 s2 h

/-- The bound of the tile after the vertex loops of `createGeometry`: the
sphere accumulated by `expandSphereToInclude` over the local positions of the
vertices, row by row, from the bound the loops start with. -/
theorem surface_loops_tileBound (menv : MeshEnv) (w : Vec3 ℚ → Vec3 ℚ) (l : Locator) (n : Nat)
    (m0 m1 : Mesh)
    (h : (List.range n).foldlM
        (fun m row => (List.range n).foldlM
          (fun m col => surfaceVertex menv w l n row col m) m) m0 = Except.ok m1) :
    m1.tileBound =
      (List.range n).foldl
        (fun (b : Sphere ℚ) (row : Nat) => (List.range n).foldl
          (fun (b : Sphere ℚ) (col : Nat) => expandSphereToInclude menv.sqrt b
            (w (l.unitToWorld menv.toEnv
              ⟨(col : ℚ) / ((n - 1 : Nat) : ℚ), (row : ℚ) / ((n - 1 : Nat) : ℚ), 0⟩))) b)
        m0.tileBound := by
  refine foldlM_foldl
    (fun m row => (List.range n).foldlM (fun m col => surfaceVertex menv w l n row col m) m)
    Mesh.tileBound _ ?_ (List.range n) m0 m1 h
  intro s row s2 hrow
  exact foldlM_foldl (fun m col => surfaceVertex menv w l n row col m) Mesh.tileBound
    (fun (b : Sphere ℚ) (col : Nat) => expandSphereToInclude menv.sqrt b
      (w (l.unitToWorld menv.toEnv
        ⟨(col : ℚ) / ((n - 1 : Nat) : ℚ), (row : ℚ) / ((n - 1 : Nat) : ℚ), 0⟩)))
    (fun s a s2 hs => surfaceVertex_tileBound menv w l n row a s s2 hs)
    (List.range n) s s2 hrow

/-! ## The skirt vertices (C31, C32) -/

/-- Reading an element other than the one just written. -/
theorem getD_set_ne (a : List (Vec3 ℚ)) (i j : Nat) (v : Vec3 ℚ) (h : i ≠ j) :
    (a.set i v).getD j Vec3.zero = a.getD j Vec3.zero := by
  simp [List.getD_eq_getElem?_getD, List.getElem?_set_ne h]

/-- Reading the element just written. -/
theorem getD_set_eq (a : List (Vec3 ℚ)) (i : Nat) (v : Vec3 ℚ) (h : i < a.length) :
    (a.set i v).getD i Vec3.zero = v := by
  simp [List.getD_eq_getElem?_getD, List.getElem?_set_self, h]

/-- One step of the skirt loops in closed form: the vertex `INDEX`, below the
slot `P`, is copied to the slots `P` and `P + 1`, the second copy moved by the
normal times `-H`, and both copies carry the skirt marker. -/
theorem addSkirtDataForIndex_eq (menv : MeshEnv) (H : ℚ) (N P INDEX : Nat) (m : Mesh)
    (hm : m.Sized N) (hI : INDEX < P) (hP : P + 1 < N) :
    ∃ m2, addSkirtDataForIndex menv H (m, P) INDEX = Except.ok (m2, P + 2) ∧ m2.Sized N ∧
      m2.neighbors.isSome = m.neighbors.isSome ∧
      m2.neighborNormals.isSome = m.neighborNormals.isSome ∧
      m2.tileBound = m.tileBound ∧
      m2.verts = (m.verts.set P (m.verts.getD INDEX Vec3.zero)).set (P + 1)
        (Vec3.sub (m.verts.getD INDEX Vec3.zero)
          (Vec3.scale (m.normals.getD INDEX Vec3.zero) H)) ∧
      m2.normals = (m.normals.set P (m.normals.getD INDEX Vec3.zero)).set (P + 1)
        (m.normals.getD INDEX Vec3.zero) ∧
      m2.uvs = (m.uvs.set P
          { m.uvs.getD INDEX Vec3.zero with
            z := ((Int.lor (doubleToInt (m.uvs.getD INDEX Vec3.zero).z) menv.VERTEX_SKIRT : Int)
              : ℚ) }).set (P + 1)
          { m.uvs.getD INDEX Vec3.zero with
            z := ((Int.lor (doubleToInt (m.uvs.getD INDEX Vec3.zero).z) menv.VERTEX_SKIRT : Int)
              : ℚ) } := by
  obtain ⟨v, nm, uv, nb, nn, tb⟩ := m
  obtain ⟨h1, h2, h3, h4, h5⟩ := hm
  simp only at h1 h2 h3 h4 h5
  have hP0 : P < N := by omega
  have hIN : INDEX < N := by omega
  have hne : P ≠ INDEX := by omega
  have hne1 : P + 1 ≠ INDEX := by omega
  cases nb with
  | none =>
    cases nn with
    | none =>
      simp [addSkirtDataForIndex, markSkirt, arraySet, arrayAt, bind, Except.bind, h1, h2, h3,
        hIN, hP, hP0, Mesh.Sized, getD_set_ne, getD_set_eq, hne, hne1]
    | some nn =>
      have h5 := h5 nn rfl
      simp [addSkirtDataForIndex, markSkirt, arraySet, arrayAt, bind, Except.bind, h1, h2, h3,
        h5, hIN, hP, hP0, Mesh.Sized, getD_set_ne, getD_set_eq, hne, hne1]
  | some nb =>
    have h4 := h4 nb rfl
    cases nn with
    | none =>
      simp [addSkirtDataForIndex, markSkirt, arraySet, arrayAt, bind, Except.bind, h1, h2, h3,
        h4, hIN, hP, hP0, Mesh.Sized, getD_set_ne, getD_set_eq, hne, hne1]
    | some nn =>
      have h5 := h5 nn rfl
      simp [addSkirtDataForIndex, markSkirt, arraySet, arrayAt, bind, Except.bind, h1, h2, h3,
        h4, h5, hIN, hP, hP0, Mesh.Sized, getD_set_ne, getD_set_eq, hne, hne1]

/-- Two writes at the slots `P` and `P + 1`: the other slots keep their
values and the two slots hold the values written. -/
theorem getElem?_set_set (a : List (Vec3 ℚ)) (P : Nat) (va vb : Vec3 ℚ) (hP : P + 1 < a.length) :
    ((a.set P va).set (P + 1) vb)[P]? = some va ∧
      ((a.set P va).set (P + 1) vb)[P + 1]? = some vb ∧
      ∀ j : Nat, j ≠ P → j ≠ P + 1 → ((a.set P va).set (P + 1) vb)[j]? = a[j]? := by
  refine ⟨?_, ?_, ?_⟩
  · rw [List.getElem?_set_ne (by omega), List.getElem?_set_self (by omega)]
  · rw [List.getElem?_set_self (by rw [List.length_set]; omega)]
  · intro j h1 h2
    rw [List.getElem?_set_ne (by omega), List.getElem?_set_ne (by omega)]

theorem getD_of_getElem? (a b : List (Vec3 ℚ)) (j : Nat) (h : a[j]? = b[j]?) :
    a.getD j Vec3.zero = b.getD j Vec3.zero := by
  simp [List.getD_eq_getElem?_getD, h]

/-- The skirt loops in closed form. Started at the slot `P` on arrays of `N`
elements, with every vertex visited below `B <= P`: visit `k` of the vertex `x`
leaves the copy of `x` in the slot `P + 2 * k` and the extruded copy in the slot
`P + 2 * k + 1`, both with the normal and the marked texture coordinate of `x`,
and the slots outside `[P, P + 2 * length)` keep their values. -/
theorem skirt_loop_contents (menv : MeshEnv) (H : ℚ) (N B : Nat) :
    ∀ (l : List Nat) (m : Mesh) (P : Nat), m.Sized N → (∀ x ∈ l, x < B) → B ≤ P →
      P + 2 * l.length ≤ N →
      ∃ m2, l.foldlM (addSkirtDataForIndex menv H) (m, P) = Except.ok (m2, P + 2 * l.length) ∧
        m2.Sized N ∧ m2.neighbors.isSome = m.neighbors.isSome ∧
        m2.neighborNormals.isSome = m.neighborNormals.isSome ∧
        m2.tileBound = m.tileBound ∧
        (∀ j : Nat, j < P ∨ P + 2 * l.length ≤ j →
          m2.verts[j]? = m.verts[j]? ∧ m2.normals[j]? = m.normals[j]? ∧
            m2.uvs[j]? = m.uvs[j]?) ∧
        (∀ k x : Nat, l[k]? = some x →
          m2.verts[P + 2 * k]? = some (m.verts.getD x Vec3.zero) ∧
          m2.verts[P + 2 * k + 1]? = some (Vec3.sub (m.verts.getD x Vec3.zero)
            (Vec3.scale (m.normals.getD x Vec3.zero) H)) ∧
          m2.normals[P + 2 * k]? = some (m.normals.getD x Vec3.zero) ∧
          m2.normals[P + 2 * k + 1]? = some (m.normals.getD x Vec3.zero) ∧
          m2.uvs[P + 2 * k]? = some
            { m.uvs.getD x Vec3.zero with
              z := ((Int.lor (doubleToInt (m.uvs.getD x Vec3.zero).z) menv.VERTEX_SKIRT : Int)
                : ℚ) } ∧
          m2.uvs[P + 2 * k + 1]? = some
            { m.uvs.getD x Vec3.zero with
              z := ((Int.lor (doubleToInt (m.uvs.getD x Vec3.zero).z) menv.VERTEX_SKIRT : Int)
                : ℚ) }) := by
  intro l
  induction l with
  | nil =>
    intro m P hm _ _ _
    refine ⟨m, rfl, hm, rfl, rfl, rfl, fun j _ => ⟨rfl, rfl, rfl⟩, ?_⟩
    intro k x hk
    simp at hk
  | cons a l ih =>
    intro m P hm hl hB hP
    simp only [List.length_cons] at hP
    have haB : a < B := hl a (List.mem_cons_self _ _)
    obtain ⟨m1, h1, hs1, hn1, hn2, htb1, hv1, hnm1, huv1⟩ :=
      addSkirtDataForIndex_eq menv H N P a m hm (by omega) (by omega)
    obtain ⟨m2, h2, hs2, hm1, hm2, htb2, hA, hBk⟩ := ih m1 (P + 2) hs1
      (fun x hx => hl x (List.mem_cons_of_mem _ hx)) (by omega) (by omega)
    obtain ⟨hmv, hmn, hmu, -, -⟩ := hm
    obtain ⟨v0, v1, vr⟩ := getElem?_set_set m.verts P (m.verts.getD a Vec3.zero)
      (Vec3.sub (m.verts.getD a Vec3.zero) (Vec3.scale (m.normals.getD a Vec3.zero) H))
      (by omega)
    obtain ⟨n0, n1, nr⟩ := getElem?_set_set m.normals P (m.normals.getD a Vec3.zero)
      (m.normals.getD a Vec3.zero) (by omega)
    obtain ⟨u0, u1, ur⟩ := getElem?_set_set m.uvs P
      { m.uvs.getD a Vec3.zero with
        z := ((Int.lor (doubleToInt (m.uvs.getD a Vec3.zero).z) menv.VERTEX_SKIRT : Int) : ℚ) }
      { m.uvs.getD a Vec3.zero with
        z := ((Int.lor (doubleToInt (m.uvs.getD a Vec3.zero).z) menv.VERTEX_SKIRT : Int) : ℚ) }
      (by omega)
    rw [← hv1] at v0 v1 vr
    rw [← hnm1] at n0 n1 nr
    rw [← huv1] at u0 u1 ur
    have e : P + 2 * (l.length + 1) = P + 2 + 2 * l.length := by ring
    refine ⟨m2, ?_, hs2, by rw [hm1, hn1], by rw [hm2, hn2], by rw [htb2, htb1], ?_, ?_⟩
    · rw [List.foldlM_cons, h1]
      simp only [List.length_cons]
      rw [e]
      exact h2
    · intro j hj
      simp only [List.length_cons] at hj
      obtain ⟨a1, a2, a3⟩ := hA j (by omega)
      rw [a1, a2, a3]
      exact ⟨vr j (by omega) (by omega), nr j (by omega) (by omega), ur j (by omega) (by omega)⟩
    · intro k x hk
      cases k with
      | zero =>
        simp only [List.getElem?_cons_zero, Option.some.injEq] at hk
        subst hk
        obtain ⟨a1, a2, a3⟩ := hA P (by omega)
        obtain ⟨b1, b2, b3⟩ := hA (P + 1) (by omega)
        simp only [Nat.mul_zero, Nat.add_zero]
        rw [a1, a2, a3, b1, b2, b3]
        exact ⟨v0, v1, n0, n1, u0, u1⟩
      | succ k =>
        simp only [List.getElem?_cons_succ] at hk
        have hx : x < B := hl x (List.mem_cons_of_mem _ (List.getElem?_mem hk))
        obtain ⟨c1, c2, c3, c4, c5, c6⟩ := hBk k x hk
        have ev : m1.verts.getD x Vec3.zero = m.verts.getD x Vec3.zero :=
          getD_of_getElem? _ _ x (vr x (by omega) (by omega))
        have en : m1.normals.getD x Vec3.zero = m.normals.getD x Vec3.zero :=
          getD_of_getElem? _ _ x (nr x (by omega) (by omega))
        have eu : m1.uvs.getD x Vec3.zero = m.uvs.getD x Vec3.zero :=
          getD_of_getElem? _ _ x (ur x (by omega) (by omega))
        rw [ev] at c1
        rw [ev, en] at c2
        rw [en] at c3 c4
        rw [eu] at c5 c6
        have e2 : P + 2 * (k + 1) = P + 2 + 2 * k := by ring
        rw [e2]
        exact ⟨c1, c2, c3, c4, c5, c6⟩

/-- Row and column of the vertices the skirt loops visit. -/
theorem skirtVisits_rowcol (n : Nat) (hn : 2 ≤ n) :
    (skirtVisits n).map (fun x => (x / n, x % n)) =
      (List.range (n - 1)).map (fun c => (0, c)) ++
        (List.range (n - 1)).map (fun r => (r, n - 1)) ++
        ((List.range (n - 1)).reverse.map fun c => (n - 1, c + 1)) ++
        ((List.range (n - 1)).reverse.map fun r => (r + 1, 0)) := by
  have hpos : 0 < n := by omega
  simp only [skirtVisits, List.map_append, List.map_map]
  congr 1
  · congr 1
    · congr 1
      · apply List.map_congr_left
        intro c hc
        have hc2 : c < n := by have := List.mem_range.mp hc; omega
        simp [Nat.div_eq_of_lt hc2, Nat.mod_eq_of_lt hc2]
      · apply List.map_congr_left
        intro r _
        have h1 : n - 1 < n := by omega
        simp only [Function.comp_apply, Prod.mk.injEq]
        constructor
        · rw [Nat.mul_comm, Nat.mul_add_div hpos, Nat.div_eq_of_lt h1, Nat.add_zero]
        · rw [Nat.mul_comm, Nat.mul_add_mod, Nat.mod_eq_of_lt h1]
    · apply List.map_congr_left
      intro c hc
      have hc2 : c + 1 < n := by
        have := List.mem_range.mp (List.mem_reverse.mp hc)
        omega
      simp only [Function.comp_apply, Prod.mk.injEq]
      constructor
      · rw [Nat.mul_comm, Nat.mul_add_div hpos, Nat.div_eq_of_lt hc2, Nat.add_zero]
      · rw [Nat.mul_comm, Nat.mul_add_mod, Nat.mod_eq_of_lt hc2]
  · apply List.map_congr_left
    intro r _
    simp only [Function.comp_apply, Prod.mk.injEq]
    constructor
    · rw [Nat.mul_div_cancel _ hpos]
    · rw [Nat.mul_mod_left]

/-- The skirt loops visit no vertex twice. -/
theorem skirtVisits_nodup (n : Nat) (hn : 2 ≤ n) : (skirtVisits n).Nodup := by
  apply List.Nodup.of_map (fun x => (x / n, x % n))
  rw [skirtVisits_rowcol n hn]
  have h1 : ((List.range (n - 1)).map (fun c => ((0 : Nat), c))).Nodup :=
    List.Nodup.map (fun a b h => by simpa using h) (List.nodup_range _)
  have h2 : ((List.range (n - 1)).map (fun r => (r, n - 1))).Nodup :=
    List.Nodup.map (fun a b h => by simpa using h) (List.nodup_range _)
  have h3 : ((List.range (n - 1)).reverse.map (fun c => (n - 1, c + 1))).Nodup :=
    List.Nodup.map (fun a b h => by simpa using h)
      (List.nodup_reverse.mpr (List.nodup_range _))
  have h4 : ((List.range (n - 1)).reverse.map (fun r => (r + 1, (0 : Nat)))).Nodup :=
    List.Nodup.map (fun a b h => by simpa using h)
      (List.nodup_reverse.mpr (List.nodup_range _))
  rw [List.nodup_append, List.nodup_append, List.nodup_append]
  refine ⟨⟨⟨h1, h2, ?_⟩, h3, ?_⟩, h4, ?_⟩
  · intro a ha hb
    simp only [List.mem_map, List.mem_range] at ha hb
    obtain ⟨c, hc, rfl⟩ := ha
    obtain ⟨r, hr, h⟩ := hb
    simp only [Prod.mk.injEq] at h
    omega
  · intro a ha hb
    simp only [List.mem_append, List.mem_map, List.mem_range, List.mem_reverse] at ha hb
    obtain ⟨c, hc, rfl⟩ := hb
    rcases ha with ⟨c2, hc2, h⟩ | ⟨r, hr, h⟩ <;> simp only [Prod.mk.injEq] at h <;> omega
  · intro a ha hb
    simp only [List.mem_append, List.mem_map, List.mem_range, List.mem_reverse] at ha hb
    obtain ⟨r, hr, rfl⟩ := hb
    rcases ha with (⟨c2, hc2, h⟩ | ⟨r2, hr2, h⟩) | ⟨c3, hc3, h⟩ <;>
      simp only [Prod.mk.injEq] at h <;> omega

/-- The skirt loops visit exactly the boundary vertices of the grid. -/
theorem mem_skirtVisits (n x : Nat) (hn : 2 ≤ n) :
    x ∈ skirtVisits n ↔
      ∃ row col : Nat, row < n ∧ col < n ∧ x = row * n + col ∧
        (row = 0 ∨ row = n - 1 ∨ col = 0 ∨ col = n - 1) := by
  simp only [skirtVisits, List.mem_append, List.mem_range, List.mem_map, List.mem_reverse]
  constructor
  · rintro (((h | ⟨r, hr, rfl⟩) | ⟨c, hc, rfl⟩) | ⟨r, hr, rfl⟩)
    · exact ⟨0, x, by omega, by omega, by simp, Or.inl rfl⟩
    · exact ⟨r, n - 1, by omega, by omega, rfl, Or.inr (Or.inr (Or.inr rfl))⟩
    · exact ⟨n - 1, c + 1, by omega, by omega, rfl, Or.inr (Or.inl rfl)⟩
    · exact ⟨r + 1, 0, by omega, by omega, rfl, Or.inr (Or.inr (Or.inl rfl))⟩
  · rintro ⟨row, col, hrow, hcol, rfl, hb⟩
    by_cases h1 : col = n - 1
    · by_cases h2 : row = n - 1
      · refine Or.inl (Or.inr ⟨col - 1, by omega, ?_⟩)
        rw [h2]
        congr 1
        omega
      · exact Or.inl (Or.inl (Or.inr ⟨row, by omega, by rw [h1]⟩))
    · by_cases h2 : row = 0
      · refine Or.inl (Or.inl (Or.inl ?_))
        rw [h2]
        simp
        omega
      · by_cases h3 : row = n - 1
        · by_cases h4 : col = 0
          · refine Or.inr ⟨row - 1, by omega, ?_⟩
            rw [h4, Nat.add_zero]
            congr 1
            omega
          · refine Or.inl (Or.inr ⟨col - 1, by omega, ?_⟩)
            rw [h3]
            congr 1
            omega
        · have h4 : col = 0 := by omega
          refine Or.inr ⟨row - 1, by omega, ?_⟩
          rw [h4, Nat.add_zero]
          congr 1
          omega

/-- The build with a skirt, step by step, for a tile size `n >= 2` whose
vertex count `n * n + 8 * (n - 1)` fits 32 bits: the vertex loops succeed on
the arrays of that many elements, the skirt loops succeed from the slot `n * n`
and end at the end of the arrays, leaving the surface slots as they were and the
copies of visit `k` in the slots `n * n + 2 * k` and `n * n + 2 * k + 1`; and
with an index buffer the build returns the arrays so filled. -/
theorem createGeometry_skirt (menv : MeshEnv) (pool : GeometryPool) (key : TileKey)
    (s : Settings) (addr : Nat) (hn : 2 ≤ s.tileSize)
    (hfit : s.tileSize * s.tileSize + 8 * (s.tileSize - 1) < 2 ^ 32) (hs : 0 < s.skirtRatio) :
    ∃ m1 m2 : Mesh,
      (List.range s.tileSize).foldlM
        (fun m row => (List.range s.tileSize).foldlM
          (fun m col => surfaceVertex menv
            (menv.world2local pool.worldSRS (key.extent menv.toEnv))
            ⟨key.extent menv.toEnv, pool.worldSRS⟩ s.tileSize row col m) m)
        { verts := List.replicate (s.tileSize * s.tileSize + 8 * (s.tileSize - 1)) Vec3.zero
          normals := List.replicate (s.tileSize * s.tileSize + 8 * (s.tileSize - 1)) Vec3.zero
          uvs := List.replicate (s.tileSize * s.tileSize + 8 * (s.tileSize - 1)) Vec3.zero
          neighbors :=
            if s.morphing then
              some (List.replicate (s.tileSize * s.tileSize + 8 * (s.tileSize - 1)) Vec3.zero)
            else none
          neighborNormals :=
            if s.morphing then
              some (List.replicate (s.tileSize * s.tileSize + 8 * (s.tileSize - 1)) Vec3.zero)
            else none
          tileBound := Sphere.empty } = Except.ok m1 ∧
      m1.Sized (s.tileSize * s.tileSize + 8 * (s.tileSize - 1)) ∧
      (skirtVisits s.tileSize).foldlM
          (addSkirtDataForIndex menv (m1.tileBound.radius * s.skirtRatio))
          (m1, s.tileSize * s.tileSize) =
        Except.ok (m2, s.tileSize * s.tileSize + 8 * (s.tileSize - 1)) ∧
      m2.Sized (s.tileSize * s.tileSize + 8 * (s.tileSize - 1)) ∧
      (∀ j : Nat, j < s.tileSize * s.tileSize →
        m2.verts[j]? = m1.verts[j]? ∧ m2.normals[j]? = m1.normals[j]? ∧
          m2.uvs[j]? = m1.uvs[j]?) ∧
      (∀ k x : Nat, (skirtVisits s.tileSize)[k]? = some x →
        m2.verts[s.tileSize * s.tileSize + 2 * k]? = some (m1.verts.getD x Vec3.zero) ∧
        m2.verts[s.tileSize * s.tileSize + 2 * k + 1]? = some (Vec3.sub (m1.verts.getD x Vec3.zero)
          (Vec3.scale (m1.normals.getD x Vec3.zero) (m1.tileBound.radius * s.skirtRatio))) ∧
        m2.normals[s.tileSize * s.tileSize + 2 * k]? = some (m1.normals.getD x Vec3.zero) ∧
        m2.normals[s.tileSize * s.tileSize + 2 * k + 1]? =
          some (m1.normals.getD x Vec3.zero) ∧
        m2.uvs[s.tileSize * s.tileSize + 2 * k]? = some
          { m1.uvs.getD x Vec3.zero with
            z := ((Int.lor (doubleToInt (m1.uvs.getD x Vec3.zero).z) menv.VERTEX_SKIRT : Int)
              : ℚ) } ∧
        m2.uvs[s.tileSize * s.tileSize + 2 * k + 1]? = some
          { m1.uvs.getD x Vec3.zero with
            z := ((Int.lor (doubleToInt (m1.uvs.getD x Vec3.zero).z) menv.VERTEX_SKIRT : Int)
              : ℚ) }) ∧
      (∀ idx : List Nat,
        (pool.enabled = true ∧ pool.defaultIndices = some idx) ∨
          (pool.enabled = false ∧ createIndices s = Except.ok idx) →
        createGeometry menv pool key s addr =
          Except.ok ⟨addr, m2.verts, m2.normals, m2.uvs, m2.neighbors, m2.neighborNormals,
            some idx, idx.length⟩) := by
  have hsq2 : 2 * s.tileSize ≤ s.tileSize * s.tileSize := Nat.mul_le_mul_right _ hn
  have e1 : (s.tileSize * s.tileSize) % 2 ^ 32 = s.tileSize * s.tileSize :=
    Nat.mod_eq_of_lt (by omega)
  have e2 : (usub s.tileSize 1 * 2 * 4) % 2 ^ 32 = 8 * (s.tileSize - 1) := by
    rw [usub_one _ (by omega) (by omega), Nat.mod_eq_of_lt (by omega)]
    ring
  have eN : (s.tileSize * s.tileSize + 8 * (s.tileSize - 1)) % 2 ^ 32 =
      s.tileSize * s.tileSize + 8 * (s.tileSize - 1) := Nat.mod_eq_of_lt hfit
  have hsized : Mesh.Sized (s.tileSize * s.tileSize + 8 * (s.tileSize - 1))
      { verts := List.replicate (s.tileSize * s.tileSize + 8 * (s.tileSize - 1)) Vec3.zero
        normals := List.replicate (s.tileSize * s.tileSize + 8 * (s.tileSize - 1)) Vec3.zero
        uvs := List.replicate (s.tileSize * s.tileSize + 8 * (s.tileSize - 1)) Vec3.zero
        neighbors :=
          if s.morphing then
            some (List.replicate (s.tileSize * s.tileSize + 8 * (s.tileSize - 1)) Vec3.zero)
          else none
        neighborNormals :=
          if s.morphing then
            some (List.replicate (s.tileSize * s.tileSize + 8 * (s.tileSize - 1)) Vec3.zero)
          else none
        tileBound := Sphere.empty } := by
    refine ⟨List.length_replicate _ _, List.length_replicate _ _, List.length_replicate _ _,
      ?_, ?_⟩
    · intro nb h
      cases hm : s.morphing with
      | true => simp [hm] at h; rw [← h]; exact List.length_replicate _ _
      | false => simp [hm] at h
    · intro nb h
      cases hm : s.morphing with
      | true => simp [hm] at h; rw [← h]; exact List.length_replicate _ _
      | false => simp [hm] at h
  obtain ⟨m1, h1, h2, -, -⟩ := surface_loops_ok menv
    (menv.world2local pool.worldSRS (key.extent menv.toEnv))
    ⟨key.extent menv.toEnv, pool.worldSRS⟩ s.tileSize
    (s.tileSize * s.tileSize + 8 * (s.tileSize - 1)) _ hsized (by omega) (by omega)
  obtain ⟨m2, h5, h6, -, -, -, hA, hB⟩ := skirt_loop_contents menv
    (m1.tileBound.radius * s.skirtRatio)
    (s.tileSize * s.tileSize + 8 * (s.tileSize - 1)) (s.tileSize * s.tileSize)
    (skirtVisits s.tileSize) m1 (s.tileSize * s.tileSize) h2
    (fun x hx => skirtVisits_lt _ x hx) (le_refl _)
    (by rw [skirtVisits_length]; omega)
  have elen : s.tileSize * s.tileSize + 2 * (skirtVisits s.tileSize).length =
      s.tileSize * s.tileSize + 8 * (s.tileSize - 1) := by
    rw [skirtVisits_length]
    omega
  rw [elen] at h5
  refine ⟨m1, m2, h1, h2, h5, h6, fun j hj => hA j (Or.inl hj), hB, ?_⟩
  intro idx hidx
  unfold createGeometry
  simp only [bind, Except.bind, hs, decide_True, if_true, e1, e2, eN, h1, h5]
  rcases hidx with ⟨he, hdi⟩ | ⟨he, hci⟩
  · simp only [he, hdi, if_true]
  · simp only [he, hci, Bool.false_eq_true, if_false, Except.map]

/-- A loop whose step fails after a prefix that succeeds fails. -/
theorem foldlM_error {σ α : Type} (f : σ → α → Except Fault σ) (l1 l2 : List α) (a : α)
    (s s1 : σ) (e : Fault) (h1 : l1.foldlM f s = Except.ok s1) (h2 : f s1 a = Except.error e) :
    (l1 ++ a :: l2).foldlM f s = Except.error e := by
  rw [List.foldlM_append, h1]
  show (a :: l2).foldlM f s1 = Except.error e
  rw [List.foldlM_cons, h2]
  rfl

/-- The numbers below `n` in order: those below `k`, then `k`, then the
rest. -/
theorem range_split (n k : Nat) (hk : k < n) :
    ∃ rest : List Nat, List.range n = List.range k ++ k :: rest := by
  refine ⟨(List.range (n - (k + 1))).map (fun i => k + 1 + i), ?_⟩
  have e : n = k + 1 + (n - (k + 1)) := by omega
  conv_lhs => rw [e, List.range_add, List.range_succ]
  simp

/-- The first write of the vertex step faults when the vertex index is not
below the length of the vertex array. -/
theorem surfaceVertex_error (menv : MeshEnv) (w : Vec3 ℚ → Vec3 ℚ) (l : Locator)
    (n row col : Nat) (m : Mesh) (h : m.verts.length ≤ (row * n + col) % 2 ^ 32) :
    surfaceVertex menv w l n row col m = Except.error Fault.outOfBounds := by
  have h2 : ¬ (row * n + col) % 4294967296 < m.verts.length := by
    have e : (2 : Nat) ^ 32 = 4294967296 := by norm_num
    rw [e] at h
    omega
  simp [surfaceVertex, arraySet, bind, Except.bind, h2]

/-- The vertex loops fault at the first vertex whose index is not below the
length `N` of the arrays. -/
theorem surface_loops_error (menv : MeshEnv) (w : Vec3 ℚ → Vec3 ℚ) (l : Locator)
    (n N row0 col0 : Nat) (m0 : Mesh) (hm : m0.Sized N) (hN : n + 2 ≤ N)
    (hr : row0 < n) (hc : col0 < n)
    (hbefore : ∀ row col : Nat, (row < row0 ∧ col < n) ∨ (row = row0 ∧ col < col0) →
      (row * n + col) % 2 ^ 32 < N)
    (hat : N ≤ (row0 * n + col0) % 2 ^ 32) :
    (List.range n).foldlM
        (fun m row => (List.range n).foldlM
          (fun m col => surfaceVertex menv w l n row col m) m) m0 =
      Except.error Fault.outOfBounds := by
  obtain ⟨rrest, hrows⟩ := range_split n row0 hr
  obtain ⟨crest, hcols⟩ := range_split n col0 hc
  obtain ⟨m1, h1, h2⟩ := foldlM_ok (fun m : Mesh => m.Sized N)
    (fun m row => (List.range n).foldlM
      (fun m col => surfaceVertex menv w l n row col m) m)
    (List.range row0) m0 hm (by
      intro row hrow m hP
      refine foldlM_ok (fun m : Mesh => m.Sized N)
        (fun m col => surfaceVertex menv w l n row col m) (List.range n) m hP ?_
      intro col hcol m hP
      obtain ⟨m2, h1, h2, -, -⟩ := surfaceVertex_ok menv w l n row col N m hP
        (hbefore row col (Or.inl ⟨List.mem_range.mp hrow, List.mem_range.mp hcol⟩)) hN
      exact ⟨m2, h1, h2⟩)
  obtain ⟨m2, h3, h4⟩ := foldlM_ok (fun m : Mesh => m.Sized N)
    (fun m col => surfaceVertex menv w l n row0 col m) (List.range col0) m1 h2 (by
      intro col hcol m hP
      obtain ⟨m2, h1, h2, -, -⟩ := surfaceVertex_ok menv w l n row0 col N m hP
        (hbefore row0 col (Or.inr ⟨rfl, List.mem_range.mp hcol⟩)) hN
      exact ⟨m2, h1, h2⟩)
  have herr : surfaceVertex menv w l n row0 col0 m2 = Except.error Fault.outOfBounds :=
    surfaceVertex_error menv w l n row0 col0 m2 (by rw [h4.1]; exact hat)
  have hinner := foldlM_error (fun m col => surfaceVertex menv w l n row0 col m)
    (List.range col0) crest col0 m1 m2 _ h3 herr
  rw [← hcols] at hinner
  have houter := foldlM_error
    (fun m row => (List.range n).foldlM
      (fun m col => surfaceVertex menv w l n row col m) m)
    (List.range row0) rrest row0 m0 m1 _ h1 hinner
  rw [← hrows] at houter
  exact houter

/-- The build faults when the vertex loops reach a vertex whose index is not
below the number `N` of elements allocated. -/
theorem createGeometry_surface_fault (menv : MeshEnv) (pool : GeometryPool) (key : TileKey)
    (s : Settings) (addr : Nat) (N row0 col0 : Nat)
    (hNv : ((s.tileSize * s.tileSize) % 2 ^ 32 +
      (if decide (0 < s.skirtRatio) = true then (usub s.tileSize 1 * 2 * 4) % 2 ^ 32 else 0)) %
        2 ^ 32 = N)
    (hN : s.tileSize + 2 ≤ N) (hr : row0 < s.tileSize) (hc : col0 < s.tileSize)
    (hbefore : ∀ row col : Nat, (row < row0 ∧ col < s.tileSize) ∨ (row = row0 ∧ col < col0) →
      (row * s.tileSize + col) % 2 ^ 32 < N)
    (hat : N ≤ (row0 * s.tileSize + col0) % 2 ^ 32) :
    createGeometry menv pool key s addr = Except.error Fault.outOfBounds := by
  have hsized : Mesh.Sized N
      { verts := List.replicate N Vec3.zero
        normals := List.replicate N Vec3.zero
        uvs := List.replicate N Vec3.zero
        neighbors := if s.morphing then some (List.replicate N Vec3.zero) else none
        neighborNormals := if s.morphing then some (List.replicate N Vec3.zero) else none
        tileBound := Sphere.empty } := by
    refine ⟨List.length_replicate _ _, List.length_replicate _ _, List.length_replicate _ _,
      ?_, ?_⟩
    · intro nb h
      cases hm : s.morphing with
      | true => simp [hm] at h; rw [← h]; exact List.length_replicate _ _
      | false => simp [hm] at h
    · intro nb h
      cases hm : s.morphing with
      | true => simp [hm] at h; rw [← h]; exact List.length_replicate _ _
      | false => simp [hm] at h
  have herr := surface_loops_error menv
    (menv.world2local pool.worldSRS (key.extent menv.toEnv))
    ⟨key.extent menv.toEnv, pool.worldSRS⟩ s.tileSize N row0 col0 _ hsized hN hr hc hbefore hat
  unfold createGeometry
  simp only [bind, Except.bind, hNv, herr]

/-- With tile size 65536 and a skirt the vertex count `65536 * 65536 + 8 * 65535`
wraps to 524280, and the vertex loops write past the end of the arrays at row
7, column 65528. -/
theorem createGeometry_overrun (menv : MeshEnv) (pool : GeometryPool) (key : TileKey)
    (addr : Nat) :
    createGeometry menv pool key ⟨65536, 1, false⟩ addr = Except.error Fault.outOfBounds := by
  have e2 : usub 65536 1 = 65535 := usub_one _ (by norm_num) (by norm_num)
  refine createGeometry_surface_fault menv pool key ⟨65536, 1, false⟩ addr 524280 7 65528
    ?_ ?_ ?_ ?_ ?_ ?_
  · show ((65536 * 65536) % 2 ^ 32 +
      (if decide ((0 : ℚ) < 1) = true then (usub 65536 1 * 2 * 4) % 2 ^ 32 else 0)) % 2 ^ 32 =
        524280
    rw [e2]
    norm_num
  · show 65536 + 2 ≤ 524280
    norm_num
  · show 7 < 65536
    norm_num
  · show 65528 < 65536
    norm_num
  · intro row col h
    show (row * 65536 + col) % 2 ^ 32 < 524280
    have e : (2 : Nat) ^ 32 = 4294967296 := by norm_num
    have h2 : (row < 7 ∧ col < 65536) ∨ (row = 7 ∧ col < 65528) := h
    rw [e]
    omega
  · show 524280 ≤ (7 * 65536 + 65528) % 2 ^ 32
    norm_num

/-- The conversion `(int)` gives back an integer stored in a `double`. -/
theorem doubleToInt_intCast (k : Int) : doubleToInt (k : ℚ) = k := by
  unfold doubleToInt
  split
  · exact Int.floor_intCast k
  · exact Int.ceil_intCast k

/-- C31, as stated, fails for large tiles: the vertex count is formed on 32
bits. With tile size 65536 and a skirt, `65536 * 65536 + 8 * 65535` wraps to
524280, the arrays are created with 524280 elements, and the vertex loops
write past their end (at row 7, column 65528) before any skirt vertex is
written. -/
theorem skirt_arrays_overrun :
    (65536 * 65536 + 8 * (65536 - 1)) % 2 ^ 32 = 524280 ∧
      (7 * 65536 + 65528) % 2 ^ 32 = 524280 ∧
      createGeometry refMeshEnv
          (GeometryPool.create refMeshEnv (fromName refEnv 0 "global-geodetic") false false)
          ⟨0, 0, 0, fromName refEnv 0 "global-geodetic"⟩ ⟨65536, 1, false⟩ 100 =
        Except.error Fault.outOfBounds :=
  ⟨by norm_num, by norm_num, createGeometry_overrun _ _ _ _⟩

/-- C31, amended: with a skirt and a tile size `n >= 2` whose vertex count
`n * n + 8 * (n - 1)` fits 32 bits, the four skirt loops of `createGeometry`
visit `4 * (n - 1)` vertices, no vertex twice, and exactly the boundary
vertices of the `n`-by-`n` grid (row or column `0` or `n - 1`). The vertex
loops and the skirt loops run without a fault on the arrays of
`n * n + 8 * (n - 1)` elements; the skirt loops start at the slot `n * n`, end
at the end of the arrays, leave every surface slot as it was, and the skirt
slot `j` holds what visit `(j - n * n) / 2` wrote: the copy of the visited
vertex for an even `j - n * n`, the extruded copy for an odd one. With its
index buffer the build returns these arrays. -/
theorem skirt_loops_visit_perimeter (menv : MeshEnv) (pool : GeometryPool) (key : TileKey)
    (s : Settings) (addr : Nat) (hn : 2 ≤ s.tileSize)
    (hfit : s.tileSize * s.tileSize + 8 * (s.tileSize - 1) < 2 ^ 32) (hs : 0 < s.skirtRatio) :
    (skirtVisits s.tileSize).length = 4 * (s.tileSize - 1) ∧
    (skirtVisits s.tileSize).Nodup ∧
    (∀ x : Nat, x ∈ skirtVisits s.tileSize ↔
      ∃ row col : Nat, row < s.tileSize ∧ col < s.tileSize ∧ x = row * s.tileSize + col ∧
        (row = 0 ∨ row = s.tileSize - 1 ∨ col = 0 ∨ col = s.tileSize - 1)) ∧
    ∃ m1 m2 : Mesh,
      (List.range s.tileSize).foldlM
        (fun m row => (List.range s.tileSize).foldlM
          (fun m col => surfaceVertex menv
            (menv.world2local pool.worldSRS (key.extent menv.toEnv))
            ⟨key.extent menv.toEnv, pool.worldSRS⟩ s.tileSize row col m) m)
        { verts := List.replicate (s.tileSize * s.tileSize + 8 * (s.tileSize - 1)) Vec3.zero
          normals := List.replicate (s.tileSize * s.tileSize + 8 * (s.tileSize - 1)) Vec3.zero
          uvs := List.replicate (s.tileSize * s.tileSize + 8 * (s.tileSize - 1)) Vec3.zero
          neighbors :=
            if s.morphing then
              some (List.replicate (s.tileSize * s.tileSize + 8 * (s.tileSize - 1)) Vec3.zero)
            else none
          neighborNormals :=
            if s.morphing then
              some (List.replicate (s.tileSize * s.tileSize + 8 * (s.tileSize - 1)) Vec3.zero)
            else none
          tileBound := Sphere.empty } = Except.ok m1 ∧
      (skirtVisits s.tileSize).foldlM
          (addSkirtDataForIndex menv (m1.tileBound.radius * s.skirtRatio))
          (m1, s.tileSize * s.tileSize) =
        Except.ok (m2, s.tileSize * s.tileSize + 8 * (s.tileSize - 1)) ∧
      m2.Sized (s.tileSize * s.tileSize + 8 * (s.tileSize - 1)) ∧
      (∀ j : Nat, j < s.tileSize * s.tileSize →
        m2.verts[j]? = m1.verts[j]? ∧ m2.normals[j]? = m1.normals[j]? ∧
          m2.uvs[j]? = m1.uvs[j]?) ∧
      (∀ j : Nat, s.tileSize * s.tileSize ≤ j →
        j < s.tileSize * s.tileSize + 8 * (s.tileSize - 1) →
        ∃ x : Nat, (skirtVisits s.tileSize)[(j - s.tileSize * s.tileSize) / 2]? = some x ∧
          m2.verts[j]? = some
            (if (j - s.tileSize * s.tileSize) % 2 = 0 then m1.verts.getD x Vec3.zero
            else Vec3.sub (m1.verts.getD x Vec3.zero)
              (Vec3.scale (m1.normals.getD x Vec3.zero)
                (m1.tileBound.radius * s.skirtRatio)))) ∧
      (∀ idx : List Nat,
        (pool.enabled = true ∧ pool.defaultIndices = some idx) ∨
          (pool.enabled = false ∧ createIndices s = Except.ok idx) →
        createGeometry menv pool key s addr =
          Except.ok ⟨addr, m2.verts, m2.normals, m2.uvs, m2.neighbors, m2.neighborNormals,
            some idx, idx.length⟩) := by
  obtain ⟨m1, m2, h1, -, h3, h4, hA, hB, hC⟩ :=
    createGeometry_skirt menv pool key s addr hn hfit hs
  refine ⟨skirtVisits_length _, skirtVisits_nodup _ hn, fun x => mem_skirtVisits _ x hn,
    m1, m2, h1, h3, h4, hA, ?_, hC⟩
  intro j hj1 hj2
  have hk : (j - s.tileSize * s.tileSize) / 2 < (skirtVisits s.tileSize).length := by
    rw [skirtVisits_length]
    omega
  refine ⟨(skirtVisits s.tileSize)[(j - s.tileSize * s.tileSize) / 2],
    List.getElem?_eq_getElem hk, ?_⟩
  obtain ⟨b1, b2, -⟩ := hB _ _ (List.getElem?_eq_getElem hk)
  rcases Nat.mod_two_eq_zero_or_one (j - s.tileSize * s.tileSize) with h | h
  · rw [if_pos h]
    have e : j = s.tileSize * s.tileSize + 2 * ((j - s.tileSize * s.tileSize) / 2) := by omega
    rw [← e] at b1
    exact b1
  · rw [if_neg (by omega)]
    have e : j = s.tileSize * s.tileSize + 2 * ((j - s.tileSize * s.tileSize) / 2) + 1 := by
      omega
    rw [← e] at b2
    exact b2

theorem skirt_loops_visit_perimeter_witness :
    (skirtVisits 2).length = 4 * (2 - 1) ∧ (skirtVisits 2).Nodup ∧
      ∃ g : SharedGeometry,
        createGeometry refMeshEnv
            ⟨SRS.SPHERICAL_MERCATOR, false, true, some [2, 0, 3, 0, 1, 3], []⟩
            ⟨0, 0, 0, fromSRS refEnv 0 SRS.SPHERICAL_MERCATOR ⟨0, 0, 4, 4⟩ 1 1⟩ ⟨2, 1, false⟩ 100 =
          Except.ok g ∧
        g.verts.length = 2 * 2 + 8 * (2 - 1) := by
  obtain ⟨h1, h2, -, m1, m2, -, -, h4, -, -, hC⟩ := skirt_loops_visit_perimeter refMeshEnv
    ⟨SRS.SPHERICAL_MERCATOR, false, true, some [2, 0, 3, 0, 1, 3], []⟩
    ⟨0, 0, 0, fromSRS refEnv 0 SRS.SPHERICAL_MERCATOR ⟨0, 0, 4, 4⟩ 1 1⟩ ⟨2, 1, false⟩ 100
    (le_refl _) (by norm_num) (by norm_num)
  exact ⟨h1, h2, _, hC [2, 0, 3, 0, 1, 3] (Or.inl ⟨rfl, rfl⟩), h4.1⟩

/-- C32: the skirt step. On arrays of `N` elements, for a vertex `INDEX`
below the slot `P` with `P + 1 < N`, `addSkirtDataForIndex(P, INDEX, HEIGHT)`
returns with `P + 2` and has written the first copy, at exactly the position
`v` of the vertex, to the slot `P`, and the second copy, at `v - nrm * HEIGHT`
for the normal `nrm` of the vertex, to the slot `P + 1`; both copies have the
normal `nrm` and the texture coordinates of the vertex, with every bit of
`VERTEX_SKIRT` set in the marker; the vertex itself keeps its position, normal
and texture coordinate. In `createGeometry`, for a tile size `n >= 2` whose
vertex count fits 32 bits, visit `k` of the skirt loops does this for a surface
vertex `x` with the slots `n * n + 2 * k` and `n * n + 2 * k + 1` and the height
`tileBound.radius * skirtRatio`, where `tileBound` is the bound the vertex
loops end with. -/
theorem skirt_copies (menv : MeshEnv) :
    (∀ (H : ℚ) (N P INDEX : Nat) (m : Mesh), m.Sized N → INDEX < P → P + 1 < N →
      ∃ m2 : Mesh, addSkirtDataForIndex menv H (m, P) INDEX = Except.ok (m2, P + 2) ∧
        m2.verts[P]? = some (m.verts.getD INDEX Vec3.zero) ∧
        m2.verts[P + 1]? = some (Vec3.sub (m.verts.getD INDEX Vec3.zero)
          (Vec3.scale (m.normals.getD INDEX Vec3.zero) H)) ∧
        m2.normals[P]? = some (m.normals.getD INDEX Vec3.zero) ∧
        m2.normals[P + 1]? = some (m.normals.getD INDEX Vec3.zero) ∧
        (∀ j : Nat, j = P ∨ j = P + 1 → ∃ uv : Vec3 ℚ, m2.uvs[j]? = some uv ∧
          uv.x = (m.uvs.getD INDEX Vec3.zero).x ∧ uv.y = (m.uvs.getD INDEX Vec3.zero).y ∧
          uv.z = ((Int.lor (doubleToInt (m.uvs.getD INDEX Vec3.zero).z) menv.VERTEX_SKIRT : Int)
            : ℚ) ∧
          ∀ i : Nat, menv.VERTEX_SKIRT.testBit i = true →
            (doubleToInt uv.z).testBit i = true) ∧
        m2.verts[INDEX]? = m.verts[INDEX]? ∧ m2.normals[INDEX]? = m.normals[INDEX]? ∧
        m2.uvs[INDEX]? = m.uvs[INDEX]?) ∧
    (∀ (pool : GeometryPool) (key : TileKey) (s : Settings) (addr : Nat), 2 ≤ s.tileSize →
      s.tileSize * s.tileSize + 8 * (s.tileSize - 1) < 2 ^ 32 → 0 < s.skirtRatio →
      ∃ m1 m2 : Mesh,
        (List.range s.tileSize).foldlM
          (fun m row => (List.range s.tileSize).foldlM
            (fun m col => surfaceVertex menv
              (menv.world2local pool.worldSRS (key.extent menv.toEnv))
              ⟨key.extent menv.toEnv, pool.worldSRS⟩ s.tileSize row col m) m)
          { verts := List.replicate (s.tileSize * s.tileSize + 8 * (s.tileSize - 1)) Vec3.zero
            normals := List.replicate (s.tileSize * s.tileSize + 8 * (s.tileSize - 1)) Vec3.zero
            uvs := List.replicate (s.tileSize * s.tileSize + 8 * (s.tileSize - 1)) Vec3.zero
            neighbors :=
              if s.morphing then
                some (List.replicate (s.tileSize * s.tileSize + 8 * (s.tileSize - 1)) Vec3.zero)
              else none
            neighborNormals :=
              if s.morphing then
                some (List.replicate (s.tileSize * s.tileSize + 8 * (s.tileSize - 1)) Vec3.zero)
              else none
            tileBound := Sphere.empty } = Except.ok m1 ∧
        (∀ idx : List Nat,
          (pool.enabled = true ∧ pool.defaultIndices = some idx) ∨
            (pool.enabled = false ∧ createIndices s = Except.ok idx) →
          createGeometry menv pool key s addr =
            Except.ok ⟨addr, m2.verts, m2.normals, m2.uvs, m2.neighbors, m2.neighborNormals,
              some idx, idx.length⟩) ∧
        ∀ k x : Nat, (skirtVisits s.tileSize)[k]? = some x →
          x < s.tileSize * s.tileSize ∧
          m2.verts[s.tileSize * s.tileSize + 2 * k]? = some (m1.verts.getD x Vec3.zero) ∧
          m2.verts[s.tileSize * s.tileSize + 2 * k + 1]? =
            some (Vec3.sub (m1.verts.getD x Vec3.zero)
              (Vec3.scale (m1.normals.getD x Vec3.zero)
                (m1.tileBound.radius * s.skirtRatio))) ∧
          m2.normals[s.tileSize * s.tileSize + 2 * k]? = some (m1.normals.getD x Vec3.zero) ∧
          m2.normals[s.tileSize * s.tileSize + 2 * k + 1]? =
            some (m1.normals.getD x Vec3.zero) ∧
          (∀ j : Nat, j = s.tileSize * s.tileSize + 2 * k ∨
              j = s.tileSize * s.tileSize + 2 * k + 1 →
            ∃ uv : Vec3 ℚ, m2.uvs[j]? = some uv ∧
              uv.x = (m1.uvs.getD x Vec3.zero).x ∧ uv.y = (m1.uvs.getD x Vec3.zero).y ∧
              uv.z = ((Int.lor (doubleToInt (m1.uvs.getD x Vec3.zero).z) menv.VERTEX_SKIRT : Int)
                : ℚ) ∧
              ∀ i : Nat, menv.VERTEX_SKIRT.testBit i = true →
                (doubleToInt uv.z).testBit i = true) ∧
          m2.verts[x]? = m1.verts[x]? ∧ m2.normals[x]? = m1.normals[x]? ∧
          m2.uvs[x]? = m1.uvs[x]?) := by
  have hbit : ∀ (z : ℚ) (i : Nat), menv.VERTEX_SKIRT.testBit i = true →
      (doubleToInt ((Int.lor (doubleToInt z) menv.VERTEX_SKIRT : Int) : ℚ)).testBit i = true := by
    intro z i hi
    rw [doubleToInt_intCast, Int.testBit_lor, hi, Bool.or_true]
  constructor
  · intro H N P INDEX m hm hI hP
    obtain ⟨m2, h1, -, -, -, -, hv, hnm, huv⟩ :=
      addSkirtDataForIndex_eq menv H N P INDEX m hm hI hP
    obtain ⟨hmv, hmn, hmu, -, -⟩ := hm
    obtain ⟨v0, v1, vr⟩ := getElem?_set_set m.verts P (m.verts.getD INDEX Vec3.zero)
      (Vec3.sub (m.verts.getD INDEX Vec3.zero)
        (Vec3.scale (m.normals.getD INDEX Vec3.zero) H)) (by omega)
    obtain ⟨n0, n1, nr⟩ := getElem?_set_set m.normals P (m.normals.getD INDEX Vec3.zero)
      (m.normals.getD INDEX Vec3.zero) (by omega)
    obtain ⟨u0, u1, ur⟩ := getElem?_set_set m.uvs P
      { m.uvs.getD INDEX Vec3.zero with
        z := ((Int.lor (doubleToInt (m.uvs.getD INDEX Vec3.zero).z) menv.VERTEX_SKIRT : Int)
          : ℚ) }
      { m.uvs.getD INDEX Vec3.zero with
        z := ((Int.lor (doubleToInt (m.uvs.getD INDEX Vec3.zero).z) menv.VERTEX_SKIRT : Int)
          : ℚ) }
      (by omega)
    rw [← hv] at v0 v1 vr
    rw [← hnm] at n0 n1 nr
    rw [← huv] at u0 u1 ur
    refine ⟨m2, h1, v0, v1, n0, n1, ?_, vr INDEX (by omega) (by omega),
      nr INDEX (by omega) (by omega), ur INDEX (by omega) (by omega)⟩
    intro j hj
    rcases hj with rfl | rfl
    · exact ⟨_, u0, rfl, rfl, rfl, fun i hi => hbit _ i hi⟩
    · exact ⟨_, u1, rfl, rfl, rfl, fun i hi => hbit _ i hi⟩
  · intro pool key s addr hn hfit hs
    obtain ⟨m1, m2, h1, -, -, -, hA, hB, hC⟩ :=
      createGeometry_skirt menv pool key s addr hn hfit hs
    refine ⟨m1, m2, h1, hC, ?_⟩
    intro k x hk
    have hx : x < s.tileSize * s.tileSize := skirtVisits_lt _ x (List.getElem?_mem hk)
    obtain ⟨b1, b2, b3, b4, b5, b6⟩ := hB k x hk
    obtain ⟨a1, a2, a3⟩ := hA x hx
    refine ⟨hx, b1, b2, b3, b4, ?_, a1, a2, a3⟩
    intro j hj
    rcases hj with rfl | rfl
    · exact ⟨_, b5, rfl, rfl, rfl, fun i hi => hbit _ i hi⟩
    · exact ⟨_, b6, rfl, rfl, rfl, fun i hi => hbit _ i hi⟩

theorem skirt_copies_witness :
    (∃ m2 : Mesh,
      addSkirtDataForIndex refMeshEnv 2
          (⟨[⟨1, 2, 3⟩, ⟨0, 0, 0⟩, ⟨0, 0, 0⟩], [⟨0, 0, 1⟩, ⟨0, 0, 0⟩, ⟨0, 0, 0⟩],
            [⟨0, 0, 1⟩, ⟨0, 0, 0⟩, ⟨0, 0, 0⟩], none, none, Sphere.empty⟩, 1) 0 =
        Except.ok (m2, 1 + 2) ∧
      m2.verts[1]? = some ⟨1, 2, 3⟩ ∧ m2.verts[1 + 1]? = some ⟨1, 2, 1⟩ ∧
      m2.verts[0]? = some ⟨1, 2, 3⟩) ∧
      ∃ g : SharedGeometry,
        createGeometry refMeshEnv
            ⟨SRS.SPHERICAL_MERCATOR, false, true, some [2, 0, 3, 0, 1, 3], []⟩
            ⟨0, 0, 0, fromSRS refEnv 0 SRS.SPHERICAL_MERCATOR ⟨0, 0, 4, 4⟩ 1 1⟩ ⟨2, 1, false⟩ 100 =
          Except.ok g := by
  have h := skirt_copies refMeshEnv
  constructor
  · obtain ⟨m2, h1, h2, h3, -, -, -, h4, -, -⟩ := h.1 2 3 1 0
      ⟨[⟨1, 2, 3⟩, ⟨0, 0, 0⟩, ⟨0, 0, 0⟩], [⟨0, 0, 1⟩, ⟨0, 0, 0⟩, ⟨0, 0, 0⟩],
        [⟨0, 0, 1⟩, ⟨0, 0, 0⟩, ⟨0, 0, 0⟩], none, none, Sphere.empty⟩
      ⟨rfl, rfl, rfl, fun nb hnb => by simp at hnb, fun nn hnn => by simp at hnn⟩
      (by norm_num) (by norm_num)
    refine ⟨m2, h1, h2, ?_, ?_⟩
    · rw [h3]
      simp only [List.getD_cons_zero, Vec3.sub, Vec3.scale]
      norm_num
    · rw [h4]
      rfl
  · obtain ⟨m1, m2, -, hC, -⟩ := h.2
      ⟨SRS.SPHERICAL_MERCATOR, false, true, some [2, 0, 3, 0, 1, 3], []⟩
      ⟨0, 0, 0, fromSRS refEnv 0 SRS.SPHERICAL_MERCATOR ⟨0, 0, 4, 4⟩ 1 1⟩ ⟨2, 1, false⟩ 100
      (le_refl _) (by norm_num) (by norm_num)
    exact ⟨_, hC [2, 0, 3, 0, 1, 3] (Or.inl ⟨rfl, rfl⟩)⟩

/-! ## Pooled geometry: a build that fails (C20) -/

end Rocky
